import Mathlib

/-!
# Upwind flux helper kernels (GEOSX) : shallow embedding and verification

Source: `src/coreComponents/physicsSolvers/fluidFlow/CompositionalMultiphaseFlowUpwindHelperKernels.hpp`.

Modelling conventions.
* `real64` values are exact rationals (`ℚ`): every statement below is a statement of
  exact arithmetic, rounding is not modelled.
* `localIndex` loop counters and stencil positions are natural numbers; the index
  `k_up_main` of `formFracFlow`, which starts from the sentinel `-1`, is an integer.
* A `real64` quotient is `divReal x y`: `none` when the denominator is `0` (the `Inf` or
  `NaN` of the source), so that outputs computed through a division are optional values.
* C arrays and array views are total functions from indices to values; a write
  `a[i] = v` is `setAt a i v`.  In/out array arguments are taken as arguments and
  returned in the result.
* A `for( localIndex i = 0; i < n; ++i )` loop is `forLoop n body init`, running the body
  for `i = 0, 1, ..., n-1` in this order.
* Where the number of assignments to an entry matters, the assignments of a kernel are also
  given as a write log (position and value, in execution order) built by the same loops,
  and the kernel is shown to return the prior array after the writes of the log.
-/

namespace geosx

namespace CompositionalMultiphaseFlowUpwindHelperKernels

/-! ## Loops and array writes -/

/-- Counted loop `for( i = 0; i < n; ++i ) body`, threading the state. -/
def forLoop {σ : Type} : Nat → (Nat → σ → σ) → σ → σ
  | 0, _, s => s
  | n + 1, body, s => body n (forLoop n body s)

/-- One-dimensional array write `a[i] = v`. -/
def setAt (a : Nat → ℚ) (i : Nat) (v : ℚ) : Nat → ℚ :=
  fun k => if k = i then v else a k

/-- Two-dimensional array write `a[i][j] = v`. -/
def setAt2 (a : Nat → Nat → ℚ) (i j : Nat) (v : ℚ) : Nat → Nat → ℚ :=
  fun k l => if k = i ∧ l = j then v else a k l

/-! ## Data model -/

/-- Physics selector of the upwind class specialisations. -/
inductive term where
  | Viscous
  | Gravity
  | Capillary
  deriving DecidableEq, Repr

/-- Connection stencil: the cell triples `(seri, sesri, sei)` and the transmissibility
weights, indexed by the position in the stencil. -/
structure Stencil where
  seri : Nat → Nat
  sesri : Nat → Nat
  sei : Nat → Nat
  stencilWeights : Nat → ℚ

/-- Read-only element views consumed by the kernels.  The index order is that of the
source: region, subregion, element, then (where present) the quadrature index, the phase
and the component. -/
structure ElementViews where
  pres : Nat → Nat → Nat → ℚ
  dPres : Nat → Nat → Nat → ℚ
  gravCoef : Nat → Nat → Nat → ℚ
  phaseMob : Nat → Nat → Nat → Nat → ℚ
  dPhaseMob_dPres : Nat → Nat → Nat → Nat → ℚ
  dPhaseMob_dComp : Nat → Nat → Nat → Nat → Nat → ℚ
  dPhaseVolFrac_dPres : Nat → Nat → Nat → Nat → ℚ
  dPhaseVolFrac_dComp : Nat → Nat → Nat → Nat → Nat → ℚ
  dCompFrac_dCompDens : Nat → Nat → Nat → Nat → Nat → ℚ
  phaseMassDens : Nat → Nat → Nat → Nat → Nat → ℚ
  dPhaseMassDens_dPres : Nat → Nat → Nat → Nat → Nat → ℚ
  dPhaseMassDens_dComp : Nat → Nat → Nat → Nat → Nat → Nat → ℚ
  phaseCapPressure : Nat → Nat → Nat → Nat → Nat → ℚ
  dPhaseCapPressure_dPhaseVolFrac : Nat → Nat → Nat → Nat → Nat → Nat → ℚ

/-- Local residual and Jacobian buffers of one connection. -/
structure LocalBlock where
  localFlux : Nat → ℚ
  localFluxJacobian : Nat → Nat → ℚ

/-! ## `UpwindHelpers::fillLocalJacobi` (source lines 261-291) -/

/-- Innermost loop of `fillLocalJacobi` (lines 283-288): the component-density columns of
stencil cell `ke`, donor row `ic` and receiver row `NC + ic`. -/
def fillLocalJacobiComp (NC NDOF : Nat) (dCompFlux_dC : Nat → Nat → Nat → ℚ) (dt : ℚ)
    (ic ke : Nat) (J : Nat → Nat → ℚ) : Nat → Nat → ℚ :=
  let localDofIndexPres := ke * NDOF
  forLoop NC (fun jc K =>
    let localDofIndexComp := localDofIndexPres + jc + 1
    let K1 := setAt2 K ic localDofIndexComp (dt * dCompFlux_dC ke ic jc)
    setAt2 K1 (NC + ic) localDofIndexComp (-dt * dCompFlux_dC ke ic jc)) J

/-- Stencil loop of `fillLocalJacobi` (lines 277-289) for the rows `ic` and `NC + ic`. -/
def fillLocalJacobiStencil (NC NDOF : Nat) (dCompFlux_dP : Nat → Nat → ℚ)
    (dCompFlux_dC : Nat → Nat → Nat → ℚ) (stencilSize : Nat) (dt : ℚ)
    (ic : Nat) (J : Nat → Nat → ℚ) : Nat → Nat → ℚ :=
  forLoop stencilSize (fun ke K =>
    let localDofIndexPres := ke * NDOF
    let K1 := setAt2 K ic localDofIndexPres (dt * dCompFlux_dP ke ic)
    let K2 := setAt2 K1 (NC + ic) localDofIndexPres (-dt * dCompFlux_dP ke ic)
    fillLocalJacobiComp NC NDOF dCompFlux_dC dt ic ke K2) J

/-- Fill the local residual and Jacobian entries from the component fluxes and their
derivatives. -/
def fillLocalJacobi (NC MAX_STENCIL NDOF : Nat) (compFlux : Nat → ℚ)
    (dCompFlux_dP : Nat → Nat → ℚ) (dCompFlux_dC : Nat → Nat → Nat → ℚ)
    (stencilSize : Nat) (dt : ℚ) (blk : LocalBlock) : LocalBlock :=
  forLoop NC (fun ic b =>
    let lf1 := setAt b.localFlux ic (dt * compFlux ic)
    let lf2 := setAt lf1 (NC + ic) (-dt * compFlux ic)
    { localFlux := lf2
      localFluxJacobian :=
        fillLocalJacobiStencil NC NDOF dCompFlux_dP dCompFlux_dC stencilSize dt ic
          b.localFluxJacobian }) blk

/-! ## Write log of `fillLocalJacobi` -/

/-- Replay of a log of writes `a[i] = v` on a one-dimensional array, in order. -/
def replayWrites (L : List (Nat × ℚ)) (a : Nat → ℚ) : Nat → ℚ :=
  L.foldl (fun b w => setAt b w.1 w.2) a

/-- Replay of a log of writes `a[i][j] = v` on a two-dimensional array, in order. -/
def replayWrites2 (L : List ((Nat × Nat) × ℚ)) (J : Nat → Nat → ℚ) : Nat → Nat → ℚ :=
  L.foldl (fun K w => setAt2 K w.1.1 w.1.2 w.2) J

/-- The assignments to `localFlux` made by `fillLocalJacobi` (lines 274-275), in execution
order: the index written and the value. -/
def fillLocalJacobiFluxLog (NC : Nat) (compFlux : Nat → ℚ) (dt : ℚ) : List (Nat × ℚ) :=
  forLoop NC (fun ic L => L ++ [(ic, dt * compFlux ic), (NC + ic, -dt * compFlux ic)]) []

/-- The assignments to `localFluxJacobian` made by the innermost loop of `fillLocalJacobi`
(lines 283-288) for the rows `ic`, `NC + ic` and the stencil cell `ke`, appended to the
log `L`. -/
def fillLocalJacobiCompLog (NC NDOF : Nat) (dCompFlux_dC : Nat → Nat → Nat → ℚ) (dt : ℚ)
    (ic ke : Nat) (L : List ((Nat × Nat) × ℚ)) : List ((Nat × Nat) × ℚ) :=
  let localDofIndexPres := ke * NDOF
  forLoop NC (fun jc M =>
    let localDofIndexComp := localDofIndexPres + jc + 1
    M ++ [((ic, localDofIndexComp), dt * dCompFlux_dC ke ic jc),
      ((NC + ic, localDofIndexComp), -dt * dCompFlux_dC ke ic jc)]) L

/-- The assignments to `localFluxJacobian` made by the stencil loop of `fillLocalJacobi`
(lines 277-289) for the rows `ic` and `NC + ic`, appended to the log `L`. -/
def fillLocalJacobiStencilLog (NC NDOF : Nat) (dCompFlux_dP : Nat → Nat → ℚ)
    (dCompFlux_dC : Nat → Nat → Nat → ℚ) (stencilSize : Nat) (dt : ℚ)
    (ic : Nat) (L : List ((Nat × Nat) × ℚ)) : List ((Nat × Nat) × ℚ) :=
  forLoop stencilSize (fun ke M =>
    let localDofIndexPres := ke * NDOF
    fillLocalJacobiCompLog NC NDOF dCompFlux_dC dt ic ke
      (M ++ [((ic, localDofIndexPres), dt * dCompFlux_dP ke ic),
        ((NC + ic, localDofIndexPres), -dt * dCompFlux_dP ke ic)])) L

/-- The assignments to `localFluxJacobian` made by `fillLocalJacobi`, in execution order:
the position `(row, column)` written and the value. -/
def fillLocalJacobiLog (NC NDOF : Nat) (dCompFlux_dP : Nat → Nat → ℚ)
    (dCompFlux_dC : Nat → Nat → Nat → ℚ) (stencilSize : Nat) (dt : ℚ) :
    List ((Nat × Nat) × ℚ) :=
  forLoop NC (fun ic L =>
    fillLocalJacobiStencilLog NC NDOF dCompFlux_dP dCompFlux_dC stencilSize dt ic L) []

/-! ## `applyChainRule` -/

/-- Modelled from the spec: `applyChainRule` is called by the kernels but declared in a
header that is not part of the sources at hand.  It is the dense product of the `N × N`
Jacobian `dy_dx` (composition fractions w.r.t. component densities) with the length-`N`
derivative vector `df_dy`, written over the first `N` entries of `df_dx`:
`df_dx[i] = Σ_j df_dy[j] * dy_dx[j][i]`. -/
def applyChainRule (N : Nat) (dy_dx : Nat → Nat → ℚ) (df_dy : Nat → ℚ) (df_dx : Nat → ℚ) :
    Nat → ℚ :=
  forLoop N (fun i a =>
    forLoop N (fun j b => setAt b i (b i + df_dy j * dy_dx j i)) (setAt a i 0)) df_dx

/-! ## `UpwindHelpers::formPPUVelocity` (source lines 60-246) -/

/-- Mean density over the primary cells and its derivatives, with the working array of the
chain rule. -/
structure DensMean where
  densMean : ℚ
  dDensMean_dP : Nat → ℚ
  dDensMean_dC : Nat → Nat → ℚ
  dProp_dC : Nat → ℚ

/-- Capillary terms of one stencil cell. -/
structure CapTerms where
  capPressure : ℚ
  dCapPressure_dP : ℚ
  dCapPressure_dC : Nat → ℚ

/-- Local accumulators of the stencil loop of `formPPUVelocity`. -/
structure PotGrad where
  presGrad : ℚ
  dPresGrad_dP : Nat → ℚ
  dPresGrad_dC : Nat → Nat → ℚ
  gravHead : ℚ
  dGravHead_dP : Nat → ℚ
  dGravHead_dC : Nat → Nat → ℚ
  dCapPressure_dC : Nat → ℚ

/-- Outputs of `formPPUVelocity`. -/
structure PPUResult where
  k_up : Nat
  phaseFlux : ℚ
  dPhaseFlux_dP : Nat → ℚ
  dPhaseFlux_dC : Nat → Nat → ℚ

/-- Loop over the primary cells of `formPPUVelocity` (lines 107-131). -/
def formPPUVelocityDensMean (NC NUM_ELEMS ip : Nat) (st : Stencil) (v : ElementViews) :
    DensMean :=
  forLoop NUM_ELEMS (fun i s =>
    let er := st.seri i
    let esr := st.sesri i
    let ei := st.sei i
    let density := v.phaseMassDens er esr ei 0 ip
    let dDens_dP := v.dPhaseMassDens_dPres er esr ei 0 ip
    let dProp_dC := applyChainRule NC (v.dCompFrac_dCompDens er esr ei)
      (v.dPhaseMassDens_dComp er esr ei 0 ip) s.dProp_dC
    { densMean := s.densMean + 0.5 * density
      dDensMean_dP := setAt s.dDensMean_dP i (0.5 * dDens_dP)
      dDensMean_dC := forLoop NC (fun jc a => setAt2 a i jc (0.5 * dProp_dC jc)) s.dDensMean_dC
      dProp_dC := dProp_dC })
    { densMean := 0, dDensMean_dP := fun _ => 0, dDensMean_dC := fun _ _ => 0,
      dProp_dC := fun _ => 0 }

/-- Capillary pressure of the cell `(er, esr, ei)` and its derivatives (lines 140-163);
`dCapPressure_dC` is the working array as left by the previous stencil cell. -/
def formPPUVelocityCap (NC numPhase ip : Nat) (v : ElementViews) (capPressureFlag : Int)
    (er esr ei : Nat) (dCapPressure_dC : Nat → ℚ) : CapTerms :=
  let capPressure : ℚ := 0
  let dCapPressure_dP : ℚ := 0
  let dCapPressure_dC := forLoop NC (fun ic a => setAt a ic 0) dCapPressure_dC
  if capPressureFlag ≠ 0 then
    forLoop numPhase (fun jp c =>
      let dCapPressure_dS := v.dPhaseCapPressure_dPhaseVolFrac er esr ei 0 ip jp
      { capPressure := c.capPressure
        dCapPressure_dP := c.dCapPressure_dP + dCapPressure_dS * v.dPhaseVolFrac_dPres er esr ei jp
        dCapPressure_dC := forLoop NC (fun jc a =>
          setAt a jc (a jc + dCapPressure_dS * v.dPhaseVolFrac_dComp er esr ei jp jc))
          c.dCapPressure_dC })
      { capPressure := v.phaseCapPressure er esr ei 0 ip
        dCapPressure_dP := dCapPressure_dP
        dCapPressure_dC := dCapPressure_dC }
  else
    { capPressure := capPressure
      dCapPressure_dP := dCapPressure_dP
      dCapPressure_dC := dCapPressure_dC }

/-- Stencil loop of `formPPUVelocity` (lines 132-188): weighted pressure sum, gravity head
and their derivatives. -/
def formPPUVelocityPot (NC NUM_ELEMS numPhase ip stencilSize : Nat) (st : Stencil)
    (v : ElementViews) (capPressureFlag : Int) (dm : DensMean) : PotGrad :=
  forLoop stencilSize (fun i s =>
    let er := st.seri i
    let esr := st.sesri i
    let ei := st.sei i
    let weight := st.stencilWeights i
    let cap := formPPUVelocityCap NC numPhase ip v capPressureFlag er esr ei s.dCapPressure_dC
    let gravD := weight * v.gravCoef er esr ei
    let g := forLoop NUM_ELEMS (fun j (g : (Nat → ℚ) × (Nat → Nat → ℚ)) =>
      (setAt g.1 j (g.1 j + dm.dDensMean_dP j * gravD),
        forLoop NC (fun jc a => setAt2 a j jc (a j jc + dm.dDensMean_dC j jc * gravD)) g.2))
      (s.dGravHead_dP, s.dGravHead_dC)
    { presGrad := s.presGrad + weight * (v.pres er esr ei + v.dPres er esr ei - cap.capPressure)
      dPresGrad_dP := setAt s.dPresGrad_dP i (s.dPresGrad_dP i + weight * (1 - cap.dCapPressure_dP))
      dPresGrad_dC := forLoop NC (fun jc a =>
        setAt2 a i jc (a i jc + -weight * cap.dCapPressure_dC jc)) s.dPresGrad_dC
      gravHead := s.gravHead + dm.densMean * gravD
      dGravHead_dP := g.1
      dGravHead_dC := g.2
      dCapPressure_dC := cap.dCapPressure_dC })
    { presGrad := 0, dPresGrad_dP := fun _ => 0, dPresGrad_dC := fun _ _ => 0, gravHead := 0,
      dGravHead_dP := fun _ => 0, dGravHead_dC := fun _ _ => 0, dCapPressure_dC := fun _ => 0 }

/-- Local accumulators of `formPPUVelocity` at line 189. -/
def formPPUVelocityLocals (NC NUM_ELEMS numPhase ip stencilSize : Nat) (st : Stencil)
    (v : ElementViews) (capPressureFlag : Int) : PotGrad :=
  formPPUVelocityPot NC NUM_ELEMS numPhase ip stencilSize st v capPressureFlag
    (formPPUVelocityDensMean NC NUM_ELEMS ip st v)

/-- Phase potential gradient `potGrad = presGrad - gravHead` of `formPPUVelocity`
(line 191). -/
def formPPUVelocityPotGrad (NC NUM_ELEMS numPhase ip stencilSize : Nat) (st : Stencil)
    (v : ElementViews) (capPressureFlag : Int) : ℚ :=
  (formPPUVelocityLocals NC NUM_ELEMS numPhase ip stencilSize st v capPressureFlag).presGrad
    - (formPPUVelocityLocals NC NUM_ELEMS numPhase ip stencilSize st v capPressureFlag).gravHead

/-- Upstream cell chosen by `formPPUVelocity` (line 194):
`k_up = ( potGrad >= 0 ) ? 0 : 1`. -/
def formPPUVelocityUpwind (NC NUM_ELEMS numPhase ip stencilSize : Nat) (st : Stencil)
    (v : ElementViews) (capPressureFlag : Int) : Nat :=
  if formPPUVelocityPotGrad NC NUM_ELEMS numPhase ip stencilSize st v capPressureFlag ≥ 0
  then 0 else 1

/-- Form the phase-potential-upwind flux from pressure gradient and gravitational heads
(legacy).  `dPhaseFlux_dP` and `dPhaseFlux_dC` are the in/out derivative arrays. -/
def formPPUVelocity (NC NUM_ELEMS MAX_STENCIL numPhase ip stencilSize : Nat) (st : Stencil)
    (v : ElementViews) (capPressureFlag : Int) (dPhaseFlux_dP : Nat → ℚ)
    (dPhaseFlux_dC : Nat → Nat → ℚ) : PPUResult :=
  let pg := formPPUVelocityLocals NC NUM_ELEMS numPhase ip stencilSize st v capPressureFlag
  let potGrad := formPPUVelocityPotGrad NC NUM_ELEMS numPhase ip stencilSize st v capPressureFlag
  let k_up : Nat := formPPUVelocityUpwind NC NUM_ELEMS numPhase ip stencilSize st v capPressureFlag
  let er_up := st.seri k_up
  let esr_up := st.sesri k_up
  let ei_up := st.sei k_up
  let mobility := v.phaseMob er_up esr_up ei_up ip
  let d1 := forLoop stencilSize (fun ke (d : (Nat → ℚ) × (Nat → Nat → ℚ)) =>
    (setAt d.1 ke (d.1 ke + pg.dPresGrad_dP ke),
      forLoop NC (fun jc a => setAt2 a ke jc (a ke jc + pg.dPresGrad_dC ke jc)) d.2))
    (dPhaseFlux_dP, dPhaseFlux_dC)
  let d2 := forLoop NUM_ELEMS (fun ke (d : (Nat → ℚ) × (Nat → Nat → ℚ)) =>
    (setAt d.1 ke (d.1 ke - pg.dGravHead_dP ke),
      forLoop NC (fun jc a => setAt2 a ke jc (a ke jc - pg.dGravHead_dC ke jc)) d.2)) d1
  let phaseFlux := mobility * potGrad
  let d3 := forLoop stencilSize (fun ke (d : (Nat → ℚ) × (Nat → Nat → ℚ)) =>
    (setAt d.1 ke (d.1 ke * mobility),
      forLoop NC (fun jc a => setAt2 a ke jc (a ke jc * mobility)) d.2)) d2
  let dMob_dP := v.dPhaseMob_dPres er_up esr_up ei_up ip
  let dMob_dC := v.dPhaseMob_dComp er_up esr_up ei_up ip
  { k_up := k_up
    phaseFlux := phaseFlux
    dPhaseFlux_dP := setAt d3.1 k_up (d3.1 k_up + dMob_dP * potGrad)
    dPhaseFlux_dC := forLoop NC (fun jc a =>
      setAt2 a k_up jc (a k_up jc + dMob_dC jc * potGrad)) d3.2 }

/-! ## `UpwindHelpers::formGravHead` (source lines 305-386) -/

/-- Outputs of `formGravHead`. -/
structure GravHead where
  gravHead : ℚ
  dGravHead_dPres : Nat → ℚ
  dGravHead_dComp : Nat → Nat → ℚ
  dProp_dComp : Nat → ℚ

/-- Initialisation of the outputs of `formGravHead` (lines 328-338). -/
def formGravHeadInit (NC NUM_ELEMS : Nat) (dGravHead_dPres : Nat → ℚ)
    (dGravHead_dComp : Nat → Nat → ℚ) (dProp_dComp : Nat → ℚ) : GravHead :=
  forLoop NUM_ELEMS (fun i s =>
    let z := forLoop NC (fun jc (z : (Nat → Nat → ℚ) × (Nat → ℚ)) =>
      (setAt2 z.1 i jc 0, setAt z.2 jc 0)) (s.dGravHead_dComp, s.dProp_dComp)
    { gravHead := s.gravHead
      dGravHead_dPres := setAt s.dGravHead_dPres i 0
      dGravHead_dComp := z.1
      dProp_dComp := z.2 })
    { gravHead := 0, dGravHead_dPres := dGravHead_dPres, dGravHead_dComp := dGravHead_dComp,
      dProp_dComp := dProp_dComp }

/-- Loop over the primary cells of `formGravHead` (lines 340-362), started with the
working array `dProp_dComp`. -/
def formGravHeadDensMean (NC NUM_ELEMS ip : Nat) (st : Stencil) (v : ElementViews)
    (dProp_dComp : Nat → ℚ) : DensMean :=
  forLoop NUM_ELEMS (fun i s =>
    let er := st.seri i
    let esr := st.sesri i
    let ei := st.sei i
    let density := v.phaseMassDens er esr ei 0 ip
    let dDens_dPres := v.dPhaseMassDens_dPres er esr ei 0 ip
    let dProp := applyChainRule NC (v.dCompFrac_dCompDens er esr ei)
      (v.dPhaseMassDens_dComp er esr ei 0 ip) s.dProp_dC
    { densMean := s.densMean + 0.5 * density
      dDensMean_dP := setAt s.dDensMean_dP i (0.5 * dDens_dPres)
      dDensMean_dC := forLoop NC (fun jc a => setAt2 a i jc (0.5 * dProp jc)) s.dDensMean_dC
      dProp_dC := dProp })
    { densMean := 0, dDensMean_dP := fun _ => 0, dDensMean_dC := fun _ _ => 0,
      dProp_dC := dProp_dComp }

/-- Form the gravitational head of phase `ip` from gravity and mass densities.  The three
arrays are the in/out arguments of the source. -/
def formGravHead (NC NUM_ELEMS ip stencilSize : Nat) (st : Stencil) (v : ElementViews)
    (dGravHead_dPres : Nat → ℚ) (dGravHead_dComp : Nat → Nat → ℚ) (dProp_dComp : Nat → ℚ) :
    GravHead :=
  let init := formGravHeadInit NC NUM_ELEMS dGravHead_dPres dGravHead_dComp dProp_dComp
  let dm := formGravHeadDensMean NC NUM_ELEMS ip st v init.dProp_dComp
  forLoop stencilSize (fun i s =>
    let er := st.seri i
    let esr := st.sesri i
    let ei := st.sei i
    let weight := st.stencilWeights i
    let gravD := weight * v.gravCoef er esr ei
    let g := forLoop NUM_ELEMS (fun j (g : (Nat → ℚ) × (Nat → Nat → ℚ)) =>
      (setAt g.1 j (g.1 j + dm.dDensMean_dP j * gravD),
        forLoop NC (fun jc a => setAt2 a j jc (a j jc + dm.dDensMean_dC j jc * gravD)) g.2))
      (s.dGravHead_dPres, s.dGravHead_dComp)
    { gravHead := s.gravHead + dm.densMean * gravD
      dGravHead_dPres := g.1
      dGravHead_dComp := g.2
      dProp_dComp := s.dProp_dComp })
    { gravHead := init.gravHead, dGravHead_dPres := init.dGravHead_dPres,
      dGravHead_dComp := init.dGravHead_dComp, dProp_dComp := dm.dProp_dC }

/-! ## Upwind schemes (source lines 747-1176) -/

/-- The upwind schemes `UPWIND< T >` that have a `calcPotential`: the generic
`HybridUpwind< T >` declares none, only its `Viscous` and `Gravity` specialisations do. -/
inductive UPWIND where
  | PhasePotentialUpwind (T : term)
  | HybridUpwindViscous
  | HybridUpwindGravity
  | PhaseUpwind (T : term)
  deriving DecidableEq, Repr

/-- The two reference arguments of `calcPotential` after the call. -/
structure Potential where
  source : Nat
  pot : ℚ

/-- The call of `formGravHead` on freshly zero-initialised local arrays, as made by every
`calcPotential`. -/
def gravHeadOf (NC NUM_ELEMS ip stencilSize : Nat) (st : Stencil) (v : ElementViews) : ℚ :=
  (formGravHead NC NUM_ELEMS ip stencilSize st v (fun _ => 0) (fun _ _ => 0)
    (fun _ => 0)).gravHead

/-- `PhasePotentialUpwind< T >::calcPotential` (lines 840-901). -/
def PhasePotentialUpwind.calcPotential (NC NUM_ELEMS numPhase ip stencilSize : Nat)
    (st : Stencil) (totFlux : ℚ) (v : ElementViews) (source : Nat) : Potential :=
  let presGrad : ℚ := forLoop stencilSize (fun i presGrad =>
    let er := st.seri i
    let esr := st.sesri i
    let ei := st.sei i
    let weight := st.stencilWeights i
    presGrad + weight * (v.pres er esr ei + v.dPres er esr ei)) 0
  let gravHead := gravHeadOf NC NUM_ELEMS ip stencilSize st v
  { source := source, pot := presGrad - gravHead }

/-- Loop over the other phases shared, text for text, by `PhaseUpwind< T >::calcPotential`
(lines 977-1023) and `HybridUpwind< Gravity >::calcPotential` (lines 1127-1173), started
from the value `pot` has before it. -/
def gravitySegregation (NC NUM_ELEMS numPhase ip stencilSize : Nat) (st : Stencil)
    (v : ElementViews) (gravHead : ℚ) (pot : ℚ) : ℚ :=
  let k_up : Nat := 0
  let k_dw : Nat := 1
  forLoop numPhase (fun jp pot =>
    if jp ≠ ip then
      let er_up := st.seri k_up
      let esr_up := st.sesri k_up
      let ei_up := st.sei k_up
      let er_dw := st.seri k_dw
      let esr_dw := st.sesri k_dw
      let ei_dw := st.sei k_dw
      let gravHeadOther := gravHeadOf NC NUM_ELEMS jp stencilSize st v
      let mob_up := v.phaseMob er_up esr_up ei_up jp
      let mob_dw := v.phaseMob er_dw esr_dw ei_dw jp
      pot + (if gravHead - gravHeadOther ≥ 0 then mob_dw * (gravHeadOther - gravHead)
        else mob_up * (gravHeadOther - gravHead))
    else pot) pot

/-- `PhaseUpwind< T >::calcPotential` (lines 926-1024). -/
def PhaseUpwind.calcPotential (NC NUM_ELEMS numPhase ip stencilSize : Nat)
    (st : Stencil) (totFlux : ℚ) (v : ElementViews) (source : Nat) : Potential :=
  let pot := totFlux
  let gravHead := gravHeadOf NC NUM_ELEMS ip stencilSize st v
  { source := source
    pot := gravitySegregation NC NUM_ELEMS numPhase ip stencilSize st v gravHead pot }

/-- `HybridUpwind< term::Viscous >::calcPotential` (lines 1038-1063). -/
def HybridUpwindViscous.calcPotential (NC NUM_ELEMS numPhase ip stencilSize : Nat)
    (st : Stencil) (totFlux : ℚ) (v : ElementViews) (source : Nat) : Potential :=
  { source := source, pot := totFlux }

/-- `HybridUpwind< term::Gravity >::calcPotential` (lines 1077-1175). -/
def HybridUpwindGravity.calcPotential (NC NUM_ELEMS numPhase ip stencilSize : Nat)
    (st : Stencil) (totFlux : ℚ) (v : ElementViews) (source : Nat) : Potential :=
  let pot : ℚ := 0
  let gravHead := gravHeadOf NC NUM_ELEMS ip stencilSize st v
  { source := source
    pot := gravitySegregation NC NUM_ELEMS numPhase ip stencilSize st v gravHead pot }

/-- Static dispatch `UPWIND< T >::template calcPotential< NC, NUM_ELEMS >`. -/
def UPWIND.calcPotential (scheme : UPWIND) (NC NUM_ELEMS numPhase ip stencilSize : Nat)
    (st : Stencil) (totFlux : ℚ) (v : ElementViews) (source : Nat) : Potential :=
  match scheme with
  | UPWIND.PhasePotentialUpwind _ =>
    PhasePotentialUpwind.calcPotential NC NUM_ELEMS numPhase ip stencilSize st totFlux v source
  | UPWIND.HybridUpwindViscous =>
    HybridUpwindViscous.calcPotential NC NUM_ELEMS numPhase ip stencilSize st totFlux v source
  | UPWIND.HybridUpwindGravity =>
    HybridUpwindGravity.calcPotential NC NUM_ELEMS numPhase ip stencilSize st totFlux v source
  | UPWIND.PhaseUpwind _ =>
    PhaseUpwind.calcPotential NC NUM_ELEMS numPhase ip stencilSize st totFlux v source

/-- `UpwindScheme< T >::getUpwindDir` (lines 779-824): the returned value is `upwindDir`. -/
def getUpwindDir (scheme : UPWIND) (NC NUM_ELEMS numPhase ip stencilSize : Nat)
    (st : Stencil) (totFlux : ℚ) (v : ElementViews) : Nat :=
  let source : Nat := 0
  let p := scheme.calcPotential NC NUM_ELEMS numPhase ip stencilSize st totFlux v source
  if p.pot > 0 then p.source else (if p.source = 0 then 1 else 0)

/-! ## `UpwindHelpers::upwindMob` (source lines 539-606) -/

/-- Outputs of `upwindMob`. -/
structure UpwindMob where
  upwindDir : Nat
  mob : ℚ
  dMob_dP : ℚ
  dMob_dC : Nat → ℚ

/-- Upwinded mobility (and derivatives) of phase `ip` and the upwind direction, according
to the upwind scheme.  `dMob_dC` is the in/out array of the source. -/
def upwindMob (scheme : UPWIND) (NC NUM_ELEMS numPhase ip stencilSize : Nat)
    (st : Stencil) (totFlux : ℚ) (v : ElementViews) (dMob_dC : Nat → ℚ) : UpwindMob :=
  let mob : ℚ := 0
  let dMob_dP : ℚ := 0
  let dMob_dC := forLoop NC (fun ic a => setAt a ic 0) dMob_dC
  let upwindDir := getUpwindDir scheme NC NUM_ELEMS numPhase ip stencilSize st totFlux v
  let er_up := st.seri upwindDir
  let esr_up := st.sesri upwindDir
  let ei_up := st.sei upwindDir
  if |v.phaseMob er_up esr_up ei_up ip| > 1e-20 then
    { upwindDir := upwindDir
      mob := v.phaseMob er_up esr_up ei_up ip
      dMob_dP := v.dPhaseMob_dPres er_up esr_up ei_up ip
      dMob_dC := forLoop NC (fun ic a =>
        setAt a ic (v.dPhaseMob_dComp er_up esr_up ei_up ip ic)) dMob_dC }
  else
    { upwindDir := upwindDir, mob := mob, dMob_dP := dMob_dP, dMob_dC := dMob_dC }

/-! ## `UpwindHelpers::mdensMultiply` (source lines 407-449) -/

/-- Three-dimensional array write `a[i][j][k] = v`. -/
def setAt3 (a : Nat → Nat → Nat → ℚ) (i j k : Nat) (v : ℚ) : Nat → Nat → Nat → ℚ :=
  fun x y z => if x = i ∧ y = j ∧ z = k then v else a x y z

/-- Density views handed to `mdensMultiply` (molar or mass density of the phases), indexed
as in the source: region, subregion, element, quadrature index, phase, component. -/
structure PhaseDensViews where
  dCompFrac_dCompDens : Nat → Nat → Nat → Nat → Nat → ℚ
  phaseDens : Nat → Nat → Nat → Nat → Nat → ℚ
  dPhaseDens_dPres : Nat → Nat → Nat → Nat → Nat → ℚ
  dPhaseDens_dComp : Nat → Nat → Nat → Nat → Nat → Nat → ℚ

/-- The three in/out arguments of `mdensMultiply`. -/
structure ScaledField where
  field : ℚ
  dField_dPres : Nat → ℚ
  dField_dComp : Nat → Nat → ℚ

/-- Remultiply a field by the density of the upstream cell (and derivatives). -/
def mdensMultiply (NC MAX_STENCIL ip k_up stencilSize : Nat) (st : Stencil)
    (pd : PhaseDensViews) (field : ℚ) (dField_dPres : Nat → ℚ)
    (dField_dComp : Nat → Nat → ℚ) : ScaledField :=
  let er_up := st.seri k_up
  let esr_up := st.sesri k_up
  let ei_up := st.sei k_up
  let d1 := forLoop stencilSize (fun ke (d : (Nat → ℚ) × (Nat → Nat → ℚ)) =>
    (setAt d.1 ke (d.1 ke * pd.phaseDens er_up esr_up ei_up 0 ip),
      forLoop NC (fun jc a =>
        setAt2 a ke jc (a ke jc * pd.phaseDens er_up esr_up ei_up 0 ip)) d.2))
    (dField_dPres, dField_dComp)
  let dP2 := setAt d1.1 k_up (d1.1 k_up + pd.dPhaseDens_dPres er_up esr_up ei_up 0 ip * field)
  let dPhaseDens_dCompDens := applyChainRule NC (pd.dCompFrac_dCompDens er_up esr_up ei_up)
    (pd.dPhaseDens_dComp er_up esr_up ei_up 0 ip) (fun _ => 0)
  let dC2 := forLoop NC (fun jc a =>
    setAt2 a k_up jc (a k_up jc + dPhaseDens_dCompDens jc * field)) d1.2
  { field := field * pd.phaseDens er_up esr_up ei_up 0 ip
    dField_dPres := dP2
    dField_dComp := dC2 }

/-! ## `UpwindHelpers::formPhaseComp` (source lines 462-519) -/

/-- Composition views handed to `formPhaseComp`, indexed as in the source: region,
subregion, element, quadrature index, phase, component (and component density). -/
structure PhaseCompViews where
  phaseCompFrac : Nat → Nat → Nat → Nat → Nat → Nat → ℚ
  dPhaseCompFrac_dPres : Nat → Nat → Nat → Nat → Nat → Nat → ℚ
  dPhaseCompFrac_dComp : Nat → Nat → Nat → Nat → Nat → Nat → Nat → ℚ
  dCompFrac_dCompDens : Nat → Nat → Nat → Nat → Nat → ℚ

/-- The three in/out accumulators of `formPhaseComp`. -/
structure CompFlux where
  compFlux : Nat → ℚ
  dCompFlux_dPres : Nat → Nat → ℚ
  dCompFlux_dComp : Nat → Nat → Nat → ℚ

/-- State of the component loop of `formPhaseComp`: the accumulators and the working array
of the chain rule. -/
structure PhaseCompAcc where
  compFlux : Nat → ℚ
  dCompFlux_dPres : Nat → Nat → ℚ
  dCompFlux_dComp : Nat → Nat → Nat → ℚ
  dProp_dC : Nat → ℚ

/-- One iteration of the component loop of `formPhaseComp` (lines 494-517), for the
component `ic`. -/
def formPhaseCompStep (NC ip k_up stencilSize : Nat) (st : Stencil) (pc : PhaseCompViews)
    (phaseFlux : ℚ) (dPhaseFlux_dPres : Nat → ℚ) (dPhaseFlux_dComp : Nat → Nat → ℚ)
    (ic : Nat) (s : PhaseCompAcc) : PhaseCompAcc :=
  let er_up := st.seri k_up
  let esr_up := st.sesri k_up
  let ei_up := st.sei k_up
  let phaseCompFracSub := pc.phaseCompFrac er_up esr_up ei_up 0 ip
  let dPhaseCompFrac_dPresSub := pc.dPhaseCompFrac_dPres er_up esr_up ei_up 0 ip
  let dPhaseCompFrac_dCompSub := pc.dPhaseCompFrac_dComp er_up esr_up ei_up 0 ip
  let ycp := phaseCompFracSub ic
  let d := forLoop stencilSize (fun ke (d : (Nat → Nat → ℚ) × (Nat → Nat → Nat → ℚ)) =>
    (setAt2 d.1 ke ic (d.1 ke ic + dPhaseFlux_dPres ke * ycp),
      forLoop NC (fun jc a =>
        setAt3 a ke ic jc (a ke ic jc + dPhaseFlux_dComp ke jc * ycp)) d.2))
    (s.dCompFlux_dPres, s.dCompFlux_dComp)
  let dProp_dC := applyChainRule NC (pc.dCompFrac_dCompDens er_up esr_up ei_up)
    (dPhaseCompFrac_dCompSub ic) s.dProp_dC
  { compFlux := setAt s.compFlux ic (s.compFlux ic + phaseFlux * ycp)
    dCompFlux_dPres :=
      setAt2 d.1 k_up ic (d.1 k_up ic + phaseFlux * dPhaseCompFrac_dPresSub ic)
    dCompFlux_dComp := forLoop NC (fun jc a =>
      setAt3 a k_up ic jc (a k_up ic jc + phaseFlux * dProp_dC jc)) d.2
    dProp_dC := dProp_dC }

/-- Component loop of `formPhaseComp` (lines 492-518). -/
def formPhaseCompLoop (NC ip k_up stencilSize : Nat) (st : Stencil) (pc : PhaseCompViews)
    (phaseFlux : ℚ) (dPhaseFlux_dPres : Nat → ℚ) (dPhaseFlux_dComp : Nat → Nat → ℚ)
    (cf : CompFlux) : PhaseCompAcc :=
  forLoop NC (formPhaseCompStep NC ip k_up stencilSize st pc phaseFlux dPhaseFlux_dPres
    dPhaseFlux_dComp)
    { compFlux := cf.compFlux, dCompFlux_dPres := cf.dCompFlux_dPres,
      dCompFlux_dComp := cf.dCompFlux_dComp, dProp_dC := fun _ => 0 }

/-- Distribute the phase flux onto the component fluxes. -/
def formPhaseComp (NC MAX_STENCIL ip k_up stencilSize : Nat) (st : Stencil)
    (pc : PhaseCompViews) (phaseFlux : ℚ) (dPhaseFlux_dPres : Nat → ℚ)
    (dPhaseFlux_dComp : Nat → Nat → ℚ) (cf : CompFlux) : CompFlux :=
  let r := formPhaseCompLoop NC ip k_up stencilSize st pc phaseFlux dPhaseFlux_dPres
    dPhaseFlux_dComp cf
  { compFlux := r.compFlux, dCompFlux_dPres := r.dCompFlux_dPres,
    dCompFlux_dComp := r.dCompFlux_dComp }

/-! ## `UpwindHelpers::formFracFlow` (source lines 622-743) -/

/-- Quotient of two `real64` values; `none` stands for the non-finite result (`Inf` or
`NaN`) of a division by zero. -/
def divReal (x y : ℚ) : Option ℚ :=
  if y = 0 then none else some (x / y)

/-- Counted loop whose body may produce a non-finite value. -/
def forLoopOpt {σ : Type} : Nat → (Nat → σ → Option σ) → σ → Option σ
  | 0, _, s => some s
  | n + 1, body, s => (forLoopOpt n body s).bind (body n)

/-- Local variables of `formFracFlow` after the loop over the phases (lines 648-720);
`k_up_main` is a signed index that starts from the sentinel `-1`. -/
structure FracFlowAcc where
  k_up_main : Int
  mainMob : ℚ
  dMMob_dP : ℚ
  dMMob_dC : Nat → ℚ
  totMob : ℚ
  dTotMob_dP : Nat → ℚ
  dTotMob_dC : Nat → Nat → ℚ

/-- Numerical outputs of `formFracFlow`. -/
structure FracFlowOut where
  fflow : ℚ
  dFflow_dP : Nat → ℚ
  dFflow_dC : Nat → Nat → ℚ

/-- Outputs of `formFracFlow`: the upwind index of the requested phase and the numerical
outputs, `none` when a division by zero made them non-finite. -/
structure FracFlow where
  k_up_main : Int
  out : Option FracFlowOut

/-- One iteration of the loop over the phases of `formFracFlow` (lines 673-719), for the
phase `jp`. -/
def formFracFlowMobStep (scheme : UPWIND) (NC NUM_ELEMS numPhase ip stencilSize : Nat)
    (st : Stencil) (totFlux : ℚ) (v : ElementViews) (jp : Nat) (s : FracFlowAcc) :
    FracFlowAcc :=
  let r := upwindMob scheme NC NUM_ELEMS numPhase jp stencilSize st totFlux v (fun _ => 0)
  let k_up := r.upwindDir
  let totMob := s.totMob + r.mob
  let dTotMob_dP := setAt s.dTotMob_dP k_up (s.dTotMob_dP k_up + r.dMob_dP)
  let dTotMob_dC := forLoop NC (fun ic a =>
    setAt2 a k_up ic (a k_up ic + r.dMob_dC ic)) s.dTotMob_dC
  if jp = ip then
    { k_up_main := (k_up : Int)
      mainMob := r.mob
      dMMob_dP := r.dMob_dP
      dMMob_dC := forLoop NC (fun ic a => setAt a ic (r.dMob_dC ic)) s.dMMob_dC
      totMob := totMob
      dTotMob_dP := dTotMob_dP
      dTotMob_dC := dTotMob_dC }
  else
    { k_up_main := s.k_up_main
      mainMob := s.mainMob
      dMMob_dP := s.dMMob_dP
      dMMob_dC := s.dMMob_dC
      totMob := totMob
      dTotMob_dP := dTotMob_dP
      dTotMob_dC := dTotMob_dC }

/-- Loop over the phases of `formFracFlow` (lines 670-720): total mobility and the
upwinded mobility of phase `ip`, from the initial values of lines 649-659. -/
def formFracFlowMob (scheme : UPWIND) (NC NUM_ELEMS numPhase ip stencilSize : Nat)
    (st : Stencil) (totFlux : ℚ) (v : ElementViews) : FracFlowAcc :=
  forLoop numPhase (formFracFlowMobStep scheme NC NUM_ELEMS numPhase ip stencilSize st
    totFlux v)
    { k_up_main := -1, mainMob := 0, dMMob_dP := 0, dMMob_dC := fun _ => 0, totMob := 0,
      dTotMob_dP := fun _ => 0, dTotMob_dC := fun _ _ => 0 }

/-- Reinitialisation of the derivative outputs of `formFracFlow` (lines 661-668). -/
def formFracFlowInit (NC stencilSize : Nat) (dFflow_dP : Nat → ℚ)
    (dFflow_dC : Nat → Nat → ℚ) : (Nat → ℚ) × (Nat → Nat → ℚ) :=
  forLoop stencilSize (fun ke (d : (Nat → ℚ) × (Nat → Nat → ℚ)) =>
    (setAt d.1 ke 0, forLoop NC (fun jc a => setAt2 a ke jc 0) d.2)) (dFflow_dP, dFflow_dC)

/-- Quotient branch of `formFracFlow` (lines 725-741), from the local variables `m` and
the reinitialised derivative arrays `d`. -/
def formFracFlowQuotient (NC stencilSize : Nat) (m : FracFlowAcc)
    (d : (Nat → ℚ) × (Nat → Nat → ℚ)) : Option FracFlowOut :=
  let k_up_main := m.k_up_main.toNat
  (divReal m.mainMob m.totMob).bind (fun fflow =>
  (divReal m.dMMob_dP m.totMob).bind (fun q =>
  (forLoopOpt NC (fun jc a =>
    (divReal (m.dMMob_dC jc) m.totMob).map (fun x => setAt2 a k_up_main jc x)) d.2).bind
    (fun dC1 =>
  (forLoopOpt stencilSize (fun ke (e : (Nat → ℚ) × (Nat → Nat → ℚ)) =>
    (divReal (fflow * m.dTotMob_dP ke) m.totMob).bind (fun x =>
    (forLoopOpt NC (fun jc a =>
      (divReal (fflow * m.dTotMob_dC ke jc) m.totMob).map
        (fun y => setAt2 a ke jc (a ke jc - y))) e.2).map
      (fun dC => (setAt e.1 ke (e.1 ke - x), dC))))
    (setAt d.1 k_up_main q, dC1)).map
    (fun e => { fflow := fflow, dFflow_dP := e.1, dFflow_dC := e.2 }))))

/-- Upwinded fractional flow (and derivatives) of phase `ip` and its upwind direction,
according to the upwind scheme.  `dFflow_dP` and `dFflow_dC` are the prior contents of the
output arrays. -/
def formFracFlow (scheme : UPWIND) (NC NUM_ELEMS MAX_STENCIL numPhase ip stencilSize : Nat)
    (st : Stencil) (totFlux : ℚ) (v : ElementViews) (dFflow_dP : Nat → ℚ)
    (dFflow_dC : Nat → Nat → ℚ) : FracFlow :=
  let d := formFracFlowInit NC stencilSize dFflow_dP dFflow_dC
  let m := formFracFlowMob scheme NC NUM_ELEMS numPhase ip stencilSize st totFlux v
  { k_up_main := m.k_up_main
    out :=
      if |m.mainMob| > 1e-20 then formFracFlowQuotient NC stencilSize m d
      else some { fflow := 0, dFflow_dP := d.1, dFflow_dC := d.2 } }

/-! ## Closed forms stated by the claims

The definitions of this section are not translations of source functions: they spell out
the sums and products that the claims state, and the theorems compare them with the
results of the kernels above. -/

/-- Capillary pressure of stencil cell `i` as the claims take it:
`phaseCapPressure[cell i][0][ip]`, and `0` when `capPressureFlag` is `0`. -/
def capPressureTerm (ip : Nat) (st : Stencil) (v : ElementViews) (capPressureFlag : Int)
    (i : Nat) : ℚ :=
  if capPressureFlag ≠ 0 then v.phaseCapPressure (st.seri i) (st.sesri i) (st.sei i) 0 ip
  else 0

/-- Pressure derivative of the capillary pressure of stencil cell `i`: the sum over the
phases `jp < numPhase` of `dPhaseCapPressure_dPhaseVolFrac[ip][jp] * dPhaseVolFrac_dPres[jp]`,
and `0` when `capPressureFlag` is `0`. -/
def dCapPressure_dPTerm (numPhase ip : Nat) (st : Stencil) (v : ElementViews)
    (capPressureFlag : Int) (i : Nat) : ℚ :=
  if capPressureFlag ≠ 0 then
    Finset.sum (Finset.range numPhase) (fun jp =>
      v.dPhaseCapPressure_dPhaseVolFrac (st.seri i) (st.sesri i) (st.sei i) 0 ip jp
        * v.dPhaseVolFrac_dPres (st.seri i) (st.sesri i) (st.sei i) jp)
  else 0

/-- Component-density derivative of the capillary pressure of stencil cell `i`. -/
def dCapPressure_dCTerm (numPhase ip : Nat) (st : Stencil) (v : ElementViews)
    (capPressureFlag : Int) (i jc : Nat) : ℚ :=
  if capPressureFlag ≠ 0 then
    Finset.sum (Finset.range numPhase) (fun jp =>
      v.dPhaseCapPressure_dPhaseVolFrac (st.seri i) (st.sesri i) (st.sei i) 0 ip jp
        * v.dPhaseVolFrac_dComp (st.seri i) (st.sesri i) (st.sei i) jp jc)
  else 0

/-- Weighted pressure sum
`Σ_{i < stencilSize} weight[i] * (pres[i] + dPres[i] - capPressure[i])`. -/
def presGradSum (ip stencilSize : Nat) (st : Stencil) (v : ElementViews)
    (capPressureFlag : Int) : ℚ :=
  Finset.sum (Finset.range stencilSize) (fun i =>
    st.stencilWeights i * (v.pres (st.seri i) (st.sesri i) (st.sei i)
      + v.dPres (st.seri i) (st.sesri i) (st.sei i)
      - capPressureTerm ip st v capPressureFlag i))

/-- Weighted gravity sum `Σ_{i < stencilSize} weight[i] * gravCoef[i]`. -/
def gravCoefSum (stencilSize : Nat) (st : Stencil) (v : ElementViews) : ℚ :=
  Finset.sum (Finset.range stencilSize) (fun i =>
    st.stencilWeights i * v.gravCoef (st.seri i) (st.sesri i) (st.sei i))

/-- Chain-ruled component-density derivative of the mass density of phase `ip` in stencil
cell `i`: the output of `applyChainRule` for that cell. -/
def dMassDens_dCTerm (NC ip : Nat) (st : Stencil) (v : ElementViews) (i jc : Nat) : ℚ :=
  applyChainRule NC (v.dCompFrac_dCompDens (st.seri i) (st.sesri i) (st.sei i))
    (v.dPhaseMassDens_dComp (st.seri i) (st.sesri i) (st.sei i) 0 ip) (fun _ => 0) jc

/-- Half the sum of the mass densities of phase `ip` over the primary cells: the mean
density for `NUM_ELEMS = 2`. -/
def densMeanSum (NUM_ELEMS ip : Nat) (st : Stencil) (v : ElementViews) : ℚ :=
  Finset.sum (Finset.range NUM_ELEMS) (fun i =>
    0.5 * v.phaseMassDens (st.seri i) (st.sesri i) (st.sei i) 0 ip)

/-- Phase mobility at the cell that `upwindMob` selects for phase `jp`. -/
def upwindPhaseMob (scheme : UPWIND) (NC NUM_ELEMS numPhase jp stencilSize : Nat)
    (st : Stencil) (totFlux : ℚ) (v : ElementViews) : ℚ :=
  v.phaseMob
    (st.seri (getUpwindDir scheme NC NUM_ELEMS numPhase jp stencilSize st totFlux v))
    (st.sesri (getUpwindDir scheme NC NUM_ELEMS numPhase jp stencilSize st totFlux v))
    (st.sei (getUpwindDir scheme NC NUM_ELEMS numPhase jp stencilSize st totFlux v)) jp

/-- The call of `upwindMob` for phase `jp` made by `formFracFlow`, on a zero-initialised
local `dMob_dC`. -/
def upwindMobOf (scheme : UPWIND) (NC NUM_ELEMS numPhase jp stencilSize : Nat)
    (st : Stencil) (totFlux : ℚ) (v : ElementViews) : UpwindMob :=
  upwindMob scheme NC NUM_ELEMS numPhase jp stencilSize st totFlux v (fun _ => 0)

/-- Total mobility `Σ_jp mob_jp` of the upwinded phase mobilities. -/
def totMobSum (scheme : UPWIND) (NC NUM_ELEMS numPhase stencilSize : Nat)
    (st : Stencil) (totFlux : ℚ) (v : ElementViews) : ℚ :=
  Finset.sum (Finset.range numPhase) (fun jp =>
    (upwindMobOf scheme NC NUM_ELEMS numPhase jp stencilSize st totFlux v).mob)

/-- Pressure derivative of the capillary pressure of stencil cell `i` taken over the other
phases only: the sum over `jp < numPhase`, `jp ≠ ip`, of
`dPhaseCapPressure_dPhaseVolFrac[ip][jp] * dPhaseVolFrac_dPres[jp]`. -/
def dCapPressure_dPOthers (numPhase ip : Nat) (st : Stencil) (v : ElementViews) (i : Nat) : ℚ :=
  Finset.sum (Finset.range numPhase) (fun jp =>
    if jp ≠ ip then
      v.dPhaseCapPressure_dPhaseVolFrac (st.seri i) (st.sesri i) (st.sei i) 0 ip jp
        * v.dPhaseVolFrac_dPres (st.seri i) (st.sesri i) (st.sei i) jp
    else 0)

/-- Component-density derivative of the capillary pressure of stencil cell `i` taken over
the other phases only. -/
def dCapPressure_dCOthers (numPhase ip : Nat) (st : Stencil) (v : ElementViews)
    (i jc : Nat) : ℚ :=
  Finset.sum (Finset.range numPhase) (fun jp =>
    if jp ≠ ip then
      v.dPhaseCapPressure_dPhaseVolFrac (st.seri i) (st.sesri i) (st.sei i) 0 ip jp
        * v.dPhaseVolFrac_dComp (st.seri i) (st.sesri i) (st.sei i) jp jc
    else 0)

/-- Cross-phase gravity sum `Σ_{jp ≠ ip} m_jp * (gravHeadOther_jp - gravHead_ip)` in which
`m_jp` is the mobility of phase `jp` at stencil cell `1` when
`gravHead_ip - gravHeadOther_jp ≥ 0` and the mobility at stencil cell `0` otherwise. -/
def segregationSum (NC NUM_ELEMS numPhase ip stencilSize : Nat) (st : Stencil)
    (v : ElementViews) : ℚ :=
  Finset.sum (Finset.range numPhase) (fun jp =>
    if jp ≠ ip then
      (if gravHeadOf NC NUM_ELEMS ip stencilSize st v
            - gravHeadOf NC NUM_ELEMS jp stencilSize st v ≥ 0
        then v.phaseMob (st.seri 1) (st.sesri 1) (st.sei 1) jp
        else v.phaseMob (st.seri 0) (st.sesri 0) (st.sei 0) jp)
        * (gravHeadOf NC NUM_ELEMS jp stencilSize st v
          - gravHeadOf NC NUM_ELEMS ip stencilSize st v)
    else 0)

/-- The same cross-phase gravity sum with the mobility chosen on the opposite difference:
`m_jp` is the mobility of phase `jp` at stencil cell `1` when
`gravHeadOther_jp - gravHead_ip ≥ 0` and the mobility at stencil cell `0` otherwise. -/
def segregationSumOtherMinusOwn (NC NUM_ELEMS numPhase ip stencilSize : Nat) (st : Stencil)
    (v : ElementViews) : ℚ :=
  Finset.sum (Finset.range numPhase) (fun jp =>
    if jp ≠ ip then
      (if gravHeadOf NC NUM_ELEMS jp stencilSize st v
            - gravHeadOf NC NUM_ELEMS ip stencilSize st v ≥ 0
        then v.phaseMob (st.seri 1) (st.sesri 1) (st.sei 1) jp
        else v.phaseMob (st.seri 0) (st.sesri 0) (st.sei 0) jp)
        * (gravHeadOf NC NUM_ELEMS jp stencilSize st v
          - gravHeadOf NC NUM_ELEMS ip stencilSize st v)
    else 0)

/-- Residual entry `r` of the local block of a connection: `dt * compFlux[r]` in the donor
rows `r < NC`, `-dt * compFlux[r - NC]` in the receiver rows. -/
def localFluxEntry (NC : Nat) (compFlux : Nat → ℚ) (dt : ℚ) (r : Nat) : ℚ :=
  if r < NC then dt * compFlux r else -dt * compFlux (r - NC)

/-- Jacobian entry `(r, c)` of the local block of a connection for `NDOF = NC + 1`: the
column `c` belongs to the stencil cell `c / (NC + 1)`, slot `c % (NC + 1)` (slot `0` is
the pressure, slot `jc + 1` the density of component `jc`); the receiver rows carry the
negative of the donor rows. -/
def localJacobianEntry (NC : Nat) (dCompFlux_dP : Nat → Nat → ℚ)
    (dCompFlux_dC : Nat → Nat → Nat → ℚ) (dt : ℚ) (r c : Nat) : ℚ :=
  let ke := c / (NC + 1)
  let slot := c % (NC + 1)
  if r < NC then
    (if slot = 0 then dt * dCompFlux_dP ke r else dt * dCompFlux_dC ke r (slot - 1))
  else
    (if slot = 0 then -dt * dCompFlux_dP ke (r - NC)
      else -dt * dCompFlux_dC ke (r - NC) (slot - 1))

/-! ## Concrete inputs used by the witnesses and counterexamples -/

/-- Two-point connection between the cells `(0,0,0)` and `(0,0,1)` with the weights
`+1` and `-1`. -/
def scenarioStencil : Stencil :=
  { seri := fun _ => 0
    sesri := fun _ => 0
    sei := fun i => i
    stencilWeights := fun i => if i = 0 then 1 else -1 }

/-- Property bundle of the concrete scenario: pressures `{p0, p1}`, no pressure increment,
no gravity, phase mobilities `{mob0, mob1}` with pressure derivative `dMob` and
component-density derivative `3`, mass density `1000`. -/
def scenarioViews (p0 p1 mob0 mob1 dMob : ℚ) : ElementViews :=
  { pres := fun _ _ ei => if ei = 0 then p0 else p1
    dPres := fun _ _ _ => 0
    gravCoef := fun _ _ _ => 0
    phaseMob := fun _ _ ei _ => if ei = 0 then mob0 else mob1
    dPhaseMob_dPres := fun _ _ _ _ => dMob
    dPhaseMob_dComp := fun _ _ _ _ _ => 3
    dPhaseVolFrac_dPres := fun _ _ _ _ => 0
    dPhaseVolFrac_dComp := fun _ _ _ _ _ => 0
    dCompFrac_dCompDens := fun _ _ _ _ _ => 1
    phaseMassDens := fun _ _ _ _ _ => 1000
    dPhaseMassDens_dPres := fun _ _ _ _ _ => 2
    dPhaseMassDens_dComp := fun _ _ _ _ _ _ => 5
    phaseCapPressure := fun _ _ _ _ _ => 7
    dPhaseCapPressure_dPhaseVolFrac := fun _ _ _ _ _ _ => 11 }

/-- Composition bundle of the concrete scenario: fraction `cell + ic + 1` of component `ic`
in the cell `(0, 0, cell)`, with constant derivatives. -/
def scenarioCompViews : PhaseCompViews :=
  { phaseCompFrac := fun _ _ ei _ _ ic => (ei : ℚ) + ic + 1
    dPhaseCompFrac_dPres := fun _ _ _ _ _ _ => 2
    dPhaseCompFrac_dComp := fun _ _ _ _ _ _ _ => 3
    dCompFrac_dCompDens := fun _ _ _ _ _ => 1 }

/-- Property bundle with gravity: gravity coefficients `{1, 0, g2}` in the cells
`(0,0,0)`, `(0,0,1)`, `(0,0,2)`, mass density `1000` for phase `0` and `800` for the other
phases, phase mobility `1` in cell `(0,0,0)` and `2` elsewhere, zero pressures and zero
pressure derivatives of the mobility and of the mass density. -/
def gravityViews (g2 : ℚ) : ElementViews :=
  { pres := fun _ _ _ => 0
    dPres := fun _ _ _ => 0
    gravCoef := fun _ _ ei => if ei = 0 then 1 else if ei = 1 then 0 else g2
    phaseMob := fun _ _ ei _ => if ei = 0 then 1 else 2
    dPhaseMob_dPres := fun _ _ _ _ => 0
    dPhaseMob_dComp := fun _ _ _ _ _ => 3
    dPhaseVolFrac_dPres := fun _ _ _ _ => 0
    dPhaseVolFrac_dComp := fun _ _ _ _ _ => 0
    dCompFrac_dCompDens := fun _ _ _ _ _ => 1
    phaseMassDens := fun _ _ _ _ ip => if ip = 0 then 1000 else 800
    dPhaseMassDens_dPres := fun _ _ _ _ _ => 0
    dPhaseMassDens_dComp := fun _ _ _ _ _ _ => 5
    phaseCapPressure := fun _ _ _ _ _ => 7
    dPhaseCapPressure_dPhaseVolFrac := fun _ _ _ _ _ _ => 11 }

/-- Property bundle with capillarity: the concrete scenario with saturation derivatives
`dPhaseVolFrac_dPres = 1/2` and `dPhaseVolFrac_dComp = 1/4` for every phase. -/
def capillaryViews : ElementViews :=
  { scenarioViews 100 90 (4/5) (3/5) (1/4) with
    dPhaseVolFrac_dPres := fun _ _ _ _ => 1 / 2
    dPhaseVolFrac_dComp := fun _ _ _ _ _ => 1 / 4 }

/-! ## Generic loop lemmas -/

theorem forLoop_zero {σ : Type} (body : Nat → σ → σ) (s : σ) : forLoop 0 body s = s := rfl

theorem forLoop_succ {σ : Type} (n : Nat) (body : Nat → σ → σ) (s : σ) :
    forLoop (n + 1) body s = body n (forLoop n body s) := rfl

/-- A property kept by every iteration is kept by the loop. -/
theorem forLoop_preserve {σ : Type} (Q : σ → Prop) (n : Nat) (body : Nat → σ → σ) (s : σ)
    (hpres : ∀ i t, i < n → Q t → Q (body i t)) (h0 : Q s) : Q (forLoop n body s) := by
  induction n with
  | zero => exact h0
  | succ m ih =>
    rw [forLoop_succ]
    exact hpres m _ (Nat.lt_succ_self m)
      (ih (fun i t hi ht => hpres i t (Nat.lt_succ_of_lt hi) ht))

/-- A property established by iteration `k` and kept by the other iterations holds after
the loop. -/
theorem forLoop_establish {σ : Type} (Q : σ → Prop) (k n : Nat) (body : Nat → σ → σ) (s : σ)
    (hk : k < n) (hest : ∀ t, Q (body k t))
    (hpres : ∀ i t, i < n → i ≠ k → Q t → Q (body i t)) : Q (forLoop n body s) := by
  induction n with
  | zero => exact absurd hk (Nat.not_lt_zero k)
  | succ m ih =>
    rw [forLoop_succ]
    by_cases hkm : k = m
    · subst hkm
      exact hest _
    · have hlt : k < m := by omega
      exact hpres m _ (Nat.lt_succ_self m) (fun h => hkm h.symm)
        (ih hlt (fun i t hi hne ht => hpres i t (Nat.lt_succ_of_lt hi) hne ht))


/-- Loops whose bodies agree on the iterations run compute the same state. -/
theorem forLoop_congr {σ : Type} (n : Nat) (body body2 : Nat → σ → σ) (s : σ)
    (h : ∀ i t, i < n → body i t = body2 i t) : forLoop n body s = forLoop n body2 s := by
  induction n with
  | zero => rfl
  | succ m ih =>
    rw [forLoop_succ, forLoop_succ, h m _ (Nat.lt_succ_self m),
      ih (fun i t hi => h i t (Nat.lt_succ_of_lt hi))]

/-- A component of the state that evolves on its own can be followed on its own. -/
theorem forLoop_proj {σ τ : Type} (π : σ → τ) (n : Nat) (body : Nat → σ → σ)
    (body2 : Nat → τ → τ) (s : σ) (h : ∀ i t, i < n → π (body i t) = body2 i (π t)) :
    π (forLoop n body s) = forLoop n body2 (π s) := by
  induction n with
  | zero => rfl
  | succ m ih =>
    rw [forLoop_succ, forLoop_succ, h m _ (Nat.lt_succ_self m),
      ih (fun i t hi => h i t (Nat.lt_succ_of_lt hi))]

/-- Scalar accumulation `s += f i`. -/
theorem forLoop_sum (n : Nat) (f : Nat → ℚ) (body : Nat → ℚ → ℚ) (s : ℚ)
    (h : ∀ i x, i < n → body i x = x + f i) :
    forLoop n body s = s + Finset.sum (Finset.range n) f := by
  induction n with
  | zero => simp [forLoop]
  | succ m ih =>
    rw [forLoop_succ, h m _ (Nat.lt_succ_self m),
      ih (fun i x hi => h i x (Nat.lt_succ_of_lt hi)), Finset.sum_range_succ]
    ring

/-- A loop in which iteration `i` rewrites entry `i` only. -/
theorem forLoop_pointwise (n : Nat) (g : Nat → ℚ → ℚ) (body : Nat → (Nat → ℚ) → (Nat → ℚ))
    (a : Nat → ℚ) (h : ∀ i b k, i < n → body i b k = if k = i then g i (b i) else b k)
    (k : Nat) : forLoop n body a k = if k < n then g k (a k) else a k := by
  induction n with
  | zero => simp [forLoop]
  | succ m ih =>
    have ih2 := ih (fun i b k hi => h i b k (Nat.lt_succ_of_lt hi))
    rw [forLoop_succ, h m _ k (Nat.lt_succ_self m)]
    by_cases hk : k = m
    · subst hk
      simp [ih2]
    · have h1 : (k < m + 1) ↔ (k < m) := by omega
      simp [hk, ih2, h1]

/-- A loop in which iteration `j` rewrites entry `(r, j)` only. -/
theorem forLoop_row (m r : Nat) (g : Nat → ℚ → ℚ)
    (body : Nat → (Nat → Nat → ℚ) → (Nat → Nat → ℚ)) (a : Nat → Nat → ℚ)
    (h : ∀ j b k l, j < m → body j b k l = if k = r ∧ l = j then g j (b r j) else b k l)
    (k l : Nat) : forLoop m body a k l = if k = r ∧ l < m then g l (a r l) else a k l := by
  induction m generalizing k l with
  | zero => simp [forLoop]
  | succ p ih =>
    have ih2 := ih (fun j b k l hj => h j b k l (Nat.lt_succ_of_lt hj))
    rw [forLoop_succ, h p _ k l (Nat.lt_succ_self p)]
    by_cases hk : k = r ∧ l = p
    · obtain ⟨rfl, rfl⟩ := hk
      simp [ih2]
    · rw [if_neg hk, ih2]
      by_cases hkr : k = r
      · have hl : l ≠ p := fun hl => hk ⟨hkr, hl⟩
        have h1 : (l < p + 1) ↔ (l < p) := by omega
        simp [hkr, h1]
      · simp [hkr]

/-- A loop in which iteration `i` rewrites the first `m` entries of row `i` only. -/
theorem forLoop_pointwise2 (n m : Nat) (g : Nat → Nat → ℚ → ℚ)
    (body : Nat → (Nat → Nat → ℚ) → (Nat → Nat → ℚ)) (a : Nat → Nat → ℚ)
    (h : ∀ i b k l, i < n → body i b k l = if k = i ∧ l < m then g i l (b i l) else b k l)
    (k l : Nat) : forLoop n body a k l = if k < n ∧ l < m then g k l (a k l) else a k l := by
  induction n generalizing k l with
  | zero => simp [forLoop]
  | succ p ih =>
    have ih2 := ih (fun i b k l hi => h i b k l (Nat.lt_succ_of_lt hi))
    rw [forLoop_succ, h p _ k l (Nat.lt_succ_self p)]
    by_cases hk : k = p
    · subst hk
      by_cases hl : l < m
      · simp [hl, ih2]
      · simp [hl, ih2]
    · have h1 : (k < p + 1) ↔ (k < p) := by omega
      simp [hk, ih2, h1]

/-- A loop in which every iteration adds `f i x` to each entry `x` selected by `C`. -/
theorem forLoop_accum {ι : Type} (n : Nat) (C : ι → Prop) [DecidablePred C] (f : Nat → ι → ℚ)
    (body : Nat → (ι → ℚ) → (ι → ℚ)) (a : ι → ℚ)
    (h : ∀ i b x, i < n → body i b x = if C x then b x + f i x else b x) (x : ι) :
    forLoop n body a x
      = if C x then a x + Finset.sum (Finset.range n) (fun i => f i x) else a x := by
  induction n with
  | zero => simp [forLoop]
  | succ p ih =>
    have ih2 := ih (fun i b x hi => h i b x (Nat.lt_succ_of_lt hi))
    rw [forLoop_succ, h p _ x (Nat.lt_succ_self p), ih2]
    by_cases hC : C x
    · simp [hC, Finset.sum_range_succ]
      ring
    · simp [hC]

/-- Two-index form of `forLoop_accum`. -/
theorem forLoop_accum2 (n : Nat) (C : Nat → Nat → Prop) [∀ k l, Decidable (C k l)]
    (f : Nat → Nat → Nat → ℚ)
    (body : Nat → (Nat → Nat → ℚ) → (Nat → Nat → ℚ)) (a : Nat → Nat → ℚ)
    (h : ∀ i b k l, i < n → body i b k l = if C k l then b k l + f i k l else b k l)
    (k l : Nat) :
    forLoop n body a k l
      = if C k l then a k l + Finset.sum (Finset.range n) (fun i => f i k l) else a k l := by
  induction n with
  | zero => simp [forLoop]
  | succ p ih =>
    have ih2 := ih (fun i b k l hi => h i b k l (Nat.lt_succ_of_lt hi))
    rw [forLoop_succ, h p _ k l (Nat.lt_succ_self p), ih2]
    by_cases hC : C k l
    · simp [hC, Finset.sum_range_succ]
      ring
    · simp [hC]

/-- Closed form of `applyChainRule`: the first `N` entries are overwritten by the product,
the others are kept. -/
theorem applyChainRule_apply (N : Nat) (dy_dx : Nat → Nat → ℚ) (df_dy df_dx : Nat → ℚ)
    (i : Nat) :
    applyChainRule N dy_dx df_dy df_dx i
      = if i < N then Finset.sum (Finset.range N) (fun j => df_dy j * dy_dx j i)
        else df_dx i := by
  unfold applyChainRule
  refine forLoop_pointwise N (fun i _ => Finset.sum (Finset.range N)
    (fun j => df_dy j * dy_dx j i)) _ df_dx ?_ i
  intro i b k _
  rw [forLoop_accum N (fun x => x = i) (fun j _ => df_dy j * dy_dx j i) _ (setAt b i 0)
    (fun j c x _ => by
      by_cases hx : x = i
      · subst hx
        simp [setAt]
      · simp [setAt, hx]) k]
  by_cases hk : k = i
  · subst hk
    simp [setAt]
  · simp [setAt, hk]

/-- The first `N` entries written by `applyChainRule` do not depend on the working array. -/
theorem applyChainRule_working (N : Nat) (dy_dx : Nat → Nat → ℚ) (df_dy a b : Nat → ℚ)
    (i : Nat) (hi : i < N) :
    applyChainRule N dy_dx df_dy a i = applyChainRule N dy_dx df_dy b i := by
  rw [applyChainRule_apply, applyChainRule_apply, if_pos hi, if_pos hi]

/-! ## Closed forms of the loops of `formPPUVelocity` -/

/-- Resetting the first `n` entries of a working array. -/
theorem forLoop_reset (n : Nat) (a : Nat → ℚ) (k : Nat) :
    forLoop n (fun ic b => setAt b ic 0) a k = if k < n then 0 else a k :=
  forLoop_pointwise n (fun _ _ => 0) _ a (fun _ _ _ _ => rfl) k

/-- Capillary pressure used for a stencil cell. -/
theorem formPPUVelocityCap_capPressure (NC numPhase ip : Nat) (v : ElementViews)
    (capPressureFlag : Int) (er esr ei : Nat) (a : Nat → ℚ) :
    (formPPUVelocityCap NC numPhase ip v capPressureFlag er esr ei a).capPressure
      = if capPressureFlag ≠ 0 then v.phaseCapPressure er esr ei 0 ip else 0 := by
  unfold formPPUVelocityCap
  by_cases hf : capPressureFlag ≠ 0
  · simp only [if_pos hf]
    exact forLoop_preserve
      (fun c : CapTerms => c.capPressure = v.phaseCapPressure er esr ei 0 ip) numPhase _ _
      (fun _ _ _ hc => hc) rfl
  · simp only [if_neg hf]

/-- Pressure derivative of the capillary pressure used for a stencil cell: the sum over
all phases `jp < numPhase`. -/
theorem formPPUVelocityCap_dP (NC numPhase ip : Nat) (v : ElementViews)
    (capPressureFlag : Int) (er esr ei : Nat) (a : Nat → ℚ) :
    (formPPUVelocityCap NC numPhase ip v capPressureFlag er esr ei a).dCapPressure_dP
      = if capPressureFlag ≠ 0 then
          Finset.sum (Finset.range numPhase) (fun jp =>
            v.dPhaseCapPressure_dPhaseVolFrac er esr ei 0 ip jp
              * v.dPhaseVolFrac_dPres er esr ei jp)
        else 0 := by
  unfold formPPUVelocityCap
  by_cases hf : capPressureFlag ≠ 0
  · simp only [if_pos hf]
    rw [forLoop_proj CapTerms.dCapPressure_dP numPhase _
      (fun jp x => x + v.dPhaseCapPressure_dPhaseVolFrac er esr ei 0 ip jp
        * v.dPhaseVolFrac_dPres er esr ei jp) _ (fun _ _ _ => rfl)]
    rw [forLoop_sum numPhase _ _ _ (fun _ _ _ => rfl)]
    simp
  · simp only [if_neg hf]

/-- Component-density derivatives of the capillary pressure used for a stencil cell: the
first `NC` entries do not depend on the working array. -/
theorem formPPUVelocityCap_dC (NC numPhase ip : Nat) (v : ElementViews)
    (capPressureFlag : Int) (er esr ei : Nat) (a : Nat → ℚ) (jc : Nat) :
    (formPPUVelocityCap NC numPhase ip v capPressureFlag er esr ei a).dCapPressure_dC jc
      = if jc < NC then
          (if capPressureFlag ≠ 0 then
            Finset.sum (Finset.range numPhase) (fun jp =>
              v.dPhaseCapPressure_dPhaseVolFrac er esr ei 0 ip jp
                * v.dPhaseVolFrac_dComp er esr ei jp jc)
          else 0)
        else a jc := by
  unfold formPPUVelocityCap
  by_cases hf : capPressureFlag ≠ 0
  · simp only [if_pos hf]
    rw [forLoop_proj CapTerms.dCapPressure_dC numPhase _
      (fun jp b => forLoop NC (fun jc a =>
        setAt a jc (a jc + v.dPhaseCapPressure_dPhaseVolFrac er esr ei 0 ip jp
          * v.dPhaseVolFrac_dComp er esr ei jp jc)) b) _ (fun _ _ _ => rfl)]
    rw [forLoop_accum numPhase (fun k => k < NC)
      (fun jp k => v.dPhaseCapPressure_dPhaseVolFrac er esr ei 0 ip jp
        * v.dPhaseVolFrac_dComp er esr ei jp k)]
    · simp only [forLoop_reset]
      by_cases hjc : jc < NC
      · simp [hjc]
      · simp [hjc]
    · intro jp b x _
      exact forLoop_pointwise NC
        (fun jc y => y + v.dPhaseCapPressure_dPhaseVolFrac er esr ei 0 ip jp
          * v.dPhaseVolFrac_dComp er esr ei jp jc) _ b (fun _ _ _ _ => rfl) x
  · simp only [if_neg hf]
    exact forLoop_reset NC a jc

/-- Mean density of `formPPUVelocity`: half the sum of the mass densities of the primary
cells. -/
theorem formPPUVelocityDensMean_densMean (NC NUM_ELEMS ip : Nat) (st : Stencil)
    (v : ElementViews) :
    (formPPUVelocityDensMean NC NUM_ELEMS ip st v).densMean
      = Finset.sum (Finset.range NUM_ELEMS) (fun i =>
          0.5 * v.phaseMassDens (st.seri i) (st.sesri i) (st.sei i) 0 ip) := by
  unfold formPPUVelocityDensMean
  rw [forLoop_proj DensMean.densMean NUM_ELEMS _
    (fun i x => x + 0.5 * v.phaseMassDens (st.seri i) (st.sesri i) (st.sei i) 0 ip) _
    (fun _ _ _ => rfl)]
  rw [forLoop_sum NUM_ELEMS _ _ _ (fun _ _ _ => rfl)]
  simp

/-- Pressure derivative of the mean density of `formPPUVelocity`. -/
theorem formPPUVelocityDensMean_dP (NC NUM_ELEMS ip : Nat) (st : Stencil)
    (v : ElementViews) (k : Nat) :
    (formPPUVelocityDensMean NC NUM_ELEMS ip st v).dDensMean_dP k
      = if k < NUM_ELEMS then
          0.5 * v.dPhaseMassDens_dPres (st.seri k) (st.sesri k) (st.sei k) 0 ip
        else 0 := by
  unfold formPPUVelocityDensMean
  rw [forLoop_proj DensMean.dDensMean_dP NUM_ELEMS _
    (fun i a => setAt a i
      (0.5 * v.dPhaseMassDens_dPres (st.seri i) (st.sesri i) (st.sei i) 0 ip)) _
    (fun _ _ _ => rfl)]
  exact forLoop_pointwise NUM_ELEMS
    (fun i _ => 0.5 * v.dPhaseMassDens_dPres (st.seri i) (st.sesri i) (st.sei i) 0 ip) _ _
    (fun _ _ _ _ => rfl) k

/-- Component-density derivatives of the mean density of `formPPUVelocity`. -/
theorem formPPUVelocityDensMean_dC (NC NUM_ELEMS ip : Nat) (st : Stencil)
    (v : ElementViews) (k jc : Nat) :
    (formPPUVelocityDensMean NC NUM_ELEMS ip st v).dDensMean_dC k jc
      = if k < NUM_ELEMS ∧ jc < NC then
          0.5 * applyChainRule NC (v.dCompFrac_dCompDens (st.seri k) (st.sesri k) (st.sei k))
            (v.dPhaseMassDens_dComp (st.seri k) (st.sesri k) (st.sei k) 0 ip) (fun _ => 0) jc
        else 0 := by
  unfold formPPUVelocityDensMean
  rw [forLoop_proj DensMean.dDensMean_dC NUM_ELEMS _
    (fun i a => forLoop NC (fun jc b => setAt2 b i jc
      (0.5 * applyChainRule NC (v.dCompFrac_dCompDens (st.seri i) (st.sesri i) (st.sei i))
        (v.dPhaseMassDens_dComp (st.seri i) (st.sesri i) (st.sei i) 0 ip) (fun _ => 0) jc)) a)
    _ (fun i t _ => forLoop_congr NC _ _ _ (fun jc b hjc => by
      show setAt2 b i jc _ = setAt2 b i jc _
      rw [applyChainRule_working NC _ _ t.dProp_dC (fun _ => 0) jc hjc]))]
  exact forLoop_pointwise2 NUM_ELEMS NC
    (fun i l _ => 0.5 * applyChainRule NC
      (v.dCompFrac_dCompDens (st.seri i) (st.sesri i) (st.sei i))
      (v.dPhaseMassDens_dComp (st.seri i) (st.sesri i) (st.sei i) 0 ip) (fun _ => 0) l) _ _
    (fun i b k l _ => forLoop_row NC i
      (fun l _ => 0.5 * applyChainRule NC
        (v.dCompFrac_dCompDens (st.seri i) (st.sesri i) (st.sei i))
        (v.dPhaseMassDens_dComp (st.seri i) (st.sesri i) (st.sei i) 0 ip) (fun _ => 0) l) _ b
      (fun _ _ _ _ _ => rfl) k l) k jc


/-- Weighted pressure sum `presGrad` of `formPPUVelocity`. -/
theorem formPPUVelocityPot_presGrad (NC NUM_ELEMS numPhase ip stencilSize : Nat)
    (st : Stencil) (v : ElementViews) (capPressureFlag : Int) (dm : DensMean) :
    (formPPUVelocityPot NC NUM_ELEMS numPhase ip stencilSize st v capPressureFlag dm).presGrad
      = Finset.sum (Finset.range stencilSize) (fun i =>
          st.stencilWeights i * (v.pres (st.seri i) (st.sesri i) (st.sei i)
            + v.dPres (st.seri i) (st.sesri i) (st.sei i)
            - (if capPressureFlag ≠ 0 then
                v.phaseCapPressure (st.seri i) (st.sesri i) (st.sei i) 0 ip else 0))) := by
  unfold formPPUVelocityPot
  rw [forLoop_proj PotGrad.presGrad stencilSize _
    (fun i x => x + st.stencilWeights i * (v.pres (st.seri i) (st.sesri i) (st.sei i)
      + v.dPres (st.seri i) (st.sesri i) (st.sei i)
      - (if capPressureFlag ≠ 0 then
          v.phaseCapPressure (st.seri i) (st.sesri i) (st.sei i) 0 ip else 0))) _
    (fun i t _ => by
      show t.presGrad + _ * (_ + _ - (formPPUVelocityCap NC numPhase ip v capPressureFlag
        (st.seri i) (st.sesri i) (st.sei i) t.dCapPressure_dC).capPressure) = _
      rw [formPPUVelocityCap_capPressure])]
  rw [forLoop_sum stencilSize _ _ _ (fun _ _ _ => rfl)]
  simp

/-- Pressure derivatives `dPresGrad_dP` of `formPPUVelocity`. -/
theorem formPPUVelocityPot_dPresGrad_dP (NC NUM_ELEMS numPhase ip stencilSize : Nat)
    (st : Stencil) (v : ElementViews) (capPressureFlag : Int) (dm : DensMean) (k : Nat) :
    (formPPUVelocityPot NC NUM_ELEMS numPhase ip stencilSize st v capPressureFlag
        dm).dPresGrad_dP k
      = if k < stencilSize then
          st.stencilWeights k * (1 -
            (if capPressureFlag ≠ 0 then
              Finset.sum (Finset.range numPhase) (fun jp =>
                v.dPhaseCapPressure_dPhaseVolFrac (st.seri k) (st.sesri k) (st.sei k) 0 ip jp
                  * v.dPhaseVolFrac_dPres (st.seri k) (st.sesri k) (st.sei k) jp)
            else 0))
        else 0 := by
  unfold formPPUVelocityPot
  rw [forLoop_proj PotGrad.dPresGrad_dP stencilSize _
    (fun i a => setAt a i (a i + st.stencilWeights i * (1 -
      (if capPressureFlag ≠ 0 then
        Finset.sum (Finset.range numPhase) (fun jp =>
          v.dPhaseCapPressure_dPhaseVolFrac (st.seri i) (st.sesri i) (st.sei i) 0 ip jp
            * v.dPhaseVolFrac_dPres (st.seri i) (st.sesri i) (st.sei i) jp)
      else 0)))) _
    (fun i t _ => by
      show setAt t.dPresGrad_dP i (t.dPresGrad_dP i + _ * (1 -
        (formPPUVelocityCap NC numPhase ip v capPressureFlag
          (st.seri i) (st.sesri i) (st.sei i) t.dCapPressure_dC).dCapPressure_dP)) = _
      rw [formPPUVelocityCap_dP])]
  rw [forLoop_pointwise stencilSize (fun i y => y + st.stencilWeights i * (1 -
      (if capPressureFlag ≠ 0 then
        Finset.sum (Finset.range numPhase) (fun jp =>
          v.dPhaseCapPressure_dPhaseVolFrac (st.seri i) (st.sesri i) (st.sei i) 0 ip jp
            * v.dPhaseVolFrac_dPres (st.seri i) (st.sesri i) (st.sei i) jp)
      else 0)))]
  · simp
  · intro _ _ _ _
    rfl

/-- Component-density derivatives `dPresGrad_dC` of `formPPUVelocity`. -/
theorem formPPUVelocityPot_dPresGrad_dC (NC NUM_ELEMS numPhase ip stencilSize : Nat)
    (st : Stencil) (v : ElementViews) (capPressureFlag : Int) (dm : DensMean) (k jc : Nat) :
    (formPPUVelocityPot NC NUM_ELEMS numPhase ip stencilSize st v capPressureFlag
        dm).dPresGrad_dC k jc
      = if k < stencilSize ∧ jc < NC then
          -st.stencilWeights k *
            (if capPressureFlag ≠ 0 then
              Finset.sum (Finset.range numPhase) (fun jp =>
                v.dPhaseCapPressure_dPhaseVolFrac (st.seri k) (st.sesri k) (st.sei k) 0 ip jp
                  * v.dPhaseVolFrac_dComp (st.seri k) (st.sesri k) (st.sei k) jp jc)
            else 0)
        else 0 := by
  unfold formPPUVelocityPot
  rw [forLoop_proj PotGrad.dPresGrad_dC stencilSize _
    (fun i a => forLoop NC (fun jc b => setAt2 b i jc (b i jc + -st.stencilWeights i *
      (if capPressureFlag ≠ 0 then
        Finset.sum (Finset.range numPhase) (fun jp =>
          v.dPhaseCapPressure_dPhaseVolFrac (st.seri i) (st.sesri i) (st.sei i) 0 ip jp
            * v.dPhaseVolFrac_dComp (st.seri i) (st.sesri i) (st.sei i) jp jc)
      else 0))) a) _
    (fun i t _ => forLoop_congr NC _ _ _ (fun jc b hjc => by
      show setAt2 b i jc (b i jc + _ * (formPPUVelocityCap NC numPhase ip v capPressureFlag
        (st.seri i) (st.sesri i) (st.sei i) t.dCapPressure_dC).dCapPressure_dC jc) = _
      rw [formPPUVelocityCap_dC, if_pos hjc]))]
  rw [forLoop_pointwise2 stencilSize NC (fun i l y => y + -st.stencilWeights i *
      (if capPressureFlag ≠ 0 then
        Finset.sum (Finset.range numPhase) (fun jp =>
          v.dPhaseCapPressure_dPhaseVolFrac (st.seri i) (st.sesri i) (st.sei i) 0 ip jp
            * v.dPhaseVolFrac_dComp (st.seri i) (st.sesri i) (st.sei i) jp l)
      else 0))]
  · simp
  · intro i b k l _
    exact forLoop_row NC i (fun l y => y + -st.stencilWeights i *
      (if capPressureFlag ≠ 0 then
        Finset.sum (Finset.range numPhase) (fun jp =>
          v.dPhaseCapPressure_dPhaseVolFrac (st.seri i) (st.sesri i) (st.sei i) 0 ip jp
            * v.dPhaseVolFrac_dComp (st.seri i) (st.sesri i) (st.sei i) jp l)
      else 0)) _ b (fun _ _ _ _ _ => rfl) k l

/-- Gravity head of `formPPUVelocity`. -/
theorem formPPUVelocityPot_gravHead (NC NUM_ELEMS numPhase ip stencilSize : Nat)
    (st : Stencil) (v : ElementViews) (capPressureFlag : Int) (dm : DensMean) :
    (formPPUVelocityPot NC NUM_ELEMS numPhase ip stencilSize st v capPressureFlag dm).gravHead
      = Finset.sum (Finset.range stencilSize) (fun i =>
          dm.densMean
            * (st.stencilWeights i * v.gravCoef (st.seri i) (st.sesri i) (st.sei i))) := by
  unfold formPPUVelocityPot
  rw [forLoop_proj PotGrad.gravHead stencilSize _
    (fun i x => x + dm.densMean
      * (st.stencilWeights i * v.gravCoef (st.seri i) (st.sesri i) (st.sei i))) _
    (fun _ _ _ => rfl)]
  rw [forLoop_sum stencilSize _ _ _ (fun _ _ _ => rfl)]
  simp

/-- Pressure derivatives of the gravity head of `formPPUVelocity`. -/
theorem formPPUVelocityPot_dGravHead_dP (NC NUM_ELEMS numPhase ip stencilSize : Nat)
    (st : Stencil) (v : ElementViews) (capPressureFlag : Int) (dm : DensMean) (k : Nat) :
    (formPPUVelocityPot NC NUM_ELEMS numPhase ip stencilSize st v capPressureFlag
        dm).dGravHead_dP k
      = if k < NUM_ELEMS then
          Finset.sum (Finset.range stencilSize) (fun i =>
            dm.dDensMean_dP k
              * (st.stencilWeights i * v.gravCoef (st.seri i) (st.sesri i) (st.sei i)))
        else 0 := by
  unfold formPPUVelocityPot
  rw [forLoop_proj PotGrad.dGravHead_dP stencilSize _
    (fun i a => forLoop NUM_ELEMS (fun j b => setAt b j (b j + dm.dDensMean_dP j
      * (st.stencilWeights i * v.gravCoef (st.seri i) (st.sesri i) (st.sei i)))) a) _
    (fun i t _ => forLoop_proj Prod.fst NUM_ELEMS _ _ _ (fun _ _ _ => rfl))]
  rw [forLoop_accum stencilSize (fun k => k < NUM_ELEMS) (fun i k => dm.dDensMean_dP k
      * (st.stencilWeights i * v.gravCoef (st.seri i) (st.sesri i) (st.sei i)))]
  · simp
  · intro i b x _
    exact forLoop_pointwise NUM_ELEMS (fun j y => y + dm.dDensMean_dP j
      * (st.stencilWeights i * v.gravCoef (st.seri i) (st.sesri i) (st.sei i))) _ b
      (fun _ _ _ _ => rfl) x

/-- Component-density derivatives of the gravity head of `formPPUVelocity`. -/
theorem formPPUVelocityPot_dGravHead_dC (NC NUM_ELEMS numPhase ip stencilSize : Nat)
    (st : Stencil) (v : ElementViews) (capPressureFlag : Int) (dm : DensMean) (k jc : Nat) :
    (formPPUVelocityPot NC NUM_ELEMS numPhase ip stencilSize st v capPressureFlag
        dm).dGravHead_dC k jc
      = if k < NUM_ELEMS ∧ jc < NC then
          Finset.sum (Finset.range stencilSize) (fun i =>
            dm.dDensMean_dC k jc
              * (st.stencilWeights i * v.gravCoef (st.seri i) (st.sesri i) (st.sei i)))
        else 0 := by
  unfold formPPUVelocityPot
  rw [forLoop_proj PotGrad.dGravHead_dC stencilSize _
    (fun i a => forLoop NUM_ELEMS (fun j b => forLoop NC (fun jc c =>
      setAt2 c j jc (c j jc + dm.dDensMean_dC j jc
        * (st.stencilWeights i * v.gravCoef (st.seri i) (st.sesri i) (st.sei i)))) b) a) _
    (fun i t _ => forLoop_proj Prod.snd NUM_ELEMS _ _ _ (fun _ _ _ => rfl))]
  rw [forLoop_accum2 stencilSize (fun k l => k < NUM_ELEMS ∧ l < NC)
      (fun i k l => dm.dDensMean_dC k l
        * (st.stencilWeights i * v.gravCoef (st.seri i) (st.sesri i) (st.sei i)))]
  · simp
  · intro i b k l _
    refine forLoop_pointwise2 NUM_ELEMS NC (fun j l y => y + dm.dDensMean_dC j l
      * (st.stencilWeights i * v.gravCoef (st.seri i) (st.sesri i) (st.sei i))) _ b ?_ k l
    intro j c k l _
    exact forLoop_row NC j (fun l y => y + dm.dDensMean_dC j l
      * (st.stencilWeights i * v.gravCoef (st.seri i) (st.sesri i) (st.sei i))) _ c
      (fun _ _ _ _ _ => rfl) k l

/-! ## Lemmas on `fillLocalJacobi` -/

/-- Value of a donor-row entry after the paired write of `x` in row `i` and `y` in row
`NC + i`, both in column `col`. -/
theorem donor_after_write (NC ic0 c i col : Nat) (x y : ℚ) (J : Nat → Nat → ℚ)
    (hic0 : ic0 < NC) :
    setAt2 (setAt2 J i col x) (NC + i) col y ic0 c
      = if i = ic0 ∧ col = c then x else J ic0 c := by
  have h1 : ¬ ic0 = NC + i := by omega
  by_cases h : i = ic0 ∧ col = c
  · obtain ⟨rfl, rfl⟩ := h
    simp [setAt2, h1]
  · have h2 : ¬ (ic0 = i ∧ c = col) := fun hh => h ⟨hh.1.symm, hh.2.symm⟩
    simp [setAt2, h1, h, h2]

/-- Value of a receiver-row entry after the same paired write. -/
theorem receiver_after_write (NC ic0 c i col : Nat) (x y : ℚ) (J : Nat → Nat → ℚ)
    (hi : i < NC) :
    setAt2 (setAt2 J i col x) (NC + i) col y (NC + ic0) c
      = if i = ic0 ∧ col = c then y else J (NC + ic0) c := by
  have h1 : ¬ NC + ic0 = i := by omega
  by_cases h : i = ic0 ∧ col = c
  · obtain ⟨rfl, rfl⟩ := h
    simp [setAt2]
  · have h2 : ¬ (ic0 = i ∧ c = col) := fun hh => h ⟨hh.1.symm, hh.2.symm⟩
    simp [setAt2, h1, h, h2]

/-- A paired write keeps, or creates, the mirror relation between the rows `ic0` and
`NC + ic0` in column `c`. -/
theorem mirror_after_write (NC ic0 c i col : Nat) (dt x : ℚ) (J : Nat → Nat → ℚ)
    (hi : i < NC) (hic0 : ic0 < NC)
    (h : J (NC + ic0) c = - J ic0 c ∨ (i = ic0 ∧ col = c)) :
    setAt2 (setAt2 J i col (dt * x)) (NC + i) col (-dt * x) (NC + ic0) c
      = - setAt2 (setAt2 J i col (dt * x)) (NC + i) col (-dt * x) ic0 c := by
  rw [donor_after_write NC ic0 c i col _ _ J hic0, receiver_after_write NC ic0 c i col _ _ J hi]
  by_cases hw : i = ic0 ∧ col = c
  · simp [hw]
  · rcases h with h | h
    · simp [hw, h]
    · exact absurd h hw


/-- The component loop keeps the mirror relation of column `c` between rows `ic0` and
`NC + ic0`. -/
theorem mirror_comp_preserve (NC NDOF : Nat) (dC : Nat → Nat → Nat → ℚ) (dt : ℚ)
    (ic0 c i ke : Nat) (J : Nat → Nat → ℚ) (hi : i < NC) (hic0 : ic0 < NC)
    (h : J (NC + ic0) c = - J ic0 c) :
    fillLocalJacobiComp NC NDOF dC dt i ke J (NC + ic0) c
      = - fillLocalJacobiComp NC NDOF dC dt i ke J ic0 c := by
  unfold fillLocalJacobiComp
  refine forLoop_preserve (fun K => K (NC + ic0) c = - K ic0 c) NC _ J ?_ h
  intro jc K _ hK
  exact mirror_after_write NC ic0 c i (ke * NDOF + jc + 1) dt _ K hi hic0 (Or.inl hK)

/-- The component loop of row `ic0` and cell `ke` creates the mirror relation in each of
the columns it writes. -/
theorem mirror_comp_establish (NC NDOF : Nat) (dC : Nat → Nat → Nat → ℚ) (dt : ℚ)
    (ic0 ke jc0 : Nat) (J : Nat → Nat → ℚ) (hic0 : ic0 < NC) (hjc0 : jc0 < NC) :
    fillLocalJacobiComp NC NDOF dC dt ic0 ke J (NC + ic0) (ke * NDOF + jc0 + 1)
      = - fillLocalJacobiComp NC NDOF dC dt ic0 ke J ic0 (ke * NDOF + jc0 + 1) := by
  unfold fillLocalJacobiComp
  refine forLoop_establish (fun K => K (NC + ic0) (ke * NDOF + jc0 + 1)
      = - K ic0 (ke * NDOF + jc0 + 1)) jc0 NC _ J hjc0 ?_ ?_
  · intro K
    exact mirror_after_write NC ic0 (ke * NDOF + jc0 + 1) ic0 (ke * NDOF + jc0 + 1) dt _ K
      hic0 hic0 (Or.inr ⟨rfl, rfl⟩)
  · intro jc K _ _ hK
    exact mirror_after_write NC ic0 (ke * NDOF + jc0 + 1) ic0 (ke * NDOF + jc + 1) dt _ K
      hic0 hic0 (Or.inl hK)

/-- One iteration of the stencil loop keeps the mirror relation of column `c`. -/
theorem mirror_stencil_step (NC NDOF : Nat) (dP : Nat → Nat → ℚ) (dC : Nat → Nat → Nat → ℚ)
    (dt : ℚ) (ic0 c i ke : Nat) (K : Nat → Nat → ℚ) (hi : i < NC) (hic0 : ic0 < NC)
    (h : K (NC + ic0) c = - K ic0 c ∨ (i = ic0 ∧ ke * NDOF = c)) :
    fillLocalJacobiComp NC NDOF dC dt i ke
        (setAt2 (setAt2 K i (ke * NDOF) (dt * dP ke i)) (NC + i) (ke * NDOF) (-dt * dP ke i))
        (NC + ic0) c
      = - fillLocalJacobiComp NC NDOF dC dt i ke
        (setAt2 (setAt2 K i (ke * NDOF) (dt * dP ke i)) (NC + i) (ke * NDOF) (-dt * dP ke i))
        ic0 c :=
  mirror_comp_preserve NC NDOF dC dt ic0 c i ke _ hi hic0
    (mirror_after_write NC ic0 c i _ dt _ K hi hic0 h)

/-- The stencil loop keeps the mirror relation of column `c`. -/
theorem mirror_stencil_preserve (NC NDOF : Nat) (dP : Nat → Nat → ℚ)
    (dC : Nat → Nat → Nat → ℚ) (stencilSize : Nat) (dt : ℚ) (ic0 c i : Nat)
    (J : Nat → Nat → ℚ) (hi : i < NC) (hic0 : ic0 < NC) (h : J (NC + ic0) c = - J ic0 c) :
    fillLocalJacobiStencil NC NDOF dP dC stencilSize dt i J (NC + ic0) c
      = - fillLocalJacobiStencil NC NDOF dP dC stencilSize dt i J ic0 c := by
  unfold fillLocalJacobiStencil
  refine forLoop_preserve (fun K => K (NC + ic0) c = - K ic0 c) stencilSize _ J ?_ h
  intro ke K _ hK
  exact mirror_stencil_step NC NDOF dP dC dt ic0 c i ke K hi hic0 (Or.inl hK)

/-- The stencil loop of row `ic0` creates the mirror relation in the pressure column of
every stencil cell. -/
theorem mirror_stencil_pres (NC NDOF : Nat) (dP : Nat → Nat → ℚ)
    (dC : Nat → Nat → Nat → ℚ) (stencilSize : Nat) (dt : ℚ) (ic0 ke0 : Nat)
    (J : Nat → Nat → ℚ) (hic0 : ic0 < NC) (hke0 : ke0 < stencilSize) :
    fillLocalJacobiStencil NC NDOF dP dC stencilSize dt ic0 J (NC + ic0) (ke0 * NDOF)
      = - fillLocalJacobiStencil NC NDOF dP dC stencilSize dt ic0 J ic0 (ke0 * NDOF) := by
  unfold fillLocalJacobiStencil
  refine forLoop_establish (fun K => K (NC + ic0) (ke0 * NDOF) = - K ic0 (ke0 * NDOF))
    ke0 stencilSize _ J hke0 ?_ ?_
  · intro K
    exact mirror_stencil_step NC NDOF dP dC dt ic0 (ke0 * NDOF) ic0 ke0 K hic0 hic0
      (Or.inr ⟨rfl, rfl⟩)
  · intro ke K _ _ hK
    exact mirror_stencil_step NC NDOF dP dC dt ic0 (ke0 * NDOF) ic0 ke K hic0 hic0
      (Or.inl hK)

/-- The stencil loop of row `ic0` creates the mirror relation in every component column of
every stencil cell. -/
theorem mirror_stencil_comp (NC NDOF : Nat) (dP : Nat → Nat → ℚ)
    (dC : Nat → Nat → Nat → ℚ) (stencilSize : Nat) (dt : ℚ) (ic0 ke0 jc0 : Nat)
    (J : Nat → Nat → ℚ) (hic0 : ic0 < NC) (hke0 : ke0 < stencilSize) (hjc0 : jc0 < NC) :
    fillLocalJacobiStencil NC NDOF dP dC stencilSize dt ic0 J (NC + ic0)
        (ke0 * NDOF + jc0 + 1)
      = - fillLocalJacobiStencil NC NDOF dP dC stencilSize dt ic0 J ic0
        (ke0 * NDOF + jc0 + 1) := by
  unfold fillLocalJacobiStencil
  refine forLoop_establish (fun K => K (NC + ic0) (ke0 * NDOF + jc0 + 1)
      = - K ic0 (ke0 * NDOF + jc0 + 1)) ke0 stencilSize _ J hke0 ?_ ?_
  · intro K
    exact mirror_comp_establish NC NDOF dC dt ic0 ke0 jc0 _ hic0 hjc0
  · intro ke K _ _ hK
    exact mirror_stencil_step NC NDOF dP dC dt ic0 (ke0 * NDOF + jc0 + 1) ic0 ke K hic0 hic0
      (Or.inl hK)

/-- The whole of `fillLocalJacobi` leaves the rows `ic0` and `NC + ic0` mirrored in every
column the stencil loop of row `ic0` mirrors from an arbitrary start. -/
theorem mirror_fillLocalJacobi (NC MAX_STENCIL NDOF : Nat) (compFlux : Nat → ℚ)
    (dP : Nat → Nat → ℚ) (dC : Nat → Nat → Nat → ℚ) (stencilSize : Nat) (dt : ℚ)
    (blk : LocalBlock) (ic0 c : Nat) (hic0 : ic0 < NC)
    (hrow : ∀ J : Nat → Nat → ℚ,
      fillLocalJacobiStencil NC NDOF dP dC stencilSize dt ic0 J (NC + ic0) c
        = - fillLocalJacobiStencil NC NDOF dP dC stencilSize dt ic0 J ic0 c) :
    (fillLocalJacobi NC MAX_STENCIL NDOF compFlux dP dC stencilSize dt blk).localFluxJacobian
        (NC + ic0) c
      = - (fillLocalJacobi NC MAX_STENCIL NDOF compFlux dP dC stencilSize dt
        blk).localFluxJacobian ic0 c := by
  unfold fillLocalJacobi
  refine forLoop_establish
    (fun b : LocalBlock => b.localFluxJacobian (NC + ic0) c = - b.localFluxJacobian ic0 c)
    ic0 NC _ blk hic0 ?_ ?_
  · intro b
    exact hrow b.localFluxJacobian
  · intro i b hi _ hb
    exact mirror_stencil_preserve NC NDOF dP dC stencilSize dt ic0 c i _ hi hic0 hb

/-- Residual entries of `fillLocalJacobi` for component `ic0`. -/
theorem localFlux_fillLocalJacobi (NC MAX_STENCIL NDOF : Nat) (compFlux : Nat → ℚ)
    (dP : Nat → Nat → ℚ) (dC : Nat → Nat → Nat → ℚ) (stencilSize : Nat) (dt : ℚ)
    (blk : LocalBlock) (ic0 : Nat) (hic0 : ic0 < NC) :
    (fillLocalJacobi NC MAX_STENCIL NDOF compFlux dP dC stencilSize dt blk).localFlux ic0
        = dt * compFlux ic0 ∧
    (fillLocalJacobi NC MAX_STENCIL NDOF compFlux dP dC stencilSize dt blk).localFlux
        (NC + ic0) = -(dt * compFlux ic0) := by
  unfold fillLocalJacobi
  refine forLoop_establish
    (fun b : LocalBlock => b.localFlux ic0 = dt * compFlux ic0 ∧
      b.localFlux (NC + ic0) = -(dt * compFlux ic0)) ic0 NC _ blk hic0 ?_ ?_
  · intro b
    have h1 : ¬ ic0 = NC + ic0 := by omega
    simp [setAt, h1]
  · intro i b hi hne hb
    have h1 : ¬ ic0 = NC + i := by omega
    have h2 : ¬ ic0 = i := fun h => hne h.symm
    have h3 : ¬ NC + ic0 = i := by omega
    have h4 : ¬ ic0 = i := h2
    simp [setAt, h1, h2, h3, hb.1, hb.2]


/-- Columns `ke * (n+1) + slot` with `slot ≤ n` determine the cell `ke`. -/
theorem dof_column_cell (n a b s t : Nat) (hs : s ≤ n) (ht : t ≤ n)
    (h : a * (n + 1) + s = b * (n + 1) + t) : a = b := by
  rcases Nat.lt_trichotomy a b with hab | hab | hab
  · have h1 : (a + 1) * (n + 1) ≤ b * (n + 1) := Nat.mul_le_mul_right _ hab
    rw [Nat.succ_mul] at h1
    omega
  · exact hab
  · have h1 : (b + 1) * (n + 1) ≤ a * (n + 1) := Nat.mul_le_mul_right _ hab
    rw [Nat.succ_mul] at h1
    omega

/-- The component loop leaves a donor-row entry alone when it works on another row or
writes no column equal to `c`. -/
theorem donor_comp_untouched (NC NDOF : Nat) (dC : Nat → Nat → Nat → ℚ) (dt : ℚ)
    (ic0 c i ke : Nat) (J : Nat → Nat → ℚ) (hic0 : ic0 < NC)
    (h : i ≠ ic0 ∨ ∀ jc, jc < NC → ke * NDOF + jc + 1 ≠ c) :
    fillLocalJacobiComp NC NDOF dC dt i ke J ic0 c = J ic0 c := by
  unfold fillLocalJacobiComp
  refine forLoop_preserve (fun K => K ic0 c = J ic0 c) NC _ J ?_ rfl
  intro jc K hjc hK
  show setAt2 (setAt2 K i (ke * NDOF + jc + 1) _) (NC + i) (ke * NDOF + jc + 1) _ ic0 c = _
  rw [donor_after_write NC ic0 c i _ _ _ K hic0]
  have hw : ¬ (i = ic0 ∧ ke * NDOF + jc + 1 = c) := by
    rintro ⟨h1, h2⟩
    rcases h with h | h
    · exact h h1
    · exact h jc hjc h2
  simp [hw, hK]

/-- The component loop of row `ic0` writes `dt * dCompFlux_dC[ke][ic0][jc0]` in column
`ke * NDOF + jc0 + 1`. -/
theorem donor_comp_value (NC NDOF : Nat) (dC : Nat → Nat → Nat → ℚ) (dt : ℚ)
    (ic0 ke jc0 : Nat) (J : Nat → Nat → ℚ) (hic0 : ic0 < NC) (hjc0 : jc0 < NC) :
    fillLocalJacobiComp NC NDOF dC dt ic0 ke J ic0 (ke * NDOF + jc0 + 1)
      = dt * dC ke ic0 jc0 := by
  unfold fillLocalJacobiComp
  refine forLoop_establish (fun K => K ic0 (ke * NDOF + jc0 + 1) = dt * dC ke ic0 jc0)
    jc0 NC _ J hjc0 ?_ ?_
  · intro K
    show setAt2 (setAt2 K ic0 (ke * NDOF + jc0 + 1) _) (NC + ic0) (ke * NDOF + jc0 + 1) _
      ic0 (ke * NDOF + jc0 + 1) = _
    rw [donor_after_write NC ic0 _ ic0 _ _ _ K hic0]
    simp
  · intro jc K _ hne hK
    show setAt2 (setAt2 K ic0 (ke * NDOF + jc + 1) _) (NC + ic0) (ke * NDOF + jc + 1) _
      ic0 (ke * NDOF + jc0 + 1) = _
    rw [donor_after_write NC ic0 _ ic0 _ _ _ K hic0]
    have hw : ¬ (ke * NDOF + jc + 1 = ke * NDOF + jc0 + 1) := by omega
    simp [hw, hK]

/-- The stencil loop of another row leaves the donor row `ic0` alone. -/
theorem donor_stencil_untouched (NC NDOF : Nat) (dP : Nat → Nat → ℚ)
    (dC : Nat → Nat → Nat → ℚ) (stencilSize : Nat) (dt : ℚ) (ic0 c i : Nat)
    (J : Nat → Nat → ℚ) (hic0 : ic0 < NC) (hne : i ≠ ic0) :
    fillLocalJacobiStencil NC NDOF dP dC stencilSize dt i J ic0 c = J ic0 c := by
  unfold fillLocalJacobiStencil
  refine forLoop_preserve (fun K => K ic0 c = J ic0 c) stencilSize _ J ?_ rfl
  intro ke K _ hK
  show fillLocalJacobiComp NC NDOF dC dt i ke
    (setAt2 (setAt2 K i (ke * NDOF) _) (NC + i) (ke * NDOF) _) ic0 c = _
  rw [donor_comp_untouched NC NDOF dC dt ic0 c i ke _ hic0 (Or.inl hne),
    donor_after_write NC ic0 c i _ _ _ K hic0]
  have hw : ¬ (i = ic0 ∧ ke * NDOF = c) := fun hh => hne hh.1
  simp [hw, hK]

/-- With `NDOF = NC + 1`, the stencil loop of row `ic0` leaves `dt * dCompFlux_dP[ke0][ic0]`
in the pressure column of cell `ke0`. -/
theorem donor_stencil_pres (NC : Nat) (dP : Nat → Nat → ℚ)
    (dC : Nat → Nat → Nat → ℚ) (stencilSize : Nat) (dt : ℚ) (ic0 ke0 : Nat)
    (J : Nat → Nat → ℚ) (hic0 : ic0 < NC) (hke0 : ke0 < stencilSize) :
    fillLocalJacobiStencil NC (NC + 1) dP dC stencilSize dt ic0 J ic0 (ke0 * (NC + 1))
      = dt * dP ke0 ic0 := by
  unfold fillLocalJacobiStencil
  refine forLoop_establish (fun K => K ic0 (ke0 * (NC + 1)) = dt * dP ke0 ic0)
    ke0 stencilSize _ J hke0 ?_ ?_
  · intro K
    show fillLocalJacobiComp NC (NC + 1) dC dt ic0 ke0
      (setAt2 (setAt2 K ic0 (ke0 * (NC + 1)) _) (NC + ic0) (ke0 * (NC + 1)) _) ic0
      (ke0 * (NC + 1)) = _
    rw [donor_comp_untouched NC (NC + 1) dC dt ic0 _ ic0 ke0 _ hic0
        (Or.inr (fun jc _ => by omega)),
      donor_after_write NC ic0 _ ic0 _ _ _ K hic0]
    simp
  · intro ke K _ hne hK
    show fillLocalJacobiComp NC (NC + 1) dC dt ic0 ke
      (setAt2 (setAt2 K ic0 (ke * (NC + 1)) _) (NC + ic0) (ke * (NC + 1)) _) ic0
      (ke0 * (NC + 1)) = _
    have hcol : ∀ jc, jc < NC → ke * (NC + 1) + jc + 1 ≠ ke0 * (NC + 1) := by
      intro jc hjc hEq
      exact hne (dof_column_cell NC ke ke0 (jc + 1) 0 (by omega) (by omega)
        (by omega))
    rw [donor_comp_untouched NC (NC + 1) dC dt ic0 _ ic0 ke _ hic0 (Or.inr hcol),
      donor_after_write NC ic0 _ ic0 _ _ _ K hic0]
    have hw : ¬ (ke * (NC + 1) = ke0 * (NC + 1)) := by
      intro hEq
      exact hne (dof_column_cell NC ke ke0 0 0 (by omega) (by omega) (by omega))
    simp [hw, hK]

/-- With `NDOF = NC + 1`, the stencil loop of row `ic0` leaves
`dt * dCompFlux_dC[ke0][ic0][jc0]` in column `ke0 * NDOF + 1 + jc0`. -/
theorem donor_stencil_comp (NC : Nat) (dP : Nat → Nat → ℚ)
    (dC : Nat → Nat → Nat → ℚ) (stencilSize : Nat) (dt : ℚ) (ic0 ke0 jc0 : Nat)
    (J : Nat → Nat → ℚ) (hic0 : ic0 < NC) (hke0 : ke0 < stencilSize) (hjc0 : jc0 < NC) :
    fillLocalJacobiStencil NC (NC + 1) dP dC stencilSize dt ic0 J ic0
        (ke0 * (NC + 1) + jc0 + 1) = dt * dC ke0 ic0 jc0 := by
  unfold fillLocalJacobiStencil
  refine forLoop_establish (fun K => K ic0 (ke0 * (NC + 1) + jc0 + 1) = dt * dC ke0 ic0 jc0)
    ke0 stencilSize _ J hke0 ?_ ?_
  · intro K
    exact donor_comp_value NC (NC + 1) dC dt ic0 ke0 jc0 _ hic0 hjc0
  · intro ke K _ hne hK
    show fillLocalJacobiComp NC (NC + 1) dC dt ic0 ke
      (setAt2 (setAt2 K ic0 (ke * (NC + 1)) _) (NC + ic0) (ke * (NC + 1)) _) ic0
      (ke0 * (NC + 1) + jc0 + 1) = _
    have hcol : ∀ jc, jc < NC → ke * (NC + 1) + jc + 1 ≠ ke0 * (NC + 1) + jc0 + 1 := by
      intro jc hjc hEq
      exact hne (dof_column_cell NC ke ke0 (jc + 1) (jc0 + 1) (by omega) (by omega)
        (by omega))
    rw [donor_comp_untouched NC (NC + 1) dC dt ic0 _ ic0 ke _ hic0 (Or.inr hcol),
      donor_after_write NC ic0 _ ic0 _ _ _ K hic0]
    have hw : ¬ (ke * (NC + 1) = ke0 * (NC + 1) + jc0 + 1) := by
      intro hEq
      exact hne (dof_column_cell NC ke ke0 0 (jc0 + 1) (by omega) (by omega) (by omega))
    simp [hw, hK]

/-- A donor-row entry of `fillLocalJacobi` is the one its own stencil loop leaves, whenever
that value does not depend on the prior contents. -/
theorem donor_fillLocalJacobi (NC MAX_STENCIL NDOF : Nat) (compFlux : Nat → ℚ)
    (dP : Nat → Nat → ℚ) (dC : Nat → Nat → Nat → ℚ) (stencilSize : Nat) (dt : ℚ)
    (blk : LocalBlock) (ic0 c : Nat) (v : ℚ) (hic0 : ic0 < NC)
    (hrow : ∀ J : Nat → Nat → ℚ,
      fillLocalJacobiStencil NC NDOF dP dC stencilSize dt ic0 J ic0 c = v) :
    (fillLocalJacobi NC MAX_STENCIL NDOF compFlux dP dC stencilSize dt blk).localFluxJacobian
        ic0 c = v := by
  unfold fillLocalJacobi
  refine forLoop_establish (fun b : LocalBlock => b.localFluxJacobian ic0 c = v)
    ic0 NC _ blk hic0 ?_ ?_
  · intro b
    exact hrow b.localFluxJacobian
  · intro i b _ hne hb
    show fillLocalJacobiStencil NC NDOF dP dC stencilSize dt i b.localFluxJacobian ic0 c = v
    rw [donor_stencil_untouched NC NDOF dP dC stencilSize dt ic0 c i _ hic0 hne]
    exact hb

/-! ## Claims on `fillLocalJacobi` -/

/-- C1. `fillLocalJacobi` is antisymmetric between the donor row `ic` and the receiver row
`NC + ic`: after the call `localFlux[ic] = dt * compFlux[ic]`,
`localFlux[NC + ic] = -localFlux[ic]`, and in every column written by the call (the
pressure column `ke * NDOF` and the component columns `ke * NDOF + jc + 1` of every stencil
cell) the receiver entry of the Jacobian is the negative of the donor entry.  This holds
for every `NDOF`, prior buffer contents and input. -/
theorem fillLocalJacobi_antisymmetric (NC MAX_STENCIL NDOF : Nat) (compFlux : Nat → ℚ)
    (dCompFlux_dP : Nat → Nat → ℚ) (dCompFlux_dC : Nat → Nat → Nat → ℚ)
    (stencilSize : Nat) (dt : ℚ) (blk : LocalBlock) (ic : Nat) (hic : ic < NC) :
    (fillLocalJacobi NC MAX_STENCIL NDOF compFlux dCompFlux_dP dCompFlux_dC stencilSize dt
        blk).localFlux ic = dt * compFlux ic ∧
    (fillLocalJacobi NC MAX_STENCIL NDOF compFlux dCompFlux_dP dCompFlux_dC stencilSize dt
        blk).localFlux (NC + ic)
      = - (fillLocalJacobi NC MAX_STENCIL NDOF compFlux dCompFlux_dP dCompFlux_dC stencilSize
        dt blk).localFlux ic ∧
    ∀ ke, ke < stencilSize →
      ((fillLocalJacobi NC MAX_STENCIL NDOF compFlux dCompFlux_dP dCompFlux_dC stencilSize dt
          blk).localFluxJacobian (NC + ic) (ke * NDOF)
        = - (fillLocalJacobi NC MAX_STENCIL NDOF compFlux dCompFlux_dP dCompFlux_dC
          stencilSize dt blk).localFluxJacobian ic (ke * NDOF)) ∧
      ∀ jc, jc < NC →
        (fillLocalJacobi NC MAX_STENCIL NDOF compFlux dCompFlux_dP dCompFlux_dC stencilSize dt
            blk).localFluxJacobian (NC + ic) (ke * NDOF + jc + 1)
          = - (fillLocalJacobi NC MAX_STENCIL NDOF compFlux dCompFlux_dP dCompFlux_dC
            stencilSize dt blk).localFluxJacobian ic (ke * NDOF + jc + 1) := by
  have hlf := localFlux_fillLocalJacobi NC MAX_STENCIL NDOF compFlux dCompFlux_dP dCompFlux_dC
    stencilSize dt blk ic hic
  refine ⟨hlf.1, ?_, ?_⟩
  · rw [hlf.2, hlf.1]
  · intro ke hke
    refine ⟨?_, ?_⟩
    · exact mirror_fillLocalJacobi NC MAX_STENCIL NDOF compFlux dCompFlux_dP dCompFlux_dC
        stencilSize dt blk ic _ hic
        (fun J => mirror_stencil_pres NC NDOF dCompFlux_dP dCompFlux_dC stencilSize dt ic ke J
          hic hke)
    · intro jc hjc
      exact mirror_fillLocalJacobi NC MAX_STENCIL NDOF compFlux dCompFlux_dP dCompFlux_dC
        stencilSize dt blk ic _ hic
        (fun J => mirror_stencil_comp NC NDOF dCompFlux_dP dCompFlux_dC stencilSize dt ic ke jc
          J hic hke hjc)

/-- Witness of C1: two components, a two-cell stencil, `NDOF = 3`, component 1. -/
theorem fillLocalJacobi_antisymmetric_witness :
    (1 : Nat) < 2 ∧
    (fillLocalJacobi 2 2 3 (fun ic => (ic : ℚ) + 1) (fun ke ic => (ke : ℚ) - ic)
        (fun ke ic jc => (ke : ℚ) + ic * jc) 2 (1 / 2) ⟨fun _ => 7, fun _ _ => 9⟩).localFlux
        (2 + 1)
      = - (fillLocalJacobi 2 2 3 (fun ic => (ic : ℚ) + 1) (fun ke ic => (ke : ℚ) - ic)
        (fun ke ic jc => (ke : ℚ) + ic * jc) 2 (1 / 2) ⟨fun _ => 7, fun _ _ => 9⟩).localFlux
        1 :=
  ⟨by decide,
    (fillLocalJacobi_antisymmetric 2 2 3 (fun ic => (ic : ℚ) + 1) (fun ke ic => (ke : ℚ) - ic)
      (fun ke ic jc => (ke : ℚ) + ic * jc) 2 (1 / 2) ⟨fun _ => 7, fun _ _ => 9⟩ 1
      (by decide)).2.1⟩

/-- C2. `fillLocalJacobi` keeps the column ordering `[pressure, comp_0 ... comp_{NC-1}]`
per stencil cell: with `NDOF = NC + 1`, for every `ic < NC`, `ke < stencilSize` and
`jc < NC`, `localFluxJacobian[ic][ke*NDOF] = dt * dCompFlux_dP[ke][ic]` and
`localFluxJacobian[ic][ke*NDOF + 1 + jc] = dt * dCompFlux_dC[ke][ic][jc]`. -/
theorem fillLocalJacobi_column_ordering (NC MAX_STENCIL : Nat) (compFlux : Nat → ℚ)
    (dCompFlux_dP : Nat → Nat → ℚ) (dCompFlux_dC : Nat → Nat → Nat → ℚ)
    (stencilSize : Nat) (dt : ℚ) (blk : LocalBlock) (ic ke jc : Nat)
    (hic : ic < NC) (hke : ke < stencilSize) (hjc : jc < NC) :
    (fillLocalJacobi NC MAX_STENCIL (NC + 1) compFlux dCompFlux_dP dCompFlux_dC stencilSize dt
        blk).localFluxJacobian ic (ke * (NC + 1)) = dt * dCompFlux_dP ke ic ∧
    (fillLocalJacobi NC MAX_STENCIL (NC + 1) compFlux dCompFlux_dP dCompFlux_dC stencilSize dt
        blk).localFluxJacobian ic (ke * (NC + 1) + 1 + jc) = dt * dCompFlux_dC ke ic jc := by
  refine ⟨?_, ?_⟩
  · exact donor_fillLocalJacobi NC MAX_STENCIL (NC + 1) compFlux dCompFlux_dP dCompFlux_dC
      stencilSize dt blk ic _ _ hic
      (fun J => donor_stencil_pres NC dCompFlux_dP dCompFlux_dC stencilSize dt ic ke J hic hke)
  · have hcol : ke * (NC + 1) + 1 + jc = ke * (NC + 1) + jc + 1 := by omega
    rw [hcol]
    exact donor_fillLocalJacobi NC MAX_STENCIL (NC + 1) compFlux dCompFlux_dP dCompFlux_dC
      stencilSize dt blk ic _ _ hic
      (fun J => donor_stencil_comp NC dCompFlux_dP dCompFlux_dC stencilSize dt ic ke jc J hic
        hke hjc)

/-- Witness of C2: two components, two cells, row 1, cell 1, component column 0. -/
theorem fillLocalJacobi_column_ordering_witness :
    ((1 : Nat) < 2 ∧ (1 : Nat) < 2 ∧ (0 : Nat) < 2) ∧
    (fillLocalJacobi 2 2 (2 + 1) (fun ic => (ic : ℚ) + 1) (fun ke ic => (ke : ℚ) - ic)
        (fun ke ic jc => (ke : ℚ) + ic * jc) 2 (1 / 2)
        ⟨fun _ => 7, fun _ _ => 9⟩).localFluxJacobian 1 (1 * (2 + 1))
      = (1 / 2) * ((fun ke ic => (ke : ℚ) - ic) 1 1 : ℚ) :=
  ⟨by decide,
    (fillLocalJacobi_column_ordering 2 2 (fun ic => (ic : ℚ) + 1) (fun ke ic => (ke : ℚ) - ic)
      (fun ke ic jc => (ke : ℚ) + ic * jc) 2 (1 / 2) ⟨fun _ => 7, fun _ _ => 9⟩ 1 1 0
      (by decide) (by decide) (by decide)).1⟩


/-! ## Results of `formPPUVelocity` -/

/-- The mean density of `formPPUVelocity` with two primary cells. -/
theorem formPPUVelocityDensMean_two (NC ip : Nat) (st : Stencil) (v : ElementViews) :
    (formPPUVelocityDensMean NC 2 ip st v).densMean
      = 0.5 * (v.phaseMassDens (st.seri 0) (st.sesri 0) (st.sei 0) 0 ip
          + v.phaseMassDens (st.seri 1) (st.sesri 1) (st.sei 1) 0 ip) := by
  rw [formPPUVelocityDensMean_densMean]
  simp [Finset.sum_range_succ]
  ring

/-- The potential of `formPPUVelocity` in closed form. -/
theorem formPPUVelocityPotGrad_apply (NC NUM_ELEMS numPhase ip stencilSize : Nat)
    (st : Stencil) (v : ElementViews) (capPressureFlag : Int) :
    formPPUVelocityPotGrad NC NUM_ELEMS numPhase ip stencilSize st v capPressureFlag
      = presGradSum ip stencilSize st v capPressureFlag
        - (formPPUVelocityDensMean NC NUM_ELEMS ip st v).densMean
          * gravCoefSum stencilSize st v := by
  unfold formPPUVelocityPotGrad formPPUVelocityLocals presGradSum gravCoefSum capPressureTerm
  rw [formPPUVelocityPot_presGrad, formPPUVelocityPot_gravHead, Finset.mul_sum]

/-- Pressure derivative of the potential of `formPPUVelocity` at stencil cell `k`, as
accumulated in the locals. -/
theorem formPPUVelocityLocals_dP (NC NUM_ELEMS numPhase ip stencilSize : Nat)
    (st : Stencil) (v : ElementViews) (capPressureFlag : Int) (k : Nat) :
    (formPPUVelocityLocals NC NUM_ELEMS numPhase ip stencilSize st v capPressureFlag).dPresGrad_dP k
        = (if k < stencilSize then
            st.stencilWeights k * (1 - dCapPressure_dPTerm numPhase ip st v capPressureFlag k)
          else 0) ∧
    (formPPUVelocityLocals NC NUM_ELEMS numPhase ip stencilSize st v capPressureFlag).dGravHead_dP k
        = (if k < NUM_ELEMS then
            0.5 * v.dPhaseMassDens_dPres (st.seri k) (st.sesri k) (st.sei k) 0 ip
              * gravCoefSum stencilSize st v
          else 0) := by
  unfold formPPUVelocityLocals dCapPressure_dPTerm gravCoefSum
  rw [formPPUVelocityPot_dPresGrad_dP, formPPUVelocityPot_dGravHead_dP,
    formPPUVelocityDensMean_dP]
  refine ⟨rfl, ?_⟩
  by_cases hk : k < NUM_ELEMS
  · simp only [if_pos hk]
    rw [Finset.mul_sum]
  · simp only [if_neg hk]

/-- Component-density derivative of the potential of `formPPUVelocity` at stencil cell `k`,
as accumulated in the locals. -/
theorem formPPUVelocityLocals_dC (NC NUM_ELEMS numPhase ip stencilSize : Nat)
    (st : Stencil) (v : ElementViews) (capPressureFlag : Int) (k jc : Nat) :
    (formPPUVelocityLocals NC NUM_ELEMS numPhase ip stencilSize st v
        capPressureFlag).dPresGrad_dC k jc
        = (if k < stencilSize ∧ jc < NC then
            -st.stencilWeights k * dCapPressure_dCTerm numPhase ip st v capPressureFlag k jc
          else 0) ∧
    (formPPUVelocityLocals NC NUM_ELEMS numPhase ip stencilSize st v
        capPressureFlag).dGravHead_dC k jc
        = (if k < NUM_ELEMS ∧ jc < NC then
            0.5 * dMassDens_dCTerm NC ip st v k jc * gravCoefSum stencilSize st v
          else 0) := by
  unfold formPPUVelocityLocals dCapPressure_dCTerm gravCoefSum dMassDens_dCTerm
  rw [formPPUVelocityPot_dPresGrad_dC, formPPUVelocityPot_dGravHead_dC,
    formPPUVelocityDensMean_dC]
  refine ⟨rfl, ?_⟩
  by_cases hk : k < NUM_ELEMS ∧ jc < NC
  · simp only [if_pos hk]
    rw [Finset.mul_sum]
  · simp only [if_neg hk]

/-- The outputs `k_up` and `phaseFlux` of `formPPUVelocity` do not depend on the prior
contents of the derivative arrays. -/
theorem formPPUVelocity_k_up (NC NUM_ELEMS MAX_STENCIL numPhase ip stencilSize : Nat)
    (st : Stencil) (v : ElementViews) (capPressureFlag : Int) (a : Nat → ℚ)
    (A : Nat → Nat → ℚ) :
    (formPPUVelocity NC NUM_ELEMS MAX_STENCIL numPhase ip stencilSize st v capPressureFlag
        a A).k_up
      = formPPUVelocityUpwind NC NUM_ELEMS numPhase ip stencilSize st v capPressureFlag := rfl

/-- The phase flux of `formPPUVelocity` is the upstream mobility times the potential. -/
theorem formPPUVelocity_phaseFlux (NC NUM_ELEMS MAX_STENCIL numPhase ip stencilSize : Nat)
    (st : Stencil) (v : ElementViews) (capPressureFlag : Int) (a : Nat → ℚ)
    (A : Nat → Nat → ℚ) :
    (formPPUVelocity NC NUM_ELEMS MAX_STENCIL numPhase ip stencilSize st v capPressureFlag
        a A).phaseFlux
      = v.phaseMob
          (st.seri (formPPUVelocityUpwind NC NUM_ELEMS numPhase ip stencilSize st v
            capPressureFlag))
          (st.sesri (formPPUVelocityUpwind NC NUM_ELEMS numPhase ip stencilSize st v
            capPressureFlag))
          (st.sei (formPPUVelocityUpwind NC NUM_ELEMS numPhase ip stencilSize st v
            capPressureFlag)) ip
        * formPPUVelocityPotGrad NC NUM_ELEMS numPhase ip stencilSize st v capPressureFlag :=
  rfl

/-- First component of a loop over the stencil cells that rewrites `dP[ke]` and the first
`m` entries of the row `dC[ke]`. -/
theorem pairLoop_fst (n m : Nat) (f : Nat → ℚ → ℚ) (G : Nat → Nat → ℚ → ℚ)
    (d : (Nat → ℚ) × (Nat → Nat → ℚ)) :
    (forLoop n (fun ke (d : (Nat → ℚ) × (Nat → Nat → ℚ)) =>
        (setAt d.1 ke (f ke (d.1 ke)),
          forLoop m (fun jc a => setAt2 a ke jc (G ke jc (a ke jc))) d.2)) d).1
      = fun k => if k < n then f k (d.1 k) else d.1 k := by
  funext k
  rw [forLoop_proj Prod.fst n _ (fun ke a => setAt a ke (f ke (a ke))) d (fun _ _ _ => rfl)]
  exact forLoop_pointwise n f _ d.1 (fun _ _ _ _ => rfl) k

/-- Second component of the same loop. -/
theorem pairLoop_snd (n m : Nat) (f : Nat → ℚ → ℚ) (G : Nat → Nat → ℚ → ℚ)
    (d : (Nat → ℚ) × (Nat → Nat → ℚ)) :
    (forLoop n (fun ke (d : (Nat → ℚ) × (Nat → Nat → ℚ)) =>
        (setAt d.1 ke (f ke (d.1 ke)),
          forLoop m (fun jc a => setAt2 a ke jc (G ke jc (a ke jc))) d.2)) d).2
      = fun k l => if k < n ∧ l < m then G k l (d.2 k l) else d.2 k l := by
  funext k l
  rw [forLoop_proj Prod.snd n _
    (fun ke A => forLoop m (fun jc a => setAt2 a ke jc (G ke jc (a ke jc))) A) d
    (fun _ _ _ => rfl)]
  refine forLoop_pointwise2 n m G _ d.2 ?_ k l
  intro i b k l _
  exact forLoop_row m i (G i) _ b (fun _ _ _ _ _ => rfl) k l

/-- A loop that rewrites the first `m` entries of row `r`. -/
theorem rowLoop_apply (m r : Nat) (g : Nat → ℚ → ℚ) (A : Nat → Nat → ℚ) :
    forLoop m (fun jc a => setAt2 a r jc (g jc (a r jc))) A
      = fun k l => if k = r ∧ l < m then g l (A r l) else A k l := by
  funext k l
  exact forLoop_row m r g _ A (fun _ _ _ _ _ => rfl) k l

/-- Every entry of the returned `dPhaseFlux_dP`, from the prior contents `a`: the four
steps of lines 202-239 in order. -/
theorem formPPUVelocity_dP_apply (NC NUM_ELEMS MAX_STENCIL numPhase ip stencilSize : Nat)
    (st : Stencil) (v : ElementViews) (capPressureFlag : Int) (a : Nat → ℚ)
    (A : Nat → Nat → ℚ) (kup : Nat) (pg : PotGrad) (mobility : ℚ)
    (hkup : kup
      = formPPUVelocityUpwind NC NUM_ELEMS numPhase ip stencilSize st v capPressureFlag)
    (hpg : pg = formPPUVelocityLocals NC NUM_ELEMS numPhase ip stencilSize st v capPressureFlag)
    (hmob : mobility = v.phaseMob (st.seri kup) (st.sesri kup) (st.sei kup) ip) (k : Nat) :
    (formPPUVelocity NC NUM_ELEMS MAX_STENCIL numPhase ip stencilSize st v capPressureFlag
        a A).dPhaseFlux_dP k
      = (if k = kup then
          v.dPhaseMob_dPres (st.seri kup) (st.sesri kup) (st.sei kup) ip
            * formPPUVelocityPotGrad NC NUM_ELEMS numPhase ip stencilSize st v capPressureFlag
        else 0)
        + (if k < stencilSize then mobility else 1)
          * ((if k < stencilSize then a k + pg.dPresGrad_dP k else a k)
            - (if k < NUM_ELEMS then pg.dGravHead_dP k else 0)) := by
  subst hkup hpg hmob
  unfold formPPUVelocity
  simp only []
  rw [pairLoop_fst stencilSize NC (fun _ x => x * _) (fun _ _ x => x * _),
    pairLoop_fst NUM_ELEMS NC (fun ke x => x - _) (fun ke jc x => x - _),
    pairLoop_fst stencilSize NC (fun ke x => x + _) (fun ke jc x => x + _)]
  simp only [setAt]
  by_cases hk : k = formPPUVelocityUpwind NC NUM_ELEMS numPhase ip stencilSize st v
      capPressureFlag
  · subst hk
    split_ifs <;> ring
  · simp only [if_neg hk]
    split_ifs <;> ring

/-- Every entry of the returned `dPhaseFlux_dC`, from the prior contents `A`. -/
theorem formPPUVelocity_dC_apply (NC NUM_ELEMS MAX_STENCIL numPhase ip stencilSize : Nat)
    (st : Stencil) (v : ElementViews) (capPressureFlag : Int) (a : Nat → ℚ)
    (A : Nat → Nat → ℚ) (kup : Nat) (pg : PotGrad) (mobility : ℚ)
    (hkup : kup
      = formPPUVelocityUpwind NC NUM_ELEMS numPhase ip stencilSize st v capPressureFlag)
    (hpg : pg = formPPUVelocityLocals NC NUM_ELEMS numPhase ip stencilSize st v capPressureFlag)
    (hmob : mobility = v.phaseMob (st.seri kup) (st.sesri kup) (st.sei kup) ip) (k jc : Nat) :
    (formPPUVelocity NC NUM_ELEMS MAX_STENCIL numPhase ip stencilSize st v capPressureFlag
        a A).dPhaseFlux_dC k jc
      = (if k = kup ∧ jc < NC then
          v.dPhaseMob_dComp (st.seri kup) (st.sesri kup) (st.sei kup) ip jc
            * formPPUVelocityPotGrad NC NUM_ELEMS numPhase ip stencilSize st v capPressureFlag
        else 0)
        + (if k < stencilSize ∧ jc < NC then mobility else 1)
          * ((if k < stencilSize ∧ jc < NC then A k jc + pg.dPresGrad_dC k jc else A k jc)
            - (if k < NUM_ELEMS ∧ jc < NC then pg.dGravHead_dC k jc else 0)) := by
  subst hkup hpg hmob
  unfold formPPUVelocity
  simp only []
  rw [rowLoop_apply NC _ (fun jc x => x + v.dPhaseMob_dComp
    (st.seri (formPPUVelocityUpwind NC NUM_ELEMS numPhase ip stencilSize st v capPressureFlag))
    (st.sesri (formPPUVelocityUpwind NC NUM_ELEMS numPhase ip stencilSize st v capPressureFlag))
    (st.sei (formPPUVelocityUpwind NC NUM_ELEMS numPhase ip stencilSize st v capPressureFlag))
    ip jc
    * formPPUVelocityPotGrad NC NUM_ELEMS numPhase ip stencilSize st v capPressureFlag)]
  rw [pairLoop_snd stencilSize NC (fun _ x => x * _) (fun _ _ x => x * _),
    pairLoop_snd NUM_ELEMS NC (fun ke x => x - _) (fun ke jc x => x - _),
    pairLoop_snd stencilSize NC (fun ke x => x + _) (fun ke jc x => x + _)]
  by_cases hk : k = formPPUVelocityUpwind NC NUM_ELEMS numPhase ip stencilSize st v
      capPressureFlag ∧ jc < NC
  · obtain ⟨hk1, hk2⟩ := hk
    subst hk1
    simp only [hk2, and_true, if_true]
    split_ifs <;> ring
  · simp only [if_neg hk]
    split_ifs <;> ring


/-- Potential of `formPPUVelocity` on a two-point stencil with weights `+1`, `-1` and
capillarity disabled. -/
theorem formPPUVelocityPotGrad_twoPoint (NC numPhase ip : Nat) (st : Stencil)
    (v : ElementViews) (hw0 : st.stencilWeights 0 = 1) (hw1 : st.stencilWeights 1 = -1) :
    formPPUVelocityPotGrad NC 2 numPhase ip 2 st v 0
      = (v.pres (st.seri 0) (st.sesri 0) (st.sei 0)
          + v.dPres (st.seri 0) (st.sesri 0) (st.sei 0))
        - (v.pres (st.seri 1) (st.sesri 1) (st.sei 1)
          + v.dPres (st.seri 1) (st.sesri 1) (st.sei 1))
        - 0.5 * (v.phaseMassDens (st.seri 0) (st.sesri 0) (st.sei 0) 0 ip
            + v.phaseMassDens (st.seri 1) (st.sesri 1) (st.sei 1) 0 ip)
          * (v.gravCoef (st.seri 0) (st.sesri 0) (st.sei 0)
            - v.gravCoef (st.seri 1) (st.sesri 1) (st.sei 1)) := by
  rw [formPPUVelocityPotGrad_apply, formPPUVelocityDensMean_two]
  simp only [presGradSum, gravCoefSum, capPressureTerm, Finset.sum_range_succ,
    Finset.sum_range_zero, hw0, hw1]
  simp
  ring

/-! ## Claims on `formPPUVelocity` -/

/-- C3. `formPPUVelocity` returns `phaseFlux = phaseMob[k_up][ip] * pot` with
`pot = presGrad - gravHead`, `presGrad` the sum over all `i < stencilSize` of
`weight[i] * (pres[i] + dPres[i] - capPressure[i])` (capillary pressure taken as `0` when
`capPressureFlag` is `0`) and `gravHead = 0.5 * (massDens[0] + massDens[1])` times the sum
over all `i < stencilSize` of `weight[i] * gravCoef[i]`, for `NUM_ELEMS = 2 ≤ stencilSize`. -/
theorem formPPUVelocity_phaseFlux_value (NC MAX_STENCIL numPhase ip stencilSize : Nat)
    (st : Stencil) (v : ElementViews) (capPressureFlag : Int) (a : Nat → ℚ)
    (A : Nat → Nat → ℚ) (_hsize : 2 ≤ stencilSize) :
    (formPPUVelocityLocals NC 2 numPhase ip stencilSize st v capPressureFlag).presGrad
        = Finset.sum (Finset.range stencilSize) (fun i =>
            st.stencilWeights i * (v.pres (st.seri i) (st.sesri i) (st.sei i)
              + v.dPres (st.seri i) (st.sesri i) (st.sei i)
              - (if capPressureFlag ≠ 0 then
                  v.phaseCapPressure (st.seri i) (st.sesri i) (st.sei i) 0 ip else 0))) ∧
    (formPPUVelocityLocals NC 2 numPhase ip stencilSize st v capPressureFlag).gravHead
        = 0.5 * (v.phaseMassDens (st.seri 0) (st.sesri 0) (st.sei 0) 0 ip
            + v.phaseMassDens (st.seri 1) (st.sesri 1) (st.sei 1) 0 ip)
          * Finset.sum (Finset.range stencilSize) (fun i =>
              st.stencilWeights i * v.gravCoef (st.seri i) (st.sesri i) (st.sei i)) ∧
    (formPPUVelocity NC 2 MAX_STENCIL numPhase ip stencilSize st v capPressureFlag
        a A).phaseFlux
      = v.phaseMob
          (st.seri (formPPUVelocity NC 2 MAX_STENCIL numPhase ip stencilSize st v
            capPressureFlag a A).k_up)
          (st.sesri (formPPUVelocity NC 2 MAX_STENCIL numPhase ip stencilSize st v
            capPressureFlag a A).k_up)
          (st.sei (formPPUVelocity NC 2 MAX_STENCIL numPhase ip stencilSize st v
            capPressureFlag a A).k_up) ip
        * ((formPPUVelocityLocals NC 2 numPhase ip stencilSize st v capPressureFlag).presGrad
          - (formPPUVelocityLocals NC 2 numPhase ip stencilSize st v
              capPressureFlag).gravHead) := by
  refine ⟨?_, ?_, rfl⟩
  · unfold formPPUVelocityLocals
    rw [formPPUVelocityPot_presGrad]
  · unfold formPPUVelocityLocals
    rw [formPPUVelocityPot_gravHead, formPPUVelocityDensMean_two, Finset.mul_sum]

/-- Witness of C3: the concrete two-cell scenario. -/
theorem formPPUVelocity_phaseFlux_value_witness :
    (2 ≤ 2) ∧
    (formPPUVelocity 1 2 2 1 0 2 scenarioStencil (scenarioViews 100 90 (4/5) (3/5) (1/4)) 0
        (fun _ => 0) (fun _ _ => 0)).phaseFlux
      = (scenarioViews 100 90 (4/5) (3/5) (1/4)).phaseMob
          (scenarioStencil.seri (formPPUVelocity 1 2 2 1 0 2 scenarioStencil
            (scenarioViews 100 90 (4/5) (3/5) (1/4)) 0 (fun _ => 0) (fun _ _ => 0)).k_up)
          (scenarioStencil.sesri (formPPUVelocity 1 2 2 1 0 2 scenarioStencil
            (scenarioViews 100 90 (4/5) (3/5) (1/4)) 0 (fun _ => 0) (fun _ _ => 0)).k_up)
          (scenarioStencil.sei (formPPUVelocity 1 2 2 1 0 2 scenarioStencil
            (scenarioViews 100 90 (4/5) (3/5) (1/4)) 0 (fun _ => 0) (fun _ _ => 0)).k_up) 0
        * ((formPPUVelocityLocals 1 2 1 0 2 scenarioStencil
            (scenarioViews 100 90 (4/5) (3/5) (1/4)) 0).presGrad
          - (formPPUVelocityLocals 1 2 1 0 2 scenarioStencil
            (scenarioViews 100 90 (4/5) (3/5) (1/4)) 0).gravHead) :=
  ⟨le_refl 2,
    (formPPUVelocity_phaseFlux_value 1 2 1 0 2 scenarioStencil
      (scenarioViews 100 90 (4/5) (3/5) (1/4)) 0 (fun _ => 0) (fun _ _ => 0) (le_refl 2)).2.2⟩

/-- C4. Two-part derivative rule of `formPPUVelocity`: with zero derivative arrays on entry
and `NUM_ELEMS ≤ stencilSize`, for every `ke < stencilSize` the returned
`dPhaseFlux_dP[ke]` is `mobility * dPot_dP[ke]` plus, only when `ke = k_up`,
`dPhaseMob_dPres[k_up][ip] * pot`, where
`dPot_dP[ke] = weight[ke] * (1 - dCapPressure_dP[ke])` minus, for `ke < NUM_ELEMS` only,
`0.5 * dPhaseMassDens_dPres[ke] * Σ_i weight[i] * gravCoef[i]`; and likewise for every
`jc < NC`, `dPhaseFlux_dC[ke][jc]` is `mobility * dPot_dC[ke][jc]` plus, only when
`ke = k_up`, `dPhaseMob_dComp[k_up][ip][jc] * pot`, where
`dPot_dC[ke][jc] = -weight[ke] * dCapPressure_dC[ke][jc]` minus, for `ke < NUM_ELEMS` only,
`0.5 *` (chain-ruled `dPhaseMassDens_dComp[ke]`)`[jc] * Σ_i weight[i] * gravCoef[i]`. -/
theorem formPPUVelocity_derivative_rule
    (NC NUM_ELEMS MAX_STENCIL numPhase ip stencilSize : Nat)
    (st : Stencil) (v : ElementViews) (capPressureFlag : Int) (ke : Nat)
    (_hsize : NUM_ELEMS ≤ stencilSize) (hke : ke < stencilSize) :
    (formPPUVelocity NC NUM_ELEMS MAX_STENCIL numPhase ip stencilSize st v capPressureFlag
        (fun _ => 0) (fun _ _ => 0)).dPhaseFlux_dP ke
      = v.phaseMob
          (st.seri (formPPUVelocityUpwind NC NUM_ELEMS numPhase ip stencilSize st v
            capPressureFlag))
          (st.sesri (formPPUVelocityUpwind NC NUM_ELEMS numPhase ip stencilSize st v
            capPressureFlag))
          (st.sei (formPPUVelocityUpwind NC NUM_ELEMS numPhase ip stencilSize st v
            capPressureFlag)) ip
        * (st.stencilWeights ke * (1 - dCapPressure_dPTerm numPhase ip st v capPressureFlag ke)
          - (if ke < NUM_ELEMS then
              0.5 * v.dPhaseMassDens_dPres (st.seri ke) (st.sesri ke) (st.sei ke) 0 ip
                * gravCoefSum stencilSize st v
            else 0))
        + (if ke = formPPUVelocityUpwind NC NUM_ELEMS numPhase ip stencilSize st v
              capPressureFlag then
            v.dPhaseMob_dPres
              (st.seri (formPPUVelocityUpwind NC NUM_ELEMS numPhase ip stencilSize st v
                capPressureFlag))
              (st.sesri (formPPUVelocityUpwind NC NUM_ELEMS numPhase ip stencilSize st v
                capPressureFlag))
              (st.sei (formPPUVelocityUpwind NC NUM_ELEMS numPhase ip stencilSize st v
                capPressureFlag)) ip
            * formPPUVelocityPotGrad NC NUM_ELEMS numPhase ip stencilSize st v capPressureFlag
          else 0) ∧
    ∀ jc, jc < NC →
      (formPPUVelocity NC NUM_ELEMS MAX_STENCIL numPhase ip stencilSize st v capPressureFlag
          (fun _ => 0) (fun _ _ => 0)).dPhaseFlux_dC ke jc
        = v.phaseMob
            (st.seri (formPPUVelocityUpwind NC NUM_ELEMS numPhase ip stencilSize st v
              capPressureFlag))
            (st.sesri (formPPUVelocityUpwind NC NUM_ELEMS numPhase ip stencilSize st v
              capPressureFlag))
            (st.sei (formPPUVelocityUpwind NC NUM_ELEMS numPhase ip stencilSize st v
              capPressureFlag)) ip
          * (-st.stencilWeights ke * dCapPressure_dCTerm numPhase ip st v capPressureFlag ke jc
            - (if ke < NUM_ELEMS then
                0.5 * dMassDens_dCTerm NC ip st v ke jc * gravCoefSum stencilSize st v
              else 0))
          + (if ke = formPPUVelocityUpwind NC NUM_ELEMS numPhase ip stencilSize st v
                capPressureFlag then
              v.dPhaseMob_dComp
                (st.seri (formPPUVelocityUpwind NC NUM_ELEMS numPhase ip stencilSize st v
                  capPressureFlag))
                (st.sesri (formPPUVelocityUpwind NC NUM_ELEMS numPhase ip stencilSize st v
                  capPressureFlag))
                (st.sei (formPPUVelocityUpwind NC NUM_ELEMS numPhase ip stencilSize st v
                  capPressureFlag)) ip jc
              * formPPUVelocityPotGrad NC NUM_ELEMS numPhase ip stencilSize st v
                capPressureFlag
            else 0) := by
  refine ⟨?_, ?_⟩
  · rw [formPPUVelocity_dP_apply NC NUM_ELEMS MAX_STENCIL numPhase ip stencilSize st v
      capPressureFlag _ _ _ _ _ rfl rfl rfl ke,
      (formPPUVelocityLocals_dP NC NUM_ELEMS numPhase ip stencilSize st v capPressureFlag ke).1,
      (formPPUVelocityLocals_dP NC NUM_ELEMS numPhase ip stencilSize st v capPressureFlag ke).2]
    simp only [if_pos hke]
    split_ifs <;> ring
  · intro jc hjc
    rw [formPPUVelocity_dC_apply NC NUM_ELEMS MAX_STENCIL numPhase ip stencilSize st v
      capPressureFlag _ _ _ _ _ rfl rfl rfl ke jc,
      (formPPUVelocityLocals_dC NC NUM_ELEMS numPhase ip stencilSize st v capPressureFlag
        ke jc).1,
      (formPPUVelocityLocals_dC NC NUM_ELEMS numPhase ip stencilSize st v capPressureFlag
        ke jc).2]
    simp only [hke, hjc, and_true, true_and, if_true]
    split_ifs <;> ring


/-- Witness of C4: the concrete two-cell scenario, stencil cell `1`. -/
theorem formPPUVelocity_derivative_rule_witness :
    ((2 ≤ 2) ∧ (1 < 2)) ∧
    (formPPUVelocity 1 2 2 1 0 2 scenarioStencil (scenarioViews 100 90 (4/5) (3/5) (1/4)) 0
        (fun _ => 0) (fun _ _ => 0)).dPhaseFlux_dP 1
      = (scenarioViews 100 90 (4/5) (3/5) (1/4)).phaseMob
          (scenarioStencil.seri (formPPUVelocityUpwind 1 2 1 0 2 scenarioStencil
            (scenarioViews 100 90 (4/5) (3/5) (1/4)) 0))
          (scenarioStencil.sesri (formPPUVelocityUpwind 1 2 1 0 2 scenarioStencil
            (scenarioViews 100 90 (4/5) (3/5) (1/4)) 0))
          (scenarioStencil.sei (formPPUVelocityUpwind 1 2 1 0 2 scenarioStencil
            (scenarioViews 100 90 (4/5) (3/5) (1/4)) 0)) 0
        * (scenarioStencil.stencilWeights 1
            * (1 - dCapPressure_dPTerm 1 0 scenarioStencil
              (scenarioViews 100 90 (4/5) (3/5) (1/4)) 0 1)
          - (if 1 < 2 then
              0.5 * (scenarioViews 100 90 (4/5) (3/5) (1/4)).dPhaseMassDens_dPres
                  (scenarioStencil.seri 1) (scenarioStencil.sesri 1) (scenarioStencil.sei 1) 0 0
                * gravCoefSum 2 scenarioStencil (scenarioViews 100 90 (4/5) (3/5) (1/4))
            else 0))
        + (if 1 = formPPUVelocityUpwind 1 2 1 0 2 scenarioStencil
              (scenarioViews 100 90 (4/5) (3/5) (1/4)) 0 then
            (scenarioViews 100 90 (4/5) (3/5) (1/4)).dPhaseMob_dPres
              (scenarioStencil.seri (formPPUVelocityUpwind 1 2 1 0 2 scenarioStencil
                (scenarioViews 100 90 (4/5) (3/5) (1/4)) 0))
              (scenarioStencil.sesri (formPPUVelocityUpwind 1 2 1 0 2 scenarioStencil
                (scenarioViews 100 90 (4/5) (3/5) (1/4)) 0))
              (scenarioStencil.sei (formPPUVelocityUpwind 1 2 1 0 2 scenarioStencil
                (scenarioViews 100 90 (4/5) (3/5) (1/4)) 0)) 0
            * formPPUVelocityPotGrad 1 2 1 0 2 scenarioStencil
              (scenarioViews 100 90 (4/5) (3/5) (1/4)) 0
          else 0) :=
  ⟨⟨le_refl 2, by decide⟩,
    (formPPUVelocity_derivative_rule 1 2 2 1 0 2 scenarioStencil
      (scenarioViews 100 90 (4/5) (3/5) (1/4)) 0 1 (le_refl 2) (by decide)).1⟩

/-- C7. `formPPUVelocity` selects `k_up = 0` exactly when its potential
`presGrad - gravHead` is `≥ 0` and `k_up = 1` exactly when it is `< 0`; the tie
`pot = 0` goes to cell `0`. -/
theorem formPPUVelocity_upwind_choice (NC NUM_ELEMS MAX_STENCIL numPhase ip stencilSize : Nat)
    (st : Stencil) (v : ElementViews) (capPressureFlag : Int) (a : Nat → ℚ)
    (A : Nat → Nat → ℚ) :
    ((formPPUVelocity NC NUM_ELEMS MAX_STENCIL numPhase ip stencilSize st v capPressureFlag
        a A).k_up = 0 ↔
      (formPPUVelocityLocals NC NUM_ELEMS numPhase ip stencilSize st v capPressureFlag).presGrad
        - (formPPUVelocityLocals NC NUM_ELEMS numPhase ip stencilSize st v
            capPressureFlag).gravHead ≥ 0) ∧
    ((formPPUVelocity NC NUM_ELEMS MAX_STENCIL numPhase ip stencilSize st v capPressureFlag
        a A).k_up = 1 ↔
      (formPPUVelocityLocals NC NUM_ELEMS numPhase ip stencilSize st v capPressureFlag).presGrad
        - (formPPUVelocityLocals NC NUM_ELEMS numPhase ip stencilSize st v
            capPressureFlag).gravHead < 0) ∧
    ((formPPUVelocityLocals NC NUM_ELEMS numPhase ip stencilSize st v capPressureFlag).presGrad
        - (formPPUVelocityLocals NC NUM_ELEMS numPhase ip stencilSize st v
            capPressureFlag).gravHead = 0 →
      (formPPUVelocity NC NUM_ELEMS MAX_STENCIL numPhase ip stencilSize st v capPressureFlag
        a A).k_up = 0) := by
  rw [formPPUVelocity_k_up]
  unfold formPPUVelocityUpwind formPPUVelocityPotGrad
  by_cases h : (formPPUVelocityLocals NC NUM_ELEMS numPhase ip stencilSize st v
      capPressureFlag).presGrad
    - (formPPUVelocityLocals NC NUM_ELEMS numPhase ip stencilSize st v
        capPressureFlag).gravHead ≥ 0
  · have h2 : ¬ ((formPPUVelocityLocals NC NUM_ELEMS numPhase ip stencilSize st v
        capPressureFlag).presGrad
      - (formPPUVelocityLocals NC NUM_ELEMS numPhase ip stencilSize st v
          capPressureFlag).gravHead < 0) := not_lt.mpr h
    simp [h, h2]
  · have h2 : (formPPUVelocityLocals NC NUM_ELEMS numPhase ip stencilSize st v
        capPressureFlag).presGrad
      - (formPPUVelocityLocals NC NUM_ELEMS numPhase ip stencilSize st v
          capPressureFlag).gravHead < 0 := not_le.mp h
    have h3 : ¬ ((formPPUVelocityLocals NC NUM_ELEMS numPhase ip stencilSize st v
        capPressureFlag).presGrad
      - (formPPUVelocityLocals NC NUM_ELEMS numPhase ip stencilSize st v
          capPressureFlag).gravHead = 0) := ne_of_lt h2
    simp [h, h2, h3]


/-- Witness of C7 at the tie: equal pressures on a two-point stencil give potential `0`
and `k_up = 0`. -/
theorem formPPUVelocity_upwind_choice_witness :
    (formPPUVelocityLocals 1 2 1 0 2 scenarioStencil
        (scenarioViews 50 50 (4/5) (3/5) (1/4)) 0).presGrad
      - (formPPUVelocityLocals 1 2 1 0 2 scenarioStencil
        (scenarioViews 50 50 (4/5) (3/5) (1/4)) 0).gravHead = 0 ∧
    (formPPUVelocity 1 2 2 1 0 2 scenarioStencil (scenarioViews 50 50 (4/5) (3/5) (1/4)) 0
        (fun _ => 0) (fun _ _ => 0)).k_up = 0 := by
  have hpot : (formPPUVelocityLocals 1 2 1 0 2 scenarioStencil
        (scenarioViews 50 50 (4/5) (3/5) (1/4)) 0).presGrad
      - (formPPUVelocityLocals 1 2 1 0 2 scenarioStencil
        (scenarioViews 50 50 (4/5) (3/5) (1/4)) 0).gravHead = 0 := by
    have h := formPPUVelocityPotGrad_twoPoint 1 1 0 scenarioStencil
      (scenarioViews 50 50 (4/5) (3/5) (1/4)) rfl rfl
    unfold formPPUVelocityPotGrad at h
    rw [h]
    simp [scenarioViews, scenarioStencil]
  exact ⟨hpot, (formPPUVelocity_upwind_choice 1 2 2 1 0 2 scenarioStencil
    (scenarioViews 50 50 (4/5) (3/5) (1/4)) 0 (fun _ => 0) (fun _ _ => 0)).2.2 hpot⟩

/-- C8. Concrete scenario for `formPPUVelocity` with `NC = 1`, `NUM_ELEMS = stencilSize = 2`,
one phase, capillarity disabled, zero pressure increments and zero-initialised derivative
outputs: pressures `{100, 90}`, gravity coefficients `{0, 0}`, weights `{1, -1}` and phase
mobilities `{0.8, 0.6}` give potential `10`, `k_up = 0`, `phaseFlux = 8`,
`dPhaseFlux_dP[0] = 0.8 + dPhaseMob_dPres[cell 0] * 10` and `dPhaseFlux_dP[1] = -0.8`. -/
theorem formPPUVelocity_concrete_scenario (MAX_STENCIL : Nat) (st : Stencil)
    (v : ElementViews)
    (hw0 : st.stencilWeights 0 = 1) (hw1 : st.stencilWeights 1 = -1)
    (hp0 : v.pres (st.seri 0) (st.sesri 0) (st.sei 0) = 100)
    (hp1 : v.pres (st.seri 1) (st.sesri 1) (st.sei 1) = 90)
    (hd0 : v.dPres (st.seri 0) (st.sesri 0) (st.sei 0) = 0)
    (hd1 : v.dPres (st.seri 1) (st.sesri 1) (st.sei 1) = 0)
    (hg0 : v.gravCoef (st.seri 0) (st.sesri 0) (st.sei 0) = 0)
    (hg1 : v.gravCoef (st.seri 1) (st.sesri 1) (st.sei 1) = 0)
    (hm0 : v.phaseMob (st.seri 0) (st.sesri 0) (st.sei 0) 0 = 0.8)
    (_hm1 : v.phaseMob (st.seri 1) (st.sesri 1) (st.sei 1) 0 = 0.6) :
    formPPUVelocityPotGrad 1 2 1 0 2 st v 0 = 10 ∧
    (formPPUVelocity 1 2 MAX_STENCIL 1 0 2 st v 0 (fun _ => 0) (fun _ _ => 0)).k_up = 0 ∧
    (formPPUVelocity 1 2 MAX_STENCIL 1 0 2 st v 0 (fun _ => 0) (fun _ _ => 0)).phaseFlux = 8 ∧
    (formPPUVelocity 1 2 MAX_STENCIL 1 0 2 st v 0 (fun _ => 0) (fun _ _ => 0)).dPhaseFlux_dP 0
      = 0.8 + v.dPhaseMob_dPres (st.seri 0) (st.sesri 0) (st.sei 0) 0 * 10 ∧
    (formPPUVelocity 1 2 MAX_STENCIL 1 0 2 st v 0 (fun _ => 0) (fun _ _ => 0)).dPhaseFlux_dP 1
      = -0.8 := by
  have hpot : formPPUVelocityPotGrad 1 2 1 0 2 st v 0 = 10 := by
    rw [formPPUVelocityPotGrad_twoPoint 1 1 0 st v hw0 hw1, hp0, hp1, hd0, hd1, hg0, hg1]
    norm_num
  have hup : formPPUVelocityUpwind 1 2 1 0 2 st v 0 = 0 := by
    unfold formPPUVelocityUpwind
    rw [hpot]
    norm_num
  have hgs : gravCoefSum 2 st v = 0 := by
    simp [gravCoefSum, Finset.sum_range_succ, hg0, hg1]
  refine ⟨hpot, hup, ?_, ?_, ?_⟩
  · rw [formPPUVelocity_phaseFlux, hup, hpot, hm0]
    norm_num
  · rw [formPPUVelocity_dP_apply 1 2 MAX_STENCIL 1 0 2 st v 0 _ _ _ _ _ rfl rfl rfl 0,
      (formPPUVelocityLocals_dP 1 2 1 0 2 st v 0 0).1,
      (formPPUVelocityLocals_dP 1 2 1 0 2 st v 0 0).2, hup, hpot, hm0, hgs, hw0]
    simp [dCapPressure_dPTerm]
    ring
  · rw [formPPUVelocity_dP_apply 1 2 MAX_STENCIL 1 0 2 st v 0 _ _ _ _ _ rfl rfl rfl 1,
      (formPPUVelocityLocals_dP 1 2 1 0 2 st v 0 1).1,
      (formPPUVelocityLocals_dP 1 2 1 0 2 st v 0 1).2, hup, hpot, hm0, hgs, hw1]
    simp [dCapPressure_dPTerm]

/-- Witness of C8: the scenario bundle with `dPhaseMob_dPres = 1/4`. -/
theorem formPPUVelocity_concrete_scenario_witness :
    formPPUVelocityPotGrad 1 2 1 0 2 scenarioStencil
        (scenarioViews 100 90 (4/5) (3/5) (1/4)) 0 = 10 ∧
    (formPPUVelocity 1 2 2 1 0 2 scenarioStencil (scenarioViews 100 90 (4/5) (3/5) (1/4)) 0
        (fun _ => 0) (fun _ _ => 0)).k_up = 0 ∧
    (formPPUVelocity 1 2 2 1 0 2 scenarioStencil (scenarioViews 100 90 (4/5) (3/5) (1/4)) 0
        (fun _ => 0) (fun _ _ => 0)).phaseFlux = 8 ∧
    (formPPUVelocity 1 2 2 1 0 2 scenarioStencil (scenarioViews 100 90 (4/5) (3/5) (1/4)) 0
        (fun _ => 0) (fun _ _ => 0)).dPhaseFlux_dP 0
      = 0.8 + (scenarioViews 100 90 (4/5) (3/5) (1/4)).dPhaseMob_dPres
          (scenarioStencil.seri 0) (scenarioStencil.sesri 0) (scenarioStencil.sei 0) 0 * 10 ∧
    (formPPUVelocity 1 2 2 1 0 2 scenarioStencil (scenarioViews 100 90 (4/5) (3/5) (1/4)) 0
        (fun _ => 0) (fun _ _ => 0)).dPhaseFlux_dP 1 = -0.8 :=
  formPPUVelocity_concrete_scenario 2 scenarioStencil (scenarioViews 100 90 (4/5) (3/5) (1/4))
    rfl rfl rfl rfl rfl rfl rfl rfl
    (by norm_num [scenarioViews, scenarioStencil])
    (by norm_num [scenarioViews, scenarioStencil])


/-- With the upstream mobility exactly `0`, `formPPUVelocity` on zero-initialised arrays
returns the product-rule term of the upwind index and nothing else. -/
theorem formPPUVelocity_zero_mobility_entries
    (NC NUM_ELEMS MAX_STENCIL numPhase ip stencilSize : Nat)
    (st : Stencil) (v : ElementViews) (capPressureFlag : Int) (kup : Nat)
    (hkup : kup
      = formPPUVelocityUpwind NC NUM_ELEMS numPhase ip stencilSize st v capPressureFlag)
    (hsize : NUM_ELEMS ≤ stencilSize)
    (hmob : v.phaseMob (st.seri kup) (st.sesri kup) (st.sei kup) ip = 0) (ke jc : Nat) :
    (formPPUVelocity NC NUM_ELEMS MAX_STENCIL numPhase ip stencilSize st v capPressureFlag
        (fun _ => 0) (fun _ _ => 0)).dPhaseFlux_dP ke
      = (if ke = kup then
          v.dPhaseMob_dPres (st.seri kup) (st.sesri kup) (st.sei kup) ip
            * formPPUVelocityPotGrad NC NUM_ELEMS numPhase ip stencilSize st v capPressureFlag
        else 0) ∧
    (formPPUVelocity NC NUM_ELEMS MAX_STENCIL numPhase ip stencilSize st v capPressureFlag
        (fun _ => 0) (fun _ _ => 0)).dPhaseFlux_dC ke jc
      = (if ke = kup ∧ jc < NC then
          v.dPhaseMob_dComp (st.seri kup) (st.sesri kup) (st.sei kup) ip jc
            * formPPUVelocityPotGrad NC NUM_ELEMS numPhase ip stencilSize st v capPressureFlag
        else 0) := by
  refine ⟨?_, ?_⟩
  · rw [formPPUVelocity_dP_apply NC NUM_ELEMS MAX_STENCIL numPhase ip stencilSize st v
      capPressureFlag _ _ kup _ _ hkup rfl rfl ke, hmob]
    by_cases h1 : ke < stencilSize
    · simp [h1]
    · have h2 : ¬ ke < NUM_ELEMS := by omega
      simp [h1, h2]
  · rw [formPPUVelocity_dC_apply NC NUM_ELEMS MAX_STENCIL numPhase ip stencilSize st v
      capPressureFlag _ _ kup _ _ hkup rfl rfl ke jc, hmob]
    by_cases h1 : ke < stencilSize ∧ jc < NC
    · simp [h1]
    · have h2 : ¬ (ke < NUM_ELEMS ∧ jc < NC) := fun hh => h1 ⟨by omega, hh.2⟩
      simp [h1, h2]

/-- C10, as the code has it.  For every input to `formPPUVelocity` (zero-initialised
derivative outputs, `NUM_ELEMS ≤ stencilSize`) in which the phase mobility of the selected
upwind cell is exactly `0`, the returned `phaseFlux` is exactly `0` and every returned
derivative entry away from the upwind index is exactly `0`; at the upwind index the
product-rule term stays: `dPhaseFlux_dP[k_up] = dPhaseMob_dPres[k_up][ip] * pot` and
`dPhaseFlux_dC[k_up][jc] = dPhaseMob_dComp[k_up][ip][jc] * pot` for `jc < NC`. -/
theorem formPPUVelocity_zero_mobility
    (NC NUM_ELEMS MAX_STENCIL numPhase ip stencilSize : Nat)
    (st : Stencil) (v : ElementViews) (capPressureFlag : Int)
    (hsize : NUM_ELEMS ≤ stencilSize)
    (hmob : v.phaseMob
      (st.seri (formPPUVelocity NC NUM_ELEMS MAX_STENCIL numPhase ip stencilSize st v
        capPressureFlag (fun _ => 0) (fun _ _ => 0)).k_up)
      (st.sesri (formPPUVelocity NC NUM_ELEMS MAX_STENCIL numPhase ip stencilSize st v
        capPressureFlag (fun _ => 0) (fun _ _ => 0)).k_up)
      (st.sei (formPPUVelocity NC NUM_ELEMS MAX_STENCIL numPhase ip stencilSize st v
        capPressureFlag (fun _ => 0) (fun _ _ => 0)).k_up) ip = 0) :
    (formPPUVelocity NC NUM_ELEMS MAX_STENCIL numPhase ip stencilSize st v capPressureFlag
        (fun _ => 0) (fun _ _ => 0)).phaseFlux = 0 ∧
    (∀ ke,
      (formPPUVelocity NC NUM_ELEMS MAX_STENCIL numPhase ip stencilSize st v capPressureFlag
          (fun _ => 0) (fun _ _ => 0)).dPhaseFlux_dP ke
        = if ke = (formPPUVelocity NC NUM_ELEMS MAX_STENCIL numPhase ip stencilSize st v
              capPressureFlag (fun _ => 0) (fun _ _ => 0)).k_up then
            v.dPhaseMob_dPres
              (st.seri (formPPUVelocity NC NUM_ELEMS MAX_STENCIL numPhase ip stencilSize st v
                capPressureFlag (fun _ => 0) (fun _ _ => 0)).k_up)
              (st.sesri (formPPUVelocity NC NUM_ELEMS MAX_STENCIL numPhase ip stencilSize st v
                capPressureFlag (fun _ => 0) (fun _ _ => 0)).k_up)
              (st.sei (formPPUVelocity NC NUM_ELEMS MAX_STENCIL numPhase ip stencilSize st v
                capPressureFlag (fun _ => 0) (fun _ _ => 0)).k_up) ip
            * formPPUVelocityPotGrad NC NUM_ELEMS numPhase ip stencilSize st v capPressureFlag
          else 0) ∧
    (∀ ke jc,
      (formPPUVelocity NC NUM_ELEMS MAX_STENCIL numPhase ip stencilSize st v capPressureFlag
          (fun _ => 0) (fun _ _ => 0)).dPhaseFlux_dC ke jc
        = if ke = (formPPUVelocity NC NUM_ELEMS MAX_STENCIL numPhase ip stencilSize st v
              capPressureFlag (fun _ => 0) (fun _ _ => 0)).k_up ∧ jc < NC then
            v.dPhaseMob_dComp
              (st.seri (formPPUVelocity NC NUM_ELEMS MAX_STENCIL numPhase ip stencilSize st v
                capPressureFlag (fun _ => 0) (fun _ _ => 0)).k_up)
              (st.sesri (formPPUVelocity NC NUM_ELEMS MAX_STENCIL numPhase ip stencilSize st v
                capPressureFlag (fun _ => 0) (fun _ _ => 0)).k_up)
              (st.sei (formPPUVelocity NC NUM_ELEMS MAX_STENCIL numPhase ip stencilSize st v
                capPressureFlag (fun _ => 0) (fun _ _ => 0)).k_up) ip jc
            * formPPUVelocityPotGrad NC NUM_ELEMS numPhase ip stencilSize st v capPressureFlag
          else 0) := by
  rw [formPPUVelocity_k_up] at hmob ⊢
  refine ⟨?_, ?_, ?_⟩
  · rw [formPPUVelocity_phaseFlux, hmob, zero_mul]
  · intro ke
    exact (formPPUVelocity_zero_mobility_entries NC NUM_ELEMS MAX_STENCIL numPhase ip
      stencilSize st v capPressureFlag _ rfl hsize hmob ke 0).1
  · intro ke jc
    exact (formPPUVelocity_zero_mobility_entries NC NUM_ELEMS MAX_STENCIL numPhase ip
      stencilSize st v capPressureFlag _ rfl hsize hmob ke jc).2

/-- Potential and upwind index of the two-cell scenario with pressures `{100, 90}`. -/
theorem scenario_potential (mob0 mob1 dMob : ℚ) :
    formPPUVelocityPotGrad 1 2 1 0 2 scenarioStencil (scenarioViews 100 90 mob0 mob1 dMob) 0
        = 10 ∧
    formPPUVelocityUpwind 1 2 1 0 2 scenarioStencil (scenarioViews 100 90 mob0 mob1 dMob) 0
        = 0 := by
  have hpot : formPPUVelocityPotGrad 1 2 1 0 2 scenarioStencil
      (scenarioViews 100 90 mob0 mob1 dMob) 0 = 10 := by
    rw [formPPUVelocityPotGrad_twoPoint 1 1 0 scenarioStencil
      (scenarioViews 100 90 mob0 mob1 dMob) rfl rfl]
    simp [scenarioViews, scenarioStencil]
    norm_num
  refine ⟨hpot, ?_⟩
  unfold formPPUVelocityUpwind
  rw [hpot]
  norm_num

/-- Witness of the amended C10: the scenario with upstream mobility `0` and
`dPhaseMob_dPres = 1`. -/
theorem formPPUVelocity_zero_mobility_witness :
    (formPPUVelocity 1 2 2 1 0 2 scenarioStencil (scenarioViews 100 90 0 (3/5) 1) 0
        (fun _ => 0) (fun _ _ => 0)).phaseFlux = 0 :=
  (formPPUVelocity_zero_mobility 1 2 2 1 0 2 scenarioStencil (scenarioViews 100 90 0 (3/5) 1) 0
    (le_refl 2)
    (by
      rw [formPPUVelocity_k_up, (scenario_potential 0 (3/5) 1).2]
      rfl)).1

/-- Counterexample to C10 as stated: two cells with pressures `{100, 90}`, weights
`{1, -1}`, upstream mobility exactly `0` and `dPhaseMob_dPres = 1` at the upwind cell; the
returned `dPhaseFlux_dP[0]` is `10`, not `0`. -/
theorem formPPUVelocity_zero_mobility_counterexample :
    (formPPUVelocity 1 2 2 1 0 2 scenarioStencil (scenarioViews 100 90 0 (3/5) 1) 0
        (fun _ => 0) (fun _ _ => 0)).k_up = 0 ∧
    (scenarioViews 100 90 0 (3/5) 1).phaseMob (scenarioStencil.seri 0)
        (scenarioStencil.sesri 0) (scenarioStencil.sei 0) 0 = 0 ∧
    (formPPUVelocity 1 2 2 1 0 2 scenarioStencil (scenarioViews 100 90 0 (3/5) 1) 0
        (fun _ => 0) (fun _ _ => 0)).dPhaseFlux_dP 0 = 10 ∧
    ¬ ((formPPUVelocity 1 2 2 1 0 2 scenarioStencil (scenarioViews 100 90 0 (3/5) 1) 0
        (fun _ => 0) (fun _ _ => 0)).dPhaseFlux_dP 0 = 0) := by
  have hup := (scenario_potential 0 (3/5) 1).2
  have hpot := (scenario_potential 0 (3/5) 1).1
  have hval : (formPPUVelocity 1 2 2 1 0 2 scenarioStencil (scenarioViews 100 90 0 (3/5) 1) 0
      (fun _ => 0) (fun _ _ => 0)).dPhaseFlux_dP 0 = 10 := by
    rw [(formPPUVelocity_zero_mobility_entries 1 2 2 1 0 2 scenarioStencil
      (scenarioViews 100 90 0 (3/5) 1) 0 0 hup.symm (le_refl 2) rfl 0 0).1, hpot]
    simp [scenarioViews]
  refine ⟨?_, rfl, hval, ?_⟩
  · rw [formPPUVelocity_k_up, hup]
  · rw [hval]
    norm_num


/-! ## Results of `formGravHead` and of the upwind schemes -/

/-- The initialisation of `formGravHead` sets `gravHead` to `0`. -/
theorem formGravHeadInit_gravHead (NC NUM_ELEMS : Nat) (a : Nat → ℚ) (A : Nat → Nat → ℚ)
    (w : Nat → ℚ) : (formGravHeadInit NC NUM_ELEMS a A w).gravHead = 0 := by
  unfold formGravHeadInit
  exact forLoop_preserve (fun s : GravHead => s.gravHead = 0) NUM_ELEMS _ _
    (fun _ _ _ hs => hs) rfl

/-- Mean density of `formGravHead`. -/
theorem formGravHeadDensMean_densMean (NC NUM_ELEMS ip : Nat) (st : Stencil)
    (v : ElementViews) (w : Nat → ℚ) :
    (formGravHeadDensMean NC NUM_ELEMS ip st v w).densMean = densMeanSum NUM_ELEMS ip st v := by
  unfold formGravHeadDensMean densMeanSum
  rw [forLoop_proj DensMean.densMean NUM_ELEMS _
    (fun i x => x + 0.5 * v.phaseMassDens (st.seri i) (st.sesri i) (st.sei i) 0 ip) _
    (fun _ _ _ => rfl)]
  rw [forLoop_sum NUM_ELEMS _ _ _ (fun _ _ _ => rfl)]
  simp

/-- Gravity head returned by `formGravHead`: the mean density times the weighted gravity
sum over the whole stencil, whatever the prior contents of the output arrays. -/
theorem formGravHead_gravHead (NC NUM_ELEMS ip stencilSize : Nat) (st : Stencil)
    (v : ElementViews) (a : Nat → ℚ) (A : Nat → Nat → ℚ) (w : Nat → ℚ) :
    (formGravHead NC NUM_ELEMS ip stencilSize st v a A w).gravHead
      = densMeanSum NUM_ELEMS ip st v * gravCoefSum stencilSize st v := by
  unfold formGravHead
  simp only []
  rw [forLoop_proj GravHead.gravHead stencilSize _
    (fun i x => x + densMeanSum NUM_ELEMS ip st v
      * (st.stencilWeights i * v.gravCoef (st.seri i) (st.sesri i) (st.sei i))) _
    (fun i t _ => by
      show t.gravHead + (formGravHeadDensMean NC NUM_ELEMS ip st v _).densMean * _ = _
      rw [formGravHeadDensMean_densMean])]
  rw [forLoop_sum stencilSize _ _ _ (fun _ _ _ => rfl)]
  show (formGravHeadInit NC NUM_ELEMS a A w).gravHead + _ = _
  rw [formGravHeadInit_gravHead, zero_add, gravCoefSum, Finset.mul_sum]

/-- Potential of the classical scheme in closed form: the weighted pressure sum without
capillary term minus the gravity head. -/
theorem PhasePotentialUpwind_pot (NC NUM_ELEMS numPhase ip stencilSize : Nat)
    (st : Stencil) (totFlux : ℚ) (v : ElementViews) (source : Nat) :
    (PhasePotentialUpwind.calcPotential NC NUM_ELEMS numPhase ip stencilSize st totFlux v
        source).pot
      = presGradSum ip stencilSize st v 0
        - densMeanSum NUM_ELEMS ip st v * gravCoefSum stencilSize st v := by
  unfold PhasePotentialUpwind.calcPotential gravHeadOf
  simp only []
  rw [formGravHead_gravHead, forLoop_sum stencilSize
    (fun i => st.stencilWeights i * (v.pres (st.seri i) (st.sesri i) (st.sei i)
      + v.dPres (st.seri i) (st.sesri i) (st.sei i))) _ _ (fun _ _ _ => rfl)]
  simp [presGradSum, capPressureTerm]

/-- No `calcPotential` writes its `source` argument. -/
theorem calcPotential_source (scheme : UPWIND) (NC NUM_ELEMS numPhase ip stencilSize : Nat)
    (st : Stencil) (totFlux : ℚ) (v : ElementViews) (source : Nat) :
    (scheme.calcPotential NC NUM_ELEMS numPhase ip stencilSize st totFlux v source).source
      = source := by
  cases scheme <;> rfl

/-- Direction returned by `getUpwindDir` in terms of the potential of the scheme. -/
theorem getUpwindDir_apply (scheme : UPWIND) (NC NUM_ELEMS numPhase ip stencilSize : Nat)
    (st : Stencil) (totFlux : ℚ) (v : ElementViews) :
    getUpwindDir scheme NC NUM_ELEMS numPhase ip stencilSize st totFlux v
      = if (scheme.calcPotential NC NUM_ELEMS numPhase ip stencilSize st totFlux v 0).pot > 0
        then 0 else 1 := by
  unfold getUpwindDir
  simp only [calcPotential_source]
  simp

/-- Potential and direction of the classical scheme on the two-cell scenario with equal
pressures `{50, 50}`. -/
theorem scenario_tie (T : term) (mob0 mob1 dMob : ℚ) :
    (PhasePotentialUpwind.calcPotential 1 2 1 0 2 scenarioStencil 0
        (scenarioViews 50 50 mob0 mob1 dMob) 0).pot = 0 ∧
    getUpwindDir (UPWIND.PhasePotentialUpwind T) 1 2 1 0 2 scenarioStencil 0
        (scenarioViews 50 50 mob0 mob1 dMob) = 1 := by
  have hpot : (PhasePotentialUpwind.calcPotential 1 2 1 0 2 scenarioStencil 0
      (scenarioViews 50 50 mob0 mob1 dMob) 0).pot = 0 := by
    rw [PhasePotentialUpwind_pot]
    simp [presGradSum, capPressureTerm, gravCoefSum, Finset.sum_range_succ, scenarioViews,
      scenarioStencil]
  refine ⟨hpot, ?_⟩
  rw [getUpwindDir_apply]
  show (if (PhasePotentialUpwind.calcPotential 1 2 1 0 2 scenarioStencil 0
      (scenarioViews 50 50 mob0 mob1 dMob) 0).pot > 0 then 0 else 1) = 1
  rw [hpot]
  simp

/-! ## Claims on the upwind selector and on `upwindMob` -/

/-- C5. The upwind selector applies the stated formula exactly: for every scheme
(`PhasePotentialUpwind`, `HybridUpwind<Viscous>`, `HybridUpwind<Gravity>`, `PhaseUpwind`)
and every input, `getUpwindDir` returns `source` if the potential computed by the scheme's
`calcPotential` is `> 0` and `(source == 0 ? 1 : 0)` otherwise, with `source = 0`; that is
`0` when `pot > 0` and `1` when `pot ≤ 0`. -/
theorem getUpwindDir_formula (scheme : UPWIND) (NC NUM_ELEMS numPhase ip stencilSize : Nat)
    (st : Stencil) (totFlux : ℚ) (v : ElementViews) :
    (scheme.calcPotential NC NUM_ELEMS numPhase ip stencilSize st totFlux v 0).source = 0 ∧
    getUpwindDir scheme NC NUM_ELEMS numPhase ip stencilSize st totFlux v
      = (if (scheme.calcPotential NC NUM_ELEMS numPhase ip stencilSize st totFlux v 0).pot > 0
        then (scheme.calcPotential NC NUM_ELEMS numPhase ip stencilSize st totFlux v 0).source
        else (if (scheme.calcPotential NC NUM_ELEMS numPhase ip stencilSize st totFlux v
          0).source = 0 then 1 else 0)) ∧
    getUpwindDir scheme NC NUM_ELEMS numPhase ip stencilSize st totFlux v
      = (if (scheme.calcPotential NC NUM_ELEMS numPhase ip stencilSize st totFlux v 0).pot ≤ 0
        then 1 else 0) := by
  refine ⟨calcPotential_source scheme NC NUM_ELEMS numPhase ip stencilSize st totFlux v 0,
    rfl, ?_⟩
  rw [getUpwindDir_apply]
  by_cases h : (scheme.calcPotential NC NUM_ELEMS numPhase ip stencilSize st totFlux v 0).pot
      > 0
  · have h2 : ¬ (scheme.calcPotential NC NUM_ELEMS numPhase ip stencilSize st totFlux v
        0).pot ≤ 0 := not_le.mpr h
    simp [h, h2]
  · have h2 : (scheme.calcPotential NC NUM_ELEMS numPhase ip stencilSize st totFlux v
        0).pot ≤ 0 := not_lt.mp h
    simp [h, h2]

/-- C6, as the code has it.  For the classical scheme evaluated through `getUpwindDir`
with `PhasePotentialUpwind` (and hence through `upwindMob` with that scheme) the upwind
direction is `(pot > 0) ? 0 : 1`, where `pot` is the weighted pressure sum minus the
gravity head: every input whose potential is exactly `0` resolves to direction `1`. -/
theorem getUpwindDir_PhasePotentialUpwind (T : term)
    (NC NUM_ELEMS numPhase ip stencilSize : Nat) (st : Stencil) (totFlux : ℚ)
    (v : ElementViews) (dMob_dC : Nat → ℚ) :
    getUpwindDir (UPWIND.PhasePotentialUpwind T) NC NUM_ELEMS numPhase ip stencilSize st
        totFlux v
      = (if presGradSum ip stencilSize st v 0
            - densMeanSum NUM_ELEMS ip st v * gravCoefSum stencilSize st v > 0
        then 0 else 1) ∧
    (upwindMob (UPWIND.PhasePotentialUpwind T) NC NUM_ELEMS numPhase ip stencilSize st
        totFlux v dMob_dC).upwindDir
      = getUpwindDir (UPWIND.PhasePotentialUpwind T) NC NUM_ELEMS numPhase ip stencilSize st
        totFlux v ∧
    (presGradSum ip stencilSize st v 0
        - densMeanSum NUM_ELEMS ip st v * gravCoefSum stencilSize st v = 0 →
      getUpwindDir (UPWIND.PhasePotentialUpwind T) NC NUM_ELEMS numPhase ip stencilSize st
        totFlux v = 1) := by
  have h : getUpwindDir (UPWIND.PhasePotentialUpwind T) NC NUM_ELEMS numPhase ip stencilSize
      st totFlux v
      = (if presGradSum ip stencilSize st v 0
            - densMeanSum NUM_ELEMS ip st v * gravCoefSum stencilSize st v > 0
        then 0 else 1) := by
    rw [getUpwindDir_apply]
    show (if (PhasePotentialUpwind.calcPotential NC NUM_ELEMS numPhase ip stencilSize st
      totFlux v 0).pot > 0 then 0 else 1) = _
    rw [PhasePotentialUpwind_pot]
  refine ⟨h, ?_, ?_⟩
  · unfold upwindMob
    simp only []
    split_ifs <;> rfl
  · intro h0
    rw [h, h0]
    simp

/-- Witness of the amended C6: equal pressures `{50, 50}` on the two-point stencil. -/
theorem getUpwindDir_PhasePotentialUpwind_witness :
    getUpwindDir (UPWIND.PhasePotentialUpwind term.Viscous) 1 2 1 0 2 scenarioStencil 0
        (scenarioViews 50 50 (4/5) (3/5) (1/4)) = 1 :=
  (getUpwindDir_PhasePotentialUpwind term.Viscous 1 2 1 0 2 scenarioStencil 0
    (scenarioViews 50 50 (4/5) (3/5) (1/4)) (fun _ => 0)).2.2
    (by
      simp [presGradSum, capPressureTerm, gravCoefSum, Finset.sum_range_succ, scenarioViews,
        scenarioStencil])

/-- Counterexample to C6 as stated: on the two-point stencil with equal pressures
`{50, 50}`, no gravity and weights `{1, -1}` the classical potential is exactly `0`, and
`getUpwindDir` with `PhasePotentialUpwind` returns direction `1`, not `0`, while
`formPPUVelocity` returns `k_up = 0` on the same input. -/
theorem getUpwindDir_tie_counterexample :
    (PhasePotentialUpwind.calcPotential 1 2 1 0 2 scenarioStencil 0
        (scenarioViews 50 50 (4/5) (3/5) (1/4)) 0).pot = 0 ∧
    getUpwindDir (UPWIND.PhasePotentialUpwind term.Viscous) 1 2 1 0 2 scenarioStencil 0
        (scenarioViews 50 50 (4/5) (3/5) (1/4)) = 1 ∧
    ¬ (getUpwindDir (UPWIND.PhasePotentialUpwind term.Viscous) 1 2 1 0 2 scenarioStencil 0
        (scenarioViews 50 50 (4/5) (3/5) (1/4)) = 0) ∧
    (formPPUVelocity 1 2 2 1 0 2 scenarioStencil (scenarioViews 50 50 (4/5) (3/5) (1/4)) 0
        (fun _ => 0) (fun _ _ => 0)).k_up = 0 := by
  have h := scenario_tie term.Viscous (4/5) (3/5) (1/4)
  refine ⟨h.1, h.2, ?_, ?_⟩
  · rw [h.2]
    decide
  · rw [formPPUVelocity_k_up]
    unfold formPPUVelocityUpwind
    rw [formPPUVelocityPotGrad_twoPoint 1 1 0 scenarioStencil
      (scenarioViews 50 50 (4/5) (3/5) (1/4)) rfl rfl]
    simp [scenarioViews, scenarioStencil]


/-- A loop that overwrites the first `n` entries of an array with `f`. -/
theorem forLoop_fill (n : Nat) (f : Nat → ℚ) (a : Nat → ℚ) (k : Nat) :
    forLoop n (fun ic b => setAt b ic (f ic)) a k = if k < n then f k else a k :=
  forLoop_pointwise n (fun i _ => f i) _ a (fun _ _ _ _ => rfl) k

/-- C9. Negligible-mobility guard of `upwindMob`: for every scheme and input, if the
absolute value of the phase mobility at the selected upwind cell is `≤ 1e-20` then the
returned `mob`, `dMob_dP` and every `dMob_dC[ic]` (`ic < NC`) are exactly `0`; otherwise
they equal `phaseMob`, `dPhaseMob_dPres` and `dPhaseMob_dComp` of the upwind cell.  The
upwind cell is the one at the direction returned by `getUpwindDir`. -/
theorem upwindMob_guard (scheme : UPWIND) (NC NUM_ELEMS numPhase ip stencilSize : Nat)
    (st : Stencil) (totFlux : ℚ) (v : ElementViews) (dMob_dC : Nat → ℚ) :
    (upwindMob scheme NC NUM_ELEMS numPhase ip stencilSize st totFlux v dMob_dC).upwindDir
      = getUpwindDir scheme NC NUM_ELEMS numPhase ip stencilSize st totFlux v ∧
    (|v.phaseMob
        (st.seri (upwindMob scheme NC NUM_ELEMS numPhase ip stencilSize st totFlux v
          dMob_dC).upwindDir)
        (st.sesri (upwindMob scheme NC NUM_ELEMS numPhase ip stencilSize st totFlux v
          dMob_dC).upwindDir)
        (st.sei (upwindMob scheme NC NUM_ELEMS numPhase ip stencilSize st totFlux v
          dMob_dC).upwindDir) ip| ≤ 1e-20 →
      (upwindMob scheme NC NUM_ELEMS numPhase ip stencilSize st totFlux v dMob_dC).mob = 0 ∧
      (upwindMob scheme NC NUM_ELEMS numPhase ip stencilSize st totFlux v dMob_dC).dMob_dP = 0 ∧
      ∀ ic, ic < NC →
        (upwindMob scheme NC NUM_ELEMS numPhase ip stencilSize st totFlux v dMob_dC).dMob_dC ic
          = 0) ∧
    (¬ |v.phaseMob
        (st.seri (upwindMob scheme NC NUM_ELEMS numPhase ip stencilSize st totFlux v
          dMob_dC).upwindDir)
        (st.sesri (upwindMob scheme NC NUM_ELEMS numPhase ip stencilSize st totFlux v
          dMob_dC).upwindDir)
        (st.sei (upwindMob scheme NC NUM_ELEMS numPhase ip stencilSize st totFlux v
          dMob_dC).upwindDir) ip| ≤ 1e-20 →
      (upwindMob scheme NC NUM_ELEMS numPhase ip stencilSize st totFlux v dMob_dC).mob
        = v.phaseMob
          (st.seri (upwindMob scheme NC NUM_ELEMS numPhase ip stencilSize st totFlux v
            dMob_dC).upwindDir)
          (st.sesri (upwindMob scheme NC NUM_ELEMS numPhase ip stencilSize st totFlux v
            dMob_dC).upwindDir)
          (st.sei (upwindMob scheme NC NUM_ELEMS numPhase ip stencilSize st totFlux v
            dMob_dC).upwindDir) ip ∧
      (upwindMob scheme NC NUM_ELEMS numPhase ip stencilSize st totFlux v dMob_dC).dMob_dP
        = v.dPhaseMob_dPres
          (st.seri (upwindMob scheme NC NUM_ELEMS numPhase ip stencilSize st totFlux v
            dMob_dC).upwindDir)
          (st.sesri (upwindMob scheme NC NUM_ELEMS numPhase ip stencilSize st totFlux v
            dMob_dC).upwindDir)
          (st.sei (upwindMob scheme NC NUM_ELEMS numPhase ip stencilSize st totFlux v
            dMob_dC).upwindDir) ip ∧
      ∀ ic, ic < NC →
        (upwindMob scheme NC NUM_ELEMS numPhase ip stencilSize st totFlux v dMob_dC).dMob_dC ic
          = v.dPhaseMob_dComp
            (st.seri (upwindMob scheme NC NUM_ELEMS numPhase ip stencilSize st totFlux v
              dMob_dC).upwindDir)
            (st.sesri (upwindMob scheme NC NUM_ELEMS numPhase ip stencilSize st totFlux v
              dMob_dC).upwindDir)
            (st.sei (upwindMob scheme NC NUM_ELEMS numPhase ip stencilSize st totFlux v
              dMob_dC).upwindDir) ip ic) := by
  have hdir : (upwindMob scheme NC NUM_ELEMS numPhase ip stencilSize st totFlux v
      dMob_dC).upwindDir
      = getUpwindDir scheme NC NUM_ELEMS numPhase ip stencilSize st totFlux v := by
    unfold upwindMob
    simp only []
    split_ifs <;> rfl
  refine ⟨hdir, ?_, ?_⟩
  · rw [hdir]
    intro hle
    have hgt : ¬ |v.phaseMob
        (st.seri (getUpwindDir scheme NC NUM_ELEMS numPhase ip stencilSize st totFlux v))
        (st.sesri (getUpwindDir scheme NC NUM_ELEMS numPhase ip stencilSize st totFlux v))
        (st.sei (getUpwindDir scheme NC NUM_ELEMS numPhase ip stencilSize st totFlux v)) ip|
        > 1e-20 := not_lt.mpr hle
    unfold upwindMob
    simp only [if_neg hgt]
    refine ⟨trivial, trivial, ?_⟩
    intro ic hic
    rw [forLoop_reset, if_pos hic]
  · rw [hdir]
    intro hnle
    have hgt : |v.phaseMob
        (st.seri (getUpwindDir scheme NC NUM_ELEMS numPhase ip stencilSize st totFlux v))
        (st.sesri (getUpwindDir scheme NC NUM_ELEMS numPhase ip stencilSize st totFlux v))
        (st.sei (getUpwindDir scheme NC NUM_ELEMS numPhase ip stencilSize st totFlux v)) ip|
        > 1e-20 := not_le.mp hnle
    unfold upwindMob
    simp only [if_pos hgt]
    refine ⟨trivial, trivial, ?_⟩
    intro ic hic
    rw [forLoop_fill, if_pos hic]

/-- Witness of C9: the two-cell scenario with upstream mobility `0` under the hybrid
viscous scheme with total flux `1`: the mobility derivative `1/4` of the upwind cell is
not returned. -/
theorem upwindMob_guard_witness :
    (upwindMob UPWIND.HybridUpwindViscous 1 2 1 0 2 scenarioStencil 1
        (scenarioViews 100 90 0 (3/5) (1/4)) (fun _ => 9)).mob = 0 ∧
    (upwindMob UPWIND.HybridUpwindViscous 1 2 1 0 2 scenarioStencil 1
        (scenarioViews 100 90 0 (3/5) (1/4)) (fun _ => 9)).dMob_dP = 0 ∧
    ∀ ic, ic < 1 →
      (upwindMob UPWIND.HybridUpwindViscous 1 2 1 0 2 scenarioStencil 1
        (scenarioViews 100 90 0 (3/5) (1/4)) (fun _ => 9)).dMob_dC ic = 0 :=
  (upwindMob_guard UPWIND.HybridUpwindViscous 1 2 1 0 2 scenarioStencil 1
    (scenarioViews 100 90 0 (3/5) (1/4)) (fun _ => 9)).2.1
    (by
      have hdir : (upwindMob UPWIND.HybridUpwindViscous 1 2 1 0 2 scenarioStencil 1
          (scenarioViews 100 90 0 (3/5) (1/4)) (fun _ => 9)).upwindDir = 0 := by
        rw [(upwindMob_guard UPWIND.HybridUpwindViscous 1 2 1 0 2 scenarioStencil 1
          (scenarioViews 100 90 0 (3/5) (1/4)) (fun _ => 9)).1, getUpwindDir_apply]
        simp [UPWIND.calcPotential, HybridUpwindViscous.calcPotential]
      rw [hdir]
      simp [scenarioViews, scenarioStencil]
      norm_num)


/-! ## More loop lemmas -/

/-- Following one observation of the state through a loop: iteration `k` transforms it by
`F`, the other iterations leave it alone. -/
theorem forLoop_obs {σ α : Type} (obs : σ → α) (F : α → α) (k n : Nat)
    (body : Nat → σ → σ) (s : σ)
    (hother : ∀ i t, i < n → i ≠ k → obs (body i t) = obs t)
    (hk : ∀ t, k < n → obs (body k t) = F (obs t)) :
    obs (forLoop n body s) = if k < n then F (obs s) else obs s := by
  induction n with
  | zero => simp [forLoop]
  | succ m ih =>
    rw [forLoop_succ]
    by_cases hkm : k = m
    · subst hkm
      have ih2 : obs (forLoop k body s) = obs s := by
        have := ih (fun i t hi hne => hother i t (Nat.lt_succ_of_lt hi) hne)
          (fun t hlt => absurd hlt (Nat.lt_irrefl k))
        simpa using this
      rw [hk _ (Nat.lt_succ_self k), ih2]
      simp
    · rw [hother m _ (Nat.lt_succ_self m) (fun h => hkm h.symm),
        ih (fun i t hi hne => hother i t (Nat.lt_succ_of_lt hi) hne)
          (fun t hlt => hk t (Nat.lt_succ_of_lt hlt))]
      have h1 : (k < m + 1) ↔ (k < m) := by omega
      simp [h1]

/-- A loop over the stencil cells that rewrites the entry `(ke, c)` of a two-index array
and the first `m` entries `(ke, c, ·)` of a three-index array: first component. -/
theorem columnLoop_fst (n m c : Nat) (F : Nat → ℚ → ℚ) (G : Nat → Nat → ℚ → ℚ)
    (d : (Nat → Nat → ℚ) × (Nat → Nat → Nat → ℚ)) :
    (forLoop n (fun ke (d : (Nat → Nat → ℚ) × (Nat → Nat → Nat → ℚ)) =>
        (setAt2 d.1 ke c (F ke (d.1 ke c)),
          forLoop m (fun jc a => setAt3 a ke c jc (G ke jc (a ke c jc))) d.2)) d).1
      = fun k l => if k < n ∧ l = c then F k (d.1 k l) else d.1 k l := by
  funext k l
  rw [forLoop_obs (fun e : (Nat → Nat → ℚ) × (Nat → Nat → Nat → ℚ) => e.1 k l)
    (fun x => if l = c then F k x else x) k n _ d]
  · by_cases h1 : k < n
    · by_cases h2 : l = c
      · simp [h1, h2]
      · simp [h1, h2]
    · simp [h1]
  · intro i t _ hne
    have h : ¬ (k = i ∧ l = c) := fun hh => hne hh.1.symm
    simp [setAt2, h]
  · intro t _
    by_cases h2 : l = c
    · subst h2
      simp [setAt2]
    · simp [setAt2, h2]

/-- A loop that rewrites the first `m` entries of the row `(r, c)` of a three-index
array. -/
theorem rowLoop3_apply (m r c : Nat) (g : Nat → ℚ → ℚ) (A : Nat → Nat → Nat → ℚ) :
    forLoop m (fun jc a => setAt3 a r c jc (g jc (a r c jc))) A
      = fun k l j => if k = r ∧ l = c ∧ j < m then g j (A k l j) else A k l j := by
  funext k l j
  rw [forLoop_obs (fun a : Nat → Nat → Nat → ℚ => a k l j)
    (fun x => if k = r ∧ l = c then g j x else x) j m _ A]
  · by_cases h1 : j < m
    · by_cases h2 : k = r ∧ l = c
      · simp [h1, h2]
      · have h3 : ¬ (k = r ∧ l = c ∧ j < m) := fun hh => h2 ⟨hh.1, hh.2.1⟩
        simp [h1, h2, h3]
    · have h3 : ¬ (k = r ∧ l = c ∧ j < m) := fun hh => h1 hh.2.2
      simp [h1, h3]
  · intro i t _ hne
    have h : ¬ (k = r ∧ l = c ∧ j = i) := fun hh => hne hh.2.2.symm
    simp [setAt3, h]
  · intro t _
    by_cases h2 : k = r ∧ l = c
    · obtain ⟨rfl, rfl⟩ := h2
      simp [setAt3]
    · have h3 : ¬ (k = r ∧ l = c ∧ j = j) := fun hh => h2 ⟨hh.1, hh.2.1⟩
      simp [setAt3, h2, h3]

/-- Second component of the loop of `columnLoop_fst`. -/
theorem columnLoop_snd (n m c : Nat) (F : Nat → ℚ → ℚ) (G : Nat → Nat → ℚ → ℚ)
    (d : (Nat → Nat → ℚ) × (Nat → Nat → Nat → ℚ)) :
    (forLoop n (fun ke (d : (Nat → Nat → ℚ) × (Nat → Nat → Nat → ℚ)) =>
        (setAt2 d.1 ke c (F ke (d.1 ke c)),
          forLoop m (fun jc a => setAt3 a ke c jc (G ke jc (a ke c jc))) d.2)) d).2
      = fun k l j => if k < n ∧ l = c ∧ j < m then G k j (d.2 k l j) else d.2 k l j := by
  funext k l j
  rw [forLoop_obs (fun e : (Nat → Nat → ℚ) × (Nat → Nat → Nat → ℚ) => e.2 k l j)
    (fun x => if l = c ∧ j < m then G k j x else x) k n _ d]
  · by_cases h1 : k < n
    · by_cases h2 : l = c ∧ j < m
      · simp [h1, h2]
      · have h3 : ¬ (k < n ∧ l = c ∧ j < m) := fun hh => h2 hh.2
        simp [h1, h2, h3]
    · have h3 : ¬ (k < n ∧ l = c ∧ j < m) := fun hh => h1 hh.1
      simp [h1, h3]
  · intro i t _ hne
    show forLoop m (fun jc a => setAt3 a i c jc (G i jc (a i c jc))) t.2 k l j = t.2 k l j
    rw [rowLoop3_apply m i c (G i) t.2]
    have h : ¬ (k = i ∧ l = c ∧ j < m) := fun hh => hne hh.1.symm
    simp [h]
  · intro t _
    show forLoop m (fun jc a => setAt3 a k c jc (G k jc (a k c jc))) t.2 k l j = _
    rw [rowLoop3_apply m k c (G k) t.2]
    simp


/-! ## Claims on `mdensMultiply` and `formPhaseComp` -/

/-- C17. `mdensMultiply` applies the product rule with the field value from before the
rescaling: with `d = phaseDens[cell k_up][ip]` and `f0` the field on entry, on return
`field = f0 * d`, and for every `ke < stencilSize` (`k_up < stencilSize`)
`dField_dPres[ke] = old dField_dPres[ke] * d + (ke = k_up ? dPhaseDens_dPres[k_up][ip] * f0 : 0)`
and, for `jc < NC`, `dField_dComp[ke][jc] = old dField_dComp[ke][jc] * d +
(ke = k_up ? (chain-rule product of dCompFrac_dCompDens[k_up] with
dPhaseDens_dComp[k_up][ip])[jc] * f0 : 0)`. -/
theorem mdensMultiply_product_rule (NC MAX_STENCIL ip k_up stencilSize : Nat) (st : Stencil)
    (pd : PhaseDensViews) (f0 : ℚ) (dField_dPres : Nat → ℚ) (dField_dComp : Nat → Nat → ℚ)
    (ke : Nat) (_hkup : k_up < stencilSize) (hke : ke < stencilSize) :
    (mdensMultiply NC MAX_STENCIL ip k_up stencilSize st pd f0 dField_dPres
        dField_dComp).field
      = f0 * pd.phaseDens (st.seri k_up) (st.sesri k_up) (st.sei k_up) 0 ip ∧
    (mdensMultiply NC MAX_STENCIL ip k_up stencilSize st pd f0 dField_dPres
        dField_dComp).dField_dPres ke
      = dField_dPres ke * pd.phaseDens (st.seri k_up) (st.sesri k_up) (st.sei k_up) 0 ip
        + (if ke = k_up then
            pd.dPhaseDens_dPres (st.seri k_up) (st.sesri k_up) (st.sei k_up) 0 ip * f0
          else 0) ∧
    ∀ jc, jc < NC →
      (mdensMultiply NC MAX_STENCIL ip k_up stencilSize st pd f0 dField_dPres
          dField_dComp).dField_dComp ke jc
        = dField_dComp ke jc
            * pd.phaseDens (st.seri k_up) (st.sesri k_up) (st.sei k_up) 0 ip
          + (if ke = k_up then
              applyChainRule NC
                (pd.dCompFrac_dCompDens (st.seri k_up) (st.sesri k_up) (st.sei k_up))
                (pd.dPhaseDens_dComp (st.seri k_up) (st.sesri k_up) (st.sei k_up) 0 ip)
                (fun _ => 0) jc * f0
            else 0) := by
  refine ⟨rfl, ?_, ?_⟩
  · unfold mdensMultiply
    simp only []
    rw [pairLoop_fst stencilSize NC
      (fun _ x => x * pd.phaseDens (st.seri k_up) (st.sesri k_up) (st.sei k_up) 0 ip)
      (fun _ _ x => x * pd.phaseDens (st.seri k_up) (st.sesri k_up) (st.sei k_up) 0 ip)]
    simp only [setAt]
    by_cases hk : ke = k_up
    · subst hk
      simp [hke]
    · simp [hk, hke]
  · intro jc hjc
    unfold mdensMultiply
    simp only []
    rw [rowLoop_apply NC k_up (fun jc x => x + applyChainRule NC
        (pd.dCompFrac_dCompDens (st.seri k_up) (st.sesri k_up) (st.sei k_up))
        (pd.dPhaseDens_dComp (st.seri k_up) (st.sesri k_up) (st.sei k_up) 0 ip)
        (fun _ => 0) jc * f0),
      pairLoop_snd stencilSize NC
      (fun _ x => x * pd.phaseDens (st.seri k_up) (st.sesri k_up) (st.sei k_up) 0 ip)
      (fun _ _ x => x * pd.phaseDens (st.seri k_up) (st.sesri k_up) (st.sei k_up) 0 ip)]
    by_cases hk : ke = k_up
    · subst hk
      simp [hke, hjc]
    · simp [hk, hke, hjc]

/-- Witness of C17: two components, two cells, upstream cell `1`, stencil cell `1`. -/
theorem mdensMultiply_product_rule_witness :
    (mdensMultiply 2 2 0 1 2 scenarioStencil
        ⟨fun _ _ _ _ _ => 1, fun _ _ _ _ _ => 5, fun _ _ _ _ _ => 2, fun _ _ _ _ _ _ => 3⟩
        10 (fun ke => (ke : ℚ) + 1) (fun ke jc => (ke : ℚ) + jc)).field
      = 10 * 5 :=
  (mdensMultiply_product_rule 2 2 0 1 2 scenarioStencil
    ⟨fun _ _ _ _ _ => 1, fun _ _ _ _ _ => 5, fun _ _ _ _ _ => 2, fun _ _ _ _ _ _ => 3⟩
    10 (fun ke => (ke : ℚ) + 1) (fun ke jc => (ke : ℚ) + jc) 1 (by decide) (by decide)).1


/-- Effect of one iteration of the component loop of `formPhaseComp` on `compFlux`. -/
theorem formPhaseCompStep_compFlux (NC ip k_up stencilSize : Nat) (st : Stencil)
    (pc : PhaseCompViews) (phaseFlux : ℚ) (dP : Nat → ℚ) (dC : Nat → Nat → ℚ)
    (ic : Nat) (t : PhaseCompAcc) (l : Nat) :
    (formPhaseCompStep NC ip k_up stencilSize st pc phaseFlux dP dC ic t).compFlux l
      = if l = ic then
          t.compFlux l + phaseFlux
            * pc.phaseCompFrac (st.seri k_up) (st.sesri k_up) (st.sei k_up) 0 ip ic
        else t.compFlux l := by
  unfold formPhaseCompStep
  simp only [setAt]
  by_cases h : l = ic
  · subst h
    simp
  · simp [h]

/-- Effect of one iteration of the component loop of `formPhaseComp` on
`dCompFlux_dPres`. -/
theorem formPhaseCompStep_dPres (NC ip k_up stencilSize : Nat) (st : Stencil)
    (pc : PhaseCompViews) (phaseFlux : ℚ) (dP : Nat → ℚ) (dC : Nat → Nat → ℚ)
    (ic : Nat) (t : PhaseCompAcc) (ke l : Nat) :
    (formPhaseCompStep NC ip k_up stencilSize st pc phaseFlux dP dC ic t).dCompFlux_dPres ke l
      = if l = ic then
          (if ke < stencilSize then
            t.dCompFlux_dPres ke l + dP ke
              * pc.phaseCompFrac (st.seri k_up) (st.sesri k_up) (st.sei k_up) 0 ip ic
          else t.dCompFlux_dPres ke l)
          + (if ke = k_up then
              phaseFlux
                * pc.dPhaseCompFrac_dPres (st.seri k_up) (st.sesri k_up) (st.sei k_up) 0 ip ic
            else 0)
        else t.dCompFlux_dPres ke l := by
  unfold formPhaseCompStep
  simp only []
  rw [columnLoop_fst stencilSize NC ic
    (fun ke x => x + dP ke
      * pc.phaseCompFrac (st.seri k_up) (st.sesri k_up) (st.sei k_up) 0 ip ic)
    (fun ke jc x => x + dC ke jc
      * pc.phaseCompFrac (st.seri k_up) (st.sesri k_up) (st.sei k_up) 0 ip ic)]
  simp only [setAt2]
  by_cases hl : l = ic
  · subst hl
    by_cases hk : ke = k_up
    · subst hk
      simp
    · simp [hk]
  · simp [hl]

/-- Effect of one iteration of the component loop of `formPhaseComp` on
`dCompFlux_dComp`. -/
theorem formPhaseCompStep_dComp (NC ip k_up stencilSize : Nat) (st : Stencil)
    (pc : PhaseCompViews) (phaseFlux : ℚ) (dP : Nat → ℚ) (dC : Nat → Nat → ℚ)
    (ic : Nat) (t : PhaseCompAcc) (ke l j : Nat) :
    (formPhaseCompStep NC ip k_up stencilSize st pc phaseFlux dP dC ic t).dCompFlux_dComp
        ke l j
      = if l = ic ∧ j < NC then
          (if ke < stencilSize then
            t.dCompFlux_dComp ke l j + dC ke j
              * pc.phaseCompFrac (st.seri k_up) (st.sesri k_up) (st.sei k_up) 0 ip ic
          else t.dCompFlux_dComp ke l j)
          + (if ke = k_up then
              phaseFlux * applyChainRule NC
                (pc.dCompFrac_dCompDens (st.seri k_up) (st.sesri k_up) (st.sei k_up))
                (pc.dPhaseCompFrac_dComp (st.seri k_up) (st.sesri k_up) (st.sei k_up) 0 ip ic)
                (fun _ => 0) j
            else 0)
        else t.dCompFlux_dComp ke l j := by
  unfold formPhaseCompStep
  simp only []
  rw [rowLoop3_apply NC k_up ic
    (fun jc x => x + phaseFlux * applyChainRule NC
      (pc.dCompFrac_dCompDens (st.seri k_up) (st.sesri k_up) (st.sei k_up))
      (pc.dPhaseCompFrac_dComp (st.seri k_up) (st.sesri k_up) (st.sei k_up) 0 ip ic)
      t.dProp_dC jc),
    columnLoop_snd stencilSize NC ic
    (fun ke x => x + dP ke
      * pc.phaseCompFrac (st.seri k_up) (st.sesri k_up) (st.sei k_up) 0 ip ic)
    (fun ke jc x => x + dC ke jc
      * pc.phaseCompFrac (st.seri k_up) (st.sesri k_up) (st.sei k_up) 0 ip ic)]
  dsimp only
  by_cases hl : l = ic ∧ j < NC
  · obtain ⟨hl1, hl2⟩ := hl
    subst hl1
    rw [applyChainRule_working NC _ _ t.dProp_dC (fun _ => 0) j hl2]
    by_cases hk : ke = k_up
    · subst hk
      simp [hl2]
    · simp [hk, hl2]
  · have h1 : ¬ (ke = k_up ∧ l = ic ∧ j < NC) := fun hh => hl hh.2
    have h2 : ¬ (ke < stencilSize ∧ l = ic ∧ j < NC) := fun hh => hl hh.2
    simp only [if_neg hl, if_neg h1, if_neg h2]

/-- Every entry of the `compFlux` returned by `formPhaseComp`. -/
theorem formPhaseComp_compFlux (NC MAX_STENCIL ip k_up stencilSize : Nat) (st : Stencil)
    (pc : PhaseCompViews) (phaseFlux : ℚ) (dP : Nat → ℚ) (dC : Nat → Nat → ℚ)
    (cf : CompFlux) (l : Nat) :
    (formPhaseComp NC MAX_STENCIL ip k_up stencilSize st pc phaseFlux dP dC cf).compFlux l
      = if l < NC then
          cf.compFlux l + phaseFlux
            * pc.phaseCompFrac (st.seri k_up) (st.sesri k_up) (st.sei k_up) 0 ip l
        else cf.compFlux l := by
  unfold formPhaseComp formPhaseCompLoop
  simp only []
  rw [forLoop_obs (fun t : PhaseCompAcc => t.compFlux l)
    (fun x => x + phaseFlux
      * pc.phaseCompFrac (st.seri k_up) (st.sesri k_up) (st.sei k_up) 0 ip l) l NC]
  · intro i t _ hne
    rw [formPhaseCompStep_compFlux, if_neg (fun h => hne h.symm)]
  · intro t _
    rw [formPhaseCompStep_compFlux, if_pos rfl]

/-- Every entry of the `dCompFlux_dPres` returned by `formPhaseComp`. -/
theorem formPhaseComp_dPres (NC MAX_STENCIL ip k_up stencilSize : Nat) (st : Stencil)
    (pc : PhaseCompViews) (phaseFlux : ℚ) (dP : Nat → ℚ) (dC : Nat → Nat → ℚ)
    (cf : CompFlux) (ke l : Nat) :
    (formPhaseComp NC MAX_STENCIL ip k_up stencilSize st pc phaseFlux dP dC
        cf).dCompFlux_dPres ke l
      = if l < NC then
          (if ke < stencilSize then
            cf.dCompFlux_dPres ke l + dP ke
              * pc.phaseCompFrac (st.seri k_up) (st.sesri k_up) (st.sei k_up) 0 ip l
          else cf.dCompFlux_dPres ke l)
          + (if ke = k_up then
              phaseFlux
                * pc.dPhaseCompFrac_dPres (st.seri k_up) (st.sesri k_up) (st.sei k_up) 0 ip l
            else 0)
        else cf.dCompFlux_dPres ke l := by
  unfold formPhaseComp formPhaseCompLoop
  simp only []
  rw [forLoop_obs (fun t : PhaseCompAcc => t.dCompFlux_dPres ke l)
    (fun x => (if ke < stencilSize then
        x + dP ke * pc.phaseCompFrac (st.seri k_up) (st.sesri k_up) (st.sei k_up) 0 ip l
      else x)
      + (if ke = k_up then
          phaseFlux
            * pc.dPhaseCompFrac_dPres (st.seri k_up) (st.sesri k_up) (st.sei k_up) 0 ip l
        else 0)) l NC]
  · intro i t _ hne
    rw [formPhaseCompStep_dPres, if_neg (fun h => hne h.symm)]
  · intro t _
    rw [formPhaseCompStep_dPres, if_pos rfl]

/-- Every entry of the `dCompFlux_dComp` returned by `formPhaseComp`. -/
theorem formPhaseComp_dComp (NC MAX_STENCIL ip k_up stencilSize : Nat) (st : Stencil)
    (pc : PhaseCompViews) (phaseFlux : ℚ) (dP : Nat → ℚ) (dC : Nat → Nat → ℚ)
    (cf : CompFlux) (ke l j : Nat) :
    (formPhaseComp NC MAX_STENCIL ip k_up stencilSize st pc phaseFlux dP dC
        cf).dCompFlux_dComp ke l j
      = if l < NC ∧ j < NC then
          (if ke < stencilSize then
            cf.dCompFlux_dComp ke l j + dC ke j
              * pc.phaseCompFrac (st.seri k_up) (st.sesri k_up) (st.sei k_up) 0 ip l
          else cf.dCompFlux_dComp ke l j)
          + (if ke = k_up then
              phaseFlux * applyChainRule NC
                (pc.dCompFrac_dCompDens (st.seri k_up) (st.sesri k_up) (st.sei k_up))
                (pc.dPhaseCompFrac_dComp (st.seri k_up) (st.sesri k_up) (st.sei k_up) 0 ip l)
                (fun _ => 0) j
            else 0)
        else cf.dCompFlux_dComp ke l j := by
  unfold formPhaseComp formPhaseCompLoop
  simp only []
  rw [forLoop_obs (fun t : PhaseCompAcc => t.dCompFlux_dComp ke l j)
    (fun x => if j < NC then
        (if ke < stencilSize then
          x + dC ke j * pc.phaseCompFrac (st.seri k_up) (st.sesri k_up) (st.sei k_up) 0 ip l
        else x)
        + (if ke = k_up then
            phaseFlux * applyChainRule NC
              (pc.dCompFrac_dCompDens (st.seri k_up) (st.sesri k_up) (st.sei k_up))
              (pc.dPhaseCompFrac_dComp (st.seri k_up) (st.sesri k_up) (st.sei k_up) 0 ip l)
              (fun _ => 0) j
          else 0)
      else x) l NC]
  · by_cases h1 : l < NC
    · by_cases h2 : j < NC
      · simp [h1, h2]
      · simp [h1, h2]
    · simp [h1]
  · intro i t _ hne
    rw [formPhaseCompStep_dComp]
    have h : ¬ (l = i ∧ j < NC) := fun hh => hne hh.1.symm
    rw [if_neg h]
  · intro t _
    rw [formPhaseCompStep_dComp]
    by_cases h2 : j < NC
    · simp [h2]
    · simp [h2]


/-- `formPhaseComp` reads its composition views at the upstream cell, phase `ip`, only. -/
theorem formPhaseComp_upstream_only (NC MAX_STENCIL ip k_up stencilSize : Nat) (st : Stencil)
    (pc pc2 : PhaseCompViews) (phaseFlux : ℚ) (dP : Nat → ℚ) (dC : Nat → Nat → ℚ)
    (cf : CompFlux)
    (h1 : ∀ ic, pc2.phaseCompFrac (st.seri k_up) (st.sesri k_up) (st.sei k_up) 0 ip ic
      = pc.phaseCompFrac (st.seri k_up) (st.sesri k_up) (st.sei k_up) 0 ip ic)
    (h2 : ∀ ic, pc2.dPhaseCompFrac_dPres (st.seri k_up) (st.sesri k_up) (st.sei k_up) 0 ip ic
      = pc.dPhaseCompFrac_dPres (st.seri k_up) (st.sesri k_up) (st.sei k_up) 0 ip ic)
    (h3 : ∀ ic jc,
      pc2.dPhaseCompFrac_dComp (st.seri k_up) (st.sesri k_up) (st.sei k_up) 0 ip ic jc
        = pc.dPhaseCompFrac_dComp (st.seri k_up) (st.sesri k_up) (st.sei k_up) 0 ip ic jc)
    (h4 : ∀ ic jc, pc2.dCompFrac_dCompDens (st.seri k_up) (st.sesri k_up) (st.sei k_up) ic jc
      = pc.dCompFrac_dCompDens (st.seri k_up) (st.sesri k_up) (st.sei k_up) ic jc) :
    formPhaseComp NC MAX_STENCIL ip k_up stencilSize st pc2 phaseFlux dP dC cf
      = formPhaseComp NC MAX_STENCIL ip k_up stencilSize st pc phaseFlux dP dC cf := by
  have e1 : pc2.phaseCompFrac (st.seri k_up) (st.sesri k_up) (st.sei k_up) 0 ip
      = pc.phaseCompFrac (st.seri k_up) (st.sesri k_up) (st.sei k_up) 0 ip := funext h1
  have e2 : pc2.dPhaseCompFrac_dPres (st.seri k_up) (st.sesri k_up) (st.sei k_up) 0 ip
      = pc.dPhaseCompFrac_dPres (st.seri k_up) (st.sesri k_up) (st.sei k_up) 0 ip := funext h2
  have e3 : pc2.dPhaseCompFrac_dComp (st.seri k_up) (st.sesri k_up) (st.sei k_up) 0 ip
      = pc.dPhaseCompFrac_dComp (st.seri k_up) (st.sesri k_up) (st.sei k_up) 0 ip :=
    funext (fun ic => funext (h3 ic))
  have e4 : pc2.dCompFrac_dCompDens (st.seri k_up) (st.sesri k_up) (st.sei k_up)
      = pc.dCompFrac_dCompDens (st.seri k_up) (st.sesri k_up) (st.sei k_up) :=
    funext (fun ic => funext (h4 ic))
  have hstep : formPhaseCompStep NC ip k_up stencilSize st pc2 phaseFlux dP dC
      = formPhaseCompStep NC ip k_up stencilSize st pc phaseFlux dP dC := by
    funext ic t
    unfold formPhaseCompStep
    simp only [e1, e2, e3, e4]
  unfold formPhaseComp formPhaseCompLoop
  rw [hstep]

/-- C15. `formPhaseComp` distributes the phase flux with the upstream composition by
accumulation: for every input and every `ic < NC`, `compFlux[ic]` after the call equals
`compFlux[ic]` before the call plus `phaseFlux * phaseCompFrac[cell k_up][ip][ic]`; the
composition of no other cell is read: two composition bundles that agree at the cell
`k_up` (quadrature index `0`, phase `ip`) give the same three outputs. -/
theorem formPhaseComp_accumulates (NC MAX_STENCIL ip k_up stencilSize : Nat) (st : Stencil)
    (pc : PhaseCompViews) (phaseFlux : ℚ) (dPhaseFlux_dPres : Nat → ℚ)
    (dPhaseFlux_dComp : Nat → Nat → ℚ) (cf : CompFlux) (ic : Nat) (hic : ic < NC) :
    (formPhaseComp NC MAX_STENCIL ip k_up stencilSize st pc phaseFlux dPhaseFlux_dPres
        dPhaseFlux_dComp cf).compFlux ic
      = cf.compFlux ic + phaseFlux
        * pc.phaseCompFrac (st.seri k_up) (st.sesri k_up) (st.sei k_up) 0 ip ic ∧
    ∀ pc2 : PhaseCompViews,
      (∀ jc, pc2.phaseCompFrac (st.seri k_up) (st.sesri k_up) (st.sei k_up) 0 ip jc
        = pc.phaseCompFrac (st.seri k_up) (st.sesri k_up) (st.sei k_up) 0 ip jc) →
      (∀ jc, pc2.dPhaseCompFrac_dPres (st.seri k_up) (st.sesri k_up) (st.sei k_up) 0 ip jc
        = pc.dPhaseCompFrac_dPres (st.seri k_up) (st.sesri k_up) (st.sei k_up) 0 ip jc) →
      (∀ jc kc,
        pc2.dPhaseCompFrac_dComp (st.seri k_up) (st.sesri k_up) (st.sei k_up) 0 ip jc kc
          = pc.dPhaseCompFrac_dComp (st.seri k_up) (st.sesri k_up) (st.sei k_up) 0 ip jc kc) →
      (∀ jc kc,
        pc2.dCompFrac_dCompDens (st.seri k_up) (st.sesri k_up) (st.sei k_up) jc kc
          = pc.dCompFrac_dCompDens (st.seri k_up) (st.sesri k_up) (st.sei k_up) jc kc) →
      formPhaseComp NC MAX_STENCIL ip k_up stencilSize st pc2 phaseFlux dPhaseFlux_dPres
          dPhaseFlux_dComp cf
        = formPhaseComp NC MAX_STENCIL ip k_up stencilSize st pc phaseFlux dPhaseFlux_dPres
          dPhaseFlux_dComp cf := by
  refine ⟨?_, ?_⟩
  · rw [formPhaseComp_compFlux, if_pos hic]
  · intro pc2 h1 h2 h3 h4
    exact formPhaseComp_upstream_only NC MAX_STENCIL ip k_up stencilSize st pc pc2 phaseFlux
      dPhaseFlux_dPres dPhaseFlux_dComp cf h1 h2 h3 h4

/-- Witness of C15: two components, upstream cell `1`, phase flux `10`, component `1`. -/
theorem formPhaseComp_accumulates_witness :
    (1 < 2) ∧
    (formPhaseComp 2 2 0 1 2 scenarioStencil scenarioCompViews 10 (fun ke => (ke : ℚ) + 1)
        (fun ke jc => (ke : ℚ) + jc) ⟨fun _ => 100, fun _ _ => 100, fun _ _ _ => 100⟩).compFlux 1
      = (100 : ℚ) + 10 * scenarioCompViews.phaseCompFrac (scenarioStencil.seri 1)
          (scenarioStencil.sesri 1) (scenarioStencil.sei 1) 0 0 1 :=
  ⟨by decide,
    (formPhaseComp_accumulates 2 2 0 1 2 scenarioStencil scenarioCompViews 10
      (fun ke => (ke : ℚ) + 1) (fun ke jc => (ke : ℚ) + jc)
      ⟨fun _ => 100, fun _ _ => 100, fun _ _ _ => 100⟩ 1 (by decide)).1⟩

/-- C16. Derivative rule of `formPhaseComp`: for every `ic < NC` and `ke < stencilSize`
(`k_up < stencilSize`), `dCompFlux_dPres[ke][ic]` increases by
`dPhaseFlux_dPres[ke] * y_ic` plus, only when `ke = k_up`,
`phaseFlux * dPhaseCompFrac_dPres[k_up][ip][ic]`; and for every `jc < NC`,
`dCompFlux_dComp[ke][ic][jc]` increases by `dPhaseFlux_dComp[ke][jc] * y_ic` plus, only when
`ke = k_up`, `phaseFlux *` (chain-rule product of `dCompFrac_dCompDens[k_up]` with
`dPhaseCompFrac_dComp[k_up][ip][ic]`)`[jc]`, where `y_ic` is the upstream composition. -/
theorem formPhaseComp_derivative_rule (NC MAX_STENCIL ip k_up stencilSize : Nat)
    (st : Stencil) (pc : PhaseCompViews) (phaseFlux : ℚ) (dPhaseFlux_dPres : Nat → ℚ)
    (dPhaseFlux_dComp : Nat → Nat → ℚ) (cf : CompFlux) (ic ke : Nat)
    (hic : ic < NC) (hke : ke < stencilSize) (_hkup : k_up < stencilSize) :
    (formPhaseComp NC MAX_STENCIL ip k_up stencilSize st pc phaseFlux dPhaseFlux_dPres
        dPhaseFlux_dComp cf).dCompFlux_dPres ke ic
      = cf.dCompFlux_dPres ke ic
        + (dPhaseFlux_dPres ke
            * pc.phaseCompFrac (st.seri k_up) (st.sesri k_up) (st.sei k_up) 0 ip ic
          + (if ke = k_up then
              phaseFlux
                * pc.dPhaseCompFrac_dPres (st.seri k_up) (st.sesri k_up) (st.sei k_up) 0 ip ic
            else 0)) ∧
    ∀ jc, jc < NC →
      (formPhaseComp NC MAX_STENCIL ip k_up stencilSize st pc phaseFlux dPhaseFlux_dPres
          dPhaseFlux_dComp cf).dCompFlux_dComp ke ic jc
        = cf.dCompFlux_dComp ke ic jc
          + (dPhaseFlux_dComp ke jc
              * pc.phaseCompFrac (st.seri k_up) (st.sesri k_up) (st.sei k_up) 0 ip ic
            + (if ke = k_up then
                phaseFlux * applyChainRule NC
                  (pc.dCompFrac_dCompDens (st.seri k_up) (st.sesri k_up) (st.sei k_up))
                  (pc.dPhaseCompFrac_dComp (st.seri k_up) (st.sesri k_up) (st.sei k_up) 0 ip
                    ic)
                  (fun _ => 0) jc
              else 0)) := by
  refine ⟨?_, ?_⟩
  · rw [formPhaseComp_dPres, if_pos hic, if_pos hke]
    ring
  · intro jc hjc
    rw [formPhaseComp_dComp, if_pos ⟨hic, hjc⟩, if_pos hke]
    ring

/-- Witness of C16: two components, upstream cell `1`, entry of cell `1`, component `0`. -/
theorem formPhaseComp_derivative_rule_witness :
    ((0 < 2) ∧ (1 < 2)) ∧
    (formPhaseComp 2 2 0 1 2 scenarioStencil scenarioCompViews 10 (fun ke => (ke : ℚ) + 1)
        (fun ke jc => (ke : ℚ) + jc)
        ⟨fun _ => 100, fun _ _ => 100, fun _ _ _ => 100⟩).dCompFlux_dPres 1 0
      = (100 : ℚ)
        + ((((1 : ℕ) : ℚ) + 1) * scenarioCompViews.phaseCompFrac (scenarioStencil.seri 1)
            (scenarioStencil.sesri 1) (scenarioStencil.sei 1) 0 0 0
          + (if 1 = 1 then
              10 * scenarioCompViews.dPhaseCompFrac_dPres (scenarioStencil.seri 1)
                (scenarioStencil.sesri 1) (scenarioStencil.sei 1) 0 0 0
            else 0)) :=
  ⟨⟨by decide, by decide⟩,
    (formPhaseComp_derivative_rule 2 2 0 1 2 scenarioStencil scenarioCompViews 10
      (fun ke => (ke : ℚ) + 1) (fun ke jc => (ke : ℚ) + jc)
      ⟨fun _ => 100, fun _ _ => 100, fun _ _ _ => 100⟩ 0 1 (by decide) (by decide)
      (by decide)).1⟩


/-! ## Results of `upwindMob` and `formFracFlow` -/

/-- Direction returned by `upwindMob`. -/
theorem upwindMob_upwindDir (scheme : UPWIND) (NC NUM_ELEMS numPhase ip stencilSize : Nat)
    (st : Stencil) (totFlux : ℚ) (v : ElementViews) (a : Nat → ℚ) :
    (upwindMob scheme NC NUM_ELEMS numPhase ip stencilSize st totFlux v a).upwindDir
      = getUpwindDir scheme NC NUM_ELEMS numPhase ip stencilSize st totFlux v := by
  unfold upwindMob
  simp only []
  split_ifs <;> rfl

/-- Mobility returned by `upwindMob`. -/
theorem upwindMob_mob (scheme : UPWIND) (NC NUM_ELEMS numPhase ip stencilSize : Nat)
    (st : Stencil) (totFlux : ℚ) (v : ElementViews) (a : Nat → ℚ) :
    (upwindMob scheme NC NUM_ELEMS numPhase ip stencilSize st totFlux v a).mob
      = if |upwindPhaseMob scheme NC NUM_ELEMS numPhase ip stencilSize st totFlux v| > 1e-20
        then upwindPhaseMob scheme NC NUM_ELEMS numPhase ip stencilSize st totFlux v
        else 0 := by
  unfold upwindMob upwindPhaseMob
  simp only []
  split_ifs <;> rfl

/-- The direction selected by `getUpwindDir` is `0` or `1`. -/
theorem getUpwindDir_le_one (scheme : UPWIND) (NC NUM_ELEMS numPhase ip stencilSize : Nat)
    (st : Stencil) (totFlux : ℚ) (v : ElementViews) :
    getUpwindDir scheme NC NUM_ELEMS numPhase ip stencilSize st totFlux v = 0 ∨
    getUpwindDir scheme NC NUM_ELEMS numPhase ip stencilSize st totFlux v = 1 := by
  rw [getUpwindDir_apply]
  split_ifs
  · exact Or.inl rfl
  · exact Or.inr rfl

/-- Effect of one iteration of the phase loop of `formFracFlow` on the variables of the
requested phase. -/
theorem formFracFlowMobStep_main (scheme : UPWIND) (NC NUM_ELEMS numPhase ip stencilSize : Nat)
    (st : Stencil) (totFlux : ℚ) (v : ElementViews) (jp : Nat) (t : FracFlowAcc) :
    (formFracFlowMobStep scheme NC NUM_ELEMS numPhase ip stencilSize st totFlux v jp
        t).k_up_main
      = (if jp = ip then
          ((upwindMobOf scheme NC NUM_ELEMS numPhase jp stencilSize st totFlux v).upwindDir
            : Int)
        else t.k_up_main) ∧
    (formFracFlowMobStep scheme NC NUM_ELEMS numPhase ip stencilSize st totFlux v jp
        t).mainMob
      = (if jp = ip then
          (upwindMobOf scheme NC NUM_ELEMS numPhase jp stencilSize st totFlux v).mob
        else t.mainMob) ∧
    (formFracFlowMobStep scheme NC NUM_ELEMS numPhase ip stencilSize st totFlux v jp
        t).dMMob_dP
      = (if jp = ip then
          (upwindMobOf scheme NC NUM_ELEMS numPhase jp stencilSize st totFlux v).dMob_dP
        else t.dMMob_dP) ∧
    ∀ ic, (formFracFlowMobStep scheme NC NUM_ELEMS numPhase ip stencilSize st totFlux v jp
        t).dMMob_dC ic
      = (if jp = ip ∧ ic < NC then
          (upwindMobOf scheme NC NUM_ELEMS numPhase jp stencilSize st totFlux v).dMob_dC ic
        else t.dMMob_dC ic) := by
  unfold formFracFlowMobStep upwindMobOf
  by_cases h : jp = ip
  · simp only [if_pos h]
    refine ⟨trivial, trivial, trivial, ?_⟩
    intro ic
    rw [forLoop_fill]
    by_cases hic : ic < NC
    · simp [hic, h]
    · simp [hic]
  · simp only [if_neg h]
    refine ⟨trivial, trivial, trivial, ?_⟩
    intro ic
    simp [h]

/-- Effect of one iteration of the phase loop of `formFracFlow` on the totals. -/
theorem formFracFlowMobStep_tot (scheme : UPWIND) (NC NUM_ELEMS numPhase ip stencilSize : Nat)
    (st : Stencil) (totFlux : ℚ) (v : ElementViews) (jp : Nat) (t : FracFlowAcc) :
    (formFracFlowMobStep scheme NC NUM_ELEMS numPhase ip stencilSize st totFlux v jp
        t).totMob
      = t.totMob + (upwindMobOf scheme NC NUM_ELEMS numPhase jp stencilSize st totFlux v).mob ∧
    (∀ ke, (formFracFlowMobStep scheme NC NUM_ELEMS numPhase ip stencilSize st totFlux v jp
        t).dTotMob_dP ke
      = t.dTotMob_dP ke
        + (if ke = (upwindMobOf scheme NC NUM_ELEMS numPhase jp stencilSize st totFlux
              v).upwindDir then
            (upwindMobOf scheme NC NUM_ELEMS numPhase jp stencilSize st totFlux v).dMob_dP
          else 0)) ∧
    ∀ ke ic, (formFracFlowMobStep scheme NC NUM_ELEMS numPhase ip stencilSize st totFlux v jp
        t).dTotMob_dC ke ic
      = t.dTotMob_dC ke ic
        + (if ke = (upwindMobOf scheme NC NUM_ELEMS numPhase jp stencilSize st totFlux
              v).upwindDir ∧ ic < NC then
            (upwindMobOf scheme NC NUM_ELEMS numPhase jp stencilSize st totFlux v).dMob_dC ic
          else 0) := by
  unfold formFracFlowMobStep upwindMobOf
  refine ⟨?_, ?_, ?_⟩
  · by_cases hj : jp = ip
    · simp only [if_pos hj]
    · simp only [if_neg hj]
  · intro ke
    have h : ∀ (x : ℚ) (k : Nat) (a : Nat → ℚ),
        setAt a k (a k + x) ke = a ke + (if ke = k then x else 0) := by
      intro x k a
      by_cases hk : ke = k
      · subst hk
        simp [setAt]
      · simp [setAt, hk]
    by_cases hj : jp = ip
    · simp only [if_pos hj]
      exact h _ _ _
    · simp only [if_neg hj]
      exact h _ _ _
  · intro ke ic
    have h : ∀ (f : Nat → ℚ) (k : Nat) (A : Nat → Nat → ℚ),
        forLoop NC (fun ic a => setAt2 a k ic (a k ic + f ic)) A ke ic
          = A ke ic + (if ke = k ∧ ic < NC then f ic else 0) := by
      intro f k A
      rw [rowLoop_apply NC k (fun ic x => x + f ic) A]
      by_cases hk : ke = k ∧ ic < NC
      · obtain ⟨rfl, hk2⟩ := hk
        simp [hk2]
      · simp [hk]
    by_cases hj : jp = ip
    · simp only [if_pos hj]
      exact h _ _ _
    · simp only [if_neg hj]
      exact h _ _ _


/-- Variables of the requested phase after the phase loop of `formFracFlow`: those of
`upwindMob` for phase `ip` when `ip < numPhase`, the initial values otherwise. -/
theorem formFracFlowMob_main (scheme : UPWIND) (NC NUM_ELEMS numPhase ip stencilSize : Nat)
    (st : Stencil) (totFlux : ℚ) (v : ElementViews) :
    (formFracFlowMob scheme NC NUM_ELEMS numPhase ip stencilSize st totFlux v).k_up_main
      = (if ip < numPhase then
          ((upwindMobOf scheme NC NUM_ELEMS numPhase ip stencilSize st totFlux v).upwindDir
            : Int)
        else -1) ∧
    (formFracFlowMob scheme NC NUM_ELEMS numPhase ip stencilSize st totFlux v).mainMob
      = (if ip < numPhase then
          (upwindMobOf scheme NC NUM_ELEMS numPhase ip stencilSize st totFlux v).mob
        else 0) ∧
    (formFracFlowMob scheme NC NUM_ELEMS numPhase ip stencilSize st totFlux v).dMMob_dP
      = (if ip < numPhase then
          (upwindMobOf scheme NC NUM_ELEMS numPhase ip stencilSize st totFlux v).dMob_dP
        else 0) ∧
    ∀ ic, (formFracFlowMob scheme NC NUM_ELEMS numPhase ip stencilSize st totFlux v).dMMob_dC ic
      = (if ip < numPhase ∧ ic < NC then
          (upwindMobOf scheme NC NUM_ELEMS numPhase ip stencilSize st totFlux v).dMob_dC ic
        else 0) := by
  unfold formFracFlowMob
  refine ⟨?_, ?_, ?_, ?_⟩
  · rw [forLoop_obs (fun t : FracFlowAcc => t.k_up_main)
      (fun _ => ((upwindMobOf scheme NC NUM_ELEMS numPhase ip stencilSize st totFlux
        v).upwindDir : Int)) ip numPhase]
    · intro i t _ hne
      rw [(formFracFlowMobStep_main scheme NC NUM_ELEMS numPhase ip stencilSize st totFlux v
        i t).1, if_neg hne]
    · intro t _
      rw [(formFracFlowMobStep_main scheme NC NUM_ELEMS numPhase ip stencilSize st totFlux v
        ip t).1, if_pos rfl]
  · rw [forLoop_obs (fun t : FracFlowAcc => t.mainMob)
      (fun _ => (upwindMobOf scheme NC NUM_ELEMS numPhase ip stencilSize st totFlux v).mob)
      ip numPhase]
    · intro i t _ hne
      rw [(formFracFlowMobStep_main scheme NC NUM_ELEMS numPhase ip stencilSize st totFlux v
        i t).2.1, if_neg hne]
    · intro t _
      rw [(formFracFlowMobStep_main scheme NC NUM_ELEMS numPhase ip stencilSize st totFlux v
        ip t).2.1, if_pos rfl]
  · rw [forLoop_obs (fun t : FracFlowAcc => t.dMMob_dP)
      (fun _ => (upwindMobOf scheme NC NUM_ELEMS numPhase ip stencilSize st totFlux v).dMob_dP)
      ip numPhase]
    · intro i t _ hne
      rw [(formFracFlowMobStep_main scheme NC NUM_ELEMS numPhase ip stencilSize st totFlux v
        i t).2.2.1, if_neg hne]
    · intro t _
      rw [(formFracFlowMobStep_main scheme NC NUM_ELEMS numPhase ip stencilSize st totFlux v
        ip t).2.2.1, if_pos rfl]
  · intro ic
    rw [forLoop_obs (fun t : FracFlowAcc => t.dMMob_dC ic)
      (fun x => if ic < NC then
          (upwindMobOf scheme NC NUM_ELEMS numPhase ip stencilSize st totFlux v).dMob_dC ic
        else x) ip numPhase]
    · by_cases h1 : ip < numPhase
      · by_cases h2 : ic < NC
        · simp [h1, h2]
        · simp [h1, h2]
      · simp [h1]
    · intro i t _ hne
      rw [(formFracFlowMobStep_main scheme NC NUM_ELEMS numPhase ip stencilSize st totFlux v
        i t).2.2.2 ic, if_neg (fun hh => hne hh.1)]
    · intro t _
      rw [(formFracFlowMobStep_main scheme NC NUM_ELEMS numPhase ip stencilSize st totFlux v
        ip t).2.2.2 ic]
      by_cases h2 : ic < NC
      · simp [h2]
      · simp [h2]

/-- Totals after the phase loop of `formFracFlow`: the total mobility and, at every stencil
index, the sum of the mobility derivatives of the phases upwinded at that index. -/
theorem formFracFlowMob_tot (scheme : UPWIND) (NC NUM_ELEMS numPhase ip stencilSize : Nat)
    (st : Stencil) (totFlux : ℚ) (v : ElementViews) :
    (formFracFlowMob scheme NC NUM_ELEMS numPhase ip stencilSize st totFlux v).totMob
      = totMobSum scheme NC NUM_ELEMS numPhase stencilSize st totFlux v ∧
    (∀ ke, (formFracFlowMob scheme NC NUM_ELEMS numPhase ip stencilSize st totFlux
        v).dTotMob_dP ke
      = Finset.sum (Finset.range numPhase) (fun jp =>
          if ke = (upwindMobOf scheme NC NUM_ELEMS numPhase jp stencilSize st totFlux
              v).upwindDir then
            (upwindMobOf scheme NC NUM_ELEMS numPhase jp stencilSize st totFlux v).dMob_dP
          else 0)) ∧
    ∀ ke ic, (formFracFlowMob scheme NC NUM_ELEMS numPhase ip stencilSize st totFlux
        v).dTotMob_dC ke ic
      = Finset.sum (Finset.range numPhase) (fun jp =>
          if ke = (upwindMobOf scheme NC NUM_ELEMS numPhase jp stencilSize st totFlux
              v).upwindDir ∧ ic < NC then
            (upwindMobOf scheme NC NUM_ELEMS numPhase jp stencilSize st totFlux v).dMob_dC ic
          else 0) := by
  unfold formFracFlowMob totMobSum
  refine ⟨?_, ?_, ?_⟩
  · rw [forLoop_proj FracFlowAcc.totMob numPhase _
      (fun jp x => x
        + (upwindMobOf scheme NC NUM_ELEMS numPhase jp stencilSize st totFlux v).mob) _
      (fun i t _ => (formFracFlowMobStep_tot scheme NC NUM_ELEMS numPhase ip stencilSize st
        totFlux v i t).1)]
    rw [forLoop_sum numPhase _ _ _ (fun _ _ _ => rfl)]
    simp
  · intro ke
    rw [forLoop_proj (fun t : FracFlowAcc => t.dTotMob_dP ke) numPhase _
      (fun jp x => x
        + (if ke = (upwindMobOf scheme NC NUM_ELEMS numPhase jp stencilSize st totFlux
              v).upwindDir then
            (upwindMobOf scheme NC NUM_ELEMS numPhase jp stencilSize st totFlux v).dMob_dP
          else 0)) _
      (fun i t _ => (formFracFlowMobStep_tot scheme NC NUM_ELEMS numPhase ip stencilSize st
        totFlux v i t).2.1 ke)]
    rw [forLoop_sum numPhase _ _ _ (fun _ _ _ => rfl)]
    simp
  · intro ke ic
    rw [forLoop_proj (fun t : FracFlowAcc => t.dTotMob_dC ke ic) numPhase _
      (fun jp x => x
        + (if ke = (upwindMobOf scheme NC NUM_ELEMS numPhase jp stencilSize st totFlux
              v).upwindDir ∧ ic < NC then
            (upwindMobOf scheme NC NUM_ELEMS numPhase jp stencilSize st totFlux v).dMob_dC ic
          else 0)) _
      (fun i t _ => (formFracFlowMobStep_tot scheme NC NUM_ELEMS numPhase ip stencilSize st
        totFlux v i t).2.2 ke ic)]
    rw [forLoop_sum numPhase _ _ _ (fun _ _ _ => rfl)]
    simp

/-- The reinitialisation of `formFracFlow` zeroes the entries of the stencil cells. -/
theorem formFracFlowInit_apply (NC stencilSize : Nat) (a : Nat → ℚ) (A : Nat → Nat → ℚ) :
    (formFracFlowInit NC stencilSize a A).1
        = (fun ke => if ke < stencilSize then 0 else a ke) ∧
    (formFracFlowInit NC stencilSize a A).2
        = (fun ke jc => if ke < stencilSize ∧ jc < NC then 0 else A ke jc) := by
  unfold formFracFlowInit
  exact ⟨pairLoop_fst stencilSize NC (fun _ _ => 0) (fun _ _ _ => 0) (a, A),
    pairLoop_snd stencilSize NC (fun _ _ => 0) (fun _ _ _ => 0) (a, A)⟩

/-- A quotient by a non-zero value is finite. -/
theorem divReal_of_ne (x y : ℚ) (hy : y ≠ 0) : divReal x y = some (x / y) := by
  unfold divReal
  rw [if_neg hy]

/-- A quotient by zero is not finite. -/
theorem divReal_zero (x : ℚ) : divReal x 0 = none := by
  unfold divReal
  rw [if_pos rfl]

/-- A loop whose body always produces a finite value is a plain loop. -/
theorem forLoopOpt_some {σ : Type} (n : Nat) (body : Nat → σ → Option σ) (g : Nat → σ → σ)
    (s : σ) (h : ∀ i t, i < n → body i t = some (g i t)) :
    forLoopOpt n body s = some (forLoop n g s) := by
  induction n with
  | zero => rfl
  | succ m ih =>
    show (forLoopOpt m body s).bind (body m) = some (g m (forLoop m g s))
    rw [ih (fun i t hi => h i t (Nat.lt_succ_of_lt hi))]
    exact h m _ (Nat.lt_succ_self m)


/-- A loop whose body is written with `some` is a plain loop. -/
theorem forLoopOpt_pure {σ : Type} (n : Nat) (g : Nat → σ → σ) (s : σ) :
    forLoopOpt n (fun i t => some (g i t)) s = some (forLoop n g s) :=
  forLoopOpt_some n _ g s (fun _ _ _ => rfl)

/-- The quotient branch of `formFracFlow` is not finite when the total mobility is `0`. -/
theorem formFracFlowQuotient_zero (NC stencilSize : Nat) (m : FracFlowAcc)
    (d : (Nat → ℚ) × (Nat → Nat → ℚ)) (h : m.totMob = 0) :
    formFracFlowQuotient NC stencilSize m d = none := by
  unfold formFracFlowQuotient
  rw [h, divReal_zero]
  rfl

/-- The quotient branch of `formFracFlow` with a non-zero total mobility: every entry of
the three outputs. -/
theorem formFracFlowQuotient_of_ne (NC stencilSize : Nat) (m : FracFlowAcc)
    (d : (Nat → ℚ) × (Nat → Nat → ℚ)) (h : m.totMob ≠ 0) :
    formFracFlowQuotient NC stencilSize m d = some
      { fflow := m.mainMob / m.totMob
        dFflow_dP := fun ke =>
          if ke < stencilSize then
            (if ke = m.k_up_main.toNat then m.dMMob_dP / m.totMob else d.1 ke)
              - m.mainMob / m.totMob * m.dTotMob_dP ke / m.totMob
          else (if ke = m.k_up_main.toNat then m.dMMob_dP / m.totMob else d.1 ke)
        dFflow_dC := fun ke jc =>
          if ke < stencilSize ∧ jc < NC then
            (if ke = m.k_up_main.toNat ∧ jc < NC then m.dMMob_dC jc / m.totMob
              else d.2 ke jc)
              - m.mainMob / m.totMob * m.dTotMob_dC ke jc / m.totMob
          else (if ke = m.k_up_main.toNat ∧ jc < NC then m.dMMob_dC jc / m.totMob
            else d.2 ke jc) } := by
  unfold formFracFlowQuotient
  simp only [divReal_of_ne _ _ h, Option.some_bind, Option.map_some', forLoopOpt_pure]
  rw [pairLoop_fst stencilSize NC
      (fun ke x => x - m.mainMob / m.totMob * m.dTotMob_dP ke / m.totMob)
      (fun ke jc x => x - m.mainMob / m.totMob * m.dTotMob_dC ke jc / m.totMob),
    pairLoop_snd stencilSize NC
      (fun ke x => x - m.mainMob / m.totMob * m.dTotMob_dP ke / m.totMob)
      (fun ke jc x => x - m.mainMob / m.totMob * m.dTotMob_dC ke jc / m.totMob),
    rowLoop_apply NC m.k_up_main.toNat (fun jc _ => m.dMMob_dC jc / m.totMob)]
  rfl


/-- Outputs of `formFracFlow` when the guard on the numerator mobility fails: the
reinitialised values, whatever the total mobility. -/
theorem formFracFlow_skip (scheme : UPWIND)
    (NC NUM_ELEMS MAX_STENCIL numPhase ip stencilSize : Nat) (st : Stencil) (totFlux : ℚ)
    (v : ElementViews) (a : Nat → ℚ) (A : Nat → Nat → ℚ)
    (h : ¬ |(formFracFlowMob scheme NC NUM_ELEMS numPhase ip stencilSize st totFlux
      v).mainMob| > 1e-20) :
    (formFracFlow scheme NC NUM_ELEMS MAX_STENCIL numPhase ip stencilSize st totFlux v a
        A).out
      = some { fflow := 0
               dFflow_dP := fun ke => if ke < stencilSize then 0 else a ke
               dFflow_dC := fun ke jc => if ke < stencilSize ∧ jc < NC then 0 else A ke jc } := by
  unfold formFracFlow
  simp only [if_neg h, (formFracFlowInit_apply NC stencilSize a A).1,
    (formFracFlowInit_apply NC stencilSize a A).2]

/-- Outputs of `formFracFlow` when the guard on the numerator mobility passes and the
total mobility is not `0`. -/
theorem formFracFlow_quotient (scheme : UPWIND)
    (NC NUM_ELEMS MAX_STENCIL numPhase ip stencilSize : Nat) (st : Stencil) (totFlux : ℚ)
    (v : ElementViews) (a : Nat → ℚ) (A : Nat → Nat → ℚ) (hip : ip < numPhase)
    (h : |(upwindMobOf scheme NC NUM_ELEMS numPhase ip stencilSize st totFlux v).mob| > 1e-20)
    (htot : totMobSum scheme NC NUM_ELEMS numPhase stencilSize st totFlux v ≠ 0) :
    ∃ o : FracFlowOut,
      (formFracFlow scheme NC NUM_ELEMS MAX_STENCIL numPhase ip stencilSize st totFlux v a
        A).out = some o ∧
      o.fflow = (upwindMobOf scheme NC NUM_ELEMS numPhase ip stencilSize st totFlux v).mob
        / totMobSum scheme NC NUM_ELEMS numPhase stencilSize st totFlux v ∧
      (∀ ke, ke < stencilSize → o.dFflow_dP ke
        = ((if ke = (upwindMobOf scheme NC NUM_ELEMS numPhase ip stencilSize st totFlux
                v).upwindDir then
              (upwindMobOf scheme NC NUM_ELEMS numPhase ip stencilSize st totFlux v).dMob_dP
            else 0)
          - o.fflow * Finset.sum (Finset.range numPhase) (fun jp =>
              if ke = (upwindMobOf scheme NC NUM_ELEMS numPhase jp stencilSize st totFlux
                  v).upwindDir then
                (upwindMobOf scheme NC NUM_ELEMS numPhase jp stencilSize st totFlux v).dMob_dP
              else 0))
          / totMobSum scheme NC NUM_ELEMS numPhase stencilSize st totFlux v) ∧
      (∀ ke jc, ke < stencilSize → jc < NC → o.dFflow_dC ke jc
        = ((if ke = (upwindMobOf scheme NC NUM_ELEMS numPhase ip stencilSize st totFlux
                v).upwindDir then
              (upwindMobOf scheme NC NUM_ELEMS numPhase ip stencilSize st totFlux v).dMob_dC jc
            else 0)
          - o.fflow * Finset.sum (Finset.range numPhase) (fun jp =>
              if ke = (upwindMobOf scheme NC NUM_ELEMS numPhase jp stencilSize st totFlux
                  v).upwindDir ∧ jc < NC then
                (upwindMobOf scheme NC NUM_ELEMS numPhase jp stencilSize st totFlux
                  v).dMob_dC jc
              else 0))
          / totMobSum scheme NC NUM_ELEMS numPhase stencilSize st totFlux v) := by
  have hmain := formFracFlowMob_main scheme NC NUM_ELEMS numPhase ip stencilSize st totFlux v
  have htots := formFracFlowMob_tot scheme NC NUM_ELEMS numPhase ip stencilSize st totFlux v
  simp only [if_pos hip] at hmain
  have hg : |(formFracFlowMob scheme NC NUM_ELEMS numPhase ip stencilSize st totFlux
      v).mainMob| > 1e-20 := by
    rw [hmain.2.1]
    exact h
  have hne : (formFracFlowMob scheme NC NUM_ELEMS numPhase ip stencilSize st totFlux
      v).totMob ≠ 0 := by
    rw [htots.1]
    exact htot
  have hq := formFracFlowQuotient_of_ne NC stencilSize
    (formFracFlowMob scheme NC NUM_ELEMS numPhase ip stencilSize st totFlux v)
    (formFracFlowInit NC stencilSize a A) hne
  have hout : (formFracFlow scheme NC NUM_ELEMS MAX_STENCIL numPhase ip stencilSize st totFlux
      v a A).out
      = formFracFlowQuotient NC stencilSize
        (formFracFlowMob scheme NC NUM_ELEMS numPhase ip stencilSize st totFlux v)
        (formFracFlowInit NC stencilSize a A) := by
    unfold formFracFlow
    simp only [if_pos hg]
  refine ⟨_, hout.trans hq, ?_, ?_, ?_⟩
  · simp only [hmain.2.1, htots.1]
  · intro ke hke
    simp only [hmain.1, hmain.2.1, hmain.2.2.1, htots.1, htots.2.1,
      (formFracFlowInit_apply NC stencilSize a A).1, if_pos hke, Int.toNat_ofNat]
    split_ifs <;> ring
  · intro ke jc hke hjc
    simp only [hmain.1, hmain.2.1, hmain.2.2.2 jc, htots.1, htots.2.2,
      (formFracFlowInit_apply NC stencilSize a A).2, hke, hjc, and_self, and_true, if_true,
      Int.toNat_ofNat]
    split_ifs <;> ring


/-- The numerator mobility of `formFracFlow` is `0` unless `ip < numPhase` and the phase
mobility at the upwind cell of phase `ip` is above the threshold. -/
theorem formFracFlowMob_mainMob_zero (scheme : UPWIND)
    (NC NUM_ELEMS numPhase ip stencilSize : Nat) (st : Stencil) (totFlux : ℚ)
    (v : ElementViews)
    (h : numPhase ≤ ip ∨
      |upwindPhaseMob scheme NC NUM_ELEMS numPhase ip stencilSize st totFlux v| ≤ 1e-20) :
    (formFracFlowMob scheme NC NUM_ELEMS numPhase ip stencilSize st totFlux v).mainMob = 0 := by
  rw [(formFracFlowMob_main scheme NC NUM_ELEMS numPhase ip stencilSize st totFlux v).2.1]
  by_cases hip : ip < numPhase
  · rw [if_pos hip]
    rcases h with h | h
    · omega
    · unfold upwindMobOf
      rw [upwindMob_mob, if_neg (not_lt.mpr h)]
  · rw [if_neg hip]

/-- The threshold `1e-20` is positive. -/
theorem negligible_pos : (0 : ℚ) < 1e-20 := by norm_num

/-! ## Claims on `formFracFlow` -/

/-- C11. Fractional-flow guard: for every input to `formFracFlow` in which the upwinded
mobility of phase `ip` has magnitude `≤ 1e-20`, the returned `fflow` is exactly `0` and
`dFflow_dP[ke]`, `dFflow_dC[ke][jc]` are exactly `0` for every `ke < stencilSize`
(`jc < NC`); the outputs are the reinitialised ones, so no division is performed, and they
are finite even when the total mobility is `0`. -/
theorem formFracFlow_guard (scheme : UPWIND)
    (NC NUM_ELEMS MAX_STENCIL numPhase ip stencilSize : Nat) (st : Stencil) (totFlux : ℚ)
    (v : ElementViews) (dFflow_dP : Nat → ℚ) (dFflow_dC : Nat → Nat → ℚ)
    (h : |upwindPhaseMob scheme NC NUM_ELEMS numPhase ip stencilSize st totFlux v| ≤ 1e-20) :
    ∃ o : FracFlowOut,
      (formFracFlow scheme NC NUM_ELEMS MAX_STENCIL numPhase ip stencilSize st totFlux v
        dFflow_dP dFflow_dC).out = some o ∧
      o.fflow = 0 ∧
      ∀ ke, ke < stencilSize →
        o.dFflow_dP ke = 0 ∧ ∀ jc, jc < NC → o.dFflow_dC ke jc = 0 := by
  have hm := formFracFlowMob_mainMob_zero scheme NC NUM_ELEMS numPhase ip stencilSize st
    totFlux v (Or.inr h)
  have hg : ¬ |(formFracFlowMob scheme NC NUM_ELEMS numPhase ip stencilSize st totFlux
      v).mainMob| > 1e-20 := by
    rw [hm, abs_zero]
    exact not_lt.mpr (le_of_lt negligible_pos)
  refine ⟨_, formFracFlow_skip scheme NC NUM_ELEMS MAX_STENCIL numPhase ip stencilSize st
    totFlux v dFflow_dP dFflow_dC hg, rfl, ?_⟩
  intro ke hke
  refine ⟨?_, ?_⟩
  · simp only [if_pos hke]
  · intro jc hjc
    simp only [hke, hjc, and_self, if_true]

/-- Witness of C11: two phases without any mobility on the two-cell scenario, so that the
total mobility is `0` as well. -/
theorem formFracFlow_guard_witness :
    ∃ o : FracFlowOut,
      (formFracFlow UPWIND.HybridUpwindViscous 1 2 2 2 0 2 scenarioStencil 1
        (scenarioViews 100 90 0 0 (1/4)) (fun _ => 7) (fun _ _ => 7)).out = some o ∧
      o.fflow = 0 ∧
      ∀ ke, ke < 2 → o.dFflow_dP ke = 0 ∧ ∀ jc, jc < 1 → o.dFflow_dC ke jc = 0 :=
  formFracFlow_guard UPWIND.HybridUpwindViscous 1 2 2 2 0 2 scenarioStencil 1
    (scenarioViews 100 90 0 0 (1/4)) (fun _ => 7) (fun _ _ => 7)
    (by
      have h0 : upwindPhaseMob UPWIND.HybridUpwindViscous 1 2 2 0 2 scenarioStencil 1
          (scenarioViews 100 90 0 0 (1/4)) = 0 := by
        unfold upwindPhaseMob scenarioViews
        simp
      rw [h0, abs_zero]
      exact le_of_lt negligible_pos)

/-- C12. Value and quotient rule of `formFracFlow`: for `ip < numPhase` with
`|mob_ip| > 1e-20` and `totMob ≠ 0`, where `mob_jp`, `dMob_jp` and `k_jp` are the outputs
of `upwindMob` for phase `jp` under the same scheme, `fflow = mob_ip / Σ_jp mob_jp`, and
for every `ke < stencilSize`
`dFflow_dP[ke] = ((ke = k_ip ? dMob_dP_ip : 0) - fflow * Σ_{jp : k_jp = ke} dMob_dP_jp) / totMob`,
and likewise for `dFflow_dC[ke][jc]`, `jc < NC`, with `dMob_dC`. -/
theorem formFracFlow_quotient_rule (scheme : UPWIND)
    (NC NUM_ELEMS MAX_STENCIL numPhase ip stencilSize : Nat) (st : Stencil) (totFlux : ℚ)
    (v : ElementViews) (dFflow_dP : Nat → ℚ) (dFflow_dC : Nat → Nat → ℚ)
    (hip : ip < numPhase)
    (hmob : |(upwindMobOf scheme NC NUM_ELEMS numPhase ip stencilSize st totFlux v).mob|
      > 1e-20)
    (htot : Finset.sum (Finset.range numPhase) (fun jp =>
      (upwindMobOf scheme NC NUM_ELEMS numPhase jp stencilSize st totFlux v).mob) ≠ 0) :
    ∃ o : FracFlowOut,
      (formFracFlow scheme NC NUM_ELEMS MAX_STENCIL numPhase ip stencilSize st totFlux v
        dFflow_dP dFflow_dC).out = some o ∧
      o.fflow = (upwindMobOf scheme NC NUM_ELEMS numPhase ip stencilSize st totFlux v).mob
        / Finset.sum (Finset.range numPhase) (fun jp =>
            (upwindMobOf scheme NC NUM_ELEMS numPhase jp stencilSize st totFlux v).mob) ∧
      (∀ ke, ke < stencilSize → o.dFflow_dP ke
        = ((if ke = (upwindMobOf scheme NC NUM_ELEMS numPhase ip stencilSize st totFlux
                v).upwindDir then
              (upwindMobOf scheme NC NUM_ELEMS numPhase ip stencilSize st totFlux v).dMob_dP
            else 0)
          - o.fflow * Finset.sum
              ((Finset.range numPhase).filter (fun jp =>
                (upwindMobOf scheme NC NUM_ELEMS numPhase jp stencilSize st totFlux
                  v).upwindDir = ke))
              (fun jp =>
                (upwindMobOf scheme NC NUM_ELEMS numPhase jp stencilSize st totFlux
                  v).dMob_dP))
          / Finset.sum (Finset.range numPhase) (fun jp =>
              (upwindMobOf scheme NC NUM_ELEMS numPhase jp stencilSize st totFlux v).mob)) ∧
      (∀ ke jc, ke < stencilSize → jc < NC → o.dFflow_dC ke jc
        = ((if ke = (upwindMobOf scheme NC NUM_ELEMS numPhase ip stencilSize st totFlux
                v).upwindDir then
              (upwindMobOf scheme NC NUM_ELEMS numPhase ip stencilSize st totFlux v).dMob_dC jc
            else 0)
          - o.fflow * Finset.sum
              ((Finset.range numPhase).filter (fun jp =>
                (upwindMobOf scheme NC NUM_ELEMS numPhase jp stencilSize st totFlux
                  v).upwindDir = ke))
              (fun jp =>
                (upwindMobOf scheme NC NUM_ELEMS numPhase jp stencilSize st totFlux
                  v).dMob_dC jc))
          / Finset.sum (Finset.range numPhase) (fun jp =>
              (upwindMobOf scheme NC NUM_ELEMS numPhase jp stencilSize st totFlux v).mob)) := by
  obtain ⟨o, ho, hf, hP, hC⟩ := formFracFlow_quotient scheme NC NUM_ELEMS MAX_STENCIL numPhase
    ip stencilSize st totFlux v dFflow_dP dFflow_dC hip hmob htot
  refine ⟨o, ho, hf, ?_, ?_⟩
  · intro ke hke
    rw [hP ke hke, Finset.sum_filter]
    simp only [totMobSum, eq_comm]
  · intro ke jc hke hjc
    rw [hC ke jc hke hjc, Finset.sum_filter]
    simp only [totMobSum, hjc, and_true, eq_comm]

/-- Witness of C12: two phases of mobility `4/5` at the upwind cell `0` of the two-cell
scenario under the hybrid viscous scheme: `fflow = mob_0 / (mob_0 + mob_1)`. -/
theorem formFracFlow_quotient_rule_witness :
    ∃ o : FracFlowOut,
      (formFracFlow UPWIND.HybridUpwindViscous 1 2 2 2 0 2 scenarioStencil 1
        (scenarioViews 100 90 (4/5) (3/5) (1/4)) (fun _ => 7) (fun _ _ => 7)).out = some o ∧
      o.fflow = (upwindMobOf UPWIND.HybridUpwindViscous 1 2 2 0 2 scenarioStencil 1
          (scenarioViews 100 90 (4/5) (3/5) (1/4))).mob
        / Finset.sum (Finset.range 2) (fun jp =>
            (upwindMobOf UPWIND.HybridUpwindViscous 1 2 2 jp 2 scenarioStencil 1
              (scenarioViews 100 90 (4/5) (3/5) (1/4))).mob) := by
  have hm : ∀ jp, (upwindMobOf UPWIND.HybridUpwindViscous 1 2 2 jp 2 scenarioStencil 1
      (scenarioViews 100 90 (4/5) (3/5) (1/4))).mob = 4/5 := by
    intro jp
    unfold upwindMobOf
    rw [upwindMob_mob]
    have hu : upwindPhaseMob UPWIND.HybridUpwindViscous 1 2 2 jp 2 scenarioStencil 1
        (scenarioViews 100 90 (4/5) (3/5) (1/4)) = 4/5 := by
      unfold upwindPhaseMob
      rw [getUpwindDir_apply]
      simp [UPWIND.calcPotential, HybridUpwindViscous.calcPotential, scenarioViews,
        scenarioStencil]
    rw [hu, abs_of_pos (by norm_num : (0 : ℚ) < 4 / 5)]
    norm_num
  obtain ⟨o, ho, hf, _, _⟩ := formFracFlow_quotient_rule UPWIND.HybridUpwindViscous 1 2 2 2 0 2
    scenarioStencil 1 (scenarioViews 100 90 (4/5) (3/5) (1/4)) (fun _ => 7) (fun _ _ => 7)
    (by decide)
    (by rw [hm 0, abs_of_pos (by norm_num : (0 : ℚ) < 4 / 5)]; norm_num)
    (by simp only [hm, Finset.sum_const, Finset.card_range]; norm_num)
  exact ⟨o, ho, hf⟩


/-- With non-negative phase mobilities at the stencil cells `0` and `1`, every upwinded
mobility returned by `upwindMob` is non-negative. -/
theorem upwindMobOf_mob_nonneg (scheme : UPWIND) (NC NUM_ELEMS numPhase jp stencilSize : Nat)
    (st : Stencil) (totFlux : ℚ) (v : ElementViews)
    (h0 : 0 ≤ v.phaseMob (st.seri 0) (st.sesri 0) (st.sei 0) jp)
    (h1 : 0 ≤ v.phaseMob (st.seri 1) (st.sesri 1) (st.sei 1) jp) :
    0 ≤ (upwindMobOf scheme NC NUM_ELEMS numPhase jp stencilSize st totFlux v).mob := by
  unfold upwindMobOf
  rw [upwindMob_mob]
  have hu : 0 ≤ upwindPhaseMob scheme NC NUM_ELEMS numPhase jp stencilSize st totFlux v := by
    unfold upwindPhaseMob
    rcases getUpwindDir_le_one scheme NC NUM_ELEMS numPhase jp stencilSize st totFlux v
      with h | h
    · rw [h]
      exact h0
    · rw [h]
      exact h1
  split_ifs
  · exact hu
  · exact le_refl 0

/-- C13. Fractional-flow bound: for every input to `formFracFlow` in which all phase
mobilities at the stencil cells `0` and `1` are non-negative and `ip < numPhase`, the
returned `fflow` is finite and satisfies `0 ≤ fflow ≤ 1`. -/
theorem formFracFlow_bound (scheme : UPWIND)
    (NC NUM_ELEMS MAX_STENCIL numPhase ip stencilSize : Nat) (st : Stencil) (totFlux : ℚ)
    (v : ElementViews) (dFflow_dP : Nat → ℚ) (dFflow_dC : Nat → Nat → ℚ)
    (hip : ip < numPhase)
    (hnn : ∀ jp, jp < numPhase →
      0 ≤ v.phaseMob (st.seri 0) (st.sesri 0) (st.sei 0) jp ∧
      0 ≤ v.phaseMob (st.seri 1) (st.sesri 1) (st.sei 1) jp) :
    ∃ o : FracFlowOut,
      (formFracFlow scheme NC NUM_ELEMS MAX_STENCIL numPhase ip stencilSize st totFlux v
        dFflow_dP dFflow_dC).out = some o ∧
      0 ≤ o.fflow ∧ o.fflow ≤ 1 := by
  have hmob : ∀ jp, jp ∈ Finset.range numPhase →
      0 ≤ (upwindMobOf scheme NC NUM_ELEMS numPhase jp stencilSize st totFlux v).mob := by
    intro jp hjp
    exact upwindMobOf_mob_nonneg scheme NC NUM_ELEMS numPhase jp stencilSize st totFlux v
      (hnn jp (Finset.mem_range.mp hjp)).1 (hnn jp (Finset.mem_range.mp hjp)).2
  have hle : (upwindMobOf scheme NC NUM_ELEMS numPhase ip stencilSize st totFlux v).mob
      ≤ totMobSum scheme NC NUM_ELEMS numPhase stencilSize st totFlux v :=
    Finset.single_le_sum hmob (Finset.mem_range.mpr hip)
  have hmain := (formFracFlowMob_main scheme NC NUM_ELEMS numPhase ip stencilSize st totFlux
    v).2.1
  rw [if_pos hip] at hmain
  by_cases hg : |(upwindMobOf scheme NC NUM_ELEMS numPhase ip stencilSize st totFlux v).mob|
      > 1e-20
  · have hpos : 0 < (upwindMobOf scheme NC NUM_ELEMS numPhase ip stencilSize st totFlux
        v).mob := by
      rw [abs_of_nonneg (hmob ip (Finset.mem_range.mpr hip))] at hg
      exact lt_trans negligible_pos hg
    have htpos : 0 < totMobSum scheme NC NUM_ELEMS numPhase stencilSize st totFlux v :=
      lt_of_lt_of_le hpos hle
    obtain ⟨o, ho, hf, _, _⟩ := formFracFlow_quotient scheme NC NUM_ELEMS MAX_STENCIL numPhase
      ip stencilSize st totFlux v dFflow_dP dFflow_dC hip hg (ne_of_gt htpos)
    refine ⟨o, ho, ?_, ?_⟩
    · rw [hf]
      exact div_nonneg (le_of_lt hpos) (le_of_lt htpos)
    · rw [hf]
      exact (div_le_one htpos).mpr hle
  · have hg2 : ¬ |(formFracFlowMob scheme NC NUM_ELEMS numPhase ip stencilSize st totFlux
        v).mainMob| > 1e-20 := by
      rw [hmain]
      exact hg
    refine ⟨_, formFracFlow_skip scheme NC NUM_ELEMS MAX_STENCIL numPhase ip stencilSize st
      totFlux v dFflow_dP dFflow_dC hg2, le_refl 0, ?_⟩
    exact zero_le_one

/-- Witness of C13: two phases on the two-cell scenario with mobilities `{4/5, 3/5}`. -/
theorem formFracFlow_bound_witness :
    ∃ o : FracFlowOut,
      (formFracFlow UPWIND.HybridUpwindViscous 1 2 2 2 0 2 scenarioStencil 1
        (scenarioViews 100 90 (4/5) (3/5) (1/4)) (fun _ => 7) (fun _ _ => 7)).out = some o ∧
      0 ≤ o.fflow ∧ o.fflow ≤ 1 :=
  formFracFlow_bound UPWIND.HybridUpwindViscous 1 2 2 2 0 2 scenarioStencil 1
    (scenarioViews 100 90 (4/5) (3/5) (1/4)) (fun _ => 7) (fun _ _ => 7) (by decide)
    (by
      intro jp _
      simp [scenarioViews, scenarioStencil]
      norm_num)

/-- C14.  Fractional-flow partition of unity: for a fixed connection, scheme and property
bundle whose phases (there is at least one) all have an upwinded mobility above `1e-20`,
every `formFracFlow(ip)`, `ip < numPhase`, returns a finite `fflow`, and the sum of these
values over `ip` in `[0, numPhase)` equals `1`. -/
theorem formFracFlow_partition (scheme : UPWIND)
    (NC NUM_ELEMS MAX_STENCIL numPhase stencilSize : Nat) (st : Stencil) (totFlux : ℚ)
    (v : ElementViews) (dFflow_dP : Nat → ℚ) (dFflow_dC : Nat → Nat → ℚ)
    (hphase : 0 < numPhase)
    (hmob : ∀ jp, jp < numPhase →
      upwindPhaseMob scheme NC NUM_ELEMS numPhase jp stencilSize st totFlux v > 1e-20) :
    ∃ f : Nat → ℚ,
      (∀ ip, ip < numPhase → ∃ o : FracFlowOut,
        (formFracFlow scheme NC NUM_ELEMS MAX_STENCIL numPhase ip stencilSize st totFlux v
          dFflow_dP dFflow_dC).out = some o ∧ o.fflow = f ip) ∧
      Finset.sum (Finset.range numPhase) f = 1 := by
  have hval : ∀ jp, jp < numPhase →
      (upwindMobOf scheme NC NUM_ELEMS numPhase jp stencilSize st totFlux v).mob
        = upwindPhaseMob scheme NC NUM_ELEMS numPhase jp stencilSize st totFlux v := by
    intro jp hjp
    unfold upwindMobOf
    rw [upwindMob_mob, abs_of_pos (lt_trans negligible_pos (hmob jp hjp)),
      if_pos (hmob jp hjp)]
  have hpos : ∀ jp, jp ∈ Finset.range numPhase →
      0 < (upwindMobOf scheme NC NUM_ELEMS numPhase jp stencilSize st totFlux v).mob := by
    intro jp hjp
    rw [hval jp (Finset.mem_range.mp hjp)]
    exact lt_trans negligible_pos (hmob jp (Finset.mem_range.mp hjp))
  have htpos : 0 < totMobSum scheme NC NUM_ELEMS numPhase stencilSize st totFlux v :=
    Finset.sum_pos hpos ⟨0, Finset.mem_range.mpr hphase⟩
  refine ⟨fun ip => (upwindMobOf scheme NC NUM_ELEMS numPhase ip stencilSize st totFlux v).mob
    / totMobSum scheme NC NUM_ELEMS numPhase stencilSize st totFlux v, ?_, ?_⟩
  · intro ip hip
    have hg : |(upwindMobOf scheme NC NUM_ELEMS numPhase ip stencilSize st totFlux v).mob|
        > 1e-20 := by
      rw [abs_of_pos (hpos ip (Finset.mem_range.mpr hip)), hval ip hip]
      exact hmob ip hip
    obtain ⟨o, ho, hf, _, _⟩ := formFracFlow_quotient scheme NC NUM_ELEMS MAX_STENCIL numPhase
      ip stencilSize st totFlux v dFflow_dP dFflow_dC hip hg (ne_of_gt htpos)
    exact ⟨o, ho, hf⟩
  · rw [← Finset.sum_div]
    exact div_self (ne_of_gt htpos)

/-- Witness of C14: two phases on the two-cell scenario. -/
theorem formFracFlow_partition_witness :
    ∃ f : Nat → ℚ,
      (∀ ip, ip < 2 → ∃ o : FracFlowOut,
        (formFracFlow UPWIND.HybridUpwindViscous 1 2 2 2 ip 2 scenarioStencil 1
          (scenarioViews 100 90 (4/5) (3/5) (1/4)) (fun _ => 7) (fun _ _ => 7)).out = some o ∧
        o.fflow = f ip) ∧
      Finset.sum (Finset.range 2) f = 1 :=
  formFracFlow_partition UPWIND.HybridUpwindViscous 1 2 2 2 2 scenarioStencil 1
    (scenarioViews 100 90 (4/5) (3/5) (1/4)) (fun _ => 7) (fun _ _ => 7) (by decide)
    (by
      intro jp _
      unfold upwindPhaseMob
      rw [getUpwindDir_apply]
      simp [UPWIND.calcPotential, HybridUpwindViscous.calcPotential, scenarioViews,
        scenarioStencil]
      norm_num)

/-- The upstream cell chosen by `formPPUVelocity` is `0` or `1`. -/
theorem formPPUVelocityUpwind_le_one (NC NUM_ELEMS numPhase ip stencilSize : Nat)
    (st : Stencil) (v : ElementViews) (capPressureFlag : Int) :
    formPPUVelocityUpwind NC NUM_ELEMS numPhase ip stencilSize st v capPressureFlag = 0 ∨
    formPPUVelocityUpwind NC NUM_ELEMS numPhase ip stencilSize st v capPressureFlag = 1 := by
  unfold formPPUVelocityUpwind
  split_ifs
  · exact Or.inl rfl
  · exact Or.inr rfl

/-- Upwind index returned by `formFracFlow`: the direction of `getUpwindDir` for phase `ip`
when `ip < numPhase`, the sentinel `-1` otherwise. -/
theorem formFracFlow_k_up_main (scheme : UPWIND)
    (NC NUM_ELEMS MAX_STENCIL numPhase ip stencilSize : Nat) (st : Stencil) (totFlux : ℚ)
    (v : ElementViews) (a : Nat → ℚ) (A : Nat → Nat → ℚ) :
    (formFracFlow scheme NC NUM_ELEMS MAX_STENCIL numPhase ip stencilSize st totFlux v a
        A).k_up_main
      = if ip < numPhase then
          ((getUpwindDir scheme NC NUM_ELEMS numPhase ip stencilSize st totFlux v : Nat) : Int)
        else -1 := by
  have h := (formFracFlowMob_main scheme NC NUM_ELEMS numPhase ip stencilSize st totFlux v).1
  unfold upwindMobOf at h
  rw [upwindMob_upwindDir] at h
  exact h

/-- C18. Upwind-index invariant: for every input, `formPPUVelocity` returns `k_up` in
`{0, 1}`, `upwindMob` returns `upwindDir` in `{0, 1}` for every scheme, and `formFracFlow`
called with `ip < numPhase` returns `k_up_main` in `{0, 1}`; hence `0 ≤ k_up < stencilSize`
whenever `stencilSize ≥ 2`. -/
theorem upwind_index_invariant (scheme : UPWIND)
    (NC NUM_ELEMS MAX_STENCIL numPhase ip stencilSize : Nat) (st : Stencil) (totFlux : ℚ)
    (v : ElementViews) (capPressureFlag : Int) (a : Nat → ℚ) (A : Nat → Nat → ℚ)
    (dMob_dC : Nat → ℚ) :
    ((formPPUVelocity NC NUM_ELEMS MAX_STENCIL numPhase ip stencilSize st v capPressureFlag
        a A).k_up = 0 ∨
      (formPPUVelocity NC NUM_ELEMS MAX_STENCIL numPhase ip stencilSize st v capPressureFlag
        a A).k_up = 1) ∧
    ((upwindMob scheme NC NUM_ELEMS numPhase ip stencilSize st totFlux v dMob_dC).upwindDir = 0 ∨
      (upwindMob scheme NC NUM_ELEMS numPhase ip stencilSize st totFlux v dMob_dC).upwindDir
        = 1) ∧
    (ip < numPhase →
      (formFracFlow scheme NC NUM_ELEMS MAX_STENCIL numPhase ip stencilSize st totFlux v a
        A).k_up_main = 0 ∨
      (formFracFlow scheme NC NUM_ELEMS MAX_STENCIL numPhase ip stencilSize st totFlux v a
        A).k_up_main = 1) ∧
    (2 ≤ stencilSize →
      (formPPUVelocity NC NUM_ELEMS MAX_STENCIL numPhase ip stencilSize st v capPressureFlag
        a A).k_up < stencilSize ∧
      (upwindMob scheme NC NUM_ELEMS numPhase ip stencilSize st totFlux v dMob_dC).upwindDir
        < stencilSize ∧
      (ip < numPhase →
        0 ≤ (formFracFlow scheme NC NUM_ELEMS MAX_STENCIL numPhase ip stencilSize st totFlux
          v a A).k_up_main ∧
        (formFracFlow scheme NC NUM_ELEMS MAX_STENCIL numPhase ip stencilSize st totFlux v a
          A).k_up_main < (stencilSize : Int))) := by
  have h1 := formPPUVelocityUpwind_le_one NC NUM_ELEMS numPhase ip stencilSize st v
    capPressureFlag
  have h2 := getUpwindDir_le_one scheme NC NUM_ELEMS numPhase ip stencilSize st totFlux v
  rw [formPPUVelocity_k_up, upwindMob_upwindDir, formFracFlow_k_up_main]
  refine ⟨h1, h2, ?_, ?_⟩
  · intro hip
    rw [if_pos hip]
    rcases h2 with h | h
    · rw [h]
      exact Or.inl rfl
    · rw [h]
      exact Or.inr rfl
  · intro hsz
    refine ⟨?_, ?_, ?_⟩
    · rcases h1 with h | h <;> omega
    · rcases h2 with h | h <;> omega
    · intro hip
      rw [if_pos hip]
      rcases h2 with h | h
      · rw [h]
        omega
      · rw [h]
        omega

/-- Witness of C18: phase `0` of two on the two-cell scenario. -/
theorem upwind_index_invariant_witness :
    (formFracFlow UPWIND.HybridUpwindViscous 1 2 2 2 0 2 scenarioStencil 1
        (scenarioViews 100 90 (4/5) (3/5) (1/4)) (fun _ => 7) (fun _ _ => 7)).k_up_main = 0 ∨
    (formFracFlow UPWIND.HybridUpwindViscous 1 2 2 2 0 2 scenarioStencil 1
        (scenarioViews 100 90 (4/5) (3/5) (1/4)) (fun _ => 7) (fun _ _ => 7)).k_up_main = 1 :=
  (upwind_index_invariant UPWIND.HybridUpwindViscous 1 2 2 2 0 2 scenarioStencil 1
    (scenarioViews 100 90 (4/5) (3/5) (1/4)) 0 (fun _ => 7) (fun _ _ => 7) (fun _ => 0)).2.2.1
    (by decide)

/-- Outputs of `formFracFlow` when the requested phase is not one of the `numPhase` phases:
the upwind index is never set. -/
theorem formFracFlow_unselected (scheme : UPWIND)
    (NC NUM_ELEMS MAX_STENCIL numPhase ip stencilSize : Nat) (st : Stencil) (totFlux : ℚ)
    (v : ElementViews) (a : Nat → ℚ) (A : Nat → Nat → ℚ) (h : numPhase ≤ ip) :
    (formFracFlow scheme NC NUM_ELEMS MAX_STENCIL numPhase ip stencilSize st totFlux v a
        A).k_up_main = -1 ∧
    (formFracFlow scheme NC NUM_ELEMS MAX_STENCIL numPhase ip stencilSize st totFlux v a
        A).out
      = some { fflow := 0
               dFflow_dP := fun ke => if ke < stencilSize then 0 else a ke
               dFflow_dC := fun ke jc => if ke < stencilSize ∧ jc < NC then 0 else A ke jc } := by
  refine ⟨?_, ?_⟩
  · rw [formFracFlow_k_up_main, if_neg (by omega)]
  · apply formFracFlow_skip
    rw [formFracFlowMob_mainMob_zero scheme NC NUM_ELEMS numPhase ip stencilSize st totFlux v
      (Or.inl h), abs_zero]
    exact not_lt.mpr (le_of_lt negligible_pos)

/-- C19, the code at a failing input.  Called with `numPhase = 0` (phase `0` requested) on
the two-cell scenario, `formFracFlow` returns normally with the sentinel `k_up_main = -1`,
`fflow = 0` and zeroed derivatives: the unselected upwind direction is not surfaced as an
error. -/
theorem formFracFlow_unselected_returns :
    (formFracFlow UPWIND.HybridUpwindViscous 1 2 2 0 0 2 scenarioStencil 1
        (scenarioViews 100 90 (4/5) (3/5) (1/4)) (fun _ => 7) (fun _ _ => 7)).k_up_main = -1 ∧
    (formFracFlow UPWIND.HybridUpwindViscous 1 2 2 0 0 2 scenarioStencil 1
        (scenarioViews 100 90 (4/5) (3/5) (1/4)) (fun _ => 7) (fun _ _ => 7)).out
      = some { fflow := 0
               dFflow_dP := fun ke => if ke < 2 then 0 else 7
               dFflow_dC := fun ke jc => if ke < 2 ∧ jc < 1 then 0 else 7 } :=
  formFracFlow_unselected UPWIND.HybridUpwindViscous 1 2 2 0 0 2 scenarioStencil 1
    (scenarioViews 100 90 (4/5) (3/5) (1/4)) (fun _ => 7) (fun _ _ => 7) (le_refl 0)

/-- C20, as the code has it.  `formPPUVelocity` makes no check of the stencil shape: called
with `stencilSize < NUM_ELEMS` it returns `k_up` in `{0, 1}` and
`phaseFlux = phaseMob[k_up][ip] * (presGrad - gravHead)`, where the pressure sum and the
gravity sum run over the `stencilSize` cells given and the mean density is still read from
all `NUM_ELEMS` primary cells; the result does not depend on `MAX_STENCIL`. -/
theorem formPPUVelocity_short_stencil
    (NC NUM_ELEMS MAX_STENCIL numPhase ip stencilSize : Nat) (st : Stencil)
    (v : ElementViews) (capPressureFlag : Int) (a : Nat → ℚ) (A : Nat → Nat → ℚ)
    (_hshort : stencilSize < NUM_ELEMS) :
    ((formPPUVelocity NC NUM_ELEMS MAX_STENCIL numPhase ip stencilSize st v capPressureFlag
        a A).k_up = 0 ∨
      (formPPUVelocity NC NUM_ELEMS MAX_STENCIL numPhase ip stencilSize st v capPressureFlag
        a A).k_up = 1) ∧
    (formPPUVelocity NC NUM_ELEMS MAX_STENCIL numPhase ip stencilSize st v capPressureFlag
        a A).phaseFlux
      = v.phaseMob
          (st.seri (formPPUVelocity NC NUM_ELEMS MAX_STENCIL numPhase ip stencilSize st v
            capPressureFlag a A).k_up)
          (st.sesri (formPPUVelocity NC NUM_ELEMS MAX_STENCIL numPhase ip stencilSize st v
            capPressureFlag a A).k_up)
          (st.sei (formPPUVelocity NC NUM_ELEMS MAX_STENCIL numPhase ip stencilSize st v
            capPressureFlag a A).k_up) ip
        * (presGradSum ip stencilSize st v capPressureFlag
          - densMeanSum NUM_ELEMS ip st v * gravCoefSum stencilSize st v) ∧
    ∀ M : Nat,
      formPPUVelocity NC NUM_ELEMS M numPhase ip stencilSize st v capPressureFlag a A
        = formPPUVelocity NC NUM_ELEMS MAX_STENCIL numPhase ip stencilSize st v
          capPressureFlag a A := by
  refine ⟨?_, ?_, fun _ => rfl⟩
  · rw [formPPUVelocity_k_up]
    exact formPPUVelocityUpwind_le_one NC NUM_ELEMS numPhase ip stencilSize st v
      capPressureFlag
  · rw [formPPUVelocity_phaseFlux, formPPUVelocity_k_up, formPPUVelocityPotGrad_apply,
      formPPUVelocityDensMean_densMean]
    rfl

/-- Witness of the amended C20: one cell given for two primary cells. -/
theorem formPPUVelocity_short_stencil_witness :
    (1 < 2) ∧
    ((formPPUVelocity 1 2 2 1 0 1 scenarioStencil (scenarioViews 100 90 (4/5) (3/5) (1/4)) 0
        (fun _ => 0) (fun _ _ => 0)).k_up = 0 ∨
      (formPPUVelocity 1 2 2 1 0 1 scenarioStencil (scenarioViews 100 90 (4/5) (3/5) (1/4)) 0
        (fun _ => 0) (fun _ _ => 0)).k_up = 1) :=
  ⟨by decide,
    (formPPUVelocity_short_stencil 1 2 2 1 0 1 scenarioStencil
      (scenarioViews 100 90 (4/5) (3/5) (1/4)) 0 (fun _ => 0) (fun _ _ => 0) (by decide)).1⟩

/-- Counterexample to C20 as stated: with `stencilSize = 1 < NUM_ELEMS = 2` on the scenario
bundle, `formPPUVelocity` reports no error: it returns `k_up = 0` and the phase flux
`0.8 * 100 = 80` computed from the pressure of cell `0` alone. -/
theorem formPPUVelocity_short_stencil_counterexample :
    (1 < 2) ∧
    (formPPUVelocity 1 2 2 1 0 1 scenarioStencil (scenarioViews 100 90 (4/5) (3/5) (1/4)) 0
        (fun _ => 0) (fun _ _ => 0)).k_up = 0 ∧
    (formPPUVelocity 1 2 2 1 0 1 scenarioStencil (scenarioViews 100 90 (4/5) (3/5) (1/4)) 0
        (fun _ => 0) (fun _ _ => 0)).phaseFlux = 80 := by
  have hpot : formPPUVelocityPotGrad 1 2 1 0 1 scenarioStencil
      (scenarioViews 100 90 (4/5) (3/5) (1/4)) 0 = 100 := by
    rw [formPPUVelocityPotGrad_apply]
    simp [presGradSum, gravCoefSum, capPressureTerm, scenarioViews, scenarioStencil]
  have hup : formPPUVelocityUpwind 1 2 1 0 1 scenarioStencil
      (scenarioViews 100 90 (4/5) (3/5) (1/4)) 0 = 0 := by
    unfold formPPUVelocityUpwind
    rw [hpot]
    norm_num
  refine ⟨by decide, ?_, ?_⟩
  · rw [formPPUVelocity_k_up, hup]
  · rw [formPPUVelocity_phaseFlux, hup, hpot]
    simp [scenarioViews, scenarioStencil]
    norm_num

/-! ## Claims on the sensitivity of `formPPUVelocity` and of the potentials -/

/-- Weighted pressure sum after the pressure read at stencil position `k` is raised by
`delta`, the pressures read at the other positions being kept. -/
theorem presGradSum_perturb (ip stencilSize : Nat) (st : Stencil) (v : ElementViews)
    (pres2 : Nat → Nat → Nat → ℚ) (capPressureFlag : Int) (k : Nat) (delta : ℚ)
    (hk : k < stencilSize)
    (hpert : ∀ i, i < stencilSize →
      pres2 (st.seri i) (st.sesri i) (st.sei i)
        = v.pres (st.seri i) (st.sesri i) (st.sei i) + (if i = k then delta else 0)) :
    presGradSum ip stencilSize st { v with pres := pres2 } capPressureFlag
      = presGradSum ip stencilSize st v capPressureFlag + st.stencilWeights k * delta := by
  unfold presGradSum
  have hterm : ∀ i ∈ Finset.range stencilSize,
      st.stencilWeights i * (pres2 (st.seri i) (st.sesri i) (st.sei i)
          + v.dPres (st.seri i) (st.sesri i) (st.sei i)
          - capPressureTerm ip st v capPressureFlag i)
        = st.stencilWeights i * (v.pres (st.seri i) (st.sesri i) (st.sei i)
          + v.dPres (st.seri i) (st.sesri i) (st.sei i)
          - capPressureTerm ip st v capPressureFlag i)
          + (if i = k then st.stencilWeights k * delta else 0) := by
    intro i hi
    rw [hpert i (Finset.mem_range.mp hi)]
    by_cases hik : i = k
    · subst hik
      simp only [if_true]
      ring
    · simp only [if_neg hik]
      ring
  show Finset.sum (Finset.range stencilSize) (fun i =>
      st.stencilWeights i * (pres2 (st.seri i) (st.sesri i) (st.sei i)
        + v.dPres (st.seri i) (st.sesri i) (st.sei i)
        - capPressureTerm ip st v capPressureFlag i)) = _
  rw [Finset.sum_congr rfl hterm, Finset.sum_add_distrib, Finset.sum_ite_eq']
  simp [hk]

/-- C21. Derivative consistency of `formPPUVelocity` in pressure, on a fixed upwind branch:
with capillarity disabled, zero derivative arrays on entry, `dPhaseMob_dPres = 0` at the
upwind cell and `dPhaseMassDens_dPres = 0` at the primary cells, for every stencil position
`k < stencilSize` and every `delta`, if the pressure read at position `k` is raised by
`delta`, the pressures read at the other positions are kept and `k_up` is unchanged, then
`phaseFlux(perturbed) - phaseFlux(original) = delta * dPhaseFlux_dP[k]` exactly. -/
theorem formPPUVelocity_pressure_consistency
    (NC NUM_ELEMS MAX_STENCIL numPhase ip stencilSize : Nat) (st : Stencil)
    (v : ElementViews) (pres2 : Nat → Nat → Nat → ℚ) (k : Nat) (delta : ℚ)
    (hk : k < stencilSize)
    (hpert : ∀ i, i < stencilSize →
      pres2 (st.seri i) (st.sesri i) (st.sei i)
        = v.pres (st.seri i) (st.sesri i) (st.sei i) + (if i = k then delta else 0))
    (hmob : v.dPhaseMob_dPres
      (st.seri (formPPUVelocity NC NUM_ELEMS MAX_STENCIL numPhase ip stencilSize st v 0
        (fun _ => 0) (fun _ _ => 0)).k_up)
      (st.sesri (formPPUVelocity NC NUM_ELEMS MAX_STENCIL numPhase ip stencilSize st v 0
        (fun _ => 0) (fun _ _ => 0)).k_up)
      (st.sei (formPPUVelocity NC NUM_ELEMS MAX_STENCIL numPhase ip stencilSize st v 0
        (fun _ => 0) (fun _ _ => 0)).k_up) ip = 0)
    (hdens : ∀ j, j < NUM_ELEMS →
      v.dPhaseMassDens_dPres (st.seri j) (st.sesri j) (st.sei j) 0 ip = 0)
    (hkup : (formPPUVelocity NC NUM_ELEMS MAX_STENCIL numPhase ip stencilSize st
        { v with pres := pres2 } 0 (fun _ => 0) (fun _ _ => 0)).k_up
      = (formPPUVelocity NC NUM_ELEMS MAX_STENCIL numPhase ip stencilSize st v 0
        (fun _ => 0) (fun _ _ => 0)).k_up) :
    (formPPUVelocity NC NUM_ELEMS MAX_STENCIL numPhase ip stencilSize st
        { v with pres := pres2 } 0 (fun _ => 0) (fun _ _ => 0)).phaseFlux
      - (formPPUVelocity NC NUM_ELEMS MAX_STENCIL numPhase ip stencilSize st v 0
        (fun _ => 0) (fun _ _ => 0)).phaseFlux
      = delta * (formPPUVelocity NC NUM_ELEMS MAX_STENCIL numPhase ip stencilSize st v 0
        (fun _ => 0) (fun _ _ => 0)).dPhaseFlux_dP k := by
  rw [formPPUVelocity_k_up, formPPUVelocity_k_up] at hkup
  rw [formPPUVelocity_k_up] at hmob
  have hpot : formPPUVelocityPotGrad NC NUM_ELEMS numPhase ip stencilSize st
      { v with pres := pres2 } 0
      = formPPUVelocityPotGrad NC NUM_ELEMS numPhase ip stencilSize st v 0
        + st.stencilWeights k * delta := by
    rw [formPPUVelocityPotGrad_apply, formPPUVelocityPotGrad_apply,
      presGradSum_perturb ip stencilSize st v pres2 0 k delta hk hpert]
    show _ - (formPPUVelocityDensMean NC NUM_ELEMS ip st v).densMean
      * gravCoefSum stencilSize st v = _
    ring
  rw [formPPUVelocity_phaseFlux, formPPUVelocity_phaseFlux, hkup, hpot,
    formPPUVelocity_dP_apply NC NUM_ELEMS MAX_STENCIL numPhase ip stencilSize st v
      0 _ _ _ _ _ rfl rfl rfl k,
    (formPPUVelocityLocals_dP NC NUM_ELEMS numPhase ip stencilSize st v 0 k).1,
    (formPPUVelocityLocals_dP NC NUM_ELEMS numPhase ip stencilSize st v 0 k).2, hmob]
  simp only [if_pos hk, dCapPressure_dPTerm]
  show (v.phaseMob _ _ _ ip) * _ - _ = _
  by_cases hkn : k < NUM_ELEMS
  · simp only [if_pos hkn, hdens k hkn]
    simp
    ring
  · simp only [if_neg hkn]
    simp
    ring

/-- Upwind index of `formPPUVelocity` on the two-point gravity scenario, phase `0`, for the
pressures `{p0, 0}` with `p0 < 1000`: the gravity head `1000` sends the flow from cell `1`. -/
theorem gravityScenario_upwind (p0 : ℚ) (hp0 : p0 < 1000) :
    formPPUVelocityUpwind 1 2 2 0 2 scenarioStencil
      { gravityViews 0 with pres := fun _ _ ei => if ei = 0 then p0 else 0 } 0 = 1 := by
  unfold formPPUVelocityUpwind
  rw [formPPUVelocityPotGrad_twoPoint 1 2 0 scenarioStencil _ rfl rfl]
  simp [gravityViews, scenarioStencil]
  norm_num
  linarith

/-- Witness of C21: the two-point gravity scenario, phase `0`, the pressure of cell 0
raised from `0` to `5`; the upwind cell stays cell `1`. -/
theorem formPPUVelocity_pressure_consistency_witness :
    (formPPUVelocity 1 2 2 2 0 2 scenarioStencil
        { gravityViews 0 with pres := fun _ _ ei => if ei = 0 then 5 else 0 } 0
        (fun _ => 0) (fun _ _ => 0)).phaseFlux
      - (formPPUVelocity 1 2 2 2 0 2 scenarioStencil (gravityViews 0) 0
        (fun _ => 0) (fun _ _ => 0)).phaseFlux
      = 5 * (formPPUVelocity 1 2 2 2 0 2 scenarioStencil (gravityViews 0) 0
        (fun _ => 0) (fun _ _ => 0)).dPhaseFlux_dP 0 :=
  formPPUVelocity_pressure_consistency 1 2 2 2 0 2 scenarioStencil (gravityViews 0)
    (fun _ _ ei => if ei = 0 then 5 else 0) 0 5 (by decide)
    (by
      intro i hi
      interval_cases i <;> simp [scenarioStencil, gravityViews])
    rfl (fun _ _ => rfl)
    (by
      rw [formPPUVelocity_k_up, formPPUVelocity_k_up, gravityScenario_upwind 5 (by norm_num)]
      have h0 := gravityScenario_upwind 0 (by norm_num)
      have hv : ({ gravityViews 0 with pres := fun _ _ ei => if ei = 0 then (0 : ℚ) else 0 }
          : ElementViews) = gravityViews 0 := by
        simp [gravityViews]
      rw [hv] at h0
      exact h0.symm)

/-- C22. Two-point specialization: with `stencilSize = NUM_ELEMS = 2`, weights `{+1, -1}`,
zero pressure increments and capillarity disabled, the `presGrad` of `formPPUVelocity` and
of `PhasePotentialUpwind::calcPotential` (its `pot` plus the gravity head it subtracts) is
`pres[cell 0] - pres[cell 1]`, and the potential of both is that difference minus
`0.5 * (massDens[0] + massDens[1]) * (gravCoef[0] - gravCoef[1])`. -/
theorem twoPoint_specialization (NC numPhase ip : Nat) (st : Stencil) (totFlux : ℚ)
    (v : ElementViews) (source : Nat)
    (hw0 : st.stencilWeights 0 = 1) (hw1 : st.stencilWeights 1 = -1)
    (hd0 : v.dPres (st.seri 0) (st.sesri 0) (st.sei 0) = 0)
    (hd1 : v.dPres (st.seri 1) (st.sesri 1) (st.sei 1) = 0) :
    (formPPUVelocityLocals NC 2 numPhase ip 2 st v 0).presGrad
      = v.pres (st.seri 0) (st.sesri 0) (st.sei 0)
        - v.pres (st.seri 1) (st.sesri 1) (st.sei 1) ∧
    formPPUVelocityPotGrad NC 2 numPhase ip 2 st v 0
      = v.pres (st.seri 0) (st.sesri 0) (st.sei 0)
        - v.pres (st.seri 1) (st.sesri 1) (st.sei 1)
        - 0.5 * (v.phaseMassDens (st.seri 0) (st.sesri 0) (st.sei 0) 0 ip
            + v.phaseMassDens (st.seri 1) (st.sesri 1) (st.sei 1) 0 ip)
          * (v.gravCoef (st.seri 0) (st.sesri 0) (st.sei 0)
            - v.gravCoef (st.seri 1) (st.sesri 1) (st.sei 1)) ∧
    (PhasePotentialUpwind.calcPotential NC 2 numPhase ip 2 st totFlux v source).pot
        + gravHeadOf NC 2 ip 2 st v
      = v.pres (st.seri 0) (st.sesri 0) (st.sei 0)
        - v.pres (st.seri 1) (st.sesri 1) (st.sei 1) ∧
    (PhasePotentialUpwind.calcPotential NC 2 numPhase ip 2 st totFlux v source).pot
      = v.pres (st.seri 0) (st.sesri 0) (st.sei 0)
        - v.pres (st.seri 1) (st.sesri 1) (st.sei 1)
        - 0.5 * (v.phaseMassDens (st.seri 0) (st.sesri 0) (st.sei 0) 0 ip
            + v.phaseMassDens (st.seri 1) (st.sesri 1) (st.sei 1) 0 ip)
          * (v.gravCoef (st.seri 0) (st.sesri 0) (st.sei 0)
            - v.gravCoef (st.seri 1) (st.sesri 1) (st.sei 1)) := by
  have hpres : presGradSum ip 2 st v 0
      = v.pres (st.seri 0) (st.sesri 0) (st.sei 0)
        - v.pres (st.seri 1) (st.sesri 1) (st.sei 1) := by
    simp only [presGradSum, capPressureTerm, Finset.sum_range_succ, Finset.sum_range_zero,
      hw0, hw1, hd0, hd1]
    simp
    ring
  have hgrav : densMeanSum 2 ip st v * gravCoefSum 2 st v
      = 0.5 * (v.phaseMassDens (st.seri 0) (st.sesri 0) (st.sei 0) 0 ip
            + v.phaseMassDens (st.seri 1) (st.sesri 1) (st.sei 1) 0 ip)
          * (v.gravCoef (st.seri 0) (st.sesri 0) (st.sei 0)
            - v.gravCoef (st.seri 1) (st.sesri 1) (st.sei 1)) := by
    simp only [densMeanSum, gravCoefSum, Finset.sum_range_succ, Finset.sum_range_zero,
      hw0, hw1]
    ring
  refine ⟨?_, ?_, ?_, ?_⟩
  · unfold formPPUVelocityLocals
    rw [formPPUVelocityPot_presGrad]
    exact hpres
  · rw [formPPUVelocityPotGrad_twoPoint NC numPhase ip st v hw0 hw1, hd0, hd1]
    ring
  · rw [PhasePotentialUpwind_pot, hpres]
    unfold gravHeadOf
    rw [formGravHead_gravHead]
    ring
  · rw [PhasePotentialUpwind_pot, hpres, hgrav]

/-- Witness of C22: the concrete two-cell scenario with pressures `{100, 90}`. -/
theorem twoPoint_specialization_witness :
    (formPPUVelocityLocals 1 2 1 0 2 scenarioStencil
        (scenarioViews 100 90 (4/5) (3/5) (1/4)) 0).presGrad
      = (scenarioViews 100 90 (4/5) (3/5) (1/4)).pres (scenarioStencil.seri 0)
          (scenarioStencil.sesri 0) (scenarioStencil.sei 0)
        - (scenarioViews 100 90 (4/5) (3/5) (1/4)).pres (scenarioStencil.seri 1)
          (scenarioStencil.sesri 1) (scenarioStencil.sei 1) :=
  (twoPoint_specialization 1 1 0 scenarioStencil 0 (scenarioViews 100 90 (4/5) (3/5) (1/4)) 0
    rfl rfl rfl rfl).1

/-! ## Claims on the hybrid schemes -/

/-- The loop over the other phases adds, for each `jp ≠ ip`, the head difference
`gravHeadOther_jp - gravHead` times the mobility of phase `jp` at stencil cell `1` when
`gravHead - gravHeadOther_jp ≥ 0` and at stencil cell `0` otherwise. -/
theorem gravitySegregation_apply (NC NUM_ELEMS numPhase ip stencilSize : Nat) (st : Stencil)
    (v : ElementViews) (gravHead pot : ℚ) :
    gravitySegregation NC NUM_ELEMS numPhase ip stencilSize st v gravHead pot
      = pot + Finset.sum (Finset.range numPhase) (fun jp =>
          if jp ≠ ip then
            (if gravHead - gravHeadOf NC NUM_ELEMS jp stencilSize st v ≥ 0
              then v.phaseMob (st.seri 1) (st.sesri 1) (st.sei 1) jp
              else v.phaseMob (st.seri 0) (st.sesri 0) (st.sei 0) jp)
              * (gravHeadOf NC NUM_ELEMS jp stencilSize st v - gravHead)
          else 0) := by
  unfold gravitySegregation
  refine forLoop_sum numPhase _ _ pot ?_
  intro jp x _
  by_cases hjp : jp ≠ ip
  · simp only [if_pos hjp]
    by_cases hc : gravHead - gravHeadOf NC NUM_ELEMS jp stencilSize st v ≥ 0
    · simp only [if_pos hc]
    · simp only [if_neg hc]
  · simp only [if_neg hjp, add_zero]

/-- Gravity heads of the two-point gravity scenario: `1000` for phase `0`, `800` for the
other phases. -/
theorem gravityScenario_gravHead (g2 : ℚ) (jp : Nat) :
    gravHeadOf 1 2 jp 2 scenarioStencil (gravityViews g2) = if jp = 0 then 1000 else 800 := by
  unfold gravHeadOf
  rw [formGravHead_gravHead]
  simp only [densMeanSum, gravCoefSum, Finset.sum_range_succ, Finset.sum_range_zero,
    gravityViews, scenarioStencil]
  by_cases hjp : jp = 0
  · simp [hjp]
    norm_num
  · simp [hjp]
    norm_num

/-- C23, as the code has it.  `HybridUpwind<Gravity>::calcPotential` returns
`pot = Σ_{jp ≠ ip} m_jp * (gravHeadOther_jp - gravHead_ip)`, the gravity heads being those
of `formGravHead`, where `m_jp` is the mobility of phase `jp` at the downstream cell
(stencil index 1) when `gravHead_ip - gravHeadOther_jp` is non-negative and the mobility of
phase `jp` at the upstream cell (stencil index 0) otherwise: the test is on the head of the
current phase minus the head of the other phase. -/
theorem HybridUpwindGravity_calcPotential (NC NUM_ELEMS numPhase ip stencilSize : Nat)
    (st : Stencil) (totFlux : ℚ) (v : ElementViews) (source : Nat) :
    (HybridUpwindGravity.calcPotential NC NUM_ELEMS numPhase ip stencilSize st totFlux v
        source).pot
      = segregationSum NC NUM_ELEMS numPhase ip stencilSize st v ∧
    (∀ jp, gravHeadOf NC NUM_ELEMS jp stencilSize st v
      = (formGravHead NC NUM_ELEMS jp stencilSize st v (fun _ => 0) (fun _ _ => 0)
          (fun _ => 0)).gravHead) := by
  refine ⟨?_, fun _ => rfl⟩
  unfold HybridUpwindGravity.calcPotential segregationSum
  simp only []
  rw [gravitySegregation_apply, zero_add]

/-- Counterexample to C23 as stated: two phases on the two-point gravity scenario.  For
phase `0` the gravity heads are `1000` (own) and `800` (other), so
`gravHeadOther - gravHead = -200 < 0`; the code takes the mobility `2` of stencil cell `1`
and returns `pot = -400`, whereas the sum with the mobility chosen on the sign of
`gravHeadOther - gravHead` takes the mobility `1` of stencil cell `0` and gives `-200`. -/
theorem HybridUpwindGravity_calcPotential_counterexample :
    (HybridUpwindGravity.calcPotential 1 2 2 0 2 scenarioStencil 0 (gravityViews 0) 0).pot
        = -400 ∧
    segregationSumOtherMinusOwn 1 2 2 0 2 scenarioStencil (gravityViews 0) = -200 ∧
    ¬ ((HybridUpwindGravity.calcPotential 1 2 2 0 2 scenarioStencil 0 (gravityViews 0) 0).pot
        = segregationSumOtherMinusOwn 1 2 2 0 2 scenarioStencil (gravityViews 0)) := by
  have hcode : (HybridUpwindGravity.calcPotential 1 2 2 0 2 scenarioStencil 0
      (gravityViews 0) 0).pot = -400 := by
    unfold HybridUpwindGravity.calcPotential
    simp only []
    rw [gravitySegregation_apply]
    simp only [gravityScenario_gravHead, Finset.sum_range_succ, Finset.sum_range_zero]
    simp [gravityViews, scenarioStencil]
    norm_num
  have hclaim : segregationSumOtherMinusOwn 1 2 2 0 2 scenarioStencil (gravityViews 0)
      = -200 := by
    unfold segregationSumOtherMinusOwn
    simp only [gravityScenario_gravHead, Finset.sum_range_succ, Finset.sum_range_zero]
    simp [gravityViews, scenarioStencil]
    norm_num
  refine ⟨hcode, hclaim, ?_⟩
  rw [hcode, hclaim]
  norm_num

/-- C24. For the hybrid viscous term the potential is the total flux with no local
computation: `HybridUpwind<Viscous>::calcPotential` returns `pot = totFlux`, so `upwindMob`
with that scheme returns `upwindDir = 0` if `totFlux > 0` and `1` otherwise, the same for
every phase, template sizes, stencil (cells and weights) and property bundle (pressures,
gravity coefficients, densities, mobilities). -/
theorem HybridUpwindViscous_direction (NC NUM_ELEMS numPhase ip stencilSize : Nat)
    (st : Stencil) (totFlux : ℚ) (v : ElementViews) (source : Nat) (dMob_dC : Nat → ℚ)
    (NC2 NUM_ELEMS2 numPhase2 ip2 stencilSize2 : Nat) (st2 : Stencil) (v2 : ElementViews)
    (dMob_dC2 : Nat → ℚ) :
    (HybridUpwindViscous.calcPotential NC NUM_ELEMS numPhase ip stencilSize st totFlux v
        source).pot = totFlux ∧
    (upwindMob UPWIND.HybridUpwindViscous NC NUM_ELEMS numPhase ip stencilSize st totFlux v
        dMob_dC).upwindDir = (if totFlux > 0 then 0 else 1) ∧
    (upwindMob UPWIND.HybridUpwindViscous NC NUM_ELEMS numPhase ip stencilSize st totFlux v
        dMob_dC).upwindDir
      = (upwindMob UPWIND.HybridUpwindViscous NC2 NUM_ELEMS2 numPhase2 ip2 stencilSize2 st2
        totFlux v2 dMob_dC2).upwindDir := by
  have h : ∀ (NC NUM_ELEMS numPhase ip stencilSize : Nat) (st : Stencil) (v : ElementViews)
      (a : Nat → ℚ),
      (upwindMob UPWIND.HybridUpwindViscous NC NUM_ELEMS numPhase ip stencilSize st totFlux v
        a).upwindDir = (if totFlux > 0 then 0 else 1) := by
    intro NC NUM_ELEMS numPhase ip stencilSize st v a
    rw [upwindMob_upwindDir, getUpwindDir_apply]
    rfl
  refine ⟨rfl, h _ _ _ _ _ _ _ _, ?_⟩
  rw [h, h]

/-- Negating every stencil weight negates the weighted pressure sum. -/
theorem presGradSum_neg (ip stencilSize : Nat) (st : Stencil) (v : ElementViews)
    (capPressureFlag : Int) :
    presGradSum ip stencilSize { st with stencilWeights := fun i => - st.stencilWeights i } v
        capPressureFlag
      = - presGradSum ip stencilSize st v capPressureFlag := by
  unfold presGradSum
  rw [← Finset.sum_neg_distrib]
  refine Finset.sum_congr rfl ?_
  intro i _
  show - st.stencilWeights i * (_ + _ - capPressureTerm ip st v capPressureFlag i) = _
  ring

/-- Negating every stencil weight negates the weighted gravity sum. -/
theorem gravCoefSum_neg (stencilSize : Nat) (st : Stencil) (v : ElementViews) :
    gravCoefSum stencilSize { st with stencilWeights := fun i => - st.stencilWeights i } v
      = - gravCoefSum stencilSize st v := by
  unfold gravCoefSum
  rw [← Finset.sum_neg_distrib]
  refine Finset.sum_congr rfl ?_
  intro i _
  show - st.stencilWeights i * _ = _
  ring

/-- C25. Upwind monotonicity under sign flip: replacing every stencil weight by its
negative negates the potential of `formPPUVelocity`, and when that potential is non-zero
`k_up` takes the other value in `{0, 1}`; likewise the potential of
`PhasePotentialUpwind::calcPotential` is negated, and when it is non-zero `getUpwindDir`
with `PhasePotentialUpwind` returns the other value in `{0, 1}`. -/
theorem upwind_sign_flip (T : term) (NC NUM_ELEMS MAX_STENCIL numPhase ip stencilSize : Nat)
    (st : Stencil) (totFlux : ℚ) (v : ElementViews) (capPressureFlag : Int) (a : Nat → ℚ)
    (A : Nat → Nat → ℚ) :
    formPPUVelocityPotGrad NC NUM_ELEMS numPhase ip stencilSize
        { st with stencilWeights := fun i => - st.stencilWeights i } v capPressureFlag
      = - formPPUVelocityPotGrad NC NUM_ELEMS numPhase ip stencilSize st v capPressureFlag ∧
    (formPPUVelocityPotGrad NC NUM_ELEMS numPhase ip stencilSize st v capPressureFlag ≠ 0 →
      (formPPUVelocity NC NUM_ELEMS MAX_STENCIL numPhase ip stencilSize st v capPressureFlag
          a A).k_up ≤ 1 ∧
      (formPPUVelocity NC NUM_ELEMS MAX_STENCIL numPhase ip stencilSize
          { st with stencilWeights := fun i => - st.stencilWeights i } v capPressureFlag
          a A).k_up
        = 1 - (formPPUVelocity NC NUM_ELEMS MAX_STENCIL numPhase ip stencilSize st v
          capPressureFlag a A).k_up) ∧
    (PhasePotentialUpwind.calcPotential NC NUM_ELEMS numPhase ip stencilSize
        { st with stencilWeights := fun i => - st.stencilWeights i } totFlux v 0).pot
      = - (PhasePotentialUpwind.calcPotential NC NUM_ELEMS numPhase ip stencilSize st totFlux
        v 0).pot ∧
    ((PhasePotentialUpwind.calcPotential NC NUM_ELEMS numPhase ip stencilSize st totFlux
        v 0).pot ≠ 0 →
      getUpwindDir (UPWIND.PhasePotentialUpwind T) NC NUM_ELEMS numPhase ip stencilSize st
          totFlux v ≤ 1 ∧
      getUpwindDir (UPWIND.PhasePotentialUpwind T) NC NUM_ELEMS numPhase ip stencilSize
          { st with stencilWeights := fun i => - st.stencilWeights i } totFlux v
        = 1 - getUpwindDir (UPWIND.PhasePotentialUpwind T) NC NUM_ELEMS numPhase ip
          stencilSize st totFlux v) := by
  have hpot : formPPUVelocityPotGrad NC NUM_ELEMS numPhase ip stencilSize
      { st with stencilWeights := fun i => - st.stencilWeights i } v capPressureFlag
      = - formPPUVelocityPotGrad NC NUM_ELEMS numPhase ip stencilSize st v
        capPressureFlag := by
    rw [formPPUVelocityPotGrad_apply, formPPUVelocityPotGrad_apply, presGradSum_neg,
      gravCoefSum_neg]
    show _ - (formPPUVelocityDensMean NC NUM_ELEMS ip st v).densMean * _ = _
    ring
  have hpot2 : (PhasePotentialUpwind.calcPotential NC NUM_ELEMS numPhase ip stencilSize
      { st with stencilWeights := fun i => - st.stencilWeights i } totFlux v 0).pot
      = - (PhasePotentialUpwind.calcPotential NC NUM_ELEMS numPhase ip stencilSize st totFlux
        v 0).pot := by
    rw [PhasePotentialUpwind_pot, PhasePotentialUpwind_pot, presGradSum_neg, gravCoefSum_neg]
    show _ - densMeanSum NUM_ELEMS ip st v * _ = _
    ring
  refine ⟨hpot, ?_, hpot2, ?_⟩
  · intro hne
    rw [formPPUVelocity_k_up, formPPUVelocity_k_up]
    unfold formPPUVelocityUpwind
    rw [hpot]
    rcases lt_or_gt_of_ne hne with hlt | hgt
    · have h1 : ¬ formPPUVelocityPotGrad NC NUM_ELEMS numPhase ip stencilSize st v
          capPressureFlag ≥ 0 := not_le.mpr hlt
      have h2 : - formPPUVelocityPotGrad NC NUM_ELEMS numPhase ip stencilSize st v
          capPressureFlag ≥ 0 := by linarith
      rw [if_neg h1, if_pos h2]
      exact ⟨le_refl 1, rfl⟩
    · have h1 : formPPUVelocityPotGrad NC NUM_ELEMS numPhase ip stencilSize st v
          capPressureFlag ≥ 0 := le_of_lt hgt
      have h2 : ¬ - formPPUVelocityPotGrad NC NUM_ELEMS numPhase ip stencilSize st v
          capPressureFlag ≥ 0 := by
        intro h
        linarith
      rw [if_pos h1, if_neg h2]
      exact ⟨Nat.zero_le 1, rfl⟩
  · intro hne
    rw [getUpwindDir_apply, getUpwindDir_apply]
    show (if (PhasePotentialUpwind.calcPotential NC NUM_ELEMS numPhase ip stencilSize st
        totFlux v 0).pot > 0 then 0 else 1) ≤ 1 ∧
      (if (PhasePotentialUpwind.calcPotential NC NUM_ELEMS numPhase ip stencilSize
        { st with stencilWeights := fun i => - st.stencilWeights i } totFlux v 0).pot > 0
        then 0 else 1)
        = 1 - (if (PhasePotentialUpwind.calcPotential NC NUM_ELEMS numPhase ip stencilSize st
          totFlux v 0).pot > 0 then 0 else 1)
    rw [hpot2]
    rcases lt_or_gt_of_ne hne with hlt | hgt
    · have h1 : ¬ (PhasePotentialUpwind.calcPotential NC NUM_ELEMS numPhase ip stencilSize st
          totFlux v 0).pot > 0 := not_lt.mpr (le_of_lt hlt)
      have h2 : - (PhasePotentialUpwind.calcPotential NC NUM_ELEMS numPhase ip stencilSize st
          totFlux v 0).pot > 0 := by linarith
      rw [if_neg h1, if_pos h2]
      exact ⟨le_refl 1, rfl⟩
    · have h1 : (PhasePotentialUpwind.calcPotential NC NUM_ELEMS numPhase ip stencilSize st
          totFlux v 0).pot > 0 := hgt
      have h2 : ¬ - (PhasePotentialUpwind.calcPotential NC NUM_ELEMS numPhase ip stencilSize
          st totFlux v 0).pot > 0 := by
        intro h
        linarith
      rw [if_pos h1, if_neg h2]
      exact ⟨Nat.zero_le 1, rfl⟩

/-- Witness of C25: the concrete two-cell scenario with pressures `{100, 90}`, potential
`10`: `k_up` is `0`, and `1` after the weights are negated. -/
theorem upwind_sign_flip_witness :
    (formPPUVelocity 1 2 2 1 0 2
        { scenarioStencil with stencilWeights := fun i => - scenarioStencil.stencilWeights i }
        (scenarioViews 100 90 (4/5) (3/5) (1/4)) 0 (fun _ => 0) (fun _ _ => 0)).k_up
      = 1 - (formPPUVelocity 1 2 2 1 0 2 scenarioStencil
        (scenarioViews 100 90 (4/5) (3/5) (1/4)) 0 (fun _ => 0) (fun _ _ => 0)).k_up :=
  ((upwind_sign_flip term.Viscous 1 2 2 1 0 2 scenarioStencil 0
    (scenarioViews 100 90 (4/5) (3/5) (1/4)) 0 (fun _ => 0) (fun _ _ => 0)).2.1
    (by
      rw [(scenario_potential (4/5) (3/5) (1/4)).1]
      norm_num)).2

/-! ## Claims on the role of the primary cells -/

/-- The initialisation of `formGravHead` zeroes the first `NUM_ELEMS` entries of
`dGravHead_dPres`. -/
theorem formGravHeadInit_dPres (NC NUM_ELEMS : Nat) (a : Nat → ℚ) (A : Nat → Nat → ℚ)
    (w : Nat → ℚ) (k : Nat) :
    (formGravHeadInit NC NUM_ELEMS a A w).dGravHead_dPres k
      = if k < NUM_ELEMS then 0 else a k := by
  unfold formGravHeadInit
  rw [forLoop_proj GravHead.dGravHead_dPres NUM_ELEMS _ (fun i b => setAt b i 0) _
    (fun _ _ _ => rfl)]
  exact forLoop_reset NUM_ELEMS a k

/-- Pressure derivative of the mean density of `formGravHead`. -/
theorem formGravHeadDensMean_dP (NC NUM_ELEMS ip : Nat) (st : Stencil) (v : ElementViews)
    (w : Nat → ℚ) (k : Nat) :
    (formGravHeadDensMean NC NUM_ELEMS ip st v w).dDensMean_dP k
      = if k < NUM_ELEMS then
          0.5 * v.dPhaseMassDens_dPres (st.seri k) (st.sesri k) (st.sei k) 0 ip
        else 0 := by
  unfold formGravHeadDensMean
  rw [forLoop_proj DensMean.dDensMean_dP NUM_ELEMS _
    (fun i a => setAt a i
      (0.5 * v.dPhaseMassDens_dPres (st.seri i) (st.sesri i) (st.sei i) 0 ip)) _
    (fun _ _ _ => rfl)]
  exact forLoop_pointwise NUM_ELEMS
    (fun i _ => 0.5 * v.dPhaseMassDens_dPres (st.seri i) (st.sesri i) (st.sei i) 0 ip) _ _
    (fun _ _ _ _ => rfl) k

/-- Pressure derivatives of the gravity head returned by `formGravHead`, from the prior
contents `a` of the output array. -/
theorem formGravHead_dPres (NC NUM_ELEMS ip stencilSize : Nat) (st : Stencil)
    (v : ElementViews) (a : Nat → ℚ) (A : Nat → Nat → ℚ) (w : Nat → ℚ) (k : Nat) :
    (formGravHead NC NUM_ELEMS ip stencilSize st v a A w).dGravHead_dPres k
      = if k < NUM_ELEMS then
          0.5 * v.dPhaseMassDens_dPres (st.seri k) (st.sesri k) (st.sei k) 0 ip
            * gravCoefSum stencilSize st v
        else a k := by
  unfold formGravHead
  simp only []
  rw [forLoop_proj GravHead.dGravHead_dPres stencilSize _
    (fun i b => forLoop NUM_ELEMS (fun j c => setAt c j (c j
      + (formGravHeadDensMean NC NUM_ELEMS ip st v
          (formGravHeadInit NC NUM_ELEMS a A w).dProp_dComp).dDensMean_dP j
        * (st.stencilWeights i * v.gravCoef (st.seri i) (st.sesri i) (st.sei i)))) b) _
    (fun i t _ => forLoop_proj Prod.fst NUM_ELEMS _ _ _ (fun _ _ _ => rfl))]
  rw [forLoop_accum stencilSize (fun k => k < NUM_ELEMS)
    (fun i k => (formGravHeadDensMean NC NUM_ELEMS ip st v
          (formGravHeadInit NC NUM_ELEMS a A w).dProp_dComp).dDensMean_dP k
        * (st.stencilWeights i * v.gravCoef (st.seri i) (st.sesri i) (st.sei i)))]
  · show (if k < NUM_ELEMS then (formGravHeadInit NC NUM_ELEMS a A w).dGravHead_dPres k + _
      else (formGravHeadInit NC NUM_ELEMS a A w).dGravHead_dPres k) = _
    rw [formGravHeadInit_dPres, formGravHeadDensMean_dP]
    by_cases hk : k < NUM_ELEMS
    · simp only [if_pos hk, zero_add, gravCoefSum]
      rw [← Finset.mul_sum]
    · simp only [if_neg hk]
  · intro i b x _
    exact forLoop_pointwise NUM_ELEMS (fun j y => y
      + (formGravHeadDensMean NC NUM_ELEMS ip st v
          (formGravHeadInit NC NUM_ELEMS a A w).dProp_dComp).dDensMean_dP j
        * (st.stencilWeights i * v.gravCoef (st.seri i) (st.sesri i) (st.sei i))) _ b
      (fun _ _ _ _ => rfl) x

/-- The loop over the primary cells of `formGravHead` reads the mass density and its
derivatives in the primary cells only. -/
theorem formGravHeadDensMean_primary (NC NUM_ELEMS ip : Nat) (st : Stencil)
    (v : ElementViews) (w : Nat → ℚ)
    (pmd : Nat → Nat → Nat → Nat → Nat → ℚ) (dpp : Nat → Nat → Nat → Nat → Nat → ℚ)
    (dpc : Nat → Nat → Nat → Nat → Nat → Nat → ℚ)
    (h1 : ∀ i, i < NUM_ELEMS → pmd (st.seri i) (st.sesri i) (st.sei i)
      = v.phaseMassDens (st.seri i) (st.sesri i) (st.sei i))
    (h2 : ∀ i, i < NUM_ELEMS → dpp (st.seri i) (st.sesri i) (st.sei i)
      = v.dPhaseMassDens_dPres (st.seri i) (st.sesri i) (st.sei i))
    (h3 : ∀ i, i < NUM_ELEMS → dpc (st.seri i) (st.sesri i) (st.sei i)
      = v.dPhaseMassDens_dComp (st.seri i) (st.sesri i) (st.sei i)) :
    formGravHeadDensMean NC NUM_ELEMS ip st
        { v with phaseMassDens := pmd, dPhaseMassDens_dPres := dpp,
                 dPhaseMassDens_dComp := dpc } w
      = formGravHeadDensMean NC NUM_ELEMS ip st v w := by
  unfold formGravHeadDensMean
  refine forLoop_congr NUM_ELEMS _ _ _ ?_
  intro i t hi
  simp only [h1 i hi, h2 i hi, h3 i hi]

/-- The loop over the primary cells of `formPPUVelocity` reads the mass density and its
derivatives in the primary cells only. -/
theorem formPPUVelocityDensMean_primary (NC NUM_ELEMS ip : Nat) (st : Stencil)
    (v : ElementViews)
    (pmd : Nat → Nat → Nat → Nat → Nat → ℚ) (dpp : Nat → Nat → Nat → Nat → Nat → ℚ)
    (dpc : Nat → Nat → Nat → Nat → Nat → Nat → ℚ)
    (h1 : ∀ i, i < NUM_ELEMS → pmd (st.seri i) (st.sesri i) (st.sei i)
      = v.phaseMassDens (st.seri i) (st.sesri i) (st.sei i))
    (h2 : ∀ i, i < NUM_ELEMS → dpp (st.seri i) (st.sesri i) (st.sei i)
      = v.dPhaseMassDens_dPres (st.seri i) (st.sesri i) (st.sei i))
    (h3 : ∀ i, i < NUM_ELEMS → dpc (st.seri i) (st.sesri i) (st.sei i)
      = v.dPhaseMassDens_dComp (st.seri i) (st.sesri i) (st.sei i)) :
    formPPUVelocityDensMean NC NUM_ELEMS ip st
        { v with phaseMassDens := pmd, dPhaseMassDens_dPres := dpp,
                 dPhaseMassDens_dComp := dpc }
      = formPPUVelocityDensMean NC NUM_ELEMS ip st v := by
  unfold formPPUVelocityDensMean
  refine forLoop_congr NUM_ELEMS _ _ _ ?_
  intro i t hi
  simp only [h1 i hi, h2 i hi, h3 i hi]

/-- The outputs of `formPPUVelocity` are determined by the locals of line 189, the upwind
index and the mobility fields. -/
theorem formPPUVelocity_congr (NC NUM_ELEMS MAX_STENCIL numPhase ip stencilSize : Nat)
    (st st2 : Stencil) (v v2 : ElementViews) (capPressureFlag capPressureFlag2 : Int)
    (a : Nat → ℚ) (A : Nat → Nat → ℚ)
    (hL : formPPUVelocityLocals NC NUM_ELEMS numPhase ip stencilSize st2 v2 capPressureFlag2
      = formPPUVelocityLocals NC NUM_ELEMS numPhase ip stencilSize st v capPressureFlag)
    (hcell : st2.seri = st.seri ∧ st2.sesri = st.sesri ∧ st2.sei = st.sei)
    (hmob : v2.phaseMob = v.phaseMob ∧ v2.dPhaseMob_dPres = v.dPhaseMob_dPres
      ∧ v2.dPhaseMob_dComp = v.dPhaseMob_dComp) :
    formPPUVelocity NC NUM_ELEMS MAX_STENCIL numPhase ip stencilSize st2 v2 capPressureFlag2
        a A
      = formPPUVelocity NC NUM_ELEMS MAX_STENCIL numPhase ip stencilSize st v capPressureFlag
        a A := by
  have hP : formPPUVelocityPotGrad NC NUM_ELEMS numPhase ip stencilSize st2 v2
      capPressureFlag2
      = formPPUVelocityPotGrad NC NUM_ELEMS numPhase ip stencilSize st v capPressureFlag := by
    unfold formPPUVelocityPotGrad
    rw [hL]
  have hU : formPPUVelocityUpwind NC NUM_ELEMS numPhase ip stencilSize st2 v2
      capPressureFlag2
      = formPPUVelocityUpwind NC NUM_ELEMS numPhase ip stencilSize st v capPressureFlag := by
    unfold formPPUVelocityUpwind
    rw [hP]
  unfold formPPUVelocity
  simp only [hL, hP, hU, hcell.1, hcell.2.1, hcell.2.2, hmob.1, hmob.2.1, hmob.2.2]

/-- C26. The mean density uses only the two primary cells: for every stencil (in
particular with `stencilSize > NUM_ELEMS`), the `gravHead` and derivatives returned by
`formGravHead`, and the `phaseFlux`, `k_up` and derivatives returned by `formPPUVelocity`,
do not change when `phaseMassDens`, `dPhaseMassDens_dPres` and `dPhaseMassDens_dComp` are
changed anywhere but in the primary cells (those of stencil index `< NUM_ELEMS`); for
`NUM_ELEMS = 2` the mean density of both kernels is `0.5 * (massDens[0] + massDens[1])`,
and `dGravHead_dPres[j] = 0.5 * dPhaseMassDens_dPres[j] * Σ_i weight[i] * gravCoef[i]` for
`j < NUM_ELEMS`. -/
theorem meanDensity_primary_cells (NC NUM_ELEMS MAX_STENCIL numPhase ip stencilSize : Nat)
    (st : Stencil) (v : ElementViews) (capPressureFlag : Int)
    (pmd : Nat → Nat → Nat → Nat → Nat → ℚ) (dpp : Nat → Nat → Nat → Nat → Nat → ℚ)
    (dpc : Nat → Nat → Nat → Nat → Nat → Nat → ℚ)
    (a : Nat → ℚ) (A : Nat → Nat → ℚ) (w : Nat → ℚ)
    (h1 : ∀ i, i < NUM_ELEMS → pmd (st.seri i) (st.sesri i) (st.sei i)
      = v.phaseMassDens (st.seri i) (st.sesri i) (st.sei i))
    (h2 : ∀ i, i < NUM_ELEMS → dpp (st.seri i) (st.sesri i) (st.sei i)
      = v.dPhaseMassDens_dPres (st.seri i) (st.sesri i) (st.sei i))
    (h3 : ∀ i, i < NUM_ELEMS → dpc (st.seri i) (st.sesri i) (st.sei i)
      = v.dPhaseMassDens_dComp (st.seri i) (st.sesri i) (st.sei i)) :
    formGravHead NC NUM_ELEMS ip stencilSize st
        { v with phaseMassDens := pmd, dPhaseMassDens_dPres := dpp,
                 dPhaseMassDens_dComp := dpc } a A w
      = formGravHead NC NUM_ELEMS ip stencilSize st v a A w ∧
    formPPUVelocity NC NUM_ELEMS MAX_STENCIL numPhase ip stencilSize st
        { v with phaseMassDens := pmd, dPhaseMassDens_dPres := dpp,
                 dPhaseMassDens_dComp := dpc } capPressureFlag a A
      = formPPUVelocity NC NUM_ELEMS MAX_STENCIL numPhase ip stencilSize st v capPressureFlag
        a A ∧
    (NUM_ELEMS = 2 →
      (formGravHeadDensMean NC NUM_ELEMS ip st v w).densMean
        = 0.5 * (v.phaseMassDens (st.seri 0) (st.sesri 0) (st.sei 0) 0 ip
          + v.phaseMassDens (st.seri 1) (st.sesri 1) (st.sei 1) 0 ip) ∧
      (formPPUVelocityDensMean NC NUM_ELEMS ip st v).densMean
        = 0.5 * (v.phaseMassDens (st.seri 0) (st.sesri 0) (st.sei 0) 0 ip
          + v.phaseMassDens (st.seri 1) (st.sesri 1) (st.sei 1) 0 ip)) ∧
    (∀ j, j < NUM_ELEMS →
      (formGravHead NC NUM_ELEMS ip stencilSize st v a A w).dGravHead_dPres j
        = 0.5 * v.dPhaseMassDens_dPres (st.seri j) (st.sesri j) (st.sei j) 0 ip
          * gravCoefSum stencilSize st v ∧
      (formPPUVelocityLocals NC NUM_ELEMS numPhase ip stencilSize st v
          capPressureFlag).dGravHead_dP j
        = 0.5 * v.dPhaseMassDens_dPres (st.seri j) (st.sesri j) (st.sei j) 0 ip
          * gravCoefSum stencilSize st v) := by
  refine ⟨?_, ?_, ?_, ?_⟩
  · unfold formGravHead
    simp only []
    rw [formGravHeadDensMean_primary NC NUM_ELEMS ip st v _ pmd dpp dpc h1 h2 h3]
  · refine formPPUVelocity_congr NC NUM_ELEMS MAX_STENCIL numPhase ip stencilSize st st v _
      capPressureFlag capPressureFlag a A ?_ ⟨rfl, rfl, rfl⟩ ⟨rfl, rfl, rfl⟩
    unfold formPPUVelocityLocals
    rw [formPPUVelocityDensMean_primary NC NUM_ELEMS ip st v pmd dpp dpc h1 h2 h3]
    rfl
  · intro hn
    subst hn
    refine ⟨?_, ?_⟩
    · rw [formGravHeadDensMean_densMean]
      simp only [densMeanSum, Finset.sum_range_succ, Finset.sum_range_zero]
      ring
    · exact formPPUVelocityDensMean_two NC ip st v
  · intro j hj
    refine ⟨?_, ?_⟩
    · rw [formGravHead_dPres, if_pos hj]
    · rw [(formPPUVelocityLocals_dP NC NUM_ELEMS numPhase ip stencilSize st v capPressureFlag
        j).2, if_pos hj]

/-- Witness of C26: the three-cell stencil with two primary cells on the gravity scenario;
the mass density and its derivatives are changed in cell `(0,0,2)`, of stencil index `2`. -/
theorem meanDensity_primary_cells_witness :
    formPPUVelocity 1 2 3 2 0 3 scenarioStencil
        { gravityViews 0 with
          phaseMassDens := fun er esr ei q p =>
            if ei = 2 then 5 else (gravityViews 0).phaseMassDens er esr ei q p
          dPhaseMassDens_dPres := fun er esr ei q p =>
            if ei = 2 then 6 else (gravityViews 0).dPhaseMassDens_dPres er esr ei q p
          dPhaseMassDens_dComp := fun er esr ei q p c =>
            if ei = 2 then 7 else (gravityViews 0).dPhaseMassDens_dComp er esr ei q p c }
        0 (fun _ => 0) (fun _ _ => 0)
      = formPPUVelocity 1 2 3 2 0 3 scenarioStencil (gravityViews 0) 0 (fun _ => 0)
        (fun _ _ => 0) :=
  (meanDensity_primary_cells 1 2 3 2 0 3 scenarioStencil (gravityViews 0) 0
    (fun er esr ei q p => if ei = 2 then 5 else (gravityViews 0).phaseMassDens er esr ei q p)
    (fun er esr ei q p =>
      if ei = 2 then 6 else (gravityViews 0).dPhaseMassDens_dPres er esr ei q p)
    (fun er esr ei q p c =>
      if ei = 2 then 7 else (gravityViews 0).dPhaseMassDens_dComp er esr ei q p c)
    (fun _ => 0) (fun _ _ => 0) (fun _ => 0)
    (by
      intro i hi
      interval_cases i <;> simp [scenarioStencil])
    (by
      intro i hi
      interval_cases i <;> simp [scenarioStencil])
    (by
      intro i hi
      interval_cases i <;> simp [scenarioStencil])).2.1

/-- Gravity head inside `formPPUVelocity`: the mean density times the weighted gravity sum
over the whole stencil. -/
theorem formPPUVelocityLocals_gravHead (NC NUM_ELEMS numPhase ip stencilSize : Nat)
    (st : Stencil) (v : ElementViews) (capPressureFlag : Int) :
    (formPPUVelocityLocals NC NUM_ELEMS numPhase ip stencilSize st v capPressureFlag).gravHead
      = densMeanSum NUM_ELEMS ip st v * gravCoefSum stencilSize st v := by
  unfold formPPUVelocityLocals
  rw [formPPUVelocityPot_gravHead, formPPUVelocityDensMean_densMean, densMeanSum, gravCoefSum,
    Finset.mul_sum]

/-- C27, as the code has it.  The gravity head computed by `formGravHead` and inside
`formPPUVelocity` is the mean density of the primary cells times the sum of
`weight[i] * gravCoef[i]` over every stencil cell `i < stencilSize`: the entries with index
`≥ NUM_ELEMS` contribute to the gravity head as they do to the weighted pressure sum.  What
is restricted to the primary cells is the mean density and the derivative arrays of the
gravity head, whose entries of index `≥ NUM_ELEMS` are left as they were
(`formGravHead`) or are zero (`formPPUVelocity`). -/
theorem gravHead_whole_stencil (NC NUM_ELEMS numPhase ip stencilSize : Nat) (st : Stencil)
    (v : ElementViews) (capPressureFlag : Int) (a : Nat → ℚ) (A : Nat → Nat → ℚ)
    (w : Nat → ℚ) :
    (formGravHead NC NUM_ELEMS ip stencilSize st v a A w).gravHead
      = densMeanSum NUM_ELEMS ip st v
        * Finset.sum (Finset.range stencilSize) (fun i =>
            st.stencilWeights i * v.gravCoef (st.seri i) (st.sesri i) (st.sei i)) ∧
    (formPPUVelocityLocals NC NUM_ELEMS numPhase ip stencilSize st v capPressureFlag).gravHead
      = densMeanSum NUM_ELEMS ip st v
        * Finset.sum (Finset.range stencilSize) (fun i =>
            st.stencilWeights i * v.gravCoef (st.seri i) (st.sesri i) (st.sei i)) ∧
    (∀ k, ¬ k < NUM_ELEMS →
      (formGravHead NC NUM_ELEMS ip stencilSize st v a A w).dGravHead_dPres k = a k ∧
      (formPPUVelocityLocals NC NUM_ELEMS numPhase ip stencilSize st v
        capPressureFlag).dGravHead_dP k = 0) := by
  refine ⟨?_, ?_, ?_⟩
  · rw [formGravHead_gravHead]
    rfl
  · rw [formPPUVelocityLocals_gravHead]
    rfl
  · intro k hk
    refine ⟨?_, ?_⟩
    · rw [formGravHead_dPres, if_neg hk]
    · rw [(formPPUVelocityLocals_dP NC NUM_ELEMS numPhase ip stencilSize st v capPressureFlag
        k).2, if_neg hk]

/-- Counterexample to C27 as stated: the three-cell stencil with two primary cells and
weights `{1, -1, -1}` on the gravity scenario, phase `0`.  Changing only the gravity
coefficient of cell `(0,0,2)`, of stencil index `2 ≥ NUM_ELEMS`, from `0` to `1` changes
the gravity head of `formGravHead` and of `formPPUVelocity` from `1000` to `0`. -/
theorem gravHead_whole_stencil_counterexample :
    (formGravHead 1 2 0 3 scenarioStencil (gravityViews 0) (fun _ => 0) (fun _ _ => 0)
        (fun _ => 0)).gravHead = 1000 ∧
    (formGravHead 1 2 0 3 scenarioStencil (gravityViews 1) (fun _ => 0) (fun _ _ => 0)
        (fun _ => 0)).gravHead = 0 ∧
    (formPPUVelocityLocals 1 2 2 0 3 scenarioStencil (gravityViews 0) 0).gravHead = 1000 ∧
    (formPPUVelocityLocals 1 2 2 0 3 scenarioStencil (gravityViews 1) 0).gravHead = 0 ∧
    ¬ ((formGravHead 1 2 0 3 scenarioStencil (gravityViews 1) (fun _ => 0) (fun _ _ => 0)
        (fun _ => 0)).gravHead
      = (formGravHead 1 2 0 3 scenarioStencil (gravityViews 0) (fun _ => 0) (fun _ _ => 0)
        (fun _ => 0)).gravHead) := by
  have h : ∀ g2 : ℚ, densMeanSum 2 0 scenarioStencil (gravityViews g2)
      * gravCoefSum 3 scenarioStencil (gravityViews g2) = 1000 * (1 - g2) := by
    intro g2
    simp only [densMeanSum, gravCoefSum, Finset.sum_range_succ, Finset.sum_range_zero,
      gravityViews, scenarioStencil]
    simp
    ring
  have h0 : (formGravHead 1 2 0 3 scenarioStencil (gravityViews 0) (fun _ => 0)
      (fun _ _ => 0) (fun _ => 0)).gravHead = 1000 := by
    rw [formGravHead_gravHead, h]
    norm_num
  have h1 : (formGravHead 1 2 0 3 scenarioStencil (gravityViews 1) (fun _ => 0)
      (fun _ _ => 0) (fun _ => 0)).gravHead = 0 := by
    rw [formGravHead_gravHead, h]
    norm_num
  refine ⟨h0, h1, ?_, ?_, ?_⟩
  · rw [formPPUVelocityLocals_gravHead, h]
    norm_num
  · rw [formPPUVelocityLocals_gravHead, h]
    norm_num
  · rw [h0, h1]
    norm_num

/-- Witness of the amended C27: on the three-cell stencil with two primary cells the
gravity-head derivative of stencil index `2` is zero inside `formPPUVelocity`. -/
theorem gravHead_whole_stencil_witness :
    (formPPUVelocityLocals 1 2 2 0 3 scenarioStencil (gravityViews 0) 0).dGravHead_dP 2 = 0 :=
  ((gravHead_whole_stencil 1 2 2 0 3 scenarioStencil (gravityViews 0) 0 (fun _ => 0)
    (fun _ _ => 0) (fun _ => 0)).2.2 2 (by decide)).2

/-! ## Claims on the capillary term -/

/-- With capillarity disabled the capillary terms of a stencil cell are zero and no view is
read. -/
theorem formPPUVelocityCap_disabled (NC numPhase ip : Nat) (v : ElementViews)
    (er esr ei : Nat) (a : Nat → ℚ) :
    formPPUVelocityCap NC numPhase ip v 0 er esr ei a
      = { capPressure := 0, dCapPressure_dP := 0,
          dCapPressure_dC := forLoop NC (fun ic b => setAt b ic 0) a } := by
  unfold formPPUVelocityCap
  simp

/-- With capillarity disabled the locals of `formPPUVelocity` do not depend on the
capillary pressure nor on the saturation derivatives. -/
theorem formPPUVelocityLocals_disabled (NC NUM_ELEMS numPhase ip stencilSize : Nat)
    (st : Stencil) (v : ElementViews)
    (pcp : Nat → Nat → Nat → Nat → Nat → ℚ) (dpcp : Nat → Nat → Nat → Nat → Nat → Nat → ℚ)
    (dvp : Nat → Nat → Nat → Nat → ℚ) (dvc : Nat → Nat → Nat → Nat → Nat → ℚ) :
    formPPUVelocityLocals NC NUM_ELEMS numPhase ip stencilSize st
        { v with phaseCapPressure := pcp, dPhaseCapPressure_dPhaseVolFrac := dpcp,
                 dPhaseVolFrac_dPres := dvp, dPhaseVolFrac_dComp := dvc } 0
      = formPPUVelocityLocals NC NUM_ELEMS numPhase ip stencilSize st v 0 := by
  unfold formPPUVelocityLocals
  show formPPUVelocityPot NC NUM_ELEMS numPhase ip stencilSize st _ 0
      (formPPUVelocityDensMean NC NUM_ELEMS ip st v) = _
  unfold formPPUVelocityPot
  refine forLoop_congr stencilSize _ _ _ ?_
  intro i t _
  simp only [formPPUVelocityCap_disabled]

/-- C28. The capillary term is zero when capillarity is disabled: two inputs to
`formPPUVelocity` with `capPressureFlag = 0` that differ only in `phaseCapPressure`,
`dPhaseCapPressure_dPhaseVolFrac`, `dPhaseVolFrac_dPres` or `dPhaseVolFrac_dComp` return
the same `k_up`, `phaseFlux`, `dPhaseFlux_dP` and `dPhaseFlux_dC`; and for every stencil
cell `i < stencilSize`, `dPresGrad_dP[i] = weight[i]` and `dPresGrad_dC[i][jc] = 0`. -/
theorem capillary_disabled (NC NUM_ELEMS MAX_STENCIL numPhase ip stencilSize : Nat)
    (st : Stencil) (v : ElementViews)
    (pcp : Nat → Nat → Nat → Nat → Nat → ℚ) (dpcp : Nat → Nat → Nat → Nat → Nat → Nat → ℚ)
    (dvp : Nat → Nat → Nat → Nat → ℚ) (dvc : Nat → Nat → Nat → Nat → Nat → ℚ)
    (a : Nat → ℚ) (A : Nat → Nat → ℚ) :
    formPPUVelocity NC NUM_ELEMS MAX_STENCIL numPhase ip stencilSize st
        { v with phaseCapPressure := pcp, dPhaseCapPressure_dPhaseVolFrac := dpcp,
                 dPhaseVolFrac_dPres := dvp, dPhaseVolFrac_dComp := dvc } 0 a A
      = formPPUVelocity NC NUM_ELEMS MAX_STENCIL numPhase ip stencilSize st v 0 a A ∧
    (∀ i, i < stencilSize →
      (formPPUVelocityLocals NC NUM_ELEMS numPhase ip stencilSize st v 0).dPresGrad_dP i
        = st.stencilWeights i ∧
      ∀ jc, (formPPUVelocityLocals NC NUM_ELEMS numPhase ip stencilSize st v 0).dPresGrad_dC
        i jc = 0) := by
  refine ⟨?_, ?_⟩
  · exact formPPUVelocity_congr NC NUM_ELEMS MAX_STENCIL numPhase ip stencilSize st st v _
      0 0 a A (formPPUVelocityLocals_disabled NC NUM_ELEMS numPhase ip stencilSize st v pcp
        dpcp dvp dvc) ⟨rfl, rfl, rfl⟩ ⟨rfl, rfl, rfl⟩
  · intro i hi
    refine ⟨?_, ?_⟩
    · rw [(formPPUVelocityLocals_dP NC NUM_ELEMS numPhase ip stencilSize st v 0 i).1,
        if_pos hi]
      simp [dCapPressure_dPTerm]
    · intro jc
      rw [(formPPUVelocityLocals_dC NC NUM_ELEMS numPhase ip stencilSize st v 0 i jc).1]
      simp [dCapPressure_dCTerm]

/-- Witness of C28: the concrete two-cell scenario, stencil cell `1`, the saturation
derivatives and capillary pressures of which are not read. -/
theorem capillary_disabled_witness :
    (formPPUVelocityLocals 1 2 1 0 2 scenarioStencil
        (scenarioViews 100 90 (4/5) (3/5) (1/4)) 0).dPresGrad_dP 1
      = scenarioStencil.stencilWeights 1 :=
  ((capillary_disabled 1 2 2 1 0 2 scenarioStencil (scenarioViews 100 90 (4/5) (3/5) (1/4))
    (fun _ _ _ _ _ => 0) (fun _ _ _ _ _ _ => 0) (fun _ _ _ _ => 0) (fun _ _ _ _ _ => 0)
    (fun _ => 0) (fun _ _ => 0)).2 1 (by decide)).1

/-- A sum over the phases split into the other phases and the phase `ip` itself. -/
theorem sum_split_phase (numPhase ip : Nat) (f : Nat → ℚ) :
    Finset.sum (Finset.range numPhase) f
      = Finset.sum (Finset.range numPhase) (fun jp => if jp ≠ ip then f jp else 0)
        + (if ip < numPhase then f ip else 0) := by
  have h : ∀ jp ∈ Finset.range numPhase,
      f jp = (if jp ≠ ip then f jp else 0) + (if jp = ip then f ip else 0) := by
    intro jp _
    by_cases hjp : jp = ip
    · subst hjp
      simp
    · simp [hjp]
  rw [Finset.sum_congr rfl h, Finset.sum_add_distrib, Finset.sum_ite_eq']
  simp

/-- C29, as the code has it.  Capillary chain rule in `formPPUVelocity` with
`capPressureFlag != 0`: for every stencil cell `i < stencilSize`, the capillary-pressure
derivative used in `dPresGrad_dP[i] = weight[i] * (1 - dCapPressure_dP)` is the sum over
every phase `jp < numPhase` of
`dPhaseCapPressure_dPhaseVolFrac[i][ip][jp] * dPhaseVolFrac_dPres[i][jp]`, that is the sum
over the other phases `jp ≠ ip` plus the term of the phase `ip` itself; and likewise the
one used in `dPresGrad_dC[i][jc] = -weight[i] * dCapPressure_dC[jc]`, with
`dPhaseVolFrac_dComp[i][jp][jc]`. -/
theorem capillary_chain_rule (NC NUM_ELEMS numPhase ip stencilSize : Nat) (st : Stencil)
    (v : ElementViews) (capPressureFlag : Int) (i : Nat)
    (hflag : capPressureFlag ≠ 0) (hi : i < stencilSize) (hip : ip < numPhase) :
    (formPPUVelocityLocals NC NUM_ELEMS numPhase ip stencilSize st v
        capPressureFlag).dPresGrad_dP i
      = st.stencilWeights i * (1 - (dCapPressure_dPOthers numPhase ip st v i
          + v.dPhaseCapPressure_dPhaseVolFrac (st.seri i) (st.sesri i) (st.sei i) 0 ip ip
            * v.dPhaseVolFrac_dPres (st.seri i) (st.sesri i) (st.sei i) ip)) ∧
    (formPPUVelocityLocals NC NUM_ELEMS numPhase ip stencilSize st v
        capPressureFlag).dPresGrad_dP i
      = st.stencilWeights i * (1 - Finset.sum (Finset.range numPhase) (fun jp =>
          v.dPhaseCapPressure_dPhaseVolFrac (st.seri i) (st.sesri i) (st.sei i) 0 ip jp
            * v.dPhaseVolFrac_dPres (st.seri i) (st.sesri i) (st.sei i) jp)) ∧
    ∀ jc, jc < NC →
      (formPPUVelocityLocals NC NUM_ELEMS numPhase ip stencilSize st v
          capPressureFlag).dPresGrad_dC i jc
        = -st.stencilWeights i * (dCapPressure_dCOthers numPhase ip st v i jc
            + v.dPhaseCapPressure_dPhaseVolFrac (st.seri i) (st.sesri i) (st.sei i) 0 ip ip
              * v.dPhaseVolFrac_dComp (st.seri i) (st.sesri i) (st.sei i) ip jc) ∧
      (formPPUVelocityLocals NC NUM_ELEMS numPhase ip stencilSize st v
          capPressureFlag).dPresGrad_dC i jc
        = -st.stencilWeights i * Finset.sum (Finset.range numPhase) (fun jp =>
            v.dPhaseCapPressure_dPhaseVolFrac (st.seri i) (st.sesri i) (st.sei i) 0 ip jp
              * v.dPhaseVolFrac_dComp (st.seri i) (st.sesri i) (st.sei i) jp jc) := by
  have hP : (formPPUVelocityLocals NC NUM_ELEMS numPhase ip stencilSize st v
        capPressureFlag).dPresGrad_dP i
      = st.stencilWeights i * (1 - Finset.sum (Finset.range numPhase) (fun jp =>
          v.dPhaseCapPressure_dPhaseVolFrac (st.seri i) (st.sesri i) (st.sei i) 0 ip jp
            * v.dPhaseVolFrac_dPres (st.seri i) (st.sesri i) (st.sei i) jp)) := by
    rw [(formPPUVelocityLocals_dP NC NUM_ELEMS numPhase ip stencilSize st v capPressureFlag
      i).1, if_pos hi, dCapPressure_dPTerm, if_pos hflag]
  have hC : ∀ jc, jc < NC →
      (formPPUVelocityLocals NC NUM_ELEMS numPhase ip stencilSize st v
          capPressureFlag).dPresGrad_dC i jc
        = -st.stencilWeights i * Finset.sum (Finset.range numPhase) (fun jp =>
            v.dPhaseCapPressure_dPhaseVolFrac (st.seri i) (st.sesri i) (st.sei i) 0 ip jp
              * v.dPhaseVolFrac_dComp (st.seri i) (st.sesri i) (st.sei i) jp jc) := by
    intro jc hjc
    rw [(formPPUVelocityLocals_dC NC NUM_ELEMS numPhase ip stencilSize st v capPressureFlag
      i jc).1, if_pos ⟨hi, hjc⟩, dCapPressure_dCTerm, if_pos hflag]
  refine ⟨?_, hP, ?_⟩
  · rw [hP, sum_split_phase numPhase ip, if_pos hip]
    rfl
  · intro jc hjc
    refine ⟨?_, hC jc hjc⟩
    rw [hC jc hjc, sum_split_phase numPhase ip, if_pos hip]
    rfl

/-- Witness of the amended C29: two phases on the capillary scenario, phase `0`, stencil
cell `0`. -/
theorem capillary_chain_rule_witness :
    (formPPUVelocityLocals 1 2 2 0 2 scenarioStencil capillaryViews 1).dPresGrad_dP 0
      = scenarioStencil.stencilWeights 0 * (1 - Finset.sum (Finset.range 2) (fun jp =>
          capillaryViews.dPhaseCapPressure_dPhaseVolFrac (scenarioStencil.seri 0)
              (scenarioStencil.sesri 0) (scenarioStencil.sei 0) 0 0 jp
            * capillaryViews.dPhaseVolFrac_dPres (scenarioStencil.seri 0)
              (scenarioStencil.sesri 0) (scenarioStencil.sei 0) jp)) :=
  (capillary_chain_rule 1 2 2 0 2 scenarioStencil capillaryViews 1 0 (by decide) (by decide)
    (by decide)).2.1

/-- Counterexample to C29 as stated: two phases on the capillary scenario, phase `0`,
stencil cell `0` of weight `1`, with `dPhaseCapPressure_dPhaseVolFrac = 11` and
`dPhaseVolFrac_dPres = 1/2` for both phases.  The code returns
`dPresGrad_dP[0] = 1 - (11/2 + 11/2) = -10`; with the sum over the other phase only it
would be `1 - 11/2 = -9/2`. -/
theorem capillary_chain_rule_counterexample :
    (formPPUVelocityLocals 1 2 2 0 2 scenarioStencil capillaryViews 1).dPresGrad_dP 0 = -10 ∧
    scenarioStencil.stencilWeights 0
        * (1 - dCapPressure_dPOthers 2 0 scenarioStencil capillaryViews 0) = -9 / 2 ∧
    ¬ ((formPPUVelocityLocals 1 2 2 0 2 scenarioStencil capillaryViews 1).dPresGrad_dP 0
      = scenarioStencil.stencilWeights 0
        * (1 - dCapPressure_dPOthers 2 0 scenarioStencil capillaryViews 0)) := by
  have hcode : (formPPUVelocityLocals 1 2 2 0 2 scenarioStencil capillaryViews 1).dPresGrad_dP
      0 = -10 := by
    rw [(formPPUVelocityLocals_dP 1 2 2 0 2 scenarioStencil capillaryViews 1 0).1]
    simp [dCapPressure_dPTerm, Finset.sum_range_succ, capillaryViews, scenarioViews,
      scenarioStencil]
    norm_num
  have hclaim : scenarioStencil.stencilWeights 0
      * (1 - dCapPressure_dPOthers 2 0 scenarioStencil capillaryViews 0) = -9 / 2 := by
    simp [dCapPressure_dPOthers, Finset.sum_range_succ, capillaryViews, scenarioViews,
      scenarioStencil]
    norm_num
  refine ⟨hcode, hclaim, ?_⟩
  rw [hcode, hclaim]
  norm_num

/-! ## Claims on the block written by `fillLocalJacobi` -/

/-- Two loops whose bodies keep a relation between their states end in related states. -/
theorem forLoop_rel {σ τ : Type} (R : σ → τ → Prop) (n : Nat) (body1 : Nat → σ → σ)
    (body2 : Nat → τ → τ) (s : σ) (t : τ) (h0 : R s t)
    (hstep : ∀ i s t, i < n → R s t → R (body1 i s) (body2 i t)) :
    R (forLoop n body1 s) (forLoop n body2 t) := by
  induction n with
  | zero => exact h0
  | succ m ih =>
    rw [forLoop_succ, forLoop_succ]
    exact hstep m _ _ (Nat.lt_succ_self m)
      (ih (fun i s t hi h => hstep i s t (Nat.lt_succ_of_lt hi) h))

/-- A natural-number observation to which iteration `i` adds `g i`. -/
theorem forLoop_additive {σ : Type} (obs : σ → Nat) (g : Nat → Nat) (n : Nat)
    (body : Nat → σ → σ) (s : σ) (h : ∀ i t, i < n → obs (body i t) = obs t + g i) :
    obs (forLoop n body s) = obs s + Finset.sum (Finset.range n) g := by
  induction n with
  | zero => simp [forLoop]
  | succ m ih =>
    rw [forLoop_succ, h m _ (Nat.lt_succ_self m),
      ih (fun i t hi => h i t (Nat.lt_succ_of_lt hi)), Finset.sum_range_succ]
    exact Nat.add_assoc _ _ _

/-- Number of `j < m` with `a + j = c`. -/
theorem sum_indicator_shift (m a c : Nat) :
    Finset.sum (Finset.range m) (fun j => if a + j = c then 1 else 0)
      = if a ≤ c ∧ c < a + m then 1 else 0 := by
  induction m with
  | zero =>
    rw [Finset.sum_range_zero, if_neg]
    omega
  | succ p ih =>
    rw [Finset.sum_range_succ, ih]
    split_ifs <;> omega

/-- Number of rows `ic` or `NC + ic`, `ic < NC`, equal to `r`. -/
theorem row_count (NC r : Nat) :
    Finset.sum (Finset.range NC) (fun ic =>
        (if ic = r then 1 else 0) + (if NC + ic = r then 1 else 0))
      = if r < 2 * NC then 1 else 0 := by
  rw [Finset.sum_add_distrib, sum_indicator_shift NC NC r]
  have h := sum_indicator_shift NC 0 r
  simp only [Nat.zero_add] at h
  rw [h]
  split_ifs <;> omega

/-- Number of columns `ke * (NC + 1)` or `ke * (NC + 1) + jc + 1`, `ke < stencilSize`,
`jc < NC`, equal to `c`: the map `(ke, slot) ↦ ke * (NC + 1) + slot` reaches every column
`c < stencilSize * (NC + 1)` once and no other column. -/
theorem col_count (NC stencilSize c : Nat) :
    Finset.sum (Finset.range stencilSize) (fun ke =>
        (if ke * (NC + 1) = c then 1 else 0)
          + Finset.sum (Finset.range NC) (fun jc =>
              if ke * (NC + 1) + jc + 1 = c then 1 else 0))
      = if c < stencilSize * (NC + 1) then 1 else 0 := by
  induction stencilSize with
  | zero => simp
  | succ p ih =>
    have hin : Finset.sum (Finset.range NC) (fun jc =>
        if p * (NC + 1) + jc + 1 = c then 1 else 0)
        = if p * (NC + 1) + 1 ≤ c ∧ c < p * (NC + 1) + 1 + NC then 1 else 0 := by
      rw [← sum_indicator_shift NC (p * (NC + 1) + 1) c]
      refine Finset.sum_congr rfl ?_
      intro jc _
      have he : p * (NC + 1) + jc + 1 = p * (NC + 1) + 1 + jc := by omega
      rw [he]
    rw [Finset.sum_range_succ, ih, hin, Nat.succ_mul]
    split_ifs <;> omega

/-- Replaying two logs one after the other. -/
theorem replayWrites2_append (L M : List ((Nat × Nat) × ℚ)) (J : Nat → Nat → ℚ) :
    replayWrites2 (L ++ M) J = replayWrites2 M (replayWrites2 L J) := by
  unfold replayWrites2
  rw [List.foldl_append]

/-- Replaying two logs one after the other, one-dimensional form. -/
theorem replayWrites_append (L M : List (Nat × ℚ)) (a : Nat → ℚ) :
    replayWrites (L ++ M) a = replayWrites M (replayWrites L a) := by
  unfold replayWrites
  rw [List.foldl_append]

/-- An entry whose position is not in the log is left unchanged by the replay. -/
theorem replayWrites2_untouched (L : List ((Nat × Nat) × ℚ)) (J : Nat → Nat → ℚ)
    (r c : Nat) (h : (r, c) ∉ L.map Prod.fst) : replayWrites2 L J r c = J r c := by
  induction L generalizing J with
  | nil => rfl
  | cons w M ih =>
    have hw : ¬ (r = w.1.1 ∧ c = w.1.2) := by
      rintro ⟨h1, h2⟩
      apply h
      simp only [List.map_cons, List.mem_cons]
      left
      ext
      · exact h1
      · exact h2
    have hM : (r, c) ∉ M.map Prod.fst := by
      intro hm
      apply h
      simp only [List.map_cons, List.mem_cons]
      right
      exact hm
    show replayWrites2 M (setAt2 J w.1.1 w.1.2 w.2) r c = J r c
    rw [ih _ hM]
    simp [setAt2, hw]

/-- One-dimensional form of `replayWrites2_untouched`. -/
theorem replayWrites_untouched (L : List (Nat × ℚ)) (a : Nat → ℚ)
    (r : Nat) (h : r ∉ L.map Prod.fst) : replayWrites L a r = a r := by
  induction L generalizing a with
  | nil => rfl
  | cons w M ih =>
    have hw : ¬ (r = w.1) := by
      intro h1
      apply h
      simp only [List.map_cons, List.mem_cons]
      left
      exact h1
    have hM : r ∉ M.map Prod.fst := by
      intro hm
      apply h
      simp only [List.map_cons, List.mem_cons]
      right
      exact hm
    show replayWrites M (setAt a w.1 w.2) r = a r
    rw [ih _ hM]
    simp [setAt, hw]

/-- The innermost loop of `fillLocalJacobi` performs the writes of its log. -/
theorem fillLocalJacobiComp_replay (NC NDOF : Nat) (dC : Nat → Nat → Nat → ℚ) (dt : ℚ)
    (ic ke : Nat) (L : List ((Nat × Nat) × ℚ)) (J0 : Nat → Nat → ℚ) :
    replayWrites2 (fillLocalJacobiCompLog NC NDOF dC dt ic ke L) J0
      = fillLocalJacobiComp NC NDOF dC dt ic ke (replayWrites2 L J0) := by
  unfold fillLocalJacobiCompLog fillLocalJacobiComp
  refine forLoop_rel (fun M K => replayWrites2 M J0 = K) NC _ _ L _ rfl ?_
  intro jc M K _ hMK
  show replayWrites2 (M ++ _) J0 = _
  rw [replayWrites2_append, hMK]
  rfl

/-- The stencil loop of `fillLocalJacobi` performs the writes of its log. -/
theorem fillLocalJacobiStencil_replay (NC NDOF : Nat) (dP : Nat → Nat → ℚ)
    (dC : Nat → Nat → Nat → ℚ) (stencilSize : Nat) (dt : ℚ) (ic : Nat)
    (L : List ((Nat × Nat) × ℚ)) (J0 : Nat → Nat → ℚ) :
    replayWrites2 (fillLocalJacobiStencilLog NC NDOF dP dC stencilSize dt ic L) J0
      = fillLocalJacobiStencil NC NDOF dP dC stencilSize dt ic (replayWrites2 L J0) := by
  unfold fillLocalJacobiStencilLog fillLocalJacobiStencil
  refine forLoop_rel (fun M K => replayWrites2 M J0 = K) stencilSize _ _ L _ rfl ?_
  intro ke M K _ hMK
  show replayWrites2 (fillLocalJacobiCompLog NC NDOF dC dt ic ke (M ++ _)) J0 = _
  rw [fillLocalJacobiComp_replay, replayWrites2_append, hMK]
  rfl

/-- The Jacobian returned by `fillLocalJacobi` is the prior Jacobian after the writes of
the log. -/
theorem fillLocalJacobi_replay (NC MAX_STENCIL NDOF : Nat) (compFlux : Nat → ℚ)
    (dP : Nat → Nat → ℚ) (dC : Nat → Nat → Nat → ℚ) (stencilSize : Nat) (dt : ℚ)
    (blk : LocalBlock) :
    (fillLocalJacobi NC MAX_STENCIL NDOF compFlux dP dC stencilSize dt blk).localFluxJacobian
        = replayWrites2 (fillLocalJacobiLog NC NDOF dP dC stencilSize dt)
          blk.localFluxJacobian ∧
    (fillLocalJacobi NC MAX_STENCIL NDOF compFlux dP dC stencilSize dt blk).localFlux
        = replayWrites (fillLocalJacobiFluxLog NC compFlux dt) blk.localFlux := by
  unfold fillLocalJacobi fillLocalJacobiLog fillLocalJacobiFluxLog
  refine ⟨?_, ?_⟩
  · refine (forLoop_rel (fun (L : List ((Nat × Nat) × ℚ)) (b : LocalBlock) =>
      replayWrites2 L blk.localFluxJacobian = b.localFluxJacobian) NC _ _ [] blk rfl ?_).symm
    intro ic L b _ hLb
    show replayWrites2 (fillLocalJacobiStencilLog NC NDOF dP dC stencilSize dt ic L) _
      = fillLocalJacobiStencil NC NDOF dP dC stencilSize dt ic b.localFluxJacobian
    rw [fillLocalJacobiStencil_replay, hLb]
  · refine (forLoop_rel (fun (L : List (Nat × ℚ)) (b : LocalBlock) =>
      replayWrites L blk.localFlux = b.localFlux) NC _ _ [] blk rfl ?_).symm
    intro ic L b _ hLb
    show replayWrites (L ++ _) blk.localFlux = setAt (setAt b.localFlux ic _) (NC + ic) _
    rw [replayWrites_append, hLb]
    rfl

/-- Number of writes of the innermost loop of `fillLocalJacobi` to the position `(r, c)`. -/
theorem fillLocalJacobiCompLog_count (NC NDOF : Nat) (dC : Nat → Nat → Nat → ℚ) (dt : ℚ)
    (ic ke : Nat) (L : List ((Nat × Nat) × ℚ)) (r c : Nat) :
    List.count (r, c) ((fillLocalJacobiCompLog NC NDOF dC dt ic ke L).map Prod.fst)
      = List.count (r, c) (L.map Prod.fst)
        + ((if ic = r then 1 else 0) + (if NC + ic = r then 1 else 0))
          * Finset.sum (Finset.range NC) (fun jc =>
              if ke * NDOF + jc + 1 = c then 1 else 0) := by
  unfold fillLocalJacobiCompLog
  rw [Finset.mul_sum]
  refine forLoop_additive (fun M => List.count (r, c) (M.map Prod.fst)) _ NC _ L ?_
  intro jc M _
  simp only [List.map_append, List.map_cons, List.map_nil, List.count_append,
    List.count_cons, List.count_nil, beq_iff_eq, Prod.mk.injEq]
  split_ifs <;> simp_all

/-- Number of writes of the stencil loop of `fillLocalJacobi` to the position `(r, c)`. -/
theorem fillLocalJacobiStencilLog_count (NC NDOF : Nat) (dP : Nat → Nat → ℚ)
    (dC : Nat → Nat → Nat → ℚ) (stencilSize : Nat) (dt : ℚ) (ic : Nat)
    (L : List ((Nat × Nat) × ℚ)) (r c : Nat) :
    List.count (r, c)
        ((fillLocalJacobiStencilLog NC NDOF dP dC stencilSize dt ic L).map Prod.fst)
      = List.count (r, c) (L.map Prod.fst)
        + ((if ic = r then 1 else 0) + (if NC + ic = r then 1 else 0))
          * Finset.sum (Finset.range stencilSize) (fun ke =>
              (if ke * NDOF = c then 1 else 0)
                + Finset.sum (Finset.range NC) (fun jc =>
                    if ke * NDOF + jc + 1 = c then 1 else 0)) := by
  unfold fillLocalJacobiStencilLog
  rw [Finset.mul_sum]
  refine forLoop_additive (fun M => List.count (r, c) (M.map Prod.fst)) _ stencilSize _ L ?_
  intro ke M _
  show List.count (r, c) ((fillLocalJacobiCompLog NC NDOF dC dt ic ke (M ++ _)).map Prod.fst)
    = _
  rw [fillLocalJacobiCompLog_count]
  simp only [List.map_append, List.map_cons, List.map_nil, List.count_append,
    List.count_cons, List.count_nil, beq_iff_eq, Prod.mk.injEq, mul_add]
  split_ifs <;> simp_all <;> omega

/-- Number of writes of `fillLocalJacobi` to the Jacobian position `(r, c)`, for
`NDOF = NC + 1`: one inside the block, none outside. -/
theorem fillLocalJacobiLog_count (NC : Nat) (dP : Nat → Nat → ℚ)
    (dC : Nat → Nat → Nat → ℚ) (stencilSize : Nat) (dt : ℚ) (r c : Nat) :
    List.count (r, c) ((fillLocalJacobiLog NC (NC + 1) dP dC stencilSize dt).map Prod.fst)
      = if r < 2 * NC ∧ c < stencilSize * (NC + 1) then 1 else 0 := by
  unfold fillLocalJacobiLog
  rw [forLoop_additive (fun M => List.count (r, c) (M.map Prod.fst))
    (fun ic => ((if ic = r then 1 else 0) + (if NC + ic = r then 1 else 0))
      * Finset.sum (Finset.range stencilSize) (fun ke =>
          (if ke * (NC + 1) = c then 1 else 0)
            + Finset.sum (Finset.range NC) (fun jc =>
                if ke * (NC + 1) + jc + 1 = c then 1 else 0))) NC _ []
    (fun ic M _ => fillLocalJacobiStencilLog_count NC (NC + 1) dP dC stencilSize dt ic M r c)]
  rw [← Finset.sum_mul, row_count, col_count]
  split_ifs <;> simp_all

/-- Number of writes of `fillLocalJacobi` to the residual entry `r`. -/
theorem fillLocalJacobiFluxLog_count (NC : Nat) (compFlux : Nat → ℚ) (dt : ℚ) (r : Nat) :
    List.count r ((fillLocalJacobiFluxLog NC compFlux dt).map Prod.fst)
      = if r < 2 * NC then 1 else 0 := by
  unfold fillLocalJacobiFluxLog
  refine (forLoop_additive (fun (M : List (Nat × ℚ)) => List.count r (M.map Prod.fst))
    (fun ic => (if ic = r then 1 else 0) + (if NC + ic = r then 1 else 0)) NC _ [] ?_).trans ?_
  · intro ic M _
    simp only [List.map_append, List.map_cons, List.map_nil, List.count_append,
      List.count_cons, List.count_nil, beq_iff_eq]
    split_ifs <;> simp_all
  · rw [row_count]
    simp

/-- Every Jacobian entry of the block after `fillLocalJacobi`, for `NDOF = NC + 1`. -/
theorem fillLocalJacobi_entry (NC MAX_STENCIL : Nat) (compFlux : Nat → ℚ)
    (dP : Nat → Nat → ℚ) (dC : Nat → Nat → Nat → ℚ) (stencilSize : Nat) (dt : ℚ)
    (blk : LocalBlock) (r c : Nat) (hr : r < 2 * NC) (hc : c < stencilSize * (NC + 1)) :
    (fillLocalJacobi NC MAX_STENCIL (NC + 1) compFlux dP dC stencilSize dt
        blk).localFluxJacobian r c
      = localJacobianEntry NC dP dC dt r c := by
  have hke : c / (NC + 1) < stencilSize :=
    Nat.div_lt_of_lt_mul (by rw [Nat.mul_comm]; exact hc)
  have hslot : c % (NC + 1) < NC + 1 := Nat.mod_lt c (Nat.succ_pos NC)
  have hcol : c / (NC + 1) * (NC + 1) + c % (NC + 1) = c := Nat.div_add_mod' c (NC + 1)
  have hdonor : ∀ ic0, ic0 < NC →
      (fillLocalJacobi NC MAX_STENCIL (NC + 1) compFlux dP dC stencilSize dt
        blk).localFluxJacobian ic0 c
      = if c % (NC + 1) = 0 then dt * dP (c / (NC + 1)) ic0
        else dt * dC (c / (NC + 1)) ic0 (c % (NC + 1) - 1) := by
    intro ic0 hic0
    by_cases hs : c % (NC + 1) = 0
    · rw [if_pos hs]
      have hc0 : c = c / (NC + 1) * (NC + 1) := by omega
      rw [hc0]
      have hdiv : c / (NC + 1) * (NC + 1) / (NC + 1) = c / (NC + 1) :=
        Nat.mul_div_cancel _ (Nat.succ_pos NC)
      rw [hdiv]
      exact donor_fillLocalJacobi NC MAX_STENCIL (NC + 1) compFlux dP dC stencilSize dt blk
        ic0 _ _ hic0
        (fun J => donor_stencil_pres NC dP dC stencilSize dt ic0 (c / (NC + 1)) J hic0 hke)
    · rw [if_neg hs]
      have hjc : c % (NC + 1) - 1 < NC := by omega
      have hc0 : c = c / (NC + 1) * (NC + 1) + (c % (NC + 1) - 1) + 1 := by omega
      have h := donor_fillLocalJacobi NC MAX_STENCIL (NC + 1) compFlux dP dC stencilSize dt blk
        ic0 (c / (NC + 1) * (NC + 1) + (c % (NC + 1) - 1) + 1) _ hic0
        (fun J => donor_stencil_comp NC dP dC stencilSize dt ic0 (c / (NC + 1))
          (c % (NC + 1) - 1) J hic0 hke hjc)
      rw [← hc0] at h
      exact h
  have hrecv : ∀ ic0, ic0 < NC →
      (fillLocalJacobi NC MAX_STENCIL (NC + 1) compFlux dP dC stencilSize dt
        blk).localFluxJacobian (NC + ic0) c
      = - (fillLocalJacobi NC MAX_STENCIL (NC + 1) compFlux dP dC stencilSize dt
        blk).localFluxJacobian ic0 c := by
    intro ic0 hic0
    by_cases hs : c % (NC + 1) = 0
    · have hc0 : c = c / (NC + 1) * (NC + 1) := by omega
      have h := mirror_fillLocalJacobi NC MAX_STENCIL (NC + 1) compFlux dP dC stencilSize dt
        blk ic0 (c / (NC + 1) * (NC + 1)) hic0
        (fun J => mirror_stencil_pres NC (NC + 1) dP dC stencilSize dt ic0 (c / (NC + 1)) J
          hic0 hke)
      rw [← hc0] at h
      exact h
    · have hjc : c % (NC + 1) - 1 < NC := by omega
      have hc0 : c = c / (NC + 1) * (NC + 1) + (c % (NC + 1) - 1) + 1 := by omega
      have h := mirror_fillLocalJacobi NC MAX_STENCIL (NC + 1) compFlux dP dC stencilSize dt
        blk ic0 (c / (NC + 1) * (NC + 1) + (c % (NC + 1) - 1) + 1) hic0
        (fun J => mirror_stencil_comp NC (NC + 1) dP dC stencilSize dt ic0 (c / (NC + 1))
          (c % (NC + 1) - 1) J hic0 hke hjc)
      rw [← hc0] at h
      exact h
  unfold localJacobianEntry
  simp only []
  by_cases hrn : r < NC
  · rw [if_pos hrn, hdonor r hrn]
  · rw [if_neg hrn]
    have hr2 : r = NC + (r - NC) := by omega
    have hic0 : r - NC < NC := by omega
    rw [hr2, hrecv (r - NC) hic0, hdonor (r - NC) hic0]
    have hsub : NC + (r - NC) - NC = r - NC := by omega
    rw [hsub]
    split_ifs <;> ring

/-- Every residual entry of the block after `fillLocalJacobi`. -/
theorem fillLocalJacobi_flux_entry (NC MAX_STENCIL NDOF : Nat) (compFlux : Nat → ℚ)
    (dP : Nat → Nat → ℚ) (dC : Nat → Nat → Nat → ℚ) (stencilSize : Nat) (dt : ℚ)
    (blk : LocalBlock) (r : Nat) (hr : r < 2 * NC) :
    (fillLocalJacobi NC MAX_STENCIL NDOF compFlux dP dC stencilSize dt blk).localFlux r
      = localFluxEntry NC compFlux dt r := by
  unfold localFluxEntry
  by_cases hrn : r < NC
  · rw [if_pos hrn]
    exact (localFlux_fillLocalJacobi NC MAX_STENCIL NDOF compFlux dP dC stencilSize dt blk r
      hrn).1
  · rw [if_neg hrn]
    have hr2 : r = NC + (r - NC) := by omega
    have hic0 : r - NC < NC := by omega
    have h := (localFlux_fillLocalJacobi NC MAX_STENCIL NDOF compFlux dP dC stencilSize dt blk
      (r - NC) hic0).2
    rw [← hr2] at h
    rw [h]
    ring

/-- C30. `fillLocalJacobi` fills the whole local block and nothing else, for
`NDOF = NC + 1`.  The returned block is the prior block after the assignments of the write
log; every entry `localFlux[r]`, `r < 2*NC`, and every entry `localFluxJacobian[r][c]`,
`r < 2*NC`, `c < stencilSize*(NC+1)`, is assigned exactly once (the map
`(ke, slot) ↦ ke*(NC+1) + slot`, `ke < stencilSize`, `slot ≤ NC`, is a bijection onto the
columns), its value is the closed form `localFluxEntry`, `localJacobianEntry` and so does
not depend on the prior contents of the block; no other entry is assigned, and the entries
with `c ≥ stencilSize*(NC+1)` or `r ≥ 2*NC` are left unchanged. -/
theorem fillLocalJacobi_fills_block (NC MAX_STENCIL : Nat) (compFlux : Nat → ℚ)
    (dCompFlux_dP : Nat → Nat → ℚ) (dCompFlux_dC : Nat → Nat → Nat → ℚ)
    (stencilSize : Nat) (dt : ℚ) (blk blk2 : LocalBlock) :
    ((fillLocalJacobi NC MAX_STENCIL (NC + 1) compFlux dCompFlux_dP dCompFlux_dC stencilSize dt
        blk).localFluxJacobian
      = replayWrites2 (fillLocalJacobiLog NC (NC + 1) dCompFlux_dP dCompFlux_dC stencilSize dt)
          blk.localFluxJacobian ∧
    (fillLocalJacobi NC MAX_STENCIL (NC + 1) compFlux dCompFlux_dP dCompFlux_dC stencilSize dt
        blk).localFlux
      = replayWrites (fillLocalJacobiFluxLog NC compFlux dt) blk.localFlux) ∧
    (∀ r, r < 2 * NC →
      List.count r ((fillLocalJacobiFluxLog NC compFlux dt).map Prod.fst) = 1 ∧
      (fillLocalJacobi NC MAX_STENCIL (NC + 1) compFlux dCompFlux_dP dCompFlux_dC stencilSize
          dt blk).localFlux r = localFluxEntry NC compFlux dt r ∧
      (fillLocalJacobi NC MAX_STENCIL (NC + 1) compFlux dCompFlux_dP dCompFlux_dC stencilSize
          dt blk).localFlux r
        = (fillLocalJacobi NC MAX_STENCIL (NC + 1) compFlux dCompFlux_dP dCompFlux_dC
          stencilSize dt blk2).localFlux r) ∧
    (∀ r c, r < 2 * NC → c < stencilSize * (NC + 1) →
      List.count (r, c)
          ((fillLocalJacobiLog NC (NC + 1) dCompFlux_dP dCompFlux_dC stencilSize dt).map
            Prod.fst) = 1 ∧
      (fillLocalJacobi NC MAX_STENCIL (NC + 1) compFlux dCompFlux_dP dCompFlux_dC stencilSize
          dt blk).localFluxJacobian r c
        = localJacobianEntry NC dCompFlux_dP dCompFlux_dC dt r c ∧
      (fillLocalJacobi NC MAX_STENCIL (NC + 1) compFlux dCompFlux_dP dCompFlux_dC stencilSize
          dt blk).localFluxJacobian r c
        = (fillLocalJacobi NC MAX_STENCIL (NC + 1) compFlux dCompFlux_dP dCompFlux_dC
          stencilSize dt blk2).localFluxJacobian r c) ∧
    (∀ r c, 2 * NC ≤ r ∨ stencilSize * (NC + 1) ≤ c →
      List.count (r, c)
          ((fillLocalJacobiLog NC (NC + 1) dCompFlux_dP dCompFlux_dC stencilSize dt).map
            Prod.fst) = 0 ∧
      (fillLocalJacobi NC MAX_STENCIL (NC + 1) compFlux dCompFlux_dP dCompFlux_dC stencilSize
          dt blk).localFluxJacobian r c = blk.localFluxJacobian r c) ∧
    (∀ r, 2 * NC ≤ r →
      List.count r ((fillLocalJacobiFluxLog NC compFlux dt).map Prod.fst) = 0 ∧
      (fillLocalJacobi NC MAX_STENCIL (NC + 1) compFlux dCompFlux_dP dCompFlux_dC stencilSize
          dt blk).localFlux r = blk.localFlux r) ∧
    (∀ c, c < stencilSize * (NC + 1) →
      ∃! p : Nat × Nat, p.1 < stencilSize ∧ p.2 ≤ NC ∧ p.1 * (NC + 1) + p.2 = c) ∧
    (∀ ke slot, ke < stencilSize → slot ≤ NC →
      ke * (NC + 1) + slot < stencilSize * (NC + 1)) := by
  have hrep := fillLocalJacobi_replay NC MAX_STENCIL (NC + 1) compFlux dCompFlux_dP
    dCompFlux_dC stencilSize dt blk
  refine ⟨hrep, ?_, ?_, ?_, ?_, ?_, ?_⟩
  · intro r hr
    refine ⟨?_, ?_, ?_⟩
    · rw [fillLocalJacobiFluxLog_count, if_pos hr]
    · exact fillLocalJacobi_flux_entry NC MAX_STENCIL (NC + 1) compFlux dCompFlux_dP
        dCompFlux_dC stencilSize dt blk r hr
    · rw [fillLocalJacobi_flux_entry NC MAX_STENCIL (NC + 1) compFlux dCompFlux_dP
        dCompFlux_dC stencilSize dt blk r hr,
        fillLocalJacobi_flux_entry NC MAX_STENCIL (NC + 1) compFlux dCompFlux_dP
        dCompFlux_dC stencilSize dt blk2 r hr]
  · intro r c hr hc
    refine ⟨?_, ?_, ?_⟩
    · rw [fillLocalJacobiLog_count, if_pos ⟨hr, hc⟩]
    · exact fillLocalJacobi_entry NC MAX_STENCIL compFlux dCompFlux_dP dCompFlux_dC
        stencilSize dt blk r c hr hc
    · rw [fillLocalJacobi_entry NC MAX_STENCIL compFlux dCompFlux_dP dCompFlux_dC
        stencilSize dt blk r c hr hc,
        fillLocalJacobi_entry NC MAX_STENCIL compFlux dCompFlux_dP dCompFlux_dC
        stencilSize dt blk2 r c hr hc]
  · intro r c hout
    have hcount : List.count (r, c)
        ((fillLocalJacobiLog NC (NC + 1) dCompFlux_dP dCompFlux_dC stencilSize dt).map
          Prod.fst) = 0 := by
      rw [fillLocalJacobiLog_count, if_neg]
      rintro ⟨h1, h2⟩
      omega
    refine ⟨hcount, ?_⟩
    rw [hrep.1]
    exact replayWrites2_untouched _ _ r c (List.count_eq_zero.mp hcount)
  · intro r hout
    have hcount : List.count r ((fillLocalJacobiFluxLog NC compFlux dt).map Prod.fst) = 0 := by
      rw [fillLocalJacobiFluxLog_count, if_neg]
      omega
    refine ⟨hcount, ?_⟩
    rw [hrep.2]
    exact replayWrites_untouched _ _ r (List.count_eq_zero.mp hcount)
  · intro c hc
    have hke : c / (NC + 1) < stencilSize :=
      Nat.div_lt_of_lt_mul (by rw [Nat.mul_comm]; exact hc)
    have hslot : c % (NC + 1) < NC + 1 := Nat.mod_lt c (Nat.succ_pos NC)
    have hcol : c / (NC + 1) * (NC + 1) + c % (NC + 1) = c := Nat.div_add_mod' c (NC + 1)
    refine ⟨(c / (NC + 1), c % (NC + 1)), ⟨hke, by omega, hcol⟩, ?_⟩
    rintro ⟨ke, slot⟩ ⟨_, h2, h3⟩
    have hkeq : ke = c / (NC + 1) :=
      dof_column_cell NC ke (c / (NC + 1)) slot (c % (NC + 1)) h2 (by omega)
        (by
          show ke * (NC + 1) + slot = c / (NC + 1) * (NC + 1) + c % (NC + 1)
          rw [hcol]
          exact h3)
    subst hkeq
    have hseq : slot = c % (NC + 1) := by
      have h4 : c / (NC + 1) * (NC + 1) + slot = c := h3
      omega
    rw [hseq]
  · intro ke slot hke hslot
    have h1 : (ke + 1) * (NC + 1) ≤ stencilSize * (NC + 1) := Nat.mul_le_mul_right _ hke
    rw [Nat.succ_mul] at h1
    omega

/-- Witness of C30: two components, a two-cell stencil: the entry of row `3` (receiver of
component `1`) and column `4` (cell `1`, component `0`) is assigned once, and no entry of
column `6` is assigned. -/
theorem fillLocalJacobi_fills_block_witness :
    List.count (3, 4)
        ((fillLocalJacobiLog 2 (2 + 1) (fun ke ic => (ke : ℚ) - ic)
          (fun ke ic jc => (ke : ℚ) + ic * jc) 2 (1 / 2)).map Prod.fst) = 1 ∧
    (fillLocalJacobi 2 2 (2 + 1) (fun ic => (ic : ℚ) + 1) (fun ke ic => (ke : ℚ) - ic)
        (fun ke ic jc => (ke : ℚ) + ic * jc) 2 (1 / 2)
        ⟨fun _ => 7, fun _ _ => 9⟩).localFluxJacobian 3 6 = 9 :=
  ⟨((fillLocalJacobi_fills_block 2 2 (fun ic => (ic : ℚ) + 1) (fun ke ic => (ke : ℚ) - ic)
      (fun ke ic jc => (ke : ℚ) + ic * jc) 2 (1 / 2) ⟨fun _ => 7, fun _ _ => 9⟩
      ⟨fun _ => 0, fun _ _ => 0⟩).2.2.1 3 4 (by decide) (by decide)).1,
    ((fillLocalJacobi_fills_block 2 2 (fun ic => (ic : ℚ) + 1) (fun ke ic => (ke : ℚ) - ic)
      (fun ke ic jc => (ke : ℚ) + ic * jc) 2 (1 / 2) ⟨fun _ => 7, fun _ _ => 9⟩
      ⟨fun _ => 0, fun _ _ => 0⟩).2.2.2.1 3 6 (Or.inr (by decide))).2⟩

/-! ## Claims on the accumulation of `formPPUVelocity` and on the classical potentials -/

/-- C31, as the code has it.  `formPPUVelocity` accumulates onto, and does not reset, its
derivative outputs: from the prior contents `a[ke]` of `dPhaseFlux_dP`, the returned
`dPhaseFlux_dP[ke]` for `ke < stencilSize` is
`mobility * (a[ke] + dPot_dP[ke]) + (ke = k_up ? dPhaseMob_dPres * pot : 0)`, with
`dPot_dP[ke] = weight[ke] * (1 - dCapPressure_dP[ke])` minus, for `ke < NUM_ELEMS`,
`0.5 * dPhaseMassDens_dPres[ke] * Σ_i weight[i] * gravCoef[i]`; with
`stencilSize ≥ NUM_ELEMS`, an entry with `ke ≥ stencilSize` is returned as
`a[ke] + (ke = k_up ? dPhaseMob_dPres * pot : 0)`: it is left unchanged unless it is the
entry of the upwind cell, so that all these entries are unchanged when `stencilSize ≥ 2`;
`phaseFlux` and `k_up` do not depend on the prior contents.  The same holds for
`dPhaseFlux_dC`, whose entries `jc ≥ NC` are never written. -/
theorem formPPUVelocity_accumulates (NC NUM_ELEMS MAX_STENCIL numPhase ip stencilSize : Nat)
    (st : Stencil) (v : ElementViews) (capPressureFlag : Int) (a a2 : Nat → ℚ)
    (A A2 : Nat → Nat → ℚ) :
    (∀ ke, ke < stencilSize →
      (formPPUVelocity NC NUM_ELEMS MAX_STENCIL numPhase ip stencilSize st v capPressureFlag
          a A).dPhaseFlux_dP ke
        = v.phaseMob
            (st.seri (formPPUVelocityUpwind NC NUM_ELEMS numPhase ip stencilSize st v
              capPressureFlag))
            (st.sesri (formPPUVelocityUpwind NC NUM_ELEMS numPhase ip stencilSize st v
              capPressureFlag))
            (st.sei (formPPUVelocityUpwind NC NUM_ELEMS numPhase ip stencilSize st v
              capPressureFlag)) ip
          * (a ke
            + (st.stencilWeights ke
                * (1 - dCapPressure_dPTerm numPhase ip st v capPressureFlag ke)
              - (if ke < NUM_ELEMS then
                  0.5 * v.dPhaseMassDens_dPres (st.seri ke) (st.sesri ke) (st.sei ke) 0 ip
                    * gravCoefSum stencilSize st v
                else 0)))
          + (if ke = formPPUVelocityUpwind NC NUM_ELEMS numPhase ip stencilSize st v
                capPressureFlag then
              v.dPhaseMob_dPres
                (st.seri (formPPUVelocityUpwind NC NUM_ELEMS numPhase ip stencilSize st v
                  capPressureFlag))
                (st.sesri (formPPUVelocityUpwind NC NUM_ELEMS numPhase ip stencilSize st v
                  capPressureFlag))
                (st.sei (formPPUVelocityUpwind NC NUM_ELEMS numPhase ip stencilSize st v
                  capPressureFlag)) ip
              * formPPUVelocityPotGrad NC NUM_ELEMS numPhase ip stencilSize st v capPressureFlag
            else 0) ∧
      ∀ jc, jc < NC →
        (formPPUVelocity NC NUM_ELEMS MAX_STENCIL numPhase ip stencilSize st v capPressureFlag
            a A).dPhaseFlux_dC ke jc
          = v.phaseMob
              (st.seri (formPPUVelocityUpwind NC NUM_ELEMS numPhase ip stencilSize st v
                capPressureFlag))
              (st.sesri (formPPUVelocityUpwind NC NUM_ELEMS numPhase ip stencilSize st v
                capPressureFlag))
              (st.sei (formPPUVelocityUpwind NC NUM_ELEMS numPhase ip stencilSize st v
                capPressureFlag)) ip
            * (A ke jc
              + (-st.stencilWeights ke
                  * dCapPressure_dCTerm numPhase ip st v capPressureFlag ke jc
                - (if ke < NUM_ELEMS then
                    0.5 * dMassDens_dCTerm NC ip st v ke jc * gravCoefSum stencilSize st v
                  else 0)))
            + (if ke = formPPUVelocityUpwind NC NUM_ELEMS numPhase ip stencilSize st v
                  capPressureFlag then
                v.dPhaseMob_dComp
                  (st.seri (formPPUVelocityUpwind NC NUM_ELEMS numPhase ip stencilSize st v
                    capPressureFlag))
                  (st.sesri (formPPUVelocityUpwind NC NUM_ELEMS numPhase ip stencilSize st v
                    capPressureFlag))
                  (st.sei (formPPUVelocityUpwind NC NUM_ELEMS numPhase ip stencilSize st v
                    capPressureFlag)) ip jc
                * formPPUVelocityPotGrad NC NUM_ELEMS numPhase ip stencilSize st v
                  capPressureFlag
              else 0)) ∧
    (NUM_ELEMS ≤ stencilSize → ∀ ke, stencilSize ≤ ke →
      ((formPPUVelocity NC NUM_ELEMS MAX_STENCIL numPhase ip stencilSize st v capPressureFlag
          a A).dPhaseFlux_dP ke
        = a ke
          + (if ke = formPPUVelocityUpwind NC NUM_ELEMS numPhase ip stencilSize st v
                capPressureFlag then
              v.dPhaseMob_dPres
                (st.seri (formPPUVelocityUpwind NC NUM_ELEMS numPhase ip stencilSize st v
                  capPressureFlag))
                (st.sesri (formPPUVelocityUpwind NC NUM_ELEMS numPhase ip stencilSize st v
                  capPressureFlag))
                (st.sei (formPPUVelocityUpwind NC NUM_ELEMS numPhase ip stencilSize st v
                  capPressureFlag)) ip
              * formPPUVelocityPotGrad NC NUM_ELEMS numPhase ip stencilSize st v capPressureFlag
            else 0)) ∧
      (∀ jc, jc < NC →
        (formPPUVelocity NC NUM_ELEMS MAX_STENCIL numPhase ip stencilSize st v capPressureFlag
            a A).dPhaseFlux_dC ke jc
          = A ke jc
            + (if ke = formPPUVelocityUpwind NC NUM_ELEMS numPhase ip stencilSize st v
                  capPressureFlag then
                v.dPhaseMob_dComp
                  (st.seri (formPPUVelocityUpwind NC NUM_ELEMS numPhase ip stencilSize st v
                    capPressureFlag))
                  (st.sesri (formPPUVelocityUpwind NC NUM_ELEMS numPhase ip stencilSize st v
                    capPressureFlag))
                  (st.sei (formPPUVelocityUpwind NC NUM_ELEMS numPhase ip stencilSize st v
                    capPressureFlag)) ip jc
                * formPPUVelocityPotGrad NC NUM_ELEMS numPhase ip stencilSize st v
                  capPressureFlag
              else 0)) ∧
      (2 ≤ stencilSize →
        (formPPUVelocity NC NUM_ELEMS MAX_STENCIL numPhase ip stencilSize st v capPressureFlag
            a A).dPhaseFlux_dP ke = a ke ∧
        ∀ jc, (formPPUVelocity NC NUM_ELEMS MAX_STENCIL numPhase ip stencilSize st v
            capPressureFlag a A).dPhaseFlux_dC ke jc = A ke jc)) ∧
    (∀ ke jc, NC ≤ jc →
      (formPPUVelocity NC NUM_ELEMS MAX_STENCIL numPhase ip stencilSize st v capPressureFlag
          a A).dPhaseFlux_dC ke jc = A ke jc) ∧
    (formPPUVelocity NC NUM_ELEMS MAX_STENCIL numPhase ip stencilSize st v capPressureFlag
        a A).k_up
      = (formPPUVelocity NC NUM_ELEMS MAX_STENCIL numPhase ip stencilSize st v capPressureFlag
        a2 A2).k_up ∧
    (formPPUVelocity NC NUM_ELEMS MAX_STENCIL numPhase ip stencilSize st v capPressureFlag
        a A).phaseFlux
      = (formPPUVelocity NC NUM_ELEMS MAX_STENCIL numPhase ip stencilSize st v capPressureFlag
        a2 A2).phaseFlux := by
  have hP := fun ke => formPPUVelocity_dP_apply NC NUM_ELEMS MAX_STENCIL numPhase ip
    stencilSize st v capPressureFlag a A _ _ _ rfl rfl rfl ke
  have hC := fun ke jc => formPPUVelocity_dC_apply NC NUM_ELEMS MAX_STENCIL numPhase ip
    stencilSize st v capPressureFlag a A _ _ _ rfl rfl rfl ke jc
  refine ⟨?_, ?_, ?_, rfl, rfl⟩
  · intro ke hke
    refine ⟨?_, ?_⟩
    · rw [hP ke,
        (formPPUVelocityLocals_dP NC NUM_ELEMS numPhase ip stencilSize st v capPressureFlag
          ke).1,
        (formPPUVelocityLocals_dP NC NUM_ELEMS numPhase ip stencilSize st v capPressureFlag
          ke).2]
      simp only [if_pos hke]
      split_ifs <;> ring
    · intro jc hjc
      rw [hC ke jc,
        (formPPUVelocityLocals_dC NC NUM_ELEMS numPhase ip stencilSize st v capPressureFlag
          ke jc).1,
        (formPPUVelocityLocals_dC NC NUM_ELEMS numPhase ip stencilSize st v capPressureFlag
          ke jc).2]
      simp only [hke, hjc, and_true, true_and, if_true]
      split_ifs <;> ring
  · intro hsize ke hke
    have h1 : ¬ ke < stencilSize := by omega
    have h2 : ¬ ke < NUM_ELEMS := by omega
    have hdP : (formPPUVelocity NC NUM_ELEMS MAX_STENCIL numPhase ip stencilSize st v
        capPressureFlag a A).dPhaseFlux_dP ke
        = a ke
          + (if ke = formPPUVelocityUpwind NC NUM_ELEMS numPhase ip stencilSize st v
                capPressureFlag then
              v.dPhaseMob_dPres
                (st.seri (formPPUVelocityUpwind NC NUM_ELEMS numPhase ip stencilSize st v
                  capPressureFlag))
                (st.sesri (formPPUVelocityUpwind NC NUM_ELEMS numPhase ip stencilSize st v
                  capPressureFlag))
                (st.sei (formPPUVelocityUpwind NC NUM_ELEMS numPhase ip stencilSize st v
                  capPressureFlag)) ip
              * formPPUVelocityPotGrad NC NUM_ELEMS numPhase ip stencilSize st v capPressureFlag
            else 0) := by
      rw [hP ke]
      simp only [if_neg h1, if_neg h2]
      ring
    have hdC : ∀ jc, jc < NC →
        (formPPUVelocity NC NUM_ELEMS MAX_STENCIL numPhase ip stencilSize st v capPressureFlag
            a A).dPhaseFlux_dC ke jc
          = A ke jc
            + (if ke = formPPUVelocityUpwind NC NUM_ELEMS numPhase ip stencilSize st v
                  capPressureFlag then
                v.dPhaseMob_dComp
                  (st.seri (formPPUVelocityUpwind NC NUM_ELEMS numPhase ip stencilSize st v
                    capPressureFlag))
                  (st.sesri (formPPUVelocityUpwind NC NUM_ELEMS numPhase ip stencilSize st v
                    capPressureFlag))
                  (st.sei (formPPUVelocityUpwind NC NUM_ELEMS numPhase ip stencilSize st v
                    capPressureFlag)) ip jc
                * formPPUVelocityPotGrad NC NUM_ELEMS numPhase ip stencilSize st v
                  capPressureFlag
              else 0) := by
      intro jc hjc
      rw [hC ke jc]
      simp only [h1, h2, hjc, and_true, false_and, if_false, if_true]
      ring
    refine ⟨hdP, hdC, ?_⟩
    intro h2s
    have hne : ¬ ke = formPPUVelocityUpwind NC NUM_ELEMS numPhase ip stencilSize st v
        capPressureFlag := by
      rcases formPPUVelocityUpwind_le_one NC NUM_ELEMS numPhase ip stencilSize st v
        capPressureFlag with h | h <;> omega
    refine ⟨?_, ?_⟩
    · rw [hdP, if_neg hne, add_zero]
    · intro jc
      by_cases hjc : jc < NC
      · rw [hdC jc hjc, if_neg hne, add_zero]
      · rw [hC ke jc]
        simp only [hjc, and_false, if_false]
        ring
  · intro ke jc hjc
    have h1 : ¬ jc < NC := by omega
    rw [hC ke jc]
    simp only [h1, and_false, if_false]
    ring

/-- Witness of the amended C31: the concrete two-cell scenario with prior contents `7`;
the entry of index `2 ≥ stencilSize` is returned unchanged. -/
theorem formPPUVelocity_accumulates_witness :
    (formPPUVelocity 1 2 3 1 0 2 scenarioStencil (scenarioViews 100 90 (4/5) (3/5) (1/4)) 0
        (fun _ => 7) (fun _ _ => 7)).dPhaseFlux_dP 2 = 7 :=
  (((formPPUVelocity_accumulates 1 2 3 1 0 2 scenarioStencil
    (scenarioViews 100 90 (4/5) (3/5) (1/4)) 0 (fun _ => 7) (fun _ => 0) (fun _ _ => 7)
    (fun _ _ => 0)).2.1 (le_refl 2) 2 (le_refl 2)).2.2 (le_refl 2)).1

/-- Counterexample to C31 as stated: one primary cell and a one-cell stencil
(`NUM_ELEMS = stencilSize = 1`, `MAX_STENCIL = 2`) on the gravity scenario with
`dPhaseMob_dPres = 1/4`.  The potential is `-500`, so `k_up = 1`, and the entry
`dPhaseFlux_dP[1]`, of index `≥ stencilSize`, is returned as `7 + (1/4) * (-500) = -118`
instead of its prior value `7`. -/
theorem formPPUVelocity_accumulates_counterexample :
    (1 ≤ 1) ∧
    (formPPUVelocity 1 1 2 1 0 1 scenarioStencil
        { gravityViews 0 with dPhaseMob_dPres := fun _ _ _ _ => 1 / 4 } 0
        (fun _ => 7) (fun _ _ => 7)).k_up = 1 ∧
    (formPPUVelocity 1 1 2 1 0 1 scenarioStencil
        { gravityViews 0 with dPhaseMob_dPres := fun _ _ _ _ => 1 / 4 } 0
        (fun _ => 7) (fun _ _ => 7)).dPhaseFlux_dP 1 = -118 ∧
    ¬ ((formPPUVelocity 1 1 2 1 0 1 scenarioStencil
        { gravityViews 0 with dPhaseMob_dPres := fun _ _ _ _ => 1 / 4 } 0
        (fun _ => 7) (fun _ _ => 7)).dPhaseFlux_dP 1 = (fun _ => (7 : ℚ)) 1) := by
  have hpot : formPPUVelocityPotGrad 1 1 1 0 1 scenarioStencil
      { gravityViews 0 with dPhaseMob_dPres := fun _ _ _ _ => 1 / 4 } 0 = -500 := by
    rw [formPPUVelocityPotGrad_apply, formPPUVelocityDensMean_densMean]
    simp [presGradSum, capPressureTerm, gravCoefSum, Finset.sum_range_succ, gravityViews,
      scenarioStencil]
    norm_num
  have hup : formPPUVelocityUpwind 1 1 1 0 1 scenarioStencil
      { gravityViews 0 with dPhaseMob_dPres := fun _ _ _ _ => 1 / 4 } 0 = 1 := by
    unfold formPPUVelocityUpwind
    rw [hpot]
    norm_num
  have hval : (formPPUVelocity 1 1 2 1 0 1 scenarioStencil
      { gravityViews 0 with dPhaseMob_dPres := fun _ _ _ _ => 1 / 4 } 0
      (fun _ => 7) (fun _ _ => 7)).dPhaseFlux_dP 1 = -118 := by
    rw [formPPUVelocity_dP_apply 1 1 2 1 0 1 scenarioStencil _ 0 _ _ _ _ _ rfl rfl rfl 1,
      hup, hpot]
    norm_num
  refine ⟨le_refl 1, ?_, hval, ?_⟩
  · rw [formPPUVelocity_k_up, hup]
  · rw [hval]
    norm_num

/-- C32. The two classical implementations compute the same potential: with
`capPressureFlag = 0` the potential `presGrad - gravHead` computed inside `formPPUVelocity`
equals the `pot` returned by `PhasePotentialUpwind::calcPotential`, which never subtracts
the capillary pressure (for any `capPressureFlag` the two differ by the weighted sum of
the capillary pressures), and the gravity head inside `formPPUVelocity` equals the
`gravHead` returned by `formGravHead`. -/
theorem classical_potentials_agree (NC NUM_ELEMS numPhase ip stencilSize : Nat)
    (st : Stencil) (totFlux : ℚ) (v : ElementViews) (source : Nat) (capPressureFlag : Int)
    (a : Nat → ℚ) (A : Nat → Nat → ℚ) (w : Nat → ℚ) :
    (formPPUVelocityLocals NC NUM_ELEMS numPhase ip stencilSize st v 0).presGrad
        - (formPPUVelocityLocals NC NUM_ELEMS numPhase ip stencilSize st v 0).gravHead
      = (PhasePotentialUpwind.calcPotential NC NUM_ELEMS numPhase ip stencilSize st totFlux v
        source).pot ∧
    formPPUVelocityPotGrad NC NUM_ELEMS numPhase ip stencilSize st v 0
      = (PhasePotentialUpwind.calcPotential NC NUM_ELEMS numPhase ip stencilSize st totFlux v
        source).pot ∧
    formPPUVelocityPotGrad NC NUM_ELEMS numPhase ip stencilSize st v capPressureFlag
      = (PhasePotentialUpwind.calcPotential NC NUM_ELEMS numPhase ip stencilSize st totFlux v
        source).pot
        - Finset.sum (Finset.range stencilSize) (fun i =>
            st.stencilWeights i * capPressureTerm ip st v capPressureFlag i) ∧
    (formPPUVelocityLocals NC NUM_ELEMS numPhase ip stencilSize st v capPressureFlag).gravHead
      = (formGravHead NC NUM_ELEMS ip stencilSize st v a A w).gravHead := by
  have hdm : (formPPUVelocityDensMean NC NUM_ELEMS ip st v).densMean
      = densMeanSum NUM_ELEMS ip st v := by
    rw [formPPUVelocityDensMean_densMean]
    rfl
  have hgen : formPPUVelocityPotGrad NC NUM_ELEMS numPhase ip stencilSize st v capPressureFlag
      = (PhasePotentialUpwind.calcPotential NC NUM_ELEMS numPhase ip stencilSize st totFlux v
        source).pot
        - Finset.sum (Finset.range stencilSize) (fun i =>
            st.stencilWeights i * capPressureTerm ip st v capPressureFlag i) := by
    rw [formPPUVelocityPotGrad_apply, PhasePotentialUpwind_pot, hdm]
    have hs : presGradSum ip stencilSize st v capPressureFlag
        = presGradSum ip stencilSize st v 0
          - Finset.sum (Finset.range stencilSize) (fun i =>
              st.stencilWeights i * capPressureTerm ip st v capPressureFlag i) := by
      unfold presGradSum
      rw [← Finset.sum_sub_distrib]
      refine Finset.sum_congr rfl ?_
      intro i _
      have h0 : capPressureTerm ip st v 0 i = 0 := by
        simp [capPressureTerm]
      rw [h0]
      ring
    rw [hs]
    ring
  have h0 : formPPUVelocityPotGrad NC NUM_ELEMS numPhase ip stencilSize st v 0
      = (PhasePotentialUpwind.calcPotential NC NUM_ELEMS numPhase ip stencilSize st totFlux v
        source).pot := by
    rw [formPPUVelocityPotGrad_apply, PhasePotentialUpwind_pot, hdm]
  refine ⟨h0, h0, hgen, ?_⟩
  rw [formPPUVelocityLocals_gravHead, formGravHead_gravHead]

/-! ## Claims on the gravity-segregation potential -/

/-- Potential of `PhaseUpwind::calcPotential`: the total flux plus the cross-phase gravity
sum. -/
theorem PhaseUpwind_pot (NC NUM_ELEMS numPhase ip stencilSize : Nat) (st : Stencil)
    (totFlux : ℚ) (v : ElementViews) (source : Nat) :
    (PhaseUpwind.calcPotential NC NUM_ELEMS numPhase ip stencilSize st totFlux v source).pot
      = totFlux + segregationSum NC NUM_ELEMS numPhase ip stencilSize st v := by
  unfold PhaseUpwind.calcPotential segregationSum
  simp only []
  rw [gravitySegregation_apply]

/-- Potential of `HybridUpwind<Gravity>::calcPotential`: the cross-phase gravity sum. -/
theorem HybridUpwindGravity_pot (NC NUM_ELEMS numPhase ip stencilSize : Nat) (st : Stencil)
    (totFlux : ℚ) (v : ElementViews) (source : Nat) :
    (HybridUpwindGravity.calcPotential NC NUM_ELEMS numPhase ip stencilSize st totFlux v
        source).pot
      = segregationSum NC NUM_ELEMS numPhase ip stencilSize st v := by
  unfold HybridUpwindGravity.calcPotential segregationSum
  simp only []
  rw [gravitySegregation_apply, zero_add]

/-- C33. `PhaseUpwind` is the total flux plus the hybrid gravity potential: for every term
tag `T` and every input, the `pot` returned by `PhaseUpwind<T>::calcPotential` equals
`totFlux` plus the `pot` returned by `HybridUpwind<Gravity>::calcPotential` on the same
input; with `totFlux = 0` the two schemes select the same upwind direction. -/
theorem PhaseUpwind_is_totFlux_plus_gravity (T : term)
    (NC NUM_ELEMS numPhase ip stencilSize : Nat) (st : Stencil) (totFlux : ℚ)
    (v : ElementViews) (source : Nat) :
    ((UPWIND.PhaseUpwind T).calcPotential NC NUM_ELEMS numPhase ip stencilSize st totFlux v
        source).pot
      = totFlux + (UPWIND.HybridUpwindGravity.calcPotential NC NUM_ELEMS numPhase ip
          stencilSize st totFlux v source).pot ∧
    (PhaseUpwind.calcPotential NC NUM_ELEMS numPhase ip stencilSize st totFlux v source).pot
      = totFlux + (HybridUpwindGravity.calcPotential NC NUM_ELEMS numPhase ip stencilSize st
          totFlux v source).pot ∧
    getUpwindDir (UPWIND.PhaseUpwind T) NC NUM_ELEMS numPhase ip stencilSize st 0 v
      = getUpwindDir UPWIND.HybridUpwindGravity NC NUM_ELEMS numPhase ip stencilSize st 0
        v := by
  have h : (PhaseUpwind.calcPotential NC NUM_ELEMS numPhase ip stencilSize st totFlux v
        source).pot
      = totFlux + (HybridUpwindGravity.calcPotential NC NUM_ELEMS numPhase ip stencilSize st
          totFlux v source).pot := by
    rw [PhaseUpwind_pot, HybridUpwindGravity_pot]
  refine ⟨h, h, ?_⟩
  rw [getUpwindDir_apply, getUpwindDir_apply]
  show (if (PhaseUpwind.calcPotential NC NUM_ELEMS numPhase ip stencilSize st 0 v 0).pot > 0
      then 0 else 1)
    = (if (HybridUpwindGravity.calcPotential NC NUM_ELEMS numPhase ip stencilSize st 0 v
      0).pot > 0 then 0 else 1)
  rw [PhaseUpwind_pot, HybridUpwindGravity_pot, zero_add]

/-- Direction of the hybrid gravity scheme from the cross-phase gravity sum. -/
theorem getUpwindDir_HybridUpwindGravity (NC NUM_ELEMS numPhase ip stencilSize : Nat)
    (st : Stencil) (totFlux : ℚ) (v : ElementViews) :
    getUpwindDir UPWIND.HybridUpwindGravity NC NUM_ELEMS numPhase ip stencilSize st totFlux v
      = if segregationSum NC NUM_ELEMS numPhase ip stencilSize st v > 0 then 0 else 1 := by
  rw [getUpwindDir_apply]
  show (if (HybridUpwindGravity.calcPotential NC NUM_ELEMS numPhase ip stencilSize st totFlux
      v 0).pot > 0 then 0 else 1) = _
  rw [HybridUpwindGravity_pot]

/-- C34. Counter-current upwinding of the hybrid gravity scheme.  For `numPhase = 2` with
phases `a ≠ b`, `gravHead_a > gravHead_b`, the mobility of `b` at stencil cell `1`
non-negative and the mobility of `a` at stencil cell `0` strictly positive, `getUpwindDir`
with `HybridUpwind<Gravity>` returns `1` for phase `a` and `0` for phase `b`.  More
generally, with non-negative mobilities every term accumulated for phase `ip` has sign
opposite to `gravHead_ip - gravHeadOther_jp` (their product is `≤ 0`), so a phase whose
gravity head is the largest gets `upwindDir = 1`. -/
theorem counter_current_upwinding (NC NUM_ELEMS stencilSize : Nat) (st : Stencil)
    (totFlux : ℚ) (v : ElementViews) :
    (∀ a b, a < 2 → b < 2 → a ≠ b →
      gravHeadOf NC NUM_ELEMS a stencilSize st v > gravHeadOf NC NUM_ELEMS b stencilSize st v →
      0 ≤ v.phaseMob (st.seri 1) (st.sesri 1) (st.sei 1) b →
      0 < v.phaseMob (st.seri 0) (st.sesri 0) (st.sei 0) a →
      getUpwindDir UPWIND.HybridUpwindGravity NC NUM_ELEMS 2 a stencilSize st totFlux v = 1 ∧
      getUpwindDir UPWIND.HybridUpwindGravity NC NUM_ELEMS 2 b stencilSize st totFlux v = 0) ∧
    (∀ ip jp,
      0 ≤ v.phaseMob (st.seri 0) (st.sesri 0) (st.sei 0) jp →
      0 ≤ v.phaseMob (st.seri 1) (st.sesri 1) (st.sei 1) jp →
      ((if gravHeadOf NC NUM_ELEMS ip stencilSize st v
              - gravHeadOf NC NUM_ELEMS jp stencilSize st v ≥ 0
          then v.phaseMob (st.seri 1) (st.sesri 1) (st.sei 1) jp
          else v.phaseMob (st.seri 0) (st.sesri 0) (st.sei 0) jp)
          * (gravHeadOf NC NUM_ELEMS jp stencilSize st v
            - gravHeadOf NC NUM_ELEMS ip stencilSize st v))
        * (gravHeadOf NC NUM_ELEMS ip stencilSize st v
          - gravHeadOf NC NUM_ELEMS jp stencilSize st v) ≤ 0) ∧
    (∀ numPhase ip,
      (∀ jp, jp < numPhase →
        gravHeadOf NC NUM_ELEMS jp stencilSize st v
          ≤ gravHeadOf NC NUM_ELEMS ip stencilSize st v) →
      (∀ jp, jp < numPhase → 0 ≤ v.phaseMob (st.seri 1) (st.sesri 1) (st.sei 1) jp) →
      getUpwindDir UPWIND.HybridUpwindGravity NC NUM_ELEMS numPhase ip stencilSize st totFlux
        v = 1) := by
  refine ⟨?_, ?_, ?_⟩
  · intro a b ha hb hab hgh hmb hma
    have hA : segregationSum NC NUM_ELEMS 2 a stencilSize st v
        = v.phaseMob (st.seri 1) (st.sesri 1) (st.sei 1) b
          * (gravHeadOf NC NUM_ELEMS b stencilSize st v
            - gravHeadOf NC NUM_ELEMS a stencilSize st v) := by
      have hc : gravHeadOf NC NUM_ELEMS a stencilSize st v
          - gravHeadOf NC NUM_ELEMS b stencilSize st v ≥ 0 := by linarith
      unfold segregationSum
      simp only [Finset.sum_range_succ, Finset.sum_range_zero]
      have hcases : (a = 0 ∧ b = 1) ∨ (a = 1 ∧ b = 0) := by omega
      rcases hcases with ⟨rfl, rfl⟩ | ⟨rfl, rfl⟩
      · simp [hc]
      · simp [hc]
    have hB : segregationSum NC NUM_ELEMS 2 b stencilSize st v
        = v.phaseMob (st.seri 0) (st.sesri 0) (st.sei 0) a
          * (gravHeadOf NC NUM_ELEMS a stencilSize st v
            - gravHeadOf NC NUM_ELEMS b stencilSize st v) := by
      have hc : ¬ gravHeadOf NC NUM_ELEMS b stencilSize st v
          - gravHeadOf NC NUM_ELEMS a stencilSize st v ≥ 0 := by
        intro h
        linarith
      unfold segregationSum
      simp only [Finset.sum_range_succ, Finset.sum_range_zero]
      have hcases : (a = 0 ∧ b = 1) ∨ (a = 1 ∧ b = 0) := by omega
      rcases hcases with ⟨rfl, rfl⟩ | ⟨rfl, rfl⟩
      · simp [hc]
      · simp [hc]
    refine ⟨?_, ?_⟩
    · rw [getUpwindDir_HybridUpwindGravity, hA, if_neg]
      have hd : gravHeadOf NC NUM_ELEMS b stencilSize st v
          - gravHeadOf NC NUM_ELEMS a stencilSize st v ≤ 0 := by linarith
      exact not_lt.mpr (mul_nonpos_of_nonneg_of_nonpos hmb hd)
    · rw [getUpwindDir_HybridUpwindGravity, hB, if_pos]
      exact mul_pos hma (by linarith)
  · intro ip jp h0 h1
    by_cases hc : gravHeadOf NC NUM_ELEMS ip stencilSize st v
        - gravHeadOf NC NUM_ELEMS jp stencilSize st v ≥ 0
    · rw [if_pos hc]
      have hd : gravHeadOf NC NUM_ELEMS jp stencilSize st v
          - gravHeadOf NC NUM_ELEMS ip stencilSize st v ≤ 0 := by linarith
      exact mul_nonpos_of_nonpos_of_nonneg (mul_nonpos_of_nonneg_of_nonpos h1 hd) hc
    · rw [if_neg hc]
      have hd : 0 ≤ gravHeadOf NC NUM_ELEMS jp stencilSize st v
          - gravHeadOf NC NUM_ELEMS ip stencilSize st v := by
        have := not_le.mp hc
        linarith
      have he : gravHeadOf NC NUM_ELEMS ip stencilSize st v
          - gravHeadOf NC NUM_ELEMS jp stencilSize st v ≤ 0 := le_of_lt (not_le.mp hc)
      exact mul_nonpos_of_nonneg_of_nonpos (mul_nonneg h0 hd) he
  · intro numPhase ip hmax hmob
    rw [getUpwindDir_HybridUpwindGravity, if_neg]
    apply not_lt.mpr
    unfold segregationSum
    refine Finset.sum_nonpos ?_
    intro jp hjp
    have hjp2 := Finset.mem_range.mp hjp
    by_cases hne : jp ≠ ip
    · rw [if_pos hne]
      have hc : gravHeadOf NC NUM_ELEMS ip stencilSize st v
          - gravHeadOf NC NUM_ELEMS jp stencilSize st v ≥ 0 := by
        have := hmax jp hjp2
        linarith
      rw [if_pos hc]
      have hd : gravHeadOf NC NUM_ELEMS jp stencilSize st v
          - gravHeadOf NC NUM_ELEMS ip stencilSize st v ≤ 0 := by linarith
      exact mul_nonpos_of_nonneg_of_nonpos (hmob jp hjp2) hd
    · rw [if_neg hne]

/-- Witness of C34: two phases on the two-point gravity scenario, with gravity heads
`1000` for phase `0` and `800` for phase `1`. -/
theorem counter_current_upwinding_witness :
    getUpwindDir UPWIND.HybridUpwindGravity 1 2 2 0 2 scenarioStencil 0 (gravityViews 0) = 1 ∧
    getUpwindDir UPWIND.HybridUpwindGravity 1 2 2 1 2 scenarioStencil 0 (gravityViews 0) = 0 :=
  (counter_current_upwinding 1 2 2 scenarioStencil 0 (gravityViews 0)).1 0 1 (by decide)
    (by decide) (by decide)
    (by
      rw [gravityScenario_gravHead, gravityScenario_gravHead]
      norm_num)
    (by
      simp [gravityViews, scenarioStencil])
    (by
      simp [gravityViews, scenarioStencil])

/-! ## Claims on the division and on the derivatives of `formFracFlow` -/

/-- C35. Division in `formFracFlow` is guarded under non-negative mobilities: for
`ip < numPhase` and all phase mobilities at the stencil cells `0` and `1` non-negative,
whenever the quotient branch is taken (`|mainMob| > 1e-20`) the denominator satisfies
`totMob ≥ mainMob > 1e-20`; it is not zero, every quotient by it is finite and the outputs
are finite. -/
theorem formFracFlow_division_guarded (scheme : UPWIND)
    (NC NUM_ELEMS MAX_STENCIL numPhase ip stencilSize : Nat) (st : Stencil) (totFlux : ℚ)
    (v : ElementViews) (dFflow_dP : Nat → ℚ) (dFflow_dC : Nat → Nat → ℚ)
    (hip : ip < numPhase)
    (hnn : ∀ jp, jp < numPhase →
      0 ≤ v.phaseMob (st.seri 0) (st.sesri 0) (st.sei 0) jp ∧
      0 ≤ v.phaseMob (st.seri 1) (st.sesri 1) (st.sei 1) jp)
    (hbranch : |(formFracFlowMob scheme NC NUM_ELEMS numPhase ip stencilSize st totFlux
      v).mainMob| > 1e-20) :
    (formFracFlowMob scheme NC NUM_ELEMS numPhase ip stencilSize st totFlux v).totMob
      ≥ (formFracFlowMob scheme NC NUM_ELEMS numPhase ip stencilSize st totFlux v).mainMob ∧
    (formFracFlowMob scheme NC NUM_ELEMS numPhase ip stencilSize st totFlux v).mainMob
      > 1e-20 ∧
    (formFracFlowMob scheme NC NUM_ELEMS numPhase ip stencilSize st totFlux v).totMob ≠ 0 ∧
    (∀ x : ℚ, divReal x
        (formFracFlowMob scheme NC NUM_ELEMS numPhase ip stencilSize st totFlux v).totMob
      = some (x / (formFracFlowMob scheme NC NUM_ELEMS numPhase ip stencilSize st totFlux
          v).totMob)) ∧
    (formFracFlow scheme NC NUM_ELEMS MAX_STENCIL numPhase ip stencilSize st totFlux v
        dFflow_dP dFflow_dC).out
      = formFracFlowQuotient NC stencilSize
        (formFracFlowMob scheme NC NUM_ELEMS numPhase ip stencilSize st totFlux v)
        (formFracFlowInit NC stencilSize dFflow_dP dFflow_dC) ∧
    ∃ o : FracFlowOut,
      (formFracFlow scheme NC NUM_ELEMS MAX_STENCIL numPhase ip stencilSize st totFlux v
        dFflow_dP dFflow_dC).out = some o := by
  have hmob : ∀ jp, jp ∈ Finset.range numPhase →
      0 ≤ (upwindMobOf scheme NC NUM_ELEMS numPhase jp stencilSize st totFlux v).mob := by
    intro jp hjp
    exact upwindMobOf_mob_nonneg scheme NC NUM_ELEMS numPhase jp stencilSize st totFlux v
      (hnn jp (Finset.mem_range.mp hjp)).1 (hnn jp (Finset.mem_range.mp hjp)).2
  have hle : (upwindMobOf scheme NC NUM_ELEMS numPhase ip stencilSize st totFlux v).mob
      ≤ totMobSum scheme NC NUM_ELEMS numPhase stencilSize st totFlux v :=
    Finset.single_le_sum hmob (Finset.mem_range.mpr hip)
  have hmain := (formFracFlowMob_main scheme NC NUM_ELEMS numPhase ip stencilSize st totFlux
    v).2.1
  rw [if_pos hip] at hmain
  have htot := (formFracFlowMob_tot scheme NC NUM_ELEMS numPhase ip stencilSize st totFlux
    v).1
  have hgt : (formFracFlowMob scheme NC NUM_ELEMS numPhase ip stencilSize st totFlux
      v).mainMob > 1e-20 := by
    have h := hbranch
    rw [hmain, abs_of_nonneg (hmob ip (Finset.mem_range.mpr hip))] at h
    rw [hmain]
    exact h
  have hge : (formFracFlowMob scheme NC NUM_ELEMS numPhase ip stencilSize st totFlux v).totMob
      ≥ (formFracFlowMob scheme NC NUM_ELEMS numPhase ip stencilSize st totFlux
        v).mainMob := by
    rw [hmain, htot]
    exact hle
  have hne : (formFracFlowMob scheme NC NUM_ELEMS numPhase ip stencilSize st totFlux
      v).totMob ≠ 0 :=
    ne_of_gt (lt_of_lt_of_le (lt_trans negligible_pos hgt) hge)
  have hout : (formFracFlow scheme NC NUM_ELEMS MAX_STENCIL numPhase ip stencilSize st totFlux
      v dFflow_dP dFflow_dC).out
      = formFracFlowQuotient NC stencilSize
        (formFracFlowMob scheme NC NUM_ELEMS numPhase ip stencilSize st totFlux v)
        (formFracFlowInit NC stencilSize dFflow_dP dFflow_dC) := by
    unfold formFracFlow
    simp only [if_pos hbranch]
  refine ⟨hge, hgt, hne, fun x => divReal_of_ne x _ hne, hout, ?_⟩
  exact ⟨_, hout.trans (formFracFlowQuotient_of_ne NC stencilSize _ _ hne)⟩

/-- Witness of C35: two phases on the two-cell scenario with mobilities `{4/5, 3/5}` under
the hybrid viscous scheme: the numerator mobility is `4/5`. -/
theorem formFracFlow_division_guarded_witness :
    (formFracFlowMob UPWIND.HybridUpwindViscous 1 2 2 0 2 scenarioStencil 1
        (scenarioViews 100 90 (4/5) (3/5) (1/4))).totMob
      ≥ (formFracFlowMob UPWIND.HybridUpwindViscous 1 2 2 0 2 scenarioStencil 1
        (scenarioViews 100 90 (4/5) (3/5) (1/4))).mainMob :=
  (formFracFlow_division_guarded UPWIND.HybridUpwindViscous 1 2 2 2 0 2 scenarioStencil 1
    (scenarioViews 100 90 (4/5) (3/5) (1/4)) (fun _ => 7) (fun _ _ => 7) (by decide)
    (by
      intro jp _
      simp [scenarioViews, scenarioStencil]
      norm_num)
    (by
      have hu : upwindPhaseMob UPWIND.HybridUpwindViscous 1 2 2 0 2 scenarioStencil 1
          (scenarioViews 100 90 (4/5) (3/5) (1/4)) = 4/5 := by
        unfold upwindPhaseMob
        rw [getUpwindDir_apply]
        simp [UPWIND.calcPotential, HybridUpwindViscous.calcPotential, scenarioViews,
          scenarioStencil]
      rw [(formFracFlowMob_main UPWIND.HybridUpwindViscous 1 2 2 0 2 scenarioStencil 1
        (scenarioViews 100 90 (4/5) (3/5) (1/4))).2.1, if_pos (by decide)]
      unfold upwindMobOf
      rw [upwindMob_mob, hu]
      have h45 : |(4 / 5 : ℚ)| = 4 / 5 := abs_of_pos (by norm_num)
      rw [h45, if_pos (by norm_num), h45]
      norm_num)).1

/-- Pressure derivative returned by `upwindMob`: that of the upwind cell above the
threshold, `0` otherwise. -/
theorem upwindMob_dMob_dP (scheme : UPWIND) (NC NUM_ELEMS numPhase ip stencilSize : Nat)
    (st : Stencil) (totFlux : ℚ) (v : ElementViews) (a : Nat → ℚ) :
    (upwindMob scheme NC NUM_ELEMS numPhase ip stencilSize st totFlux v a).dMob_dP
      = if |upwindPhaseMob scheme NC NUM_ELEMS numPhase ip stencilSize st totFlux v| > 1e-20
        then v.dPhaseMob_dPres
          (st.seri (getUpwindDir scheme NC NUM_ELEMS numPhase ip stencilSize st totFlux v))
          (st.sesri (getUpwindDir scheme NC NUM_ELEMS numPhase ip stencilSize st totFlux v))
          (st.sei (getUpwindDir scheme NC NUM_ELEMS numPhase ip stencilSize st totFlux v)) ip
        else 0 := by
  unfold upwindMob upwindPhaseMob
  simp only []
  split_ifs <;> rfl

/-- Component-density derivatives returned by `upwindMob`: those of the upwind cell above
the threshold, `0` otherwise. -/
theorem upwindMob_dMob_dC (scheme : UPWIND) (NC NUM_ELEMS numPhase ip stencilSize : Nat)
    (st : Stencil) (totFlux : ℚ) (v : ElementViews) (a : Nat → ℚ) (ic : Nat)
    (hic : ic < NC) :
    (upwindMob scheme NC NUM_ELEMS numPhase ip stencilSize st totFlux v a).dMob_dC ic
      = if |upwindPhaseMob scheme NC NUM_ELEMS numPhase ip stencilSize st totFlux v| > 1e-20
        then v.dPhaseMob_dComp
          (st.seri (getUpwindDir scheme NC NUM_ELEMS numPhase ip stencilSize st totFlux v))
          (st.sesri (getUpwindDir scheme NC NUM_ELEMS numPhase ip stencilSize st totFlux v))
          (st.sei (getUpwindDir scheme NC NUM_ELEMS numPhase ip stencilSize st totFlux v)) ip
          ic
        else 0 := by
  unfold upwindMob upwindPhaseMob
  simp only []
  split_ifs
  · show forLoop NC (fun ic a => setAt a ic (v.dPhaseMob_dComp _ _ _ ip ic)) _ ic = _
    rw [forLoop_fill, if_pos hic]
  · show forLoop NC (fun ic a => setAt a ic 0) a ic = 0
    rw [forLoop_reset, if_pos hic]

/-- The derivative outputs of `formFracFlow` for a phase `ip < numPhase` when the total
mobility is not `0`, whichever branch is taken: a phase whose upwinded mobility is below
the threshold has `mob = 0` and zero mobility derivatives, and the same expression gives
the zeros it returns. -/
theorem formFracFlow_derivatives (scheme : UPWIND)
    (NC NUM_ELEMS MAX_STENCIL numPhase ip stencilSize : Nat) (st : Stencil) (totFlux : ℚ)
    (v : ElementViews) (a : Nat → ℚ) (A : Nat → Nat → ℚ) (hip : ip < numPhase)
    (htot : totMobSum scheme NC NUM_ELEMS numPhase stencilSize st totFlux v ≠ 0) :
    ∃ o : FracFlowOut,
      (formFracFlow scheme NC NUM_ELEMS MAX_STENCIL numPhase ip stencilSize st totFlux v a
        A).out = some o ∧
      (∀ ke, ke < stencilSize → o.dFflow_dP ke
        = ((if ke = (upwindMobOf scheme NC NUM_ELEMS numPhase ip stencilSize st totFlux
                v).upwindDir then
              (upwindMobOf scheme NC NUM_ELEMS numPhase ip stencilSize st totFlux v).dMob_dP
            else 0)
          - (upwindMobOf scheme NC NUM_ELEMS numPhase ip stencilSize st totFlux v).mob
            / totMobSum scheme NC NUM_ELEMS numPhase stencilSize st totFlux v
            * Finset.sum (Finset.range numPhase) (fun jp =>
              if ke = (upwindMobOf scheme NC NUM_ELEMS numPhase jp stencilSize st totFlux
                  v).upwindDir then
                (upwindMobOf scheme NC NUM_ELEMS numPhase jp stencilSize st totFlux v).dMob_dP
              else 0))
          / totMobSum scheme NC NUM_ELEMS numPhase stencilSize st totFlux v) ∧
      (∀ ke jc, ke < stencilSize → jc < NC → o.dFflow_dC ke jc
        = ((if ke = (upwindMobOf scheme NC NUM_ELEMS numPhase ip stencilSize st totFlux
                v).upwindDir then
              (upwindMobOf scheme NC NUM_ELEMS numPhase ip stencilSize st totFlux v).dMob_dC jc
            else 0)
          - (upwindMobOf scheme NC NUM_ELEMS numPhase ip stencilSize st totFlux v).mob
            / totMobSum scheme NC NUM_ELEMS numPhase stencilSize st totFlux v
            * Finset.sum (Finset.range numPhase) (fun jp =>
              if ke = (upwindMobOf scheme NC NUM_ELEMS numPhase jp stencilSize st totFlux
                  v).upwindDir then
                (upwindMobOf scheme NC NUM_ELEMS numPhase jp stencilSize st totFlux
                  v).dMob_dC jc
              else 0))
          / totMobSum scheme NC NUM_ELEMS numPhase stencilSize st totFlux v) := by
  by_cases hg : |(upwindMobOf scheme NC NUM_ELEMS numPhase ip stencilSize st totFlux v).mob|
      > 1e-20
  · obtain ⟨o, ho, hf, hP, hC⟩ := formFracFlow_quotient scheme NC NUM_ELEMS MAX_STENCIL numPhase
      ip stencilSize st totFlux v a A hip hg htot
    refine ⟨o, ho, ?_, ?_⟩
    · intro ke hke
      rw [hP ke hke, hf]
    · intro ke jc hke hjc
      rw [hC ke jc hke hjc, hf]
      simp only [hjc, and_true]
  · have hmain := (formFracFlowMob_main scheme NC NUM_ELEMS numPhase ip stencilSize st totFlux
      v).2.1
    rw [if_pos hip] at hmain
    have hg2 : ¬ |(formFracFlowMob scheme NC NUM_ELEMS numPhase ip stencilSize st totFlux
        v).mainMob| > 1e-20 := by
      rw [hmain]
      exact hg
    have hthr : ¬ |upwindPhaseMob scheme NC NUM_ELEMS numPhase ip stencilSize st totFlux v|
        > 1e-20 := by
      intro h
      apply hg
      unfold upwindMobOf
      rw [upwindMob_mob, if_pos h]
      exact h
    have hm0 : (upwindMobOf scheme NC NUM_ELEMS numPhase ip stencilSize st totFlux v).mob
        = 0 := by
      unfold upwindMobOf
      rw [upwindMob_mob, if_neg hthr]
    have hdP0 : (upwindMobOf scheme NC NUM_ELEMS numPhase ip stencilSize st totFlux
        v).dMob_dP = 0 := by
      unfold upwindMobOf
      rw [upwindMob_dMob_dP, if_neg hthr]
    have hdC0 : ∀ jc, jc < NC →
        (upwindMobOf scheme NC NUM_ELEMS numPhase ip stencilSize st totFlux v).dMob_dC jc
          = 0 := by
      intro jc hjc
      unfold upwindMobOf
      rw [upwindMob_dMob_dC _ _ _ _ _ _ _ _ _ _ jc hjc, if_neg hthr]
    refine ⟨_, formFracFlow_skip scheme NC NUM_ELEMS MAX_STENCIL numPhase ip stencilSize st
      totFlux v a A hg2, ?_, ?_⟩
    · intro ke hke
      simp only [if_pos hke, hm0, hdP0]
      simp
    · intro ke jc hke hjc
      simp only [hke, hjc, and_self, if_true, hm0, hdC0 jc hjc]
      simp

/-- C36. The fractional-flow derivatives sum to zero over the phases: for a fixed
connection, scheme and property bundle with `totMob ≠ 0` (for every `stencilSize`, in
particular `≥ 2`), every `formFracFlow(ip)`, `ip < numPhase`, returns finite outputs, and
for every `ke < stencilSize` the sum over `ip` in `[0, numPhase)` of the returned
`dFflow_dP[ke]` is `0`, and likewise for every `dFflow_dC[ke][jc]`, `jc < NC`. -/
theorem formFracFlow_derivatives_sum_zero (scheme : UPWIND)
    (NC NUM_ELEMS MAX_STENCIL numPhase stencilSize : Nat) (st : Stencil) (totFlux : ℚ)
    (v : ElementViews) (dFflow_dP : Nat → ℚ) (dFflow_dC : Nat → Nat → ℚ)
    (htot : totMobSum scheme NC NUM_ELEMS numPhase stencilSize st totFlux v ≠ 0) :
    ∃ (dP : Nat → Nat → ℚ) (dC : Nat → Nat → Nat → ℚ),
      (∀ ip, ip < numPhase → ∃ o : FracFlowOut,
        (formFracFlow scheme NC NUM_ELEMS MAX_STENCIL numPhase ip stencilSize st totFlux v
          dFflow_dP dFflow_dC).out = some o ∧
        (∀ ke, ke < stencilSize → o.dFflow_dP ke = dP ip ke) ∧
        (∀ ke jc, ke < stencilSize → jc < NC → o.dFflow_dC ke jc = dC ip ke jc)) ∧
      (∀ ke, ke < stencilSize →
        Finset.sum (Finset.range numPhase) (fun ip => dP ip ke) = 0) ∧
      (∀ ke jc, ke < stencilSize → jc < NC →
        Finset.sum (Finset.range numPhase) (fun ip => dC ip ke jc) = 0) := by
  have hsum : ∀ (x : Nat → ℚ),
      Finset.sum (Finset.range numPhase) (fun ip =>
        (x ip
          - (upwindMobOf scheme NC NUM_ELEMS numPhase ip stencilSize st totFlux v).mob
            / totMobSum scheme NC NUM_ELEMS numPhase stencilSize st totFlux v
            * Finset.sum (Finset.range numPhase) x)
          / totMobSum scheme NC NUM_ELEMS numPhase stencilSize st totFlux v) = 0 := by
    intro x
    rw [← Finset.sum_div, Finset.sum_sub_distrib, ← Finset.sum_mul, ← Finset.sum_div]
    have h1 : Finset.sum (Finset.range numPhase) (fun ip =>
        (upwindMobOf scheme NC NUM_ELEMS numPhase ip stencilSize st totFlux v).mob)
        / totMobSum scheme NC NUM_ELEMS numPhase stencilSize st totFlux v = 1 :=
      div_self htot
    rw [h1, one_mul, sub_self, zero_div]
  refine ⟨fun ip ke =>
      ((if ke = (upwindMobOf scheme NC NUM_ELEMS numPhase ip stencilSize st totFlux
              v).upwindDir then
            (upwindMobOf scheme NC NUM_ELEMS numPhase ip stencilSize st totFlux v).dMob_dP
          else 0)
        - (upwindMobOf scheme NC NUM_ELEMS numPhase ip stencilSize st totFlux v).mob
          / totMobSum scheme NC NUM_ELEMS numPhase stencilSize st totFlux v
          * Finset.sum (Finset.range numPhase) (fun jp =>
            if ke = (upwindMobOf scheme NC NUM_ELEMS numPhase jp stencilSize st totFlux
                v).upwindDir then
              (upwindMobOf scheme NC NUM_ELEMS numPhase jp stencilSize st totFlux v).dMob_dP
            else 0))
        / totMobSum scheme NC NUM_ELEMS numPhase stencilSize st totFlux v,
    fun ip ke jc =>
      ((if ke = (upwindMobOf scheme NC NUM_ELEMS numPhase ip stencilSize st totFlux
              v).upwindDir then
            (upwindMobOf scheme NC NUM_ELEMS numPhase ip stencilSize st totFlux v).dMob_dC jc
          else 0)
        - (upwindMobOf scheme NC NUM_ELEMS numPhase ip stencilSize st totFlux v).mob
          / totMobSum scheme NC NUM_ELEMS numPhase stencilSize st totFlux v
          * Finset.sum (Finset.range numPhase) (fun jp =>
            if ke = (upwindMobOf scheme NC NUM_ELEMS numPhase jp stencilSize st totFlux
                v).upwindDir then
              (upwindMobOf scheme NC NUM_ELEMS numPhase jp stencilSize st totFlux
                v).dMob_dC jc
            else 0))
        / totMobSum scheme NC NUM_ELEMS numPhase stencilSize st totFlux v, ?_, ?_, ?_⟩
  · intro ip hip
    obtain ⟨o, ho, hP, hC⟩ := formFracFlow_derivatives scheme NC NUM_ELEMS MAX_STENCIL numPhase
      ip stencilSize st totFlux v dFflow_dP dFflow_dC hip htot
    exact ⟨o, ho, hP, hC⟩
  · intro ke _
    exact hsum (fun jp =>
      if ke = (upwindMobOf scheme NC NUM_ELEMS numPhase jp stencilSize st totFlux
          v).upwindDir then
        (upwindMobOf scheme NC NUM_ELEMS numPhase jp stencilSize st totFlux v).dMob_dP
      else 0)
  · intro ke jc _ _
    exact hsum (fun jp =>
      if ke = (upwindMobOf scheme NC NUM_ELEMS numPhase jp stencilSize st totFlux
          v).upwindDir then
        (upwindMobOf scheme NC NUM_ELEMS numPhase jp stencilSize st totFlux v).dMob_dC jc
      else 0)

/-- Upwinded mobility of every phase on the two-cell scenario with mobilities `{4/5, 3/5}`
under the hybrid viscous scheme with total flux `1`: that of cell `0`. -/
theorem scenario_upwindMobOf_mob (jp : Nat) :
    (upwindMobOf UPWIND.HybridUpwindViscous 1 2 2 jp 2 scenarioStencil 1
      (scenarioViews 100 90 (4/5) (3/5) (1/4))).mob = 4 / 5 := by
  unfold upwindMobOf
  rw [upwindMob_mob]
  have hu : upwindPhaseMob UPWIND.HybridUpwindViscous 1 2 2 jp 2 scenarioStencil 1
      (scenarioViews 100 90 (4/5) (3/5) (1/4)) = 4/5 := by
    unfold upwindPhaseMob
    rw [getUpwindDir_apply]
    simp [UPWIND.calcPotential, HybridUpwindViscous.calcPotential, scenarioViews,
      scenarioStencil]
  rw [hu, abs_of_pos (by norm_num : (0 : ℚ) < 4 / 5)]
  norm_num

/-- Witness of C36: two phases on the two-cell scenario under the hybrid viscous scheme,
total mobility `8/5`. -/
theorem formFracFlow_derivatives_sum_zero_witness :
    ∃ (dP : Nat → Nat → ℚ) (dC : Nat → Nat → Nat → ℚ),
      (∀ ip, ip < 2 → ∃ o : FracFlowOut,
        (formFracFlow UPWIND.HybridUpwindViscous 1 2 2 2 ip 2 scenarioStencil 1
          (scenarioViews 100 90 (4/5) (3/5) (1/4)) (fun _ => 7) (fun _ _ => 7)).out = some o ∧
        (∀ ke, ke < 2 → o.dFflow_dP ke = dP ip ke) ∧
        (∀ ke jc, ke < 2 → jc < 1 → o.dFflow_dC ke jc = dC ip ke jc)) ∧
      (∀ ke, ke < 2 → Finset.sum (Finset.range 2) (fun ip => dP ip ke) = 0) ∧
      (∀ ke jc, ke < 2 → jc < 1 → Finset.sum (Finset.range 2) (fun ip => dC ip ke jc) = 0) :=
  formFracFlow_derivatives_sum_zero UPWIND.HybridUpwindViscous 1 2 2 2 2 scenarioStencil 1
    (scenarioViews 100 90 (4/5) (3/5) (1/4)) (fun _ => 7) (fun _ _ => 7)
    (by
      unfold totMobSum
      simp only [scenario_upwindMobOf_mob, Finset.sum_const, Finset.card_range]
      norm_num)

/-! ## Claims on the sums and on the order of `formPhaseComp` -/

/-- C37. Total component flux equals the phase flux times the total upstream composition:
for every input, the sum over `ic < NC` of the increments `formPhaseComp` adds to
`compFlux[ic]` equals `phaseFlux * Σ_ic phaseCompFrac[cell k_up][ip][ic]`; in particular it
equals `phaseFlux` when the upstream composition fractions sum to `1`. -/
theorem formPhaseComp_total_flux (NC MAX_STENCIL ip k_up stencilSize : Nat) (st : Stencil)
    (pc : PhaseCompViews) (phaseFlux : ℚ) (dPhaseFlux_dPres : Nat → ℚ)
    (dPhaseFlux_dComp : Nat → Nat → ℚ) (cf : CompFlux) :
    Finset.sum (Finset.range NC) (fun ic =>
        (formPhaseComp NC MAX_STENCIL ip k_up stencilSize st pc phaseFlux dPhaseFlux_dPres
          dPhaseFlux_dComp cf).compFlux ic - cf.compFlux ic)
      = phaseFlux * Finset.sum (Finset.range NC) (fun ic =>
          pc.phaseCompFrac (st.seri k_up) (st.sesri k_up) (st.sei k_up) 0 ip ic) ∧
    (Finset.sum (Finset.range NC) (fun ic =>
        pc.phaseCompFrac (st.seri k_up) (st.sesri k_up) (st.sei k_up) 0 ip ic) = 1 →
      Finset.sum (Finset.range NC) (fun ic =>
        (formPhaseComp NC MAX_STENCIL ip k_up stencilSize st pc phaseFlux dPhaseFlux_dPres
          dPhaseFlux_dComp cf).compFlux ic - cf.compFlux ic) = phaseFlux) := by
  have h : Finset.sum (Finset.range NC) (fun ic =>
        (formPhaseComp NC MAX_STENCIL ip k_up stencilSize st pc phaseFlux dPhaseFlux_dPres
          dPhaseFlux_dComp cf).compFlux ic - cf.compFlux ic)
      = phaseFlux * Finset.sum (Finset.range NC) (fun ic =>
          pc.phaseCompFrac (st.seri k_up) (st.sesri k_up) (st.sei k_up) 0 ip ic) := by
    rw [Finset.mul_sum]
    refine Finset.sum_congr rfl ?_
    intro ic hic
    rw [formPhaseComp_compFlux, if_pos (Finset.mem_range.mp hic)]
    ring
  refine ⟨h, ?_⟩
  intro h1
  rw [h, h1, mul_one]

/-- Witness of C37: one component whose fraction in the upstream cell `0` is `1`, phase
flux `10`. -/
theorem formPhaseComp_total_flux_witness :
    Finset.sum (Finset.range 1) (fun ic =>
        (formPhaseComp 1 2 0 0 2 scenarioStencil scenarioCompViews 10
          (fun ke => (ke : ℚ) + 1) (fun ke jc => (ke : ℚ) + jc)
          ⟨fun _ => 100, fun _ _ => 100, fun _ _ _ => 100⟩).compFlux ic
          - (⟨fun _ => 100, fun _ _ => 100, fun _ _ _ => 100⟩ : CompFlux).compFlux ic)
      = 10 :=
  (formPhaseComp_total_flux 1 2 0 0 2 scenarioStencil scenarioCompViews 10
    (fun ke => (ke : ℚ) + 1) (fun ke jc => (ke : ℚ) + jc)
    ⟨fun _ => 100, fun _ _ => 100, fun _ _ _ => 100⟩).2
    (by
      simp [scenarioCompViews, scenarioStencil])

/-- The whole result of `formPhaseComp`, entry by entry: the prior contents plus the
contribution of the phase, which is the result on zero accumulators. -/
theorem formPhaseComp_add (NC MAX_STENCIL ip k_up stencilSize : Nat) (st : Stencil)
    (pc : PhaseCompViews) (phaseFlux : ℚ) (dP : Nat → ℚ) (dC : Nat → Nat → ℚ)
    (cf : CompFlux) :
    (∀ l, (formPhaseComp NC MAX_STENCIL ip k_up stencilSize st pc phaseFlux dP dC cf).compFlux l
      = cf.compFlux l
        + (formPhaseComp NC MAX_STENCIL ip k_up stencilSize st pc phaseFlux dP dC
          ⟨fun _ => 0, fun _ _ => 0, fun _ _ _ => 0⟩).compFlux l) ∧
    (∀ ke l, (formPhaseComp NC MAX_STENCIL ip k_up stencilSize st pc phaseFlux dP dC
        cf).dCompFlux_dPres ke l
      = cf.dCompFlux_dPres ke l
        + (formPhaseComp NC MAX_STENCIL ip k_up stencilSize st pc phaseFlux dP dC
          ⟨fun _ => 0, fun _ _ => 0, fun _ _ _ => 0⟩).dCompFlux_dPres ke l) ∧
    (∀ ke l j, (formPhaseComp NC MAX_STENCIL ip k_up stencilSize st pc phaseFlux dP dC
        cf).dCompFlux_dComp ke l j
      = cf.dCompFlux_dComp ke l j
        + (formPhaseComp NC MAX_STENCIL ip k_up stencilSize st pc phaseFlux dP dC
          ⟨fun _ => 0, fun _ _ => 0, fun _ _ _ => 0⟩).dCompFlux_dComp ke l j) := by
  refine ⟨?_, ?_, ?_⟩
  · intro l
    rw [formPhaseComp_compFlux, formPhaseComp_compFlux]
    split_ifs <;> ring
  · intro ke l
    rw [formPhaseComp_dPres, formPhaseComp_dPres]
    split_ifs <;> ring
  · intro ke l j
    rw [formPhaseComp_dComp, formPhaseComp_dComp]
    split_ifs <;> ring

/-- C38. Accumulation over phases is order-independent: for two phases `a` and `b` with
their own phase flux, derivative arrays and upwind index, calling `formPhaseComp` for `a`
then `b` on the same accumulators gives the same `compFlux`, `dCompFlux_dPres` and
`dCompFlux_dComp` as calling it for `b` then `a`, and every entry of the result is the
prior content plus the sum of the contributions of the two phases (the result of each
phase on zero accumulators). -/
theorem formPhaseComp_order_independent (NC MAX_STENCIL stencilSize : Nat) (st : Stencil)
    (pc : PhaseCompViews) (ipa k_upa : Nat) (phaseFluxa : ℚ) (dPa : Nat → ℚ)
    (dCa : Nat → Nat → ℚ) (ipb k_upb : Nat) (phaseFluxb : ℚ) (dPb : Nat → ℚ)
    (dCb : Nat → Nat → ℚ) (cf : CompFlux) :
    formPhaseComp NC MAX_STENCIL ipb k_upb stencilSize st pc phaseFluxb dPb dCb
        (formPhaseComp NC MAX_STENCIL ipa k_upa stencilSize st pc phaseFluxa dPa dCa cf)
      = formPhaseComp NC MAX_STENCIL ipa k_upa stencilSize st pc phaseFluxa dPa dCa
        (formPhaseComp NC MAX_STENCIL ipb k_upb stencilSize st pc phaseFluxb dPb dCb cf) ∧
    (∀ l, (formPhaseComp NC MAX_STENCIL ipb k_upb stencilSize st pc phaseFluxb dPb dCb
        (formPhaseComp NC MAX_STENCIL ipa k_upa stencilSize st pc phaseFluxa dPa dCa
          cf)).compFlux l
      = cf.compFlux l
        + ((formPhaseComp NC MAX_STENCIL ipa k_upa stencilSize st pc phaseFluxa dPa dCa
            ⟨fun _ => 0, fun _ _ => 0, fun _ _ _ => 0⟩).compFlux l
          + (formPhaseComp NC MAX_STENCIL ipb k_upb stencilSize st pc phaseFluxb dPb dCb
            ⟨fun _ => 0, fun _ _ => 0, fun _ _ _ => 0⟩).compFlux l)) ∧
    (∀ ke l, (formPhaseComp NC MAX_STENCIL ipb k_upb stencilSize st pc phaseFluxb dPb dCb
        (formPhaseComp NC MAX_STENCIL ipa k_upa stencilSize st pc phaseFluxa dPa dCa
          cf)).dCompFlux_dPres ke l
      = cf.dCompFlux_dPres ke l
        + ((formPhaseComp NC MAX_STENCIL ipa k_upa stencilSize st pc phaseFluxa dPa dCa
            ⟨fun _ => 0, fun _ _ => 0, fun _ _ _ => 0⟩).dCompFlux_dPres ke l
          + (formPhaseComp NC MAX_STENCIL ipb k_upb stencilSize st pc phaseFluxb dPb dCb
            ⟨fun _ => 0, fun _ _ => 0, fun _ _ _ => 0⟩).dCompFlux_dPres ke l)) ∧
    (∀ ke l j, (formPhaseComp NC MAX_STENCIL ipb k_upb stencilSize st pc phaseFluxb dPb dCb
        (formPhaseComp NC MAX_STENCIL ipa k_upa stencilSize st pc phaseFluxa dPa dCa
          cf)).dCompFlux_dComp ke l j
      = cf.dCompFlux_dComp ke l j
        + ((formPhaseComp NC MAX_STENCIL ipa k_upa stencilSize st pc phaseFluxa dPa dCa
            ⟨fun _ => 0, fun _ _ => 0, fun _ _ _ => 0⟩).dCompFlux_dComp ke l j
          + (formPhaseComp NC MAX_STENCIL ipb k_upb stencilSize st pc phaseFluxb dPb dCb
            ⟨fun _ => 0, fun _ _ => 0, fun _ _ _ => 0⟩).dCompFlux_dComp ke l j)) := by
  have hab := fun cf0 => formPhaseComp_add NC MAX_STENCIL ipa k_upa stencilSize st pc
    phaseFluxa dPa dCa cf0
  have hba := fun cf0 => formPhaseComp_add NC MAX_STENCIL ipb k_upb stencilSize st pc
    phaseFluxb dPb dCb cf0
  have h1 : ∀ l, (formPhaseComp NC MAX_STENCIL ipb k_upb stencilSize st pc phaseFluxb dPb dCb
        (formPhaseComp NC MAX_STENCIL ipa k_upa stencilSize st pc phaseFluxa dPa dCa
          cf)).compFlux l
      = cf.compFlux l
        + ((formPhaseComp NC MAX_STENCIL ipa k_upa stencilSize st pc phaseFluxa dPa dCa
            ⟨fun _ => 0, fun _ _ => 0, fun _ _ _ => 0⟩).compFlux l
          + (formPhaseComp NC MAX_STENCIL ipb k_upb stencilSize st pc phaseFluxb dPb dCb
            ⟨fun _ => 0, fun _ _ => 0, fun _ _ _ => 0⟩).compFlux l) := by
    intro l
    rw [(hba
      (formPhaseComp NC MAX_STENCIL ipa k_upa stencilSize st pc phaseFluxa dPa dCa cf)).1 l,
      (hab cf).1 l]
    ring
  have h2 : ∀ ke l, (formPhaseComp NC MAX_STENCIL ipb k_upb stencilSize st pc phaseFluxb dPb
        dCb (formPhaseComp NC MAX_STENCIL ipa k_upa stencilSize st pc phaseFluxa dPa dCa
          cf)).dCompFlux_dPres ke l
      = cf.dCompFlux_dPres ke l
        + ((formPhaseComp NC MAX_STENCIL ipa k_upa stencilSize st pc phaseFluxa dPa dCa
            ⟨fun _ => 0, fun _ _ => 0, fun _ _ _ => 0⟩).dCompFlux_dPres ke l
          + (formPhaseComp NC MAX_STENCIL ipb k_upb stencilSize st pc phaseFluxb dPb dCb
            ⟨fun _ => 0, fun _ _ => 0, fun _ _ _ => 0⟩).dCompFlux_dPres ke l) := by
    intro ke l
    rw [(hba
      (formPhaseComp NC MAX_STENCIL ipa k_upa stencilSize st pc phaseFluxa dPa dCa cf)).2.1 ke l,
      (hab cf).2.1 ke l]
    ring
  have h3 : ∀ ke l j, (formPhaseComp NC MAX_STENCIL ipb k_upb stencilSize st pc phaseFluxb dPb
        dCb (formPhaseComp NC MAX_STENCIL ipa k_upa stencilSize st pc phaseFluxa dPa dCa
          cf)).dCompFlux_dComp ke l j
      = cf.dCompFlux_dComp ke l j
        + ((formPhaseComp NC MAX_STENCIL ipa k_upa stencilSize st pc phaseFluxa dPa dCa
            ⟨fun _ => 0, fun _ _ => 0, fun _ _ _ => 0⟩).dCompFlux_dComp ke l j
          + (formPhaseComp NC MAX_STENCIL ipb k_upb stencilSize st pc phaseFluxb dPb dCb
            ⟨fun _ => 0, fun _ _ => 0, fun _ _ _ => 0⟩).dCompFlux_dComp ke l j) := by
    intro ke l j
    rw [(hba
      (formPhaseComp NC MAX_STENCIL ipa k_upa stencilSize st pc phaseFluxa dPa dCa cf)).2.2 ke l j,
      (hab cf).2.2 ke l j]
    ring
  refine ⟨?_, h1, h2, h3⟩
  have e1 : (formPhaseComp NC MAX_STENCIL ipb k_upb stencilSize st pc phaseFluxb dPb dCb
        (formPhaseComp NC MAX_STENCIL ipa k_upa stencilSize st pc phaseFluxa dPa dCa
          cf)).compFlux
      = (formPhaseComp NC MAX_STENCIL ipa k_upa stencilSize st pc phaseFluxa dPa dCa
        (formPhaseComp NC MAX_STENCIL ipb k_upb stencilSize st pc phaseFluxb dPb dCb
          cf)).compFlux := by
    funext l
    rw [h1 l, (hab
      (formPhaseComp NC MAX_STENCIL ipb k_upb stencilSize st pc phaseFluxb dPb dCb cf)).1 l,
      (hba cf).1 l]
    ring
  have e2 : (formPhaseComp NC MAX_STENCIL ipb k_upb stencilSize st pc phaseFluxb dPb dCb
        (formPhaseComp NC MAX_STENCIL ipa k_upa stencilSize st pc phaseFluxa dPa dCa
          cf)).dCompFlux_dPres
      = (formPhaseComp NC MAX_STENCIL ipa k_upa stencilSize st pc phaseFluxa dPa dCa
        (formPhaseComp NC MAX_STENCIL ipb k_upb stencilSize st pc phaseFluxb dPb dCb
          cf)).dCompFlux_dPres := by
    funext ke l
    rw [h2 ke l, (hab
      (formPhaseComp NC MAX_STENCIL ipb k_upb stencilSize st pc phaseFluxb dPb dCb cf)).2.1 ke l,
      (hba cf).2.1 ke l]
    ring
  have e3 : (formPhaseComp NC MAX_STENCIL ipb k_upb stencilSize st pc phaseFluxb dPb dCb
        (formPhaseComp NC MAX_STENCIL ipa k_upa stencilSize st pc phaseFluxa dPa dCa
          cf)).dCompFlux_dComp
      = (formPhaseComp NC MAX_STENCIL ipa k_upa stencilSize st pc phaseFluxa dPa dCa
        (formPhaseComp NC MAX_STENCIL ipb k_upb stencilSize st pc phaseFluxb dPb dCb
          cf)).dCompFlux_dComp := by
    funext ke l j
    rw [h3 ke l j, (hab
      (formPhaseComp NC MAX_STENCIL ipb k_upb stencilSize st pc phaseFluxb dPb dCb cf)).2.2 ke l j,
      (hba cf).2.2 ke l j]
    ring
  have hext : ∀ x y : CompFlux, x.compFlux = y.compFlux →
      x.dCompFlux_dPres = y.dCompFlux_dPres → x.dCompFlux_dComp = y.dCompFlux_dComp →
      x = y := by
    intro x y hx1 hx2 hx3
    cases x
    cases y
    simp only at hx1 hx2 hx3
    rw [hx1, hx2, hx3]
  exact hext _ _ e1 e2 e3

end CompositionalMultiphaseFlowUpwindHelperKernels

end geosx
